import Mathlib

/-!
# Rewrap-jpeg-as-tiff: a shallow embedding of the TIFF planner

The definitions below transcribe the C++ sources under `Src/` into pure Lean
functions.  Conventions of the embedding:

* A byte is a natural number (below 256 wherever the code produces it); a
  `ByteVector` is a list of bytes.
* A `throw` of the source (`THROW`, `ASSERT`) is an `Except.error`; reading a
  vector outside its bounds, which the source leaves undefined, is the error
  `Error.OutOfBounds`.
* The polymorphic `FileSegment` hierarchy is one record carrying the fields of
  the base class and of the subclasses the planner uses.  Labels (diagnostics
  only) are left out.
* `Offset_t` file positions and segment sizes are natural numbers; the planner
  never reaches 2^32 bytes on an input that fits a 32-bit `ftell`.  The 32-bit
  fields of a directory entry read from the input are reduced modulo 2^32 and
  re-read as signed `int` where the source does so.
* The program targets Windows, so `GetSystemEndianness()` is `Little`.
* `TiffTags.hxx` (the numeric tag ids) is not part of the sources at hand: the
  ids are a parameter `T : TiffTag` of every function that names a tag.
-/

set_option maxRecDepth 100000

namespace Rewrap

/-! ## Util.h -/

/-- Byte order tag (`enum class Endianness`). -/
inductive Endianness
  | Big
  | Little
  deriving DecidableEq, Repr, Inhabited

/-- The type `std::vector<unsigned char>`. -/
abbrev ByteVector := List Nat

/-- Everything the sources can throw, plus the undefined out-of-bounds read. -/
inductive Error
  | NotJpeg
  | UnsupportedFrame
  | IllegalSubsampling
  | AssertFailure
  | IccNumchunksMismatch
  | IccIllegalChunkNumber
  | MarkerBytesMissing
  | InvalidDirectoryOffset
  | IllegalDataTypeSize
  | BugReadingApp1
  | RebuildNotImplemented
  | OutOfBounds
  | ReadError
  | JpegDataExpected
  | OutputOpenError
  deriving DecidableEq, Repr, Inhabited

/-- The macro `ASSERT(condition)`. -/
def ASSERT (c : Bool) : Except Error Unit :=
  if c then .ok () else .error Error.AssertFailure

/-- The function `vibo::GetSystemEndianness` on the Windows targets of the program. -/
def GetSystemEndianness : Endianness := Endianness.Little

/-- A 32-bit pattern read as a signed `int`. -/
def toInt32 (n : Nat) : Int :=
  if n % 4294967296 < 2147483648 then (n % 4294967296 : Nat) else (n % 4294967296 : Nat) - 4294967296

/-- Read of `v[i]`; outside the vector the source is undefined. -/
def byteAt (v : ByteVector) (i : Nat) : Except Error Nat :=
  match v.get? i with
  | some b => .ok b
  | none => .error Error.OutOfBounds

/-- Function `vibo::MakeUShort` applied to `&v[i]`. -/
def MakeUShort (v : ByteVector) (i : Nat) (e : Endianness) : Except Error Nat := do
  let d0 ← byteAt v i
  let d1 ← byteAt v (i + 1)
  match e with
  | Endianness.Little => pure ((d0 + 256 * d1) % 65536)
  | Endianness.Big => pure ((d1 + 256 * d0) % 65536)

/-- Function `vibo::MakeULong` applied to `&v[i]`. -/
def MakeULong (v : ByteVector) (i : Nat) (e : Endianness) : Except Error Nat := do
  let d0 ← byteAt v i
  let d1 ← byteAt v (i + 1)
  let d2 ← byteAt v (i + 2)
  let d3 ← byteAt v (i + 3)
  match e with
  | Endianness.Little => pure ((d0 + 256 * d1 + 256 * 256 * d2 + 256 * 256 * 256 * d3) % 4294967296)
  | Endianness.Big => pure ((d3 + 256 * d2 + 256 * 256 * d1 + 256 * 256 * 256 * d0) % 4294967296)

/-- The two bytes of a `uint16_t` in the memory of the host. -/
def hostBytes16 (v : Nat) : ByteVector := [v % 256, v / 256 % 256]

/-- The four bytes of a `uint32_t` in the memory of the host. -/
def hostBytes32 (v : Nat) : ByteVector :=
  [v % 256, v / 256 % 256, v / 65536 % 256, v / 16777216 % 256]

/-- Function `vibo::PutUShort`: the two bytes written to `memory`. -/
def PutUShort (ush : Nat) (e : Endianness) : ByteVector :=
  let p0 := ush % 256
  let p1 := ush / 256 % 256
  if e = GetSystemEndianness then [p0, p1] else [p1, p0]

/-- Function `vibo::PutUlong`: the four bytes written to `memory`. -/
def PutUlong (ulo : Nat) (e : Endianness) : ByteVector :=
  let p0 := ulo % 256
  let p1 := ulo / 256 % 256
  let p2 := ulo / 65536 % 256
  let p3 := ulo / 16777216 % 256
  if e = GetSystemEndianness then [p0, p1, p2, p3] else [p3, p2, p1, p0]

/-- The inner loops of `binary_copy` and `change_endianness`: `num_elements`
consecutive elements of `element_size` bytes, each one byte-reversed. -/
def reverseElements (element_size : Nat) : Nat → ByteVector → ByteVector
  | 0, _ => []
  | n + 1, src => (src.take element_size).reverse ++ reverseElements element_size n (src.drop element_size)

/-- Function `vibo::binary_copy`: the `num_elements * element_size` bytes written to
`destination`. -/
def binary_copy (source : ByteVector) (num_elements element_size : Nat) (e : Endianness) : ByteVector :=
  if element_size = 1 ∨ e = GetSystemEndianness then
    source.take (num_elements * element_size)
  else
    reverseElements element_size num_elements source

/-! ## TiffDirEntry.h, TiffDirEntry.cpp -/

/-- The numeric tag ids of `TiffTags.hxx`, as far as the planner names them. -/
structure TiffTag where
  ImageWidth : Nat
  ImageLength : Nat
  BitsPerSample : Nat
  Compression : Nat
  PhotometricInterpretation : Nat
  StripOffsets : Nat
  SamplesPerPixel : Nat
  StripByteCounts : Nat
  PlanarConfig : Nat
  JPEGTables : Nat
  YCbCrSubSampling : Nat
  IccProfile : Nat
  ExifIFD : Nat
  GPSIFD : Nat
  SubIFDs : Nat
  MakerNote : Nat
  ExifPixelXDimension : Nat
  ExifPixelYDimension : Nat
  InteroperabilityIFD : Nat
  Orientation : Nat
  Exposure : Nat
  deriving DecidableEq, Repr, Inhabited

/-! The TIFF datatypes (`enum Datatype`). -/

/-- Enumerator `Datatype::Ubyte`. -/
abbrev Datatype.Ubyte : Nat := 1
/-- Enumerator `Datatype::Ascii`. -/
abbrev Datatype.Ascii : Nat := 2
/-- Enumerator `Datatype::Ushort`. -/
abbrev Datatype.Ushort : Nat := 3
/-- Enumerator `Datatype::Ulong`. -/
abbrev Datatype.Ulong : Nat := 4
/-- Enumerator `Datatype::Rational`. -/
abbrev Datatype.Rational : Nat := 5
/-- Enumerator `Datatype::Xbyte`. -/
abbrev Datatype.Xbyte : Nat := 7
/-- Enumerator `Datatype::SRational`. -/
abbrev Datatype.SRational : Nat := 10

/-- The tag `enum class StorageLogic`. -/
inductive StorageLogic
  | ByteData
  | ShortData
  | LongData
  | OffsetData
  | Invalid
  deriving DecidableEq, Repr, Inhabited

/-- Four raw bytes (`class AsByte`). -/
structure AsByte where
  b0 : Nat := 0
  b1 : Nat := 0
  b2 : Nat := 0
  b3 : Nat := 0
  deriving DecidableEq, Repr, Inhabited

/-- Two 16-bit words (`class AsShort`). -/
structure AsShort where
  s0 : Nat := 0
  s1 : Nat := 0
  deriving DecidableEq, Repr, Inhabited

/-- Constructor `AsShort(int v1, int v2)`. -/
def AsShort.ofInts (v1 v2 : Nat) : AsShort := { s0 := v1 % 65536, s1 := v2 % 65536 }

/-- Constructor `AsShort(int v)`. -/
def AsShort.ofInt (v : Nat) : AsShort := { s0 := v % 65536, s1 := 0 }

/-- The 12-byte IFD record (`class TiffDirEntry`). -/
structure TiffDirEntry where
  m_endianness : Endianness := Endianness.Little
  m_tagID : Nat := 0
  m_dataType : Nat := 0
  m_dataCount : Nat := 0
  m_dataBytes : AsByte := {}
  m_storageLogic : StorageLogic := StorageLogic.Invalid
  deriving DecidableEq, Repr, Inhabited

/-- Function `TiffDatatypeLength`. -/
def TiffDatatypeLength (typ : Nat) : Except Error Nat :=
  match typ with
  | 1 => .ok 1
  | 2 => .ok 1
  | 3 => .ok 2
  | 4 => .ok 4
  | 5 => .ok 8
  | 6 => .ok 1
  | 7 => .ok 1
  | 8 => .ok 2
  | 9 => .ok 4
  | 10 => .ok 8
  | 11 => .ok 4
  | 12 => .ok 8
  | _ => .error Error.AssertFailure

/-- The value field of an entry holding the 32-bit `value` in byte order `e`. -/
def longBytes (value : Nat) (e : Endianness) : AsByte :=
  let p0 := value % 256
  let p1 := value / 256 % 256
  let p2 := value / 65536 % 256
  let p3 := value / 16777216 % 256
  if e = GetSystemEndianness then { b0 := p0, b1 := p1, b2 := p2, b3 := p3 }
  else { b0 := p3, b1 := p2, b2 := p1, b3 := p0 }

/-! The four constructors take `int datacount` and store it in the unsigned 32-bit member
`m_dataCount`; here `datacount` is that 32-bit pattern. -/

/-- Constructor `TiffDirEntry(tagid, datatype, datacount, const AsOffset&, e)`. -/
def TiffDirEntry.ofOffset (tagid datatype datacount offset : Nat) (e : Endianness) :
    Except Error TiffDirEntry := do
  let len ← TiffDatatypeLength datatype
  ASSERT (decide (toInt32 (datacount * len) ≥ 4))
  pure { m_endianness := e, m_tagID := tagid, m_dataType := datatype,
         m_dataCount := datacount, m_dataBytes := longBytes offset e,
         m_storageLogic := StorageLogic.OffsetData }

/-- Constructor `TiffDirEntry(tagid, datatype, datacount, const uint32_t&, e)`. -/
def TiffDirEntry.ofLong (tagid datatype datacount longvalue : Nat) (e : Endianness) :
    Except Error TiffDirEntry := do
  let len ← TiffDatatypeLength datatype
  ASSERT (decide (len = 4 ∧ datacount = 1))
  pure { m_endianness := e, m_tagID := tagid, m_dataType := datatype,
         m_dataCount := datacount, m_dataBytes := longBytes longvalue e,
         m_storageLogic := StorageLogic.LongData }

/-- Constructor `TiffDirEntry(tagid, datatype, datacount, const AsShort&, e)`. -/
def TiffDirEntry.ofShorts (tagid datatype datacount : Nat) (ts : AsShort) (e : Endianness) :
    Except Error TiffDirEntry := do
  let len ← TiffDatatypeLength datatype
  ASSERT (decide (len = 2 ∧ (datacount = 1 ∨ datacount = 2)))
  let w10 := ts.s0 % 256
  let w11 := ts.s0 / 256 % 256
  let w20 := ts.s1 % 256
  let w21 := ts.s1 / 256 % 256
  let bytes : AsByte :=
    if e = GetSystemEndianness then { b0 := w10, b1 := w11, b2 := w20, b3 := w21 }
    else { b0 := w11, b1 := w10, b2 := w21, b3 := w20 }
  pure { m_endianness := e, m_tagID := tagid, m_dataType := datatype,
         m_dataCount := datacount, m_dataBytes := bytes,
         m_storageLogic := StorageLogic.ShortData }

/-- Constructor `TiffDirEntry(tagid, datatype, datacount, const AsByte&, e)`. -/
def TiffDirEntry.ofBytes (tagid datatype datacount : Nat) (fb : AsByte) (e : Endianness) :
    TiffDirEntry :=
  { m_endianness := e, m_tagID := tagid, m_dataType := datatype,
    m_dataCount := datacount, m_dataBytes := fb,
    m_storageLogic := StorageLogic.ByteData }

/-- The 32-bit number both `GetOffsetField` and `GetLongValue` compute from the value field. -/
def TiffDirEntry.value32 (E : TiffDirEntry) : Nat :=
  match E.m_endianness with
  | Endianness.Little =>
    (256 * 256 * 256 * E.m_dataBytes.b3 + 256 * 256 * E.m_dataBytes.b2 + 256 * E.m_dataBytes.b1
      + E.m_dataBytes.b0) % 4294967296
  | Endianness.Big =>
    (256 * 256 * 256 * E.m_dataBytes.b0 + 256 * 256 * E.m_dataBytes.b1 + 256 * E.m_dataBytes.b2
      + E.m_dataBytes.b3) % 4294967296

/-- Method `TiffDirEntry::GetOffsetField`. -/
def TiffDirEntry.GetOffsetField (E : TiffDirEntry) : Except Error Nat := do
  ASSERT (decide (E.m_storageLogic = StorageLogic.OffsetData))
  pure E.value32

/-- Method `TiffDirEntry::GetLongValue`. -/
def TiffDirEntry.GetLongValue (E : TiffDirEntry) : Except Error Nat := do
  ASSERT (decide (E.m_storageLogic = StorageLogic.LongData))
  pure E.value32

/-- Method `TiffDirEntry::GetTwoShorts`. -/
def TiffDirEntry.GetTwoShorts (E : TiffDirEntry) : Except Error AsShort := do
  ASSERT (decide (E.m_storageLogic = StorageLogic.ShortData))
  match E.m_endianness with
  | Endianness.Little =>
    pure { s0 := (256 * E.m_dataBytes.b1 + E.m_dataBytes.b0) % 65536,
           s1 := (256 * E.m_dataBytes.b3 + E.m_dataBytes.b2) % 65536 }
  | Endianness.Big =>
    pure { s0 := (256 * E.m_dataBytes.b0 + E.m_dataBytes.b1) % 65536,
           s1 := (256 * E.m_dataBytes.b2 + E.m_dataBytes.b3) % 65536 }

/-- Method `TiffDirEntry::GetFourBytes`. -/
def TiffDirEntry.GetFourBytes (E : TiffDirEntry) : AsByte := E.m_dataBytes

/-- Method `TiffDirEntry::Tag`. -/
def TiffDirEntry.Tag (E : TiffDirEntry) : Nat := E.m_tagID

/-- Method `TiffDirEntry::GetDataType`. -/
def TiffDirEntry.GetDataType (E : TiffDirEntry) : Nat := E.m_dataType

/-- Method `TiffDirEntry::GetDataCount`: the 32-bit pattern of the `int` it returns. -/
def TiffDirEntry.GetDataCount (E : TiffDirEntry) : Nat := E.m_dataCount

/-- Method `TiffDirEntry::GetDataSize`, an unsigned 32-bit product. -/
def TiffDirEntry.GetDataSize (E : TiffDirEntry) : Except Error Nat := do
  let len ← TiffDatatypeLength E.m_dataType
  pure ((E.m_dataCount * len) % 4294967296)

/-- Method `TiffDirEntry::GetElementSize`. -/
def TiffDirEntry.GetElementSize (E : TiffDirEntry) : Except Error Nat :=
  TiffDatatypeLength E.m_dataType

/-- Method `TiffDirEntry::InitializeFromMemory` applied to `&memory[pos]`. -/
def TiffDirEntry.InitializeFromMemory (T : TiffTag) (memory : ByteVector) (pos : Nat)
    (e : Endianness) : Except Error TiffDirEntry := do
  let tagID ← MakeUShort memory pos e
  let dataType ← MakeUShort memory (pos + 2) e
  let dataCount ← MakeULong memory (pos + 4) e
  let b0 ← byteAt memory (pos + 8)
  let b1 ← byteAt memory (pos + 9)
  let b2 ← byteAt memory (pos + 10)
  let b3 ← byteAt memory (pos + 11)
  let sizeof_datatype ← TiffDatatypeLength dataType
  let sizeof_data := toInt32 (sizeof_datatype * dataCount)
  let logic ←
    (if sizeof_data > 4 then pure StorageLogic.OffsetData
     else if sizeof_datatype = 4 then
       (if tagID = T.ExifIFD ∨ tagID = T.GPSIFD then pure StorageLogic.OffsetData
        else pure StorageLogic.LongData)
     else if sizeof_datatype = 2 then pure StorageLogic.ShortData
     else if sizeof_datatype = 1 then pure StorageLogic.ByteData
     else Except.error Error.IllegalDataTypeSize : Except Error StorageLogic)
  pure { m_endianness := e, m_tagID := tagID, m_dataType := dataType, m_dataCount := dataCount,
         m_dataBytes := { b0 := b0, b1 := b1, b2 := b2, b3 := b3 }, m_storageLogic := logic }

/-- Method `TiffDirEntry::BuildMemoryRepresentation`: the 12 bytes written to `mem`. -/
def TiffDirEntry.BuildMemoryRepresentation (E : TiffDirEntry) (e : Endianness) : ByteVector :=
  PutUShort E.m_tagID e ++ PutUShort E.m_dataType e ++ PutUlong E.m_dataCount e
    ++ [E.m_dataBytes.b0, E.m_dataBytes.b1, E.m_dataBytes.b2, E.m_dataBytes.b3]

/-! ## FileSegment.h, JpegSegments.h, TiffSegments.h -/

/-- The tag `enum class Segmenttype`. -/
inductive Segmenttype
  | Undefined
  | Padding
  | JpegStartOfImage
  | JpegEndOfImage
  | JpegRestartMarker
  | JpegApp0Segment
  | JpegApp1Segment
  | JpegApp2Segment
  | JpegApp3Segment
  | JpegOtherAppSegment
  | JpegQuantizationTable
  | JpegStartOfFrame
  | JpegHuffmanTable
  | JpegStartOfScan
  | JpegImageData
  | JpegNumberOfLines
  | JpegRestartInterval
  | JpegSpecialSegment
  | JpegCommentSegment
  | JpegReservedSegment
  | JpegUnknownSegment
  | TiffHeader
  | TiffDirectory
  | TiffByteVector
  | TiffUShortVector
  | TiffOffsetTable
  | TiffBytecountTable
  | TiffImageData
  deriving DecidableEq, Repr, Inhabited

/-- The classes derived from `JpegSegment`. -/
def Segmenttype.isJpeg : Segmenttype → Bool
  | Segmenttype.Undefined => false
  | Segmenttype.Padding => false
  | Segmenttype.TiffHeader => false
  | Segmenttype.TiffDirectory => false
  | Segmenttype.TiffByteVector => false
  | Segmenttype.TiffUShortVector => false
  | Segmenttype.TiffOffsetTable => false
  | Segmenttype.TiffBytecountTable => false
  | Segmenttype.TiffImageData => false
  | _ => true

/-- The instantiations of `TiffNumericVectorT`, with their TIFF datatype. -/
def Segmenttype.vectorDatatype : Segmenttype → Option Nat
  | Segmenttype.TiffByteVector => some Datatype.Ubyte
  | Segmenttype.TiffUShortVector => some Datatype.Ushort
  | Segmenttype.TiffOffsetTable => some Datatype.Ulong
  | Segmenttype.TiffBytecountTable => some Datatype.Ulong
  | _ => none

/-- The record `struct Component_info`. -/
structure Component_info where
  id : Nat
  sampling_factors : Nat
  quantitation_table_number : Nat
  deriving DecidableEq, Repr, Inhabited

/-- A `FileSegment` object: the dynamic type, the members of the base class, and the
members of `JpegStartOfFrame`, `TiffSegment`, `TiffHeader`, `TiffDirectory` and
`TiffNumericVectorT`.  The member `m_label` holds the label a caller of the readers gave the
segment with `SetLabel(comment)`; the label that `InterpretData` derives from the payload
(`JpegMarkerString(m_data)`), which only `Dump` prints, is not recorded and is the empty
string here. -/
structure FileSegment where
  segmenttype : Segmenttype
  m_offset : Nat := 0
  m_size : Nat := 0
  m_data : ByteVector := []
  m_Endianness : Endianness := Endianness.Big
  m_precision : Nat := 0
  m_width : Nat := 0
  m_length : Nat := 0
  m_num_components : Nat := 0
  m_component_info : List Component_info := []
  m_directoryOffset : Nat := 0
  m_entries : List TiffDirEntry := []
  m_nextDirectoryOffset : Nat := 0
  m_datatype : Nat := 0
  m_datacount : Nat := 0
  m_vector : List Nat := []
  m_label : String := ""
  deriving DecidableEq, Repr, Inhabited

/-- The planned or parsed segment list (`GraphicsVector`). -/
abbrev GraphicsVector := List FileSegment

namespace FileSegment

/-- Method `FileSegment::GetSegmenttype`. -/
def GetSegmenttype (s : FileSegment) : Except Error Segmenttype := do
  ASSERT (decide (s.segmenttype ≠ Segmenttype.Undefined))
  pure s.segmenttype

/-- Method `FileSegment::GetSize`. -/
def GetSize (s : FileSegment) : Except Error Nat := do
  ASSERT (decide (s.m_size = s.m_data.length))
  pure s.m_size

/-- Method `FileSegment::GetOffset`. -/
def GetOffset (s : FileSegment) : Nat := s.m_offset

/-- Method `FileSegment::SetOffset`. -/
def SetOffset (s : FileSegment) (offset : Nat) : FileSegment := { s with m_offset := offset }

/-- Method `FileSegment::GetDataByte`. -/
def GetDataByte (s : FileSegment) (idx : Nat) : Except Error Nat := do
  ASSERT (decide (s.m_data.length > idx))
  byteAt s.m_data idx

/-- The virtual method `FileEndianness`. -/
def FileEndianness (s : FileSegment) : Endianness :=
  if s.segmenttype.isJpeg then Endianness.Big else s.m_Endianness

/-- Method `FileSegment::Data`. -/
def Data (s : FileSegment) : ByteVector := s.m_data

/-- The loop of `JpegStartOfFrame::InterpretData` over the components `i, i+1, ...`. -/
def readComponents (data : ByteVector) : Nat → Nat → Except Error (List Component_info)
  | _, 0 => pure []
  | i, n + 1 => do
    let id ← byteAt data (10 + 3 * i)
    let sf ← byteAt data (11 + 3 * i)
    let q ← byteAt data (12 + 3 * i)
    let rest ← readComponents data (i + 1) n
    pure ({ id := id, sampling_factors := sf, quantitation_table_number := q } :: rest)

/-- Method `JpegStartOfFrame::InterpretData`. -/
def InterpretData_StartOfFrame (s : FileSegment) : Except Error FileSegment := do
  ASSERT (decide (s.m_data.length > 10))
  let precision ← byteAt s.m_data 4
  let length ← MakeUShort s.m_data 5 s.FileEndianness
  let width ← MakeUShort s.m_data 7 s.FileEndianness
  let num_components ← byteAt s.m_data 9
  ASSERT (decide (s.m_data.length = 10 + 3 * num_components))
  let infos ← readComponents s.m_data 0 num_components
  pure { s with m_precision := precision, m_length := length, m_width := width,
                m_num_components := num_components,
                m_component_info := s.m_component_info ++ infos }

/-- Method `TiffHeader::InterpretData`. -/
def InterpretData_TiffHeader (s : FileSegment) : Except Error FileSegment := do
  ASSERT (decide (s.m_data.length = 8))
  let d ← MakeULong s.m_data 4 s.FileEndianness
  pure { s with m_directoryOffset := d }

/-- The loop of `TiffDirectory::InterpretData` over the entries `i, i+1, ...`. -/
def readEntries (T : TiffTag) (data : ByteVector) (e : Endianness) :
    Nat → Nat → Except Error (List TiffDirEntry)
  | _, 0 => pure []
  | i, n + 1 => do
    let E ← TiffDirEntry.InitializeFromMemory T data (2 + 12 * i) e
    let rest ← readEntries T data e (i + 1) n
    pure (E :: rest)

/-- Method `TiffDirectory::InterpretData`. -/
def InterpretData_TiffDirectory (T : TiffTag) (s : FileSegment) : Except Error FileSegment := do
  let num_entries ← MakeUShort s.m_data 0 s.FileEndianness
  ASSERT (decide (s.m_data.length = 12 * num_entries + 6))
  let entries ← readEntries T s.m_data s.FileEndianness 0 num_entries
  let next ← MakeULong s.m_data (2 + 12 * num_entries) s.FileEndianness
  pure { s with m_entries := s.m_entries ++ entries, m_nextDirectoryOffset := next }

/-- Method `TiffNumericVectorT::InterpretData`. -/
def InterpretData_NumericVector (s : FileSegment) : Except Error FileSegment := do
  let sizeof_tiffDatatype ← TiffDatatypeLength s.m_datatype
  let sizeof_data := s.m_datacount * sizeof_tiffDatatype
  ASSERT (decide (s.m_size = sizeof_data))
  ASSERT (decide (s.m_data.length = sizeof_data))
  let vec ←
    (if sizeof_tiffDatatype = 1 then (List.range s.m_datacount).mapM (fun i => byteAt s.m_data i)
     else if sizeof_tiffDatatype = 2 then
       (List.range s.m_datacount).mapM (fun i => MakeUShort s.m_data (2 * i) s.FileEndianness)
     else if sizeof_tiffDatatype = 4 then
       (List.range s.m_datacount).mapM (fun i => MakeULong s.m_data (4 * i) s.FileEndianness)
     else Except.error Error.AssertFailure : Except Error (List Nat))
  pure { s with m_vector := vec }

/-- The virtual method `InterpretData`, dispatched on the dynamic type. -/
def InterpretData (T : TiffTag) (s : FileSegment) : Except Error FileSegment :=
  match s.segmenttype with
  | Segmenttype.JpegStartOfFrame => InterpretData_StartOfFrame s
  | Segmenttype.TiffHeader => InterpretData_TiffHeader s
  | Segmenttype.TiffDirectory => InterpretData_TiffDirectory T s
  | Segmenttype.TiffByteVector => InterpretData_NumericVector s
  | Segmenttype.TiffUShortVector => InterpretData_NumericVector s
  | Segmenttype.TiffOffsetTable => InterpretData_NumericVector s
  | Segmenttype.TiffBytecountTable => InterpretData_NumericVector s
  | _ => pure s

/-- Method `TiffHeader::RebuildBinaryData`. -/
def RebuildBinaryData_TiffHeader (s : FileSegment) : FileSegment :=
  let bytes := hostBytes32 s.m_directoryOffset
  let sig : ByteVector :=
    match s.m_Endianness with
    | Endianness.Little => [0x49, 0x49, 0x2a, 0x00]
    | Endianness.Big => [0x4d, 0x4d, 0x00, 0x2a]
  if s.m_Endianness = GetSystemEndianness then { s with m_data := sig ++ bytes }
  else { s with m_data := sig ++ bytes.reverse }

/-- Method `TiffDirectory::RebuildBinaryData`. -/
def RebuildBinaryData_TiffDirectory (s : FileSegment) : FileSegment :=
  let num_entries := s.m_entries.length
  { s with
    m_size := 6 + 12 * num_entries
    m_data := PutUShort num_entries s.FileEndianness
      ++ (s.m_entries.map (fun E => E.BuildMemoryRepresentation s.FileEndianness)).flatten
      ++ PutUlong s.m_nextDirectoryOffset s.FileEndianness }

/-- The bytes of `m_vector` in the memory of the host, `len` bytes per element. -/
def vectorMemory (len : Nat) (v : List Nat) : ByteVector :=
  (v.map (fun x => (hostBytes32 x ++ [0, 0, 0, 0]).take len)).flatten

/-- Method `TiffNumericVectorT::RebuildBinaryData` (and its copy in `TiffByteVector`). -/
def RebuildBinaryData_NumericVector (s : FileSegment) : Except Error FileSegment := do
  let sizeof_tiffDatatype ← TiffDatatypeLength s.m_datatype
  ASSERT (decide (sizeof_tiffDatatype > 0))
  let datacount := s.m_vector.length
  ASSERT (decide (datacount > 0))
  pure { s with
    m_datacount := datacount
    m_size := datacount * sizeof_tiffDatatype
    m_data := binary_copy (vectorMemory sizeof_tiffDatatype s.m_vector) datacount
      sizeof_tiffDatatype s.FileEndianness }

/-- The virtual method `RebuildBinaryData`, dispatched on the dynamic type. -/
def RebuildBinaryData (s : FileSegment) : Except Error FileSegment :=
  match s.segmenttype with
  | Segmenttype.JpegStartOfImage => do
    ASSERT (decide (s.m_size = 2))
    pure { s with m_data := [0xff, 0xd8] }
  | Segmenttype.JpegEndOfImage => do
    ASSERT (decide (s.m_size = 2))
    pure { s with m_data := [0xff, 0xd9] }
  | Segmenttype.TiffHeader => pure (RebuildBinaryData_TiffHeader s)
  | Segmenttype.TiffDirectory => pure (RebuildBinaryData_TiffDirectory s)
  | Segmenttype.TiffByteVector => RebuildBinaryData_NumericVector s
  | Segmenttype.TiffUShortVector => RebuildBinaryData_NumericVector s
  | Segmenttype.TiffOffsetTable => RebuildBinaryData_NumericVector s
  | Segmenttype.TiffBytecountTable => RebuildBinaryData_NumericVector s
  | _ => Except.error Error.RebuildNotImplemented

/-- Method `TiffNumericVectorT::push_back`. -/
def push_back (s : FileSegment) (num : Nat) : Except Error FileSegment :=
  RebuildBinaryData_NumericVector
    { s with m_vector := s.m_vector ++ [num], m_datacount := s.m_vector.length + 1 }

/-- Method `TiffNumericVectorT::assign`. -/
def assign (s : FileSegment) (rhs : List Nat) : Except Error FileSegment :=
  RebuildBinaryData_NumericVector { s with m_vector := rhs, m_datacount := rhs.length }

/-- Method `TiffDirectory::AddEntry`. -/
def AddEntry (s : FileSegment) (E : TiffDirEntry) : FileSegment :=
  { s with m_entries := s.m_entries ++ [E] }

/-- Method `TiffDirectory::SortEntries`; `std::sort` by tag id, here as an insertion sort. -/
def SortEntries (s : FileSegment) : FileSegment :=
  { s with m_entries := s.m_entries.insertionSort (fun e1 e2 => e1.Tag ≤ e2.Tag) }

/-- Method `TiffHeader::SetDirectoryOffset`. -/
def SetDirectoryOffset (s : FileSegment) (offset : Nat) : FileSegment :=
  { s with m_directoryOffset := offset }

end FileSegment

/-! ## CreateSegment.cpp -/

/-- Function `CreateSegment`: the constructors of the segment classes. -/
def CreateSegment (seg : Segmenttype) (e : Endianness) (offset size : Nat) :
    Except Error FileSegment := do
  ASSERT (decide (seg ≠ Segmenttype.Undefined))
  match seg with
  | Segmenttype.Padding =>
    pure { segmenttype := seg, m_offset := offset, m_size := size, m_Endianness := e,
           m_data := List.replicate size 0 }
  | Segmenttype.TiffHeader =>
    pure { segmenttype := seg, m_offset := offset, m_size := size, m_Endianness := e }
  | Segmenttype.TiffDirectory =>
    pure { segmenttype := seg, m_offset := offset, m_size := size, m_Endianness := e }
  | Segmenttype.TiffImageData =>
    pure { segmenttype := seg, m_offset := offset, m_size := size, m_Endianness := e }
  | _ =>
    match seg.vectorDatatype with
    | some datatype => do
      let len ← TiffDatatypeLength datatype
      ASSERT (decide (len ≥ 1))
      let datacount := size / len
      ASSERT (decide (datacount * len = size))
      pure { segmenttype := seg, m_offset := offset, m_size := size, m_Endianness := e,
             m_datatype := datatype, m_datacount := datacount }
    | none =>
      pure { segmenttype := seg, m_offset := offset, m_size := size,
             m_Endianness := Endianness.Big }

/-- Method `FileSegment::Clone`. -/
def FileSegment.Clone (T : TiffTag) (s : FileSegment) : Except Error FileSegment := do
  let seg ← s.GetSegmenttype
  let size ← s.GetSize
  let theclone ← CreateSegment seg s.FileEndianness s.GetOffset size
  FileSegment.InterpretData T { theclone with m_data := s.m_data }

/-! ## GraphicsFile.cpp -/

/-- The expression `vec.back()->GetOffset() + vec.back()->GetSize()`. -/
def backEnd (vec : GraphicsVector) : Except Error Nat :=
  match vec.getLast? with
  | none => .error Error.OutOfBounds
  | some b => do
    let size ← b.GetSize
    pure (b.GetOffset + size)

/-- Function `AddSegmentNopad`. -/
def AddSegmentNopad (vec : GraphicsVector) (seg : FileSegment) :
    Except Error (GraphicsVector × Nat) := do
  let vec1 := vec ++ [seg]
  let r ← backEnd vec1
  pure (vec1, r)

/-- Function `AddSegmentPadded`. -/
def AddSegmentPadded (vec : GraphicsVector) (seg : FileSegment) :
    Except Error (GraphicsVector × Nat) := do
  let e := seg.FileEndianness
  let vec1 := vec ++ [seg]
  let next_offset ← backEnd vec1
  let pad_bytes := next_offset % 2
  if pad_bytes ≠ 0 then
    let S ← CreateSegment Segmenttype.Padding e next_offset pad_bytes
    let vec2 := vec1 ++ [S]
    let r ← backEnd vec2
    pure (vec2, r)
  else
    let r ← backEnd vec1
    pure (vec1, r)

/-! ## Reading a segment from the input file (Util.cpp, FileSegment.cpp, JpegSegments.cpp)

The input file is the list `f` of its bytes; a read at the position `pos` takes the bytes
from `pos` on, and `fseek` succeeds. -/

/-- Function `vibo::GetBytes` at the file position `pos`: `fread` delivers the bytes that are
there, and fewer than `n` of them is the read error. -/
def GetBytes (f : ByteVector) (pos n : Nat) : Except Error ByteVector :=
  let vec := (f.drop pos).take n
  if vec.length ≠ n then Except.error Error.ReadError else pure vec

/-- Function `vibo::GetUShort` at the file position `pos`; the result is a `UShort_t`. -/
def GetUShort (f : ByteVector) (pos : Nat) (e : Endianness) : Except Error Nat := do
  let vec := (f.drop pos).take 2
  if vec.length ≠ 2 then Except.error Error.ReadError
  else do
    let v0 ← byteAt vec 0
    let v1 ← byteAt vec 1
    match e with
    | Endianness.Little => pure ((v0 + 256 * v1) % 65536)
    | Endianness.Big => pure ((v1 + 256 * v0) % 65536)

/-- Method `FileSegment::ReadData`. -/
def FileSegment.ReadData (T : TiffTag) (s : FileSegment) (f : ByteVector) :
    Except Error FileSegment := do
  ASSERT (decide (s.m_size > 0))
  let data ← GetBytes f s.m_offset s.m_size
  FileSegment.InterpretData T { s with m_data := data }

/-- Function `ReadJpegUnspecifiedSegment`: the list `G` after the call.  The local `length` is a
`UShort_t`, so that `length += 2` is taken modulo 65536. -/
def ReadJpegUnspecifiedSegment (T : TiffTag) (f : ByteVector) (G : GraphicsVector)
    (seg : Segmenttype) (offset : Nat) : Except Error GraphicsVector := do
  let length0 ← GetUShort f (offset + 2) Endianness.Big
  let length := (length0 + 2) % 65536
  let S ← CreateSegment seg Endianness.Big offset length
  let S1 ← S.ReadData T f
  let b0 ← S1.GetDataByte 0
  ASSERT (decide (b0 = 0xff))
  let r ← AddSegmentNopad G S1
  pure r.1

/-- Method `FileSegment::SetLabel`. -/
def FileSegment.SetLabel (s : FileSegment) (label : String) : FileSegment :=
  { s with m_label := label }

/-- Function `vibo::GetByte` at the file position `pos`: the read error when no byte is left.
The function returns the byte as an `unsigned char` converted to `int`, never `EOF`. -/
def GetByte (f : ByteVector) (pos : Nat) : Except Error Nat :=
  match f.get? pos with
  | some b => pure b
  | none => Except.error Error.ReadError

/-- Function `ReadJpegStartOfImage`: the list `G` after the call.  The file position on exit is
`offset + 2`. -/
def ReadJpegStartOfImage (T : TiffTag) (f : ByteVector) (G : GraphicsVector) (offset : Nat)
    (comment : String) : Except Error GraphicsVector := do
  let S ← CreateSegment Segmenttype.JpegStartOfImage Endianness.Big offset 2
  let S1 ← S.ReadData T f
  let S2 := if comment ≠ "" then S1.SetLabel comment else S1
  let b0 ← S2.GetDataByte 0
  ASSERT (decide (b0 = 0xff))
  let b1 ← S2.GetDataByte 1
  ASSERT (decide (b1 = 0xd8))
  let r ← AddSegmentNopad G S2
  pure r.1

/-- Function `ReadJpegEndOfImage`: the list `G` after the call.  The file position on exit is
`offset + 2`. -/
def ReadJpegEndOfImage (T : TiffTag) (f : ByteVector) (G : GraphicsVector) (offset : Nat)
    (comment : String) : Except Error GraphicsVector := do
  let S ← CreateSegment Segmenttype.JpegEndOfImage Endianness.Big offset 2
  let S1 ← S.ReadData T f
  let S2 := if comment ≠ "" then S1.SetLabel comment else S1
  let b0 ← S2.GetDataByte 0
  ASSERT (decide (b0 = 0xff))
  let b1 ← S2.GetDataByte 1
  ASSERT (decide (b1 = 0xd9))
  let r ← AddSegmentNopad G S2
  pure r.1

/-- The `while` loop of `ReadJpegImagedata` on the bytes `rest` of the file from the file
position `pos` on: the value of `filepos2` when the loop is left through the marker `FF D9`.
The end-of-file indicator is set only by a read that delivers no byte, and `GetByte` throws
then, so the loop is not left through `feof` or through `b1 == EOF`. -/
def scanImagedata : ByteVector → Nat → Except Error Nat
  | [], _ => Except.error Error.ReadError
  | b1 :: rest, pos =>
    if b1 ≠ 0xff then scanImagedata rest (pos + 1)
    else
      match rest with
      | [] => Except.error Error.ReadError
      | b2 :: rest2 =>
        if b2 = 0 then scanImagedata rest2 (pos + 2)
        else if b2 = 0xd9 then pure (pos + 2)
        else scanImagedata rest2 (pos + 2)

/-- Function `ReadJpegImagedata`, called with the file position `pos`: the list `G` after the
call and the file position on exit. -/
def ReadJpegImagedata (T : TiffTag) (f : ByteVector) (G : GraphicsVector) (pos : Nat) :
    Except Error (GraphicsVector × Nat) := do
  let filepos := pos
  let filepos2 ← scanImagedata (f.drop pos) pos
  let imagedatasize := filepos2 - filepos - 2
  let S ← CreateSegment Segmenttype.JpegImageData Endianness.Big filepos imagedatasize
  let S1 ← S.ReadData T f
  let r ← AddSegmentNopad G S1
  pure (r.1, filepos + imagedatasize)

/-- What the marker loop of `ReadJpegFileOrEmbeddedSection` does with the marker `FF xx`. -/
inductive MarkerAction
  | EndOfImage
  | NestedStartOfImage
  | NoSegment
  | Unspecified (seg : Segmenttype)
  deriving DecidableEq, Repr, Inhabited

/-- The chain of comparisons of `vec[1]` in the marker loop of
`ReadJpegFileOrEmbeddedSection`, in the order of the source.  For `D0..D7` the body is a
declaration of `ReadJpegRestartMarker`, not a call: no segment is read. -/
def markerAction (xx : Nat) : MarkerAction :=
  if xx = 0xd9 then MarkerAction.EndOfImage
  else if xx = 0xd8 then MarkerAction.NestedStartOfImage
  else if xx = 0xc4 then MarkerAction.Unspecified Segmenttype.JpegHuffmanTable
  else if xx = 0xcc then MarkerAction.Unspecified Segmenttype.JpegSpecialSegment
  else if xx ≥ 0xc0 ∧ xx ≤ 0xcf then MarkerAction.Unspecified Segmenttype.JpegStartOfFrame
  else if xx ≥ 0xd0 ∧ xx ≤ 0xd7 then MarkerAction.NoSegment
  else if xx = 0xda then MarkerAction.Unspecified Segmenttype.JpegStartOfScan
  else if xx = 0xdb then MarkerAction.Unspecified Segmenttype.JpegQuantizationTable
  else if xx = 0xdc then MarkerAction.Unspecified Segmenttype.JpegNumberOfLines
  else if xx = 0xdd then MarkerAction.Unspecified Segmenttype.JpegRestartInterval
  else if xx = 0xde then MarkerAction.Unspecified Segmenttype.JpegSpecialSegment
  else if xx = 0xdf then MarkerAction.Unspecified Segmenttype.JpegSpecialSegment
  else if xx = 0xe0 then MarkerAction.Unspecified Segmenttype.JpegApp0Segment
  else if xx = 0xe1 then MarkerAction.Unspecified Segmenttype.JpegApp1Segment
  else if xx = 0xe2 then MarkerAction.Unspecified Segmenttype.JpegApp2Segment
  else if xx ≥ 0xe3 ∧ xx ≤ 0xef then MarkerAction.Unspecified Segmenttype.JpegOtherAppSegment
  else if xx = 0xfe then MarkerAction.Unspecified Segmenttype.JpegCommentSegment
  else if xx = 0x01 then MarkerAction.Unspecified Segmenttype.JpegSpecialSegment
  else if (xx > 0x02 ∧ xx ≤ 0xbf) ∨ (xx ≥ 0xf0 ∧ xx ≤ 0xfd) ∨ xx = 0xc8 then
    MarkerAction.Unspecified Segmenttype.JpegReservedSegment
  else MarkerAction.Unspecified Segmenttype.JpegUnknownSegment

/-- The file position after a reader has appended a segment to `G` (the last thing each of
them does after `ReadData`): the end of that segment. -/
def positionAfter (G : GraphicsVector) : Nat :=
  match G.getLast? with
  | some s => s.m_offset + s.m_size
  | none => 0

/-- The end of an iteration of the marker loop that goes on: the call of `ReadJpegImagedata`
when the marker just read was `FF DA`.  The result is the list `G` and either the exception
thrown or the file position at which the next iteration begins. -/
def afterMarker (T : TiffTag) (f : ByteVector) (v0 v1 : Nat) (G : GraphicsVector) (pos : Nat) :
    GraphicsVector × Except Error (Option Nat) :=
  if v0 = 0xff ∧ v1 = 0xda then
    match ReadJpegImagedata T f G pos with
    | .error err => (G, .error err)
    | .ok r => (r.1, .ok (some r.2))
  else (G, .ok (some pos))

/-- One iteration of the marker loop of `ReadJpegFileOrEmbeddedSection`, begun at the file
position `filepos`: the list `G` after it and either the exception thrown, or `none` when the
function returns, or the file position at which the next iteration begins. -/
def markerStep (T : TiffTag) (f : ByteVector) (offset endoffset : Nat) (comment : String)
    (G : GraphicsVector) (filepos : Nat) : GraphicsVector × Except Error (Option Nat) :=
  match GetBytes f filepos 2 with
  | .error err => (G, .error err)
  | .ok vec =>
    if filepos > endoffset then (G, .error Error.AssertFailure)
    else if ¬ filepos > offset then (G, .error Error.AssertFailure)
    else if vec.getD 0 0 = 0xff then
      match markerAction (vec.getD 1 0) with
      | MarkerAction.EndOfImage =>
        match ReadJpegEndOfImage T f G filepos comment with
        | .error err => (G, .error err)
        | .ok G1 => (G1, .ok none)
      | MarkerAction.NestedStartOfImage =>
        match ReadJpegStartOfImage T f G offset "NESTED SEGMENT" with
        | .error err => (G, .error err)
        | .ok G1 => afterMarker T f (vec.getD 0 0) (vec.getD 1 0) G1 (positionAfter G1)
      | MarkerAction.NoSegment =>
        afterMarker T f (vec.getD 0 0) (vec.getD 1 0) G (filepos + 2)
      | MarkerAction.Unspecified seg =>
        match ReadJpegUnspecifiedSegment T f G seg filepos with
        | .error err => (G, .error err)
        | .ok G1 => afterMarker T f (vec.getD 0 0) (vec.getD 1 0) G1 (positionAfter G1)
    else (G, .ok none)

/-- The marker loop of `ReadJpegFileOrEmbeddedSection`, run for at most `fuel` iterations from
the file position `pos`: `none` when the loop has not ended by then, otherwise the list `G` and
the exception that ended it, if any. -/
def markerLoop (T : TiffTag) (f : ByteVector) (offset endoffset : Nat) (comment : String) :
    Nat → GraphicsVector → Nat → Option (GraphicsVector × Option Error)
  | 0, _, _ => none
  | fuel + 1, G, pos =>
    match markerStep T f offset endoffset comment G pos with
    | (G1, .error err) => some (G1, some err)
    | (G1, .ok none) => some (G1, none)
    | (G1, .ok (some pos1)) => markerLoop T f offset endoffset comment fuel G1 pos1

/-- Function `ReadJpegFileOrEmbeddedSection`, its marker loop run for at most `fuel`
iterations: `none` when the loop has not ended by then, otherwise the list `G` after the call
and the exception that left it, if any. -/
def ReadJpegFileOrEmbeddedSection (T : TiffTag) (f : ByteVector) (G : GraphicsVector)
    (offset datasize : Nat) (comment : String) (fuel : Nat) :
    Option (GraphicsVector × Option Error) :=
  match GetBytes f offset 2 with
  | .error err => some (G, some err)
  | .ok vec =>
    if vec.getD 0 0 = 0xff ∧ vec.getD 1 0 = 0xd8 then
      match ReadJpegStartOfImage T f G offset comment with
      | .error err => some (G, some err)
      | .ok G1 => markerLoop T f offset (offset + datasize) comment fuel G1 (offset + 2)
    else some (G, some Error.JpegDataExpected)

/-! ## ReadJpegMetadata.cpp -/

/-- The bytes of the string `ICC_PROFILE` with its terminator. -/
def IccSignature : ByteVector := [73, 67, 67, 95, 80, 82, 79, 70, 73, 76, 69, 0]

/-- The bytes of the string `Exif` with its two terminators. -/
def ExifSignature : ByteVector := [69, 120, 105, 102, 0, 0]

/-- Function `valid_icc_chunk`. -/
def valid_icc_chunk (V : ByteVector) : Except Error Bool := do
  let minimum_size := 4 + 12 + 2 + 1
  let V_size := V.length
  if V_size < minimum_size then pure false
  else do
    let v0 ← byteAt V 0
    let v1 ← byteAt V 1
    if v0 ≠ 0xff ∨ v1 ≠ 0xe2 then Except.error Error.MarkerBytesMissing
    else do
      let len ← MakeUShort V 2 Endianness.Big
      ASSERT (decide (2 + len = V_size))
      pure (decide ((V.drop 4).take 12 = IccSignature))

/-- The body of the loop of `ReadIccProfile` for one APP2 payload `D`, on the state
`(numchunks, Chunks)`. -/
def ReadIccProfile_step (st : Nat × List ByteVector) (D : ByteVector) :
    Except Error (Nat × List ByteVector) := do
  let valid ← valid_icc_chunk D
  if valid then do
    let d17 ← byteAt D 17
    let numchunks ←
      (if st.1 = 0 then pure d17
       else if st.1 ≠ d17 then Except.error Error.IccNumchunksMismatch
       else pure st.1 : Except Error Nat)
    ASSERT (decide (numchunks > 0))
    let Chunks := if st.2.length = 0 then List.replicate numchunks [] else st.2
    let chunkno ← byteAt D 16
    if chunkno < 1 ∨ chunkno > numchunks then Except.error Error.IccIllegalChunkNumber
    else do
      match Chunks.get? (chunkno - 1) with
      | none => Except.error Error.OutOfBounds
      | some c => do
        ASSERT (decide (c.length = 0))
        pure (numchunks, Chunks.set (chunkno - 1) (D.drop 18))
  else pure st

/-- The loop of `ReadIccProfile` over the APP2 segments. -/
def ReadIccProfile_loop : List FileSegment → Nat × List ByteVector →
    Except Error (Nat × List ByteVector)
  | [], st => pure st
  | s :: rest, st => do
    let st1 ← ReadIccProfile_step st s.Data
    ReadIccProfile_loop rest st1

/-- The concatenation loop of `ReadIccProfile`. -/
def concatChunks : List ByteVector → Except Error ByteVector
  | [] => pure []
  | c :: rest => do
    ASSERT (decide (c ≠ []))
    let r ← concatChunks rest
    pure (c ++ r)

/-- Function `ReadIccProfile`. -/
def ReadIccProfile (App2Segments : List FileSegment) : Except Error ByteVector := do
  let st ← ReadIccProfile_loop App2Segments (0, [])
  if st.1 > 0 then
    match (List.range st.1).mapM (fun i => st.2.get? i) with
    | none => Except.error Error.OutOfBounds
    | some chunks => concatChunks chunks
  else pure []

/-- Function `valid_exif_chunk`. -/
def valid_exif_chunk (V : ByteVector) : Except Error Bool := do
  let minimum_size := 4 + 6 + 4 + 4 + 1
  let V_size := V.length
  if V_size < minimum_size then pure false
  else do
    let v0 ← byteAt V 0
    let v1 ← byteAt V 1
    if v0 ≠ 0xff ∨ v1 ≠ 0xe1 then Except.error Error.MarkerBytesMissing
    else do
      let len ← MakeUShort V 2 Endianness.Big
      ASSERT (decide (2 + len = V_size))
      if (V.drop 4).take 6 ≠ ExifSignature then pure false
      else if (V.drop 4).take 4 ≠ ExifSignature.take 4 then pure false
      else if (V.drop 10).take 4 = [0x49, 0x49, 0x2a, 0x00] then pure true
      else pure (decide ((V.drop 10).take 4 = [0x4d, 0x4d, 0x00, 0x2a]))

/-- The record `struct exif_info`; the endianness member, which the source leaves
uninitialised until a valid Exif block is met, starts as `Little`. -/
structure exif_info where
  endianness : Endianness := Endianness.Little
  main_dir : List (TiffDirEntry × ByteVector) := []
  exif_dir : List (TiffDirEntry × ByteVector) := []
  gps_dir : List (TiffDirEntry × ByteVector) := []
  deriving DecidableEq, Repr, Inhabited

/-- The body of the loop of `ReadDirectory` for the entry at index `i`. -/
def ReadDirectory_entry (T : TiffTag) (memory : ByteVector) (offset : Nat) (ee : Endianness)
    (i : Nat) : Except Error (TiffDirEntry × ByteVector) := do
  let e ← TiffDirEntry.InitializeFromMemory T memory ((offset + 2 + 12 * i) % 4294967296) ee
  let datasize ← e.GetDataSize
  if datasize > 4 then do
    let offs ← e.GetOffsetField
    let stop := (offs + datasize) % 4294967296
    if stop < memory.length then
      (if offs ≤ stop then pure (e, (memory.drop offs).take (stop - offs))
       else Except.error Error.OutOfBounds)
    else if stop = memory.length then
      (if offs ≤ memory.length then pure (e, memory.drop offs)
       else Except.error Error.OutOfBounds)
    else pure (e, [])
  else pure (e, [])

/-- The loop of `ReadDirectory` over the entries `i, i+1, ...`. -/
def ReadDirectory_loop (T : TiffTag) (memory : ByteVector) (offset : Nat) (ee : Endianness) :
    Nat → Nat → Except Error (List (TiffDirEntry × ByteVector))
  | _, 0 => pure []
  | i, n + 1 => do
    let x ← ReadDirectory_entry T memory offset ee i
    let rest ← ReadDirectory_loop T memory offset ee (i + 1) n
    pure (x :: rest)

/-- Function `ReadDirectory`. -/
def ReadDirectory (T : TiffTag) (memory : ByteVector) (offset : Nat) (ee : Endianness) :
    Except Error (List (TiffDirEntry × ByteVector)) := do
  let num_entries ← MakeUShort memory offset ee
  ReadDirectory_loop T memory offset ee 0 num_entries

/-- Function `find_offset`. -/
def find_offset : List (TiffDirEntry × ByteVector) → Nat → Except Error Nat
  | [], _ => pure 0
  | x :: rest, tagID => if x.1.Tag = tagID then x.1.GetOffsetField else find_offset rest tagID

/-- The body of the loop of `ReadApp1Metadata` for one APP1 payload `D`. -/
def ReadApp1Metadata_step (T : TiffTag) (metadata : exif_info) (D : ByteVector) :
    Except Error exif_info := do
  let valid ← valid_exif_chunk D
  if valid then do
    let d10 ← byteAt D 10
    let endianness ←
      (if d10 = 0x49 then pure Endianness.Little
       else if d10 = 0x4D then pure Endianness.Big
       else Except.error Error.BugReadingApp1 : Except Error Endianness)
    let dir_offset ← MakeULong D 14 endianness
    if (dir_offset + 18) % 4294967296 ≥ D.length then Except.error Error.InvalidDirectoryOffset
    else do
      let D2 := D.drop 10
      let main_dir ← ReadDirectory T D2 dir_offset endianness
      let exifdir_offset ← find_offset main_dir T.ExifIFD
      let exif_dir ←
        (if exifdir_offset ≠ 0 then ReadDirectory T D2 exifdir_offset endianness
         else pure metadata.exif_dir)
      let gpsdir_offset ← find_offset main_dir T.GPSIFD
      let gps_dir ←
        (if gpsdir_offset ≠ 0 then ReadDirectory T D2 gpsdir_offset endianness
         else pure metadata.gps_dir)
      pure { endianness := endianness, main_dir := main_dir, exif_dir := exif_dir,
             gps_dir := gps_dir }
  else pure metadata

/-- The loop of `ReadApp1Metadata` over the APP1 segments. -/
def ReadApp1Metadata_loop (T : TiffTag) : List FileSegment → exif_info → Except Error exif_info
  | [], metadata => pure metadata
  | s :: rest, metadata => do
    let m1 ← ReadApp1Metadata_step T metadata s.Data
    ReadApp1Metadata_loop T rest m1

/-- Function `ReadApp1Metadata`. -/
def ReadApp1Metadata (T : TiffTag) (App1Segments : List FileSegment) : Except Error exif_info :=
  ReadApp1Metadata_loop T App1Segments {}

/-! ## ConvertJpegToTiff.cpp -/

/-- Function `change_endianness`.  The source reads past the end of `data` when its size
is not a multiple of `elementsize`, and does not terminate for `elementsize == 0` on
non-empty data; both are errors here. -/
def change_endianness (data : ByteVector) (elementsize : Nat) : Except Error ByteVector :=
  if elementsize = 1 then pure data
  else if data.length = 0 then pure []
  else if elementsize = 0 then Except.error Error.OutOfBounds
  else if data.length % elementsize ≠ 0 then Except.error Error.OutOfBounds
  else pure (reverseElements elementsize (data.length / elementsize) data)

/-- Function `MakeTiffHeader`. -/
def MakeTiffHeader (e : Endianness) (offset : Nat) : Except Error FileSegment := do
  let S ← CreateSegment Segmenttype.TiffHeader e offset 8
  S.RebuildBinaryData

/-- Function `MakeJpegStartOfImage`. -/
def MakeJpegStartOfImage (offset : Nat) : Except Error FileSegment := do
  let S ← CreateSegment Segmenttype.JpegStartOfImage Endianness.Big offset 2
  S.RebuildBinaryData

/-- Function `MakeJpegEndOfImage`. -/
def MakeJpegEndOfImage (offset : Nat) : Except Error FileSegment := do
  let S ← CreateSegment Segmenttype.JpegEndOfImage Endianness.Big offset 2
  S.RebuildBinaryData

/-- Function `relevant_gps_tags`. -/
def relevant_gps_tags (T : TiffTag) (tag _datatype : Nat) : Bool :=
  if tag = T.SubIFDs then false
  else if tag = T.InteroperabilityIFD then false
  else true

/-- Function `relevant_exif_tags`. -/
def relevant_exif_tags (T : TiffTag) (tag _datatype : Nat) : Bool :=
  if tag = T.SubIFDs then false
  else if tag = T.MakerNote then false
  else if tag = T.ExifPixelXDimension then false
  else if tag = T.ExifPixelYDimension then false
  else if tag = T.InteroperabilityIFD then false
  else true

/-- Function `relevant_main_directory_tags`. -/
def relevant_main_directory_tags (T : TiffTag) (tag datatype : Nat) : Bool :=
  if tag = T.SubIFDs ∨ tag = T.InteroperabilityIFD then false
  else if tag = T.Orientation ∨ tag = T.Exposure then true
  else decide (datatype = Datatype.Ascii)

/-- The state of the loop of `Write_Selected_Entries`. -/
structure WriteState where
  outfile : GraphicsVector
  offset : Nat
  dir_entries : List TiffDirEntry
  deriving DecidableEq, Repr, Inhabited

/-- The body of the loop of `Write_Selected_Entries` for one `(entry, data)` pair. -/
def Write_Selected_Entries_step (exif_endianness outfile_endianness : Endianness)
    (foo : Nat → Nat → Bool) (st : WriteState) (x : TiffDirEntry × ByteVector) :
    Except Error WriteState := do
  let E := x.1
  let V := x.2
  let tag := E.Tag
  let datatype := E.GetDataType
  let datacount := E.GetDataCount
  let datasizeU ← E.GetDataSize
  let datasize := toInt32 datasizeU
  let elementsize ← E.GetElementSize
  if foo tag datatype then
    if datasize > 4 then do
      let V1 ←
        (if outfile_endianness ≠ exif_endianness then
           change_endianness V
             (if datatype = Datatype.Rational ∨ datatype = Datatype.SRational then 4
              else elementsize)
         else pure V)
      let data_offset := st.offset
      let S ← CreateSegment Segmenttype.TiffByteVector outfile_endianness st.offset datasize.toNat
      let bv ← S.assign V1
      let r ← AddSegmentPadded st.outfile bv
      let e ← TiffDirEntry.ofOffset tag datatype datacount data_offset outfile_endianness
      pure { outfile := r.1, offset := r.2, dir_entries := st.dir_entries ++ [e] }
    else if elementsize = 2 ∧ datacount = 2 then do
      let ts ← E.GetTwoShorts
      let e ← TiffDirEntry.ofShorts tag E.GetDataType E.GetDataCount ts outfile_endianness
      pure { st with dir_entries := st.dir_entries ++ [e] }
    else if elementsize = 1 then do
      let fb := E.GetFourBytes
      let e := TiffDirEntry.ofBytes tag E.GetDataType E.GetDataCount fb outfile_endianness
      pure { st with dir_entries := st.dir_entries ++ [e] }
    else if elementsize = 2 then do
      let ts ← E.GetTwoShorts
      let e ← TiffDirEntry.ofShorts tag E.GetDataType E.GetDataCount ts outfile_endianness
      pure { st with dir_entries := st.dir_entries ++ [e] }
    else if elementsize = 4 then do
      let longval ← E.GetLongValue
      let e ← TiffDirEntry.ofLong tag E.GetDataType E.GetDataCount longval outfile_endianness
      pure { st with dir_entries := st.dir_entries ++ [e] }
    else Except.error Error.AssertFailure
  else pure st

/-- The loop of `Write_Selected_Entries` over `dir_info`. -/
def Write_Selected_Entries_loop (exif_endianness outfile_endianness : Endianness)
    (foo : Nat → Nat → Bool) : List (TiffDirEntry × ByteVector) → WriteState →
    Except Error WriteState
  | [], st => pure st
  | x :: rest, st => do
    let st1 ← Write_Selected_Entries_step exif_endianness outfile_endianness foo st x
    Write_Selected_Entries_loop exif_endianness outfile_endianness foo rest st1

/-- Function `Write_Selected_Entries`: the entries it returns and the segment list it
leaves in `outfile`. -/
def Write_Selected_Entries (dir_info : List (TiffDirEntry × ByteVector))
    (outfile : GraphicsVector) (exif_endianness outfile_endianness : Endianness)
    (foo : Nat → Nat → Bool) : Except Error (List TiffDirEntry × GraphicsVector) := do
  let offset ← backEnd outfile
  let st ← Write_Selected_Entries_loop exif_endianness outfile_endianness foo dir_info
    { outfile := outfile, offset := offset, dir_entries := [] }
  pure (st.dir_entries, st.outfile)

/-- Method `JpegStartOfFrame::GetHorizontalSamplingFactor`. -/
def FileSegment.GetHorizontalSamplingFactor (s : FileSegment) (component : Nat) :
    Except Error Nat := do
  ASSERT (decide (component < s.m_component_info.length))
  match s.m_component_info.get? component with
  | none => Except.error Error.OutOfBounds
  | some info => do
    let retval := info.sampling_factors / 16
    ASSERT (decide (retval ≥ 1 ∧ retval ≤ 4))
    pure retval

/-- Method `JpegStartOfFrame::GetVerticalSamplingFactor`. -/
def FileSegment.GetVerticalSamplingFactor (s : FileSegment) (component : Nat) :
    Except Error Nat := do
  ASSERT (decide (component < s.m_component_info.length))
  match s.m_component_info.get? component with
  | none => Except.error Error.OutOfBounds
  | some info => do
    let retval := info.sampling_factors % 8
    ASSERT (decide (retval ≥ 1 ∧ retval ≤ 4))
    pure retval

/-- The locals of `ConvertJpegToTiff` that are filled from the start-of-frame segment. -/
structure FrameVars where
  imageWidth : Nat := 0
  imageLength : Nat := 0
  numComponents : Nat := 0
  bitsPerSample : Nat := 0
  verticalSampleFactor_Y : Nat := 0
  horizontalSampleFactor_Y : Nat := 0
  verticalSampleFactor_Cb : Nat := 0
  horizontalSampleFactor_Cb : Nat := 0
  verticalSampleFactor_Cr : Nat := 0
  horizontalSampleFactor_Cr : Nat := 0
  deriving DecidableEq, Repr, Inhabited

/-- The baseline check of `ConvertJpegToTiff` (the loop over `G` that looks at the marker
of every start-of-frame segment). -/
def checkBaseline : GraphicsVector → Except Error Unit
  | [] => pure ()
  | it :: rest => do
    let seg ← it.GetSegmenttype
    if seg = Segmenttype.JpegStartOfFrame then do
      let b1 ← it.GetDataByte 0
      let b2 ← it.GetDataByte 1
      ASSERT (decide (b1 = 0xff))
      if b2 ≠ 0xc0 then Except.error Error.UnsupportedFrame
      else checkBaseline rest
    else checkBaseline rest

/-- The assignments of `ConvertJpegToTiff` from the cloned start-of-frame segment `sof`. -/
def readFrame (F : FrameVars) (sof : FileSegment) : Except Error FrameVars := do
  let F1 := { F with imageWidth := sof.m_width, imageLength := sof.m_length,
                     bitsPerSample := sof.m_precision, numComponents := sof.m_num_components }
  if sof.m_num_components > 2 then do
    let hY ← sof.GetHorizontalSamplingFactor 0
    let hCb ← sof.GetHorizontalSamplingFactor 1
    let hCr ← sof.GetHorizontalSamplingFactor 2
    let vY ← sof.GetVerticalSamplingFactor 0
    let vCb ← sof.GetVerticalSamplingFactor 1
    let vCr ← sof.GetVerticalSamplingFactor 2
    pure { F1 with horizontalSampleFactor_Y := hY, horizontalSampleFactor_Cb := hCb,
                   horizontalSampleFactor_Cr := hCr, verticalSampleFactor_Y := vY,
                   verticalSampleFactor_Cb := vCb, verticalSampleFactor_Cr := vCr }
  else pure F1

/-- The state of the loops of `ConvertJpegToTiff` that append clones to `TiffFile`. -/
structure CloneState where
  TiffFile : GraphicsVector
  offset : Nat
  F : FrameVars
  deriving DecidableEq, Repr, Inhabited

/-- The loop of the section EMBEDDED IMAGE of `ConvertJpegToTiff`. -/
def embeddedImage_loop (T : TiffTag) : GraphicsVector → CloneState → Except Error CloneState
  | [], st => pure st
  | it :: rest, st => do
    let seg ← it.GetSegmenttype
    if seg = Segmenttype.JpegStartOfFrame ∨ seg = Segmenttype.JpegStartOfScan
        ∨ seg = Segmenttype.JpegRestartInterval ∨ seg = Segmenttype.JpegImageData then do
      let S ← it.Clone T
      let F ← (if seg = Segmenttype.JpegStartOfFrame then readFrame st.F (S.SetOffset st.offset)
               else pure st.F)
      let r ← AddSegmentPadded st.TiffFile (S.SetOffset st.offset)
      embeddedImage_loop T rest { TiffFile := r.1, offset := r.2, F := F }
    else embeddedImage_loop T rest st

/-- The loop of the section JPEG TABLES of `ConvertJpegToTiff`. -/
def jpegTables_loop (T : TiffTag) : GraphicsVector → GraphicsVector × Nat →
    Except Error (GraphicsVector × Nat)
  | [], st => pure st
  | it :: rest, st => do
    let seg ← it.GetSegmenttype
    if seg = Segmenttype.JpegQuantizationTable ∨ seg = Segmenttype.JpegHuffmanTable then do
      let S ← it.Clone T
      let r ← AddSegmentPadded st.1 (S.SetOffset st.2)
      jpegTables_loop T rest r
    else jpegTables_loop T rest st

/-- The loops of `ConvertJpegToTiff` that collect clones of the segments of type `want`
(APP2 for the ICC profile, APP1 for the Exif block). -/
def collectClones (T : TiffTag) (want : Segmenttype) : GraphicsVector →
    Except Error (List FileSegment)
  | [] => pure []
  | it :: rest => do
    let seg ← it.GetSegmenttype
    if seg = want then do
      let S ← it.Clone T
      let more ← collectClones T want rest
      pure (S :: more)
    else collectClones T want rest

/-- The sections "Write exif directory" and "Write GPS directory" of `ConvertJpegToTiff`:
the new segment list, the new `offset` and the offset recorded for the directory. -/
def writeSubDirectory (dir : List (TiffDirEntry × ByteVector)) (TiffFile : GraphicsVector)
    (offset : Nat) (exif_endianness TiffFileEndianness : Endianness)
    (foo : Nat → Nat → Bool) : Except Error (GraphicsVector × Nat × Nat) :=
  if dir.length > 0 then do
    let w ← Write_Selected_Entries dir TiffFile exif_endianness TiffFileEndianness foo
    let offset1 ← backEnd w.2
    let S ← CreateSegment Segmenttype.TiffDirectory TiffFileEndianness offset1 0
    let subdir := w.1.foldl FileSegment.AddEntry S
    let r ← AddSegmentPadded w.2 (FileSegment.RebuildBinaryData_TiffDirectory subdir)
    pure (r.1, r.2, offset1)
  else pure (TiffFile, offset, 0)

/-- The section ICC PROFILE of `ConvertJpegToTiff` after the profile has been read: the
new segment list and the new `offset`. -/
def writeIccProfile (ICCProfile : ByteVector) (TiffFile : GraphicsVector) (offset : Nat)
    (TiffFileEndianness : Endianness) : Except Error (GraphicsVector × Nat) :=
  if ICCProfile.length > 0 then do
    let S ← CreateSegment Segmenttype.TiffByteVector TiffFileEndianness offset 0
    let bv ← S.assign ICCProfile
    let bv1 ← bv.RebuildBinaryData
    AddSegmentPadded TiffFile bv1
  else pure (TiffFile, offset)

/-- The section of `ConvertJpegToTiff` that writes the external data of the selected entries
of the Exif main directory: the rewritten entries, the new list and the new `offset`. -/
def writeMainEntries (T : TiffTag) (main_dir : List (TiffDirEntry × ByteVector))
    (TiffFile : GraphicsVector) (offset : Nat) (exif_endianness TiffFileEndianness : Endianness) :
    Except Error (List TiffDirEntry × GraphicsVector × Nat) :=
  if main_dir.length > 0 then do
    let w ← Write_Selected_Entries main_dir TiffFile exif_endianness TiffFileEndianness
      (relevant_main_directory_tags T)
    let off ← backEnd w.2
    pure (w.1, w.2, off)
  else pure ([], TiffFile, offset)

/-- The part of the section TIFF DIRECTORY of `ConvertJpegToTiff` that emits the
`TiffUShortVector` of the bits per sample: the new list and the new `offset`. -/
def writeBitsPerSample (F : FrameVars) (TiffFile : GraphicsVector) (offset : Nat)
    (TiffFileEndianness : Endianness) : Except Error (GraphicsVector × Nat) :=
  if F.numComponents > 2 then do
    let S ← CreateSegment Segmenttype.TiffUShortVector TiffFileEndianness offset 0
    let usv ← (List.replicate F.numComponents F.bitsPerSample).foldlM FileSegment.push_back S
    AddSegmentPadded TiffFile usv
  else pure (TiffFile, offset)

/-- The function `FindTiffHeader` followed by `SetDirectoryOffset` and `RebuildBinaryData`
on the header it returns. -/
def patchTiffHeader (offset : Nat) : GraphicsVector → Except Error GraphicsVector
  | [] => Except.error Error.AssertFailure
  | s :: rest => do
    let seg ← s.GetSegmenttype
    if seg = Segmenttype.TiffHeader then do
      let hh ← (s.SetDirectoryOffset offset).RebuildBinaryData
      pure (hh :: rest)
    else do
      let rest1 ← patchTiffHeader offset rest
      pure (s :: rest1)

/-- The offsets `ConvertJpegToTiff` records while it lays the file out. -/
structure Offsets where
  embedded_image_offset : Nat := 0
  embedded_image_end : Nat := 0
  jpeg_tables_start : Nat := 0
  jpeg_tables_end : Nat := 0
  icc_profile_begin : Nat := 0
  icc_profile_end : Nat := 0
  exifdir_offset : Nat := 0
  gpsdir_offset : Nat := 0
  bitsPerSample_offset : Nat := 0
  deriving DecidableEq, Repr, Inhabited

/-- The block of the section TIFF DIRECTORY of `ConvertJpegToTiff` that adds the
BitsPerSample entry (`e3`): the entries it adds. -/
def bitsPerSampleEntry (T : TiffTag) (F : FrameVars) (O : Offsets)
    (TiffFileEndianness : Endianness) : Except Error (List TiffDirEntry) :=
  if F.numComponents > 2 then
    (TiffDirEntry.ofOffset T.BitsPerSample Datatype.Ushort 3 O.bitsPerSample_offset
      TiffFileEndianness).map (fun e => [e])
  else if F.numComponents = 1 then
    (TiffDirEntry.ofShorts T.BitsPerSample Datatype.Ushort 1
      (AsShort.ofInt F.bitsPerSample) TiffFileEndianness).map (fun e => [e])
  else pure []

/-- The value `ConvertJpegToTiff` gives `horizontal_divisor`. -/
def horizontal_divisor (F : FrameVars) : Nat :=
  if F.horizontalSampleFactor_Cb = 1 ∧ F.horizontalSampleFactor_Cr = 1
      ∧ (F.horizontalSampleFactor_Y = 1 ∨ F.horizontalSampleFactor_Y = 2
          ∨ F.horizontalSampleFactor_Y = 4) then F.horizontalSampleFactor_Y
  else 0

/-- The value `ConvertJpegToTiff` gives `vertical_divisor`. -/
def vertical_divisor (F : FrameVars) : Nat :=
  if F.verticalSampleFactor_Cb = 1 ∧ F.verticalSampleFactor_Cr = 1
      ∧ (F.verticalSampleFactor_Y = 1 ∨ F.verticalSampleFactor_Y = 2
          ∨ F.verticalSampleFactor_Y = 4) then F.verticalSampleFactor_Y
  else 0

/-- The block `TIFFTAG YCbCrSubSampling` of `ConvertJpegToTiff` (`e12`): the entries it adds,
or the exception it throws. -/
def subSamplingEntry (T : TiffTag) (F : FrameVars) (TiffFileEndianness : Endianness) :
    Except Error (List TiffDirEntry) :=
  if horizontal_divisor F > 0 ∧ vertical_divisor F > 0 then
    (TiffDirEntry.ofShorts T.YCbCrSubSampling Datatype.Ushort 2
      (AsShort.ofInts (horizontal_divisor F) (vertical_divisor F)) TiffFileEndianness).map
      (fun e => [e])
  else if F.numComponents > 2 then Except.error Error.IllegalSubsampling
  else pure []

/-- The blocks of `ConvertJpegToTiff` that add the entries for the ICC profile, the Exif
directory and the GPS directory (`e13`, `e14`, `e15`): the entries they add. -/
def metadataEntries (T : TiffTag) (O : Offsets) (TiffFileEndianness : Endianness) :
    Except Error (List TiffDirEntry) := do
  let e13 ←
    (if O.icc_profile_end > O.icc_profile_begin then
       (TiffDirEntry.ofOffset T.IccProfile Datatype.Xbyte
         (O.icc_profile_end - O.icc_profile_begin) O.icc_profile_begin TiffFileEndianness).map
         (fun e => [e])
     else pure [])
  let e14 ←
    (if O.exifdir_offset > 0 then
       (TiffDirEntry.ofOffset T.ExifIFD Datatype.Ulong 1 O.exifdir_offset
         TiffFileEndianness).map (fun e => [e])
     else pure [])
  let e15 ←
    (if O.gpsdir_offset > 0 then
       (TiffDirEntry.ofOffset T.GPSIFD Datatype.Ulong 1 O.gpsdir_offset
         TiffFileEndianness).map (fun e => [e])
     else pure [])
  pure (e13 ++ e14 ++ e15)

/-- The entries `ConvertJpegToTiff` adds to the main directory, in the order of the
calls of `AddEntry` (before `SortEntries`). -/
def mainDirectoryEntries (T : TiffTag) (F : FrameVars) (O : Offsets)
    (main_dir_entries_from_exif : List TiffDirEntry) (TiffFileEndianness : Endianness) :
    Except Error (List TiffDirEntry) := do
  let e1 ← TiffDirEntry.ofLong T.ImageWidth Datatype.Ulong 1 F.imageWidth TiffFileEndianness
  let e2 ← TiffDirEntry.ofLong T.ImageLength Datatype.Ulong 1 F.imageLength TiffFileEndianness
  let e3 ← bitsPerSampleEntry T F O TiffFileEndianness
  let e4 ← TiffDirEntry.ofShorts T.Compression Datatype.Ushort 1 (AsShort.ofInt 7)
    TiffFileEndianness
  let photometric := if F.numComponents = 1 then 1 else 6
  let e5 ← TiffDirEntry.ofShorts T.PhotometricInterpretation Datatype.Ushort 1
    (AsShort.ofInt photometric) TiffFileEndianness
  let e6 ← TiffDirEntry.ofOffset T.StripOffsets Datatype.Ulong 1 O.embedded_image_offset
    TiffFileEndianness
  let e7 ← TiffDirEntry.ofShorts T.SamplesPerPixel Datatype.Ushort 1
    (AsShort.ofInt F.numComponents) TiffFileEndianness
  let e8 ← TiffDirEntry.ofLong T.StripByteCounts Datatype.Ulong 1
    (O.embedded_image_end - O.embedded_image_offset) TiffFileEndianness
  let e9 ← TiffDirEntry.ofShorts T.PlanarConfig Datatype.Ushort 1 (AsShort.ofInt 1)
    TiffFileEndianness
  let e10 ← TiffDirEntry.ofOffset T.JPEGTables Datatype.Xbyte
    (O.jpeg_tables_end - O.jpeg_tables_start) O.jpeg_tables_start TiffFileEndianness
  let e12 ← subSamplingEntry T F TiffFileEndianness
  let rest ← metadataEntries T O TiffFileEndianness
  pure ([e1, e2] ++ e3 ++ [e4, e5, e6, e7, e8, e9, e10] ++ e12 ++ main_dir_entries_from_exif
    ++ rest)

/-- The locals of `ConvertJpegToTiff` when it reaches the section TIFF DIRECTORY. -/
structure LayoutState where
  TiffFile : GraphicsVector
  offset : Nat
  F : FrameVars
  O : Offsets
  main_dir_entries_from_exif : List TiffDirEntry
  deriving DecidableEq, Repr, Inhabited

/-- What `ConvertJpegToTiff` has computed when it reaches the section WRITE FILE. -/
structure Plan where
  TiffFile : GraphicsVector
  F : FrameVars
  O : Offsets
  offset : Nat
  deriving DecidableEq, Repr, Inhabited

/-- Function `ConvertJpegToTiff` from its start up to the section TIFF DIRECTORY: the checks of
the input and the sections TIFF HEADER, EMBEDDED IMAGE, JPEG TABLES, ICC PROFILE and
APP 1 METADATA. -/
def planLayout (T : TiffTag) (G : GraphicsVector) : Except Error LayoutState := do
  let TiffFileEndianness := Endianness.Little
  match G with
  | [] => Except.error Error.OutOfBounds
  | check_jpeg :: _ => do
    let seg0 ← check_jpeg.GetSegmenttype
    if seg0 ≠ Segmenttype.JpegStartOfImage then Except.error Error.NotJpeg
    else do
      checkBaseline G
      let offset := 0
      -- TIFF HEADER
      let hdr ← MakeTiffHeader TiffFileEndianness offset
      let r0 ← AddSegmentPadded [] hdr
      -- EMBEDDED IMAGE
      let embedded_image_offset := r0.2
      let soi ← MakeJpegStartOfImage r0.2
      let r1 ← AddSegmentPadded r0.1 soi
      let st ← embeddedImage_loop T G { TiffFile := r1.1, offset := r1.2, F := {} }
      let eoi ← MakeJpegEndOfImage st.offset
      let r2 ← AddSegmentPadded st.TiffFile eoi
      let embedded_image_end := r2.2
      let jpeg_tables_start := r2.2
      -- JPEG TABLES
      let soi2 ← MakeJpegStartOfImage r2.2
      let r3 ← AddSegmentPadded r2.1 soi2
      let r4 ← jpegTables_loop T G r3
      let eoi2 ← MakeJpegEndOfImage r4.2
      let r5 ← AddSegmentPadded r4.1 eoi2
      let jpeg_tables_end := r5.2
      -- ICC PROFILE
      let icc_profile_begin := r5.2
      let App2Segments ← collectClones T Segmenttype.JpegApp2Segment G
      let ICCProfile ←
        (if App2Segments.length > 0 then ReadIccProfile App2Segments else pure [])
      let r6 ← writeIccProfile ICCProfile r5.1 r5.2 TiffFileEndianness
      let icc_profile_end := r6.2
      -- APP 1 METADATA
      let App1Segments ← collectClones T Segmenttype.JpegApp1Segment G
      let Exif_Info ←
        (if App1Segments.length > 0 then ReadApp1Metadata T App1Segments else pure {})
      let exif_endianness := Exif_Info.endianness
      let back ← backEnd r6.1
      ASSERT (decide (r6.2 = back))
      let r7 ← writeSubDirectory Exif_Info.exif_dir r6.1 r6.2 exif_endianness TiffFileEndianness
        (relevant_exif_tags T)
      let r8 ← writeSubDirectory Exif_Info.gps_dir r7.1 r7.2.1 exif_endianness TiffFileEndianness
        (relevant_gps_tags T)
      let r9 ← writeMainEntries T Exif_Info.main_dir r8.1 r8.2.1 exif_endianness
        TiffFileEndianness
      pure { TiffFile := r9.2.1, offset := r9.2.2, F := st.F,
             O := { embedded_image_offset := embedded_image_offset,
                    embedded_image_end := embedded_image_end,
                    jpeg_tables_start := jpeg_tables_start,
                    jpeg_tables_end := jpeg_tables_end,
                    icc_profile_begin := icc_profile_begin,
                    icc_profile_end := icc_profile_end,
                    exifdir_offset := r7.2.2,
                    gpsdir_offset := r8.2.2 },
             main_dir_entries_from_exif := r9.1 }

/-- The check `ASSERT(numComponents == 1 || numComponents > 2)` that opens the section TIFF
DIRECTORY of `ConvertJpegToTiff`. -/
def checkNumComponents (numComponents : Nat) : Except Error Unit :=
  ASSERT (decide (numComponents = 1 ∨ numComponents > 2))

/-- The section TIFF DIRECTORY of `ConvertJpegToTiff`. -/
def planDirectory (T : TiffTag) (L : LayoutState) : Except Error Plan := do
  let TiffFileEndianness := Endianness.Little
  checkNumComponents L.F.numComponents
  let bitsPerSample_offset := L.offset
  let r10 ← writeBitsPerSample L.F L.TiffFile L.offset TiffFileEndianness
  let patched ← patchTiffHeader r10.2 r10.1
  let S ← CreateSegment Segmenttype.TiffDirectory TiffFileEndianness r10.2 0
  let O : Offsets := { L.O with bitsPerSample_offset := bitsPerSample_offset }
  let entries ← mainDirectoryEntries T L.F O L.main_dir_entries_from_exif TiffFileEndianness
  let tiffdir := FileSegment.RebuildBinaryData_TiffDirectory
    (FileSegment.SortEntries (entries.foldl FileSegment.AddEntry S))
  let r11 ← AddSegmentNopad patched tiffdir
  pure { TiffFile := r11.1, F := L.F, O := O, offset := r10.2 }

/-- Function `ConvertJpegToTiff` up to the section WRITE FILE. -/
def ConvertJpegToTiff_plan (T : TiffTag) (G : GraphicsVector) : Except Error Plan := do
  let L ← planLayout T G
  planDirectory T L

/-- Method `FileSegment::WriteToFile`: the bytes handed to `fwrite`. -/
def FileSegment.WriteToFile (s : FileSegment) : Except Error ByteVector := do
  ASSERT (decide (s.m_data.length = s.m_size))
  pure (s.m_data.take s.m_size)

/-- The loop of the section WRITE FILE: the bytes written so far and the exception that
stopped the loop, if any. -/
def writeLoop : GraphicsVector → ByteVector → ByteVector × Option Error
  | [], written => (written, none)
  | p :: rest, written =>
    match p.WriteToFile with
    | .ok bytes => writeLoop rest (written ++ bytes)
    | .error err => (written, some err)

/-- The observable result of `ConvertJpegToTiff`: the exception that left it, if any, and
the content of the output file (`none` when the file was never opened). -/
structure Outcome where
  error : Option Error
  outfile : Option ByteVector
  deriving DecidableEq, Repr, Inhabited

/-- Function `ConvertJpegToTiff`; opening the output file is taken to succeed. -/
def ConvertJpegToTiff (T : TiffTag) (G : GraphicsVector) : Outcome :=
  match ConvertJpegToTiff_plan T G with
  | .error err => { error := some err, outfile := none }
  | .ok P =>
    let w := writeLoop P.TiffFile []
    { error := w.2, outfile := some w.1 }

/-! ## Main.cpp -/

/-- Method `std::wstring::find_last_of(c)` on the characters of the string: the index of the
last `c`, `none` for `npos`. -/
def find_last_of : List Char → Char → Option Nat
  | [], _ => none
  | x :: xs, c =>
    match find_last_of xs c with
    | some i => some (i + 1)
    | none => if x = c then some 0 else none

/-- The files the program meets: the content of each file that `_wfopen(name, L"rb")` opens,
and whether `_wfopen_s(&outfile, name, L"wb")` opens the file `name`. -/
structure FileSystem where
  openRead : String → Option ByteVector
  openWrite : String → Bool

/-- Function `vibo::file_exists`. -/
def file_exists (fs : FileSystem) (filename : String) : Bool := (fs.openRead filename).isSome

/-- The part of `wmain` that gives `outfile_name` its value, for `argc > 1`.  In the branch
`argc > 2` the statement `std::wstring outfile_name = argv[2];` declares a variable of the
inner block, so that the variable of the outer block keeps the empty string. -/
def wmain_outfile_name (fs : FileSystem) (argv : List String) : String :=
  let infile_name := argv.getD 1 ""
  let outfile_name := ""
  let outfile_name1 :=
    if argv.length > 2 then outfile_name
    else
      (match find_last_of infile_name.toList '.' with
       | some pos => String.mk (infile_name.toList.take pos)
       | none => "JPEG-COMPRESSED-TIFF-FILE") ++ ".tif"
  if file_exists fs outfile_name1 then "JPEG-COMPRESSED-TIFF-FILE.tif" else outfile_name1

/-- How a call ends: it returns, it throws, or it ends the program with `exit(code)`. -/
inductive Ending
  | returned
  | thrown (err : Error)
  | exited (code : Nat)
  deriving DecidableEq, Repr, Inhabited

/-- The ending of a reader that gave the exception `e`, if any. -/
def Ending.ofException : Option Error → Ending
  | none => Ending.returned
  | some err => Ending.thrown err

/-- Function `ReadFile`: the list `G` after the call and how the call ends (`none` when the
marker loop of the JPEG reader has not ended after `fuel` iterations).  The readers
`ReadTiffHeader` and `ReadTiffDirectories` of a TIFF input are the parameter `ReadTiff`. -/
def ReadFile (T : TiffTag)
    (ReadTiff : ByteVector → GraphicsVector → Option (GraphicsVector × Option Error))
    (fs : FileSystem) (fn : String) (G : GraphicsVector) (fuel : Nat) :
    Option (GraphicsVector × Ending) :=
  match fs.openRead fn with
  | none => some (G, Ending.exited 0)
  | some f =>
    match GetBytes f 0 4 with
    | .error err => some (G, Ending.thrown err)
    | .ok vec =>
      if vec = [0x49, 0x49, 0x2a, 0] ∨ vec = [0x4d, 0x4d, 0, 0x2a] then
        (ReadTiff f G).map (fun r => (r.1, Ending.ofException r.2))
      else if vec = [0xff, 0xd8, 0xff, 0xe0] ∨ vec = [0xff, 0xd8, 0xff, 0xe1] then
        (ReadJpegFileOrEmbeddedSection T f G 0 f.length "JPEG file" fuel).map
          (fun r => (r.1, Ending.ofException r.2))
      else some (G, Ending.exited 0)

/-- Function `ConvertJpegToTiff` with the output file `outfilename`: the exception
`Error opening output file!` when the file cannot be opened for writing. -/
def ConvertJpegToTiff_named (T : TiffTag) (fs : FileSystem) (G : GraphicsVector)
    (outfilename : String) : Outcome :=
  match ConvertJpegToTiff_plan T G with
  | .error err => { error := some err, outfile := none }
  | .ok P =>
    if fs.openWrite outfilename then
      let w := writeLoop P.TiffFile []
      { error := w.2, outfile := some w.1 }
    else { error := some Error.OutputOpenError, outfile := none }

/-- What a run of the program leaves: the value `wmain` returns or passes to `exit`, the
exception `wmain` caught, if any, and the name and content of the output file, if one was
opened. -/
structure Run where
  exitCode : Nat
  exception : Option Error
  outfile : Option (String × ByteVector)
  deriving DecidableEq, Repr, Inhabited

/-- Function `wmain` on the arguments `argv` (`argc` is their number): the run, or `none` when
the marker loop of the JPEG reader has not ended after `fuel` iterations. -/
def wmain (T : TiffTag)
    (ReadTiff : ByteVector → GraphicsVector → Option (GraphicsVector × Option Error))
    (fs : FileSystem) (argv : List String) (fuel : Nat) : Option Run :=
  if argv.length > 1 then
    let infile_name := argv.getD 1 ""
    let outfile_name := wmain_outfile_name fs argv
    match ReadFile T ReadTiff fs infile_name [] fuel with
    | none => none
    | some (_, Ending.exited code) => some { exitCode := code, exception := none, outfile := none }
    | some (_, Ending.thrown err) => some { exitCode := 0, exception := some err, outfile := none }
    | some (G, Ending.returned) =>
      let o := ConvertJpegToTiff_named T fs G outfile_name
      some { exitCode := 0, exception := o.error,
             outfile := o.outfile.map (fun b => (outfile_name, b)) }
  else some { exitCode := 0, exception := none, outfile := none }

/-! ## Notions used to state the properties of the planner -/

/-- The padding segment `AddSegmentPadded` appends after a segment that ends at an odd offset. -/
def paddingAt (e : Endianness) (offset : Nat) : FileSegment :=
  { segmenttype := Segmenttype.Padding, m_offset := offset, m_size := 1, m_Endianness := e,
    m_data := [0] }

/-- What `AddSegmentPadded` appends for `seg`: the segment, and a padding byte after an odd end. -/
def block (seg : FileSegment) : List FileSegment :=
  if (seg.m_offset + seg.m_size) % 2 = 0 then [seg]
  else [seg, paddingAt seg.FileEndianness (seg.m_offset + seg.m_size)]

/-- The offset `AddSegmentPadded` returns for `seg`. -/
def blockEnd (seg : FileSegment) : Nat :=
  seg.m_offset + seg.m_size + (seg.m_offset + seg.m_size) % 2

/-- The planned list for a list of segments that are appended with `AddSegmentPadded`. -/
def layout : List FileSegment → List FileSegment
  | [] => []
  | s :: rest => block s ++ layout rest

/-- Every segment of `segs` starts where the block of the one before it ends, records the
length of its payload as its size, and is not a padding segment. -/
def Placed : Nat → List FileSegment → Nat → Prop
  | off, [], off1 => off = off1
  | off, s :: rest, off1 =>
    s.m_offset = off ∧ s.m_size = s.m_data.length ∧ s.segmenttype ≠ Segmenttype.Padding
      ∧ Placed (blockEnd s) rest off1

/-- Offsets chain from `off` and every size is the length of the payload. -/
def Contiguous : Nat → List FileSegment → Prop
  | _, [] => True
  | off, s :: rest => s.m_offset = off ∧ s.m_size = s.m_data.length ∧ Contiguous (off + s.m_size) rest

/-- Sum of the recorded sizes. -/
def totalSize (L : List FileSegment) : Nat := (L.map (fun s => s.m_size)).sum

/-- Alignment of a planned list, given whether the segment before it ended at an odd offset. -/
def AlignedAfter : Bool → List FileSegment → Prop
  | prevOdd, [] => prevOdd = false
  | prevOdd, s :: rest =>
    (s.segmenttype ≠ Segmenttype.Padding → s.m_offset % 2 = 0)
      ∧ (s.segmenttype = Segmenttype.Padding → s.m_data = [0] ∧ s.m_size = 1)
      ∧ (s.segmenttype = Segmenttype.Padding ↔ prevOdd = true)
      ∧ AlignedAfter (decide ((s.m_offset + s.m_size) % 2 = 1)) rest

/-- Test for a segment that is not a padding segment. -/
def notPadding (s : FileSegment) : Bool := decide (s.segmenttype ≠ Segmenttype.Padding)

/-- The object `Clone` builds before it calls `InterpretData`, for a JPEG segment. -/
def cloneOf (s : FileSegment) : FileSegment :=
  { segmenttype := s.segmenttype, m_offset := s.m_offset, m_size := s.m_size,
    m_Endianness := Endianness.Big, m_data := s.m_data }

/-- The segment types cloned into the embedded image. -/
def isImageKind (s : FileSegment) : Bool :=
  decide (s.segmenttype = Segmenttype.JpegStartOfFrame ∨ s.segmenttype = Segmenttype.JpegStartOfScan
    ∨ s.segmenttype = Segmenttype.JpegRestartInterval ∨ s.segmenttype = Segmenttype.JpegImageData)

/-- The segment types cloned into the JPEG tables stream. -/
def isTableKind (s : FileSegment) : Bool :=
  decide (s.segmenttype = Segmenttype.JpegQuantizationTable
    ∨ s.segmenttype = Segmenttype.JpegHuffmanTable)

/-- Test for a start-of-frame segment. -/
def isFrame (s : FileSegment) : Bool := decide (s.segmenttype = Segmenttype.JpegStartOfFrame)

/-- Type and payload of a segment. -/
def kindData (s : FileSegment) : Segmenttype × ByteVector := (s.segmenttype, s.m_data)

/-- The frame variables after the start-of-frame segments `sofs` have been met in turn. -/
def frames (T : TiffTag) : List FileSegment → FrameVars → Except Error FrameVars
  | [], F => pure F
  | s :: rest, F => do
    let c ← s.Clone T
    let F1 ← readFrame F c
    frames T rest F1

/-- The segment `MakeJpegStartOfImage` returns. -/
def soiAt (offset : Nat) : FileSegment :=
  { segmenttype := Segmenttype.JpegStartOfImage, m_offset := offset, m_size := 2,
    m_Endianness := Endianness.Big, m_data := [0xff, 0xd8] }

/-- The segment `MakeJpegEndOfImage` returns. -/
def eoiAt (offset : Nat) : FileSegment :=
  { segmenttype := Segmenttype.JpegEndOfImage, m_offset := offset, m_size := 2,
    m_Endianness := Endianness.Big, m_data := [0xff, 0xd9] }

/-- The TIFF header segment of the planner once its directory offset is `dirOffset`. -/
def headerWith (dirOffset : Nat) : FileSegment :=
  { segmenttype := Segmenttype.TiffHeader, m_offset := 0, m_size := 8,
    m_Endianness := Endianness.Little, m_directoryOffset := dirOffset,
    m_data := [0x49, 0x49, 0x2a, 0x00] ++ hostBytes32 dirOffset }

/-- The directory segment the planner builds at `off` from `entries` (before any sorting). -/
def directoryAt (oe : Endianness) (off : Nat) (entries : List TiffDirEntry) : FileSegment :=
  FileSegment.RebuildBinaryData_TiffDirectory
    (entries.foldl FileSegment.AddEntry
      { segmenttype := Segmenttype.TiffDirectory, m_offset := off, m_size := 0,
        m_Endianness := oe })

/-- The main directory segment the planner appends last: the entries sorted by tag. -/
def mainDirectory (off : Nat) (entries : List TiffDirEntry) : FileSegment :=
  FileSegment.RebuildBinaryData_TiffDirectory
    (FileSegment.SortEntries
      (entries.foldl FileSegment.AddEntry
        { segmenttype := Segmenttype.TiffDirectory, m_offset := off, m_size := 0,
          m_Endianness := Endianness.Little }))

/-- The segments of the planned list before the main directory, in order and without the
padding. -/
def layoutSegments (dirOffset a c : Nat) (img tabs mid : List FileSegment) : List FileSegment :=
  [headerWith dirOffset, soiAt 8] ++ img ++ [eoiAt a, soiAt (a + 2)] ++ tabs ++ [eoiAt c] ++ mid

/-- The segments of a successful plan, in order and without the padding. -/
def planSegments (dirOffset a c : Nat) (img tabs mid : List FileSegment)
    (entries : List TiffDirEntry) : List FileSegment :=
  layoutSegments dirOffset a c img tabs mid ++ [mainDirectory dirOffset entries]

/-- The tag ids of TIFF 6.0 and Exif, used for the worked examples. -/
def stdTags : TiffTag :=
  { ImageWidth := 256, ImageLength := 257, BitsPerSample := 258, Compression := 259,
    PhotometricInterpretation := 262, StripOffsets := 273, SamplesPerPixel := 277,
    StripByteCounts := 279, PlanarConfig := 284, JPEGTables := 347, YCbCrSubSampling := 530,
    IccProfile := 34675, ExifIFD := 34665, GPSIFD := 34853, SubIFDs := 330, MakerNote := 37500,
    ExifPixelXDimension := 40962, ExifPixelYDimension := 40963, InteroperabilityIFD := 40965,
    Orientation := 274, Exposure := 33434 }

/-- A parsed segment of type `k` at `off` with payload `d`. -/
def parsedSegment (k : Segmenttype) (off : Nat) (d : ByteVector) : FileSegment :=
  { segmenttype := k, m_offset := off, m_size := d.length, m_data := d }

/-- The segment list of a minimal grayscale JFIF file (one component, 8 by 8, precision 8). -/
def grayInput : GraphicsVector :=
  [ parsedSegment Segmenttype.JpegStartOfImage 0 [0xff, 0xd8],
    parsedSegment Segmenttype.JpegApp0Segment 2 [0xff, 0xe0, 0, 4, 1, 2],
    parsedSegment Segmenttype.JpegQuantizationTable 8 [0xff, 0xdb, 0, 5, 0, 1, 2],
    parsedSegment Segmenttype.JpegStartOfFrame 15 [0xff, 0xc0, 0, 11, 8, 0, 8, 0, 8, 1, 1, 0x11, 0],
    parsedSegment Segmenttype.JpegHuffmanTable 28 [0xff, 0xc4, 0, 4, 0, 1],
    parsedSegment Segmenttype.JpegStartOfScan 34 [0xff, 0xda, 0, 8, 1, 1, 0, 0, 0x3f, 0],
    parsedSegment Segmenttype.JpegImageData 44 [1, 2, 3, 4, 5, 6, 7, 8, 9, 10],
    parsedSegment Segmenttype.JpegEndOfImage 54 [0xff, 0xd9] ]

/-- The plan of an accepted input (the default plan for a rejected one). -/
def planOf (T : TiffTag) (G : GraphicsVector) : Plan :=
  match ConvertJpegToTiff_plan T G with
  | .ok P => P
  | .error _ => default

/-- The planned list from the first segment recorded at offset `o` on. -/
def fromOffset (o : Nat) (L : List FileSegment) : List FileSegment :=
  L.dropWhile (fun s => decide (s.m_offset ≠ o))

/-- The segments up to and including the first end-of-image segment. -/
def uptoFirstEOI : List FileSegment → List FileSegment
  | [] => []
  | s :: rest =>
    if s.segmenttype = Segmenttype.JpegEndOfImage then [s] else s :: uptoFirstEOI rest

/-- The non-padding segments of the planned list `L` from the segment at offset `o` up to the
first end-of-image segment: the JPEG stream a TIFF entry with value `o` points to. -/
def jpegStreamAt (o : Nat) (L : List FileSegment) : List FileSegment :=
  uptoFirstEOI ((fromOffset o L).filter notPadding)

/-- The bytes of the output file for the planned list `L`: the payloads in order. -/
def fileBytes (L : List FileSegment) : ByteVector := (L.map (fun s => s.m_data)).flatten


/-- A size rounded up to the next even number: the bytes a segment of that size and the padding
byte after it take in the file. -/
def paddedSize (n : Nat) : Nat := n + n % 2

/-- The entry the constructor of `TiffDirEntry` for a 32-bit value builds in a little-endian
file: datatype ULong, count 1. -/
def longEntry (tag value : Nat) : TiffDirEntry :=
  { m_endianness := Endianness.Little, m_tagID := tag, m_dataType := Datatype.Ulong,
    m_dataCount := 1, m_dataBytes := longBytes value Endianness.Little,
    m_storageLogic := StorageLogic.LongData }

/-- The entry the constructor of `TiffDirEntry` for inline shorts builds in a little-endian
file from the two 16-bit words `v1` and `v2`: datatype UShort, count `datacount`. -/
def shortsEntry (tag datacount v1 v2 : Nat) : TiffDirEntry :=
  { m_endianness := Endianness.Little, m_tagID := tag, m_dataType := Datatype.Ushort,
    m_dataCount := datacount,
    m_dataBytes := { b0 := v1 % 65536 % 256, b1 := v1 % 65536 / 256 % 256,
                     b2 := v2 % 65536 % 256, b3 := v2 % 65536 / 256 % 256 },
    m_storageLogic := StorageLogic.ShortData }

/-- The entry the constructor of `TiffDirEntry` for an offset builds in a little-endian file. -/
def offsetEntry (tag datatype datacount offset : Nat) : TiffDirEntry :=
  { m_endianness := Endianness.Little, m_tagID := tag, m_dataType := datatype,
    m_dataCount := datacount, m_dataBytes := longBytes offset Endianness.Little,
    m_storageLogic := StorageLogic.OffsetData }

/-- The byte of the payload `d` of a start-of-frame segment that `InterpretData` reads as the
number of components. -/
def declaredComponents (d : ByteVector) : Nat := d.getD 9 0

/-- The horizontal sampling factor `GetHorizontalSamplingFactor` computes for component `i`
of a start-of-frame segment with payload `d`. -/
def hFactor (d : ByteVector) (i : Nat) : Nat := d.getD (11 + 3 * i) 0 / 16

/-- The vertical sampling factor `GetVerticalSamplingFactor` computes for component `i` of a
start-of-frame segment with payload `d`. -/
def vFactor (d : ByteVector) (i : Nat) : Nat := d.getD (11 + 3 * i) 0 % 8

/-- The test `ConvertJpegToTiff` applies to the sampling factors of the three components of a
start-of-frame segment with payload `d`. -/
def legalSubsampling (d : ByteVector) : Prop :=
  hFactor d 1 = 1 ∧ hFactor d 2 = 1 ∧ (hFactor d 0 = 1 ∨ hFactor d 0 = 2 ∨ hFactor d 0 = 4)
    ∧ vFactor d 1 = 1 ∧ vFactor d 2 = 1 ∧ (vFactor d 0 = 1 ∨ vFactor d 0 = 2 ∨ vFactor d 0 = 4)

instance (d : ByteVector) : Decidable (legalSubsampling d) := by
  unfold legalSubsampling; infer_instance

/-- The start-of-frame segment of a 16 by 16 three-component JPEG file whose components have
the sampling-factor bytes `sfY`, `sfCb` and `sfCr`. -/
def colorFrame (sfY sfCb sfCr : Nat) : FileSegment :=
  parsedSegment Segmenttype.JpegStartOfFrame 9
    [0xff, 0xc0, 0, 17, 8, 0, 16, 0, 16, 3, 1, sfY, 0, 2, sfCb, 1, 3, sfCr, 1]

/-- The segment list of a small three-component JPEG file whose components have the
sampling-factor bytes `sfY`, `sfCb` and `sfCr`. -/
def colorInput (sfY sfCb sfCr : Nat) : GraphicsVector :=
  [ parsedSegment Segmenttype.JpegStartOfImage 0 [0xff, 0xd8],
    parsedSegment Segmenttype.JpegQuantizationTable 2 [0xff, 0xdb, 0, 5, 0, 1, 2],
    colorFrame sfY sfCb sfCr,
    parsedSegment Segmenttype.JpegStartOfScan 28 [0xff, 0xda, 0, 8, 1, 1, 0, 0, 0x3f, 0],
    parsedSegment Segmenttype.JpegImageData 38 [1, 2, 3, 4, 5, 6, 7, 8, 9, 10],
    parsedSegment Segmenttype.JpegEndOfImage 48 [0xff, 0xd9] ]

/-- The segment list of a small four-component JPEG file. -/
def fourComponentInput : GraphicsVector :=
  [ parsedSegment Segmenttype.JpegStartOfImage 0 [0xff, 0xd8],
    parsedSegment Segmenttype.JpegQuantizationTable 2 [0xff, 0xdb, 0, 5, 0, 1, 2],
    parsedSegment Segmenttype.JpegStartOfFrame 9
      [0xff, 0xc0, 0, 20, 8, 0, 16, 0, 16, 4, 1, 0x11, 0, 2, 0x11, 0, 3, 0x11, 0, 4, 0x11, 0],
    parsedSegment Segmenttype.JpegStartOfScan 31 [0xff, 0xda, 0, 8, 1, 1, 0, 0, 0x3f, 0],
    parsedSegment Segmenttype.JpegImageData 41 [1, 2, 3, 4, 5, 6, 7, 8, 9, 10],
    parsedSegment Segmenttype.JpegEndOfImage 51 [0xff, 0xd9] ]

/-- The segment list of a small progressive JPEG file: the start-of-frame marker is `FF C2`. -/
def progressiveInput : GraphicsVector :=
  [ parsedSegment Segmenttype.JpegStartOfImage 0 [0xff, 0xd8],
    parsedSegment Segmenttype.JpegStartOfFrame 2
      [0xff, 0xc2, 0, 11, 8, 0, 8, 0, 8, 1, 1, 0x11, 0],
    parsedSegment Segmenttype.JpegEndOfImage 15 [0xff, 0xd9] ]

/-- The segment list `ReadFile` builds for a small TIFF file that embeds the progressive JPEG
stream: the list starts with the TIFF header and directory. -/
def tiffInput : GraphicsVector :=
  [ { segmenttype := Segmenttype.TiffHeader, m_offset := 0, m_size := 8,
      m_Endianness := Endianness.Little, m_directoryOffset := 8,
      m_data := [0x49, 0x49, 0x2a, 0, 8, 0, 0, 0] },
    { segmenttype := Segmenttype.TiffDirectory, m_offset := 8, m_size := 6,
      m_Endianness := Endianness.Little, m_data := [0, 0, 0, 0, 0, 0] },
    parsedSegment Segmenttype.JpegStartOfImage 14 [0xff, 0xd8],
    parsedSegment Segmenttype.JpegStartOfFrame 16
      [0xff, 0xc2, 0, 11, 8, 0, 8, 0, 8, 1, 1, 0x11, 0],
    parsedSegment Segmenttype.JpegEndOfImage 29 [0xff, 0xd9] ]

/-- The frame variables `F` hold what the getters of a start-of-frame clone with payload `d`
return. -/
def FrameOf (d : ByteVector) (F : FrameVars) : Prop :=
  MakeUShort d 7 Endianness.Big = Except.ok F.imageWidth
    ∧ MakeUShort d 5 Endianness.Big = Except.ok F.imageLength
    ∧ byteAt d 4 = Except.ok F.bitsPerSample
    ∧ byteAt d 9 = Except.ok F.numComponents
    ∧ (F.numComponents > 2 →
        F.horizontalSampleFactor_Y = hFactor d 0 ∧ F.horizontalSampleFactor_Cb = hFactor d 1
          ∧ F.horizontalSampleFactor_Cr = hFactor d 2 ∧ F.verticalSampleFactor_Y = vFactor d 0
          ∧ F.verticalSampleFactor_Cb = vFactor d 1 ∧ F.verticalSampleFactor_Cr = vFactor d 2)


/-- The state `planLayout` reaches on an input that passes it (the default state otherwise). -/
def layoutOf (T : TiffTag) (G : GraphicsVector) : LayoutState :=
  match planLayout T G with
  | .ok L => L
  | .error _ => default


/-- The segment list of a small JPEG file whose start-of-frame segment declares two
components. -/
def twoComponentInput : GraphicsVector :=
  [ parsedSegment Segmenttype.JpegStartOfImage 0 [0xff, 0xd8],
    parsedSegment Segmenttype.JpegQuantizationTable 2 [0xff, 0xdb, 0, 5, 0, 1, 2],
    parsedSegment Segmenttype.JpegStartOfFrame 9
      [0xff, 0xc0, 0, 14, 8, 0, 16, 0, 16, 2, 1, 0x11, 0, 2, 0x11, 0],
    parsedSegment Segmenttype.JpegStartOfScan 25 [0xff, 0xda, 0, 8, 1, 1, 0, 0, 0x3f, 0],
    parsedSegment Segmenttype.JpegImageData 35 [1, 2, 3, 4, 5, 6, 7, 8, 9, 10],
    parsedSegment Segmenttype.JpegEndOfImage 45 [0xff, 0xd9] ]

/-- The segment list of the minimal grayscale JPEG file with an Exif block (little-endian) whose
main directory holds two entries with the tag Make (271), both of datatype Ascii. -/
def dupMakeInput : GraphicsVector :=
  [
    parsedSegment Segmenttype.JpegStartOfImage 0
      [255, 216],
    parsedSegment Segmenttype.JpegApp1Segment 2
      [255, 225, 0, 46, 69, 120, 105, 102, 0, 0, 73, 73, 42, 0, 8, 0, 0, 0, 2, 0, 15, 1, 2, 0, 2,
       0, 0, 0, 65, 0, 0, 0, 15, 1, 2, 0, 2, 0, 0, 0, 66, 0, 0, 0, 0, 0, 0, 0],
    parsedSegment Segmenttype.JpegQuantizationTable 50
      [255, 219, 0, 5, 0, 1, 2],
    parsedSegment Segmenttype.JpegStartOfFrame 57
      [255, 192, 0, 11, 8, 0, 8, 0, 8, 1, 1, 17, 0],
    parsedSegment Segmenttype.JpegHuffmanTable 70
      [255, 196, 0, 4, 0, 1],
    parsedSegment Segmenttype.JpegStartOfScan 76
      [255, 218, 0, 8, 1, 1, 0, 0, 63, 0],
    parsedSegment Segmenttype.JpegImageData 86
      [1, 2, 3, 4, 5, 6, 7, 8, 9, 10],
    parsedSegment Segmenttype.JpegEndOfImage 96
      [255, 217] ]

/-- The segment list of the minimal grayscale JPEG file with an Exif block (little-endian) whose
main directory holds, in this order, Artist (315, Ascii, six bytes stored outside the entry),
Orientation (274, Short), SubIFDs (330, Long), ImageDescription (270, Ascii) and Make
(271, Ascii). -/
def exifMainInput : GraphicsVector :=
  [
    parsedSegment Segmenttype.JpegStartOfImage 0
      [255, 216],
    parsedSegment Segmenttype.JpegApp1Segment 2
      [255, 225, 0, 88, 69, 120, 105, 102, 0, 0, 73, 73, 42, 0, 8, 0, 0, 0, 5, 0, 59, 1, 2, 0, 6,
       0, 0, 0, 74, 0, 0, 0, 18, 1, 3, 0, 1, 0, 0, 0, 1, 0, 0, 0, 74, 1, 4, 0, 1, 0, 0, 0, 200, 0,
        0, 0, 14, 1, 2, 0, 4, 0, 0, 0, 97, 98, 99, 0, 15, 1, 2, 0, 3, 0, 0, 0, 65, 66, 0, 0, 0, 0,
         0, 0, 86, 105, 100, 97, 114, 0],
    parsedSegment Segmenttype.JpegQuantizationTable 92
      [255, 219, 0, 5, 0, 1, 2],
    parsedSegment Segmenttype.JpegStartOfFrame 99
      [255, 192, 0, 11, 8, 0, 8, 0, 8, 1, 1, 17, 0],
    parsedSegment Segmenttype.JpegHuffmanTable 112
      [255, 196, 0, 4, 0, 1],
    parsedSegment Segmenttype.JpegStartOfScan 118
      [255, 218, 0, 8, 1, 1, 0, 0, 63, 0],
    parsedSegment Segmenttype.JpegImageData 128
      [1, 2, 3, 4, 5, 6, 7, 8, 9, 10],
    parsedSegment Segmenttype.JpegEndOfImage 138
      [255, 217] ]

/-- The segment list of the minimal grayscale JPEG file with a little-endian Exif block (byte
order mark `49 49 2A 00`) whose Exif sub-directory holds ExposureTime (33434, Rational, the
eight bytes `01 00 00 00 32 00 00 00` stored outside the entry) and ISO (34855, Short), and with
an ICC profile of eight bytes in two APP2 chunks. -/
def exifIccInput : GraphicsVector :=
  [
    parsedSegment Segmenttype.JpegStartOfImage 0
      [255, 216],
    parsedSegment Segmenttype.JpegApp1Segment 2
      [255, 225, 0, 72, 69, 120, 105, 102, 0, 0, 73, 73, 42, 0, 8, 0, 0, 0, 1, 0, 105, 135, 4, 0,
       1, 0, 0, 0, 26, 0, 0, 0, 0, 0, 0, 0, 2, 0, 154, 130, 5, 0, 1, 0, 0, 0, 56, 0, 0, 0, 39,
        136, 3, 0, 1, 0, 0, 0, 100, 0, 0, 0, 0, 0, 0, 0, 1, 0, 0, 0, 50, 0, 0, 0],
    parsedSegment Segmenttype.JpegApp2Segment 76
      [255, 226, 0, 19, 73, 67, 67, 95, 80, 82, 79, 70, 73, 76, 69, 0, 1, 2, 1, 2, 3],
    parsedSegment Segmenttype.JpegApp2Segment 97
      [255, 226, 0, 21, 73, 67, 67, 95, 80, 82, 79, 70, 73, 76, 69, 0, 2, 2, 4, 5, 6, 7, 8],
    parsedSegment Segmenttype.JpegQuantizationTable 120
      [255, 219, 0, 5, 0, 1, 2],
    parsedSegment Segmenttype.JpegStartOfFrame 127
      [255, 192, 0, 11, 8, 0, 8, 0, 8, 1, 1, 17, 0],
    parsedSegment Segmenttype.JpegHuffmanTable 140
      [255, 196, 0, 4, 0, 1],
    parsedSegment Segmenttype.JpegStartOfScan 146
      [255, 218, 0, 8, 1, 1, 0, 0, 63, 0],
    parsedSegment Segmenttype.JpegImageData 156
      [1, 2, 3, 4, 5, 6, 7, 8, 9, 10],
    parsedSegment Segmenttype.JpegEndOfImage 166
      [255, 217] ]

/-- The segment list of the minimal grayscale JPEG file with the same Exif content in a
big-endian Exif block (byte order mark `4D 4D 00 2A`): the eight bytes of ExposureTime are
`00 00 00 01 00 00 00 32`. -/
def exifBigInput : GraphicsVector :=
  [
    parsedSegment Segmenttype.JpegStartOfImage 0
      [255, 216],
    parsedSegment Segmenttype.JpegApp1Segment 2
      [255, 225, 0, 72, 69, 120, 105, 102, 0, 0, 77, 77, 0, 42, 0, 0, 0, 8, 0, 1, 135, 105, 0, 4,
       0, 0, 0, 1, 0, 0, 0, 26, 0, 0, 0, 0, 0, 2, 130, 154, 0, 5, 0, 0, 0, 1, 0, 0, 0, 56, 136,
        39, 0, 3, 0, 0, 0, 1, 0, 100, 0, 0, 0, 0, 0, 0, 0, 0, 0, 1, 0, 0, 0, 50],
    parsedSegment Segmenttype.JpegQuantizationTable 76
      [255, 219, 0, 5, 0, 1, 2],
    parsedSegment Segmenttype.JpegStartOfFrame 83
      [255, 192, 0, 11, 8, 0, 8, 0, 8, 1, 1, 17, 0],
    parsedSegment Segmenttype.JpegHuffmanTable 96
      [255, 196, 0, 4, 0, 1],
    parsedSegment Segmenttype.JpegStartOfScan 102
      [255, 218, 0, 8, 1, 1, 0, 0, 63, 0],
    parsedSegment Segmenttype.JpegImageData 112
      [1, 2, 3, 4, 5, 6, 7, 8, 9, 10],
    parsedSegment Segmenttype.JpegEndOfImage 122
      [255, 217] ]

/-- The segment list of the minimal grayscale JPEG file with an ICC profile of five bytes in one
APP2 chunk. -/
def oddIccInput : GraphicsVector :=
  [
    parsedSegment Segmenttype.JpegStartOfImage 0
      [255, 216],
    parsedSegment Segmenttype.JpegApp2Segment 2
      [255, 226, 0, 21, 73, 67, 67, 95, 80, 82, 79, 70, 73, 76, 69, 0, 1, 1, 1, 2, 3, 4, 5],
    parsedSegment Segmenttype.JpegQuantizationTable 25
      [255, 219, 0, 5, 0, 1, 2],
    parsedSegment Segmenttype.JpegStartOfFrame 32
      [255, 192, 0, 11, 8, 0, 8, 0, 8, 1, 1, 17, 0],
    parsedSegment Segmenttype.JpegHuffmanTable 45
      [255, 196, 0, 4, 0, 1],
    parsedSegment Segmenttype.JpegStartOfScan 51
      [255, 218, 0, 8, 1, 1, 0, 0, 63, 0],
    parsedSegment Segmenttype.JpegImageData 61
      [1, 2, 3, 4, 5, 6, 7, 8, 9, 10],
    parsedSegment Segmenttype.JpegEndOfImage 71
      [255, 217] ]

/-- The `TiffByteVector` segment that `CreateSegment` followed by `assign` builds at `off` from
the bytes `V` in a file of byte order `oe`. -/
def byteVectorAt (oe : Endianness) (off : Nat) (V : ByteVector) : FileSegment :=
  { segmenttype := Segmenttype.TiffByteVector, m_offset := off, m_size := V.length * 1,
    m_Endianness := oe, m_datatype := Datatype.Ubyte, m_datacount := V.length, m_vector := V,
    m_data := binary_copy (FileSegment.vectorMemory 1 V) V.length 1 oe }

/-- The element size `Write_Selected_Entries` hands to `change_endianness` for an entry of
datatype `datatype` whose elements have `elementsize` bytes. -/
def elementsize_for_change_endianness (datatype elementsize : Nat) : Nat :=
  if datatype = Datatype.Rational ∨ datatype = Datatype.SRational then 4 else elementsize

/-- The bytes `Write_Selected_Entries` writes for the captured bytes `V` of the entry `E`: the
block of the source that calls `change_endianness` when the two byte orders differ. -/
def convertData (ee oe : Endianness) (E : TiffDirEntry) (V : ByteVector) :
    Except Error ByteVector := do
  let elementsize ← E.GetElementSize
  (if oe ≠ ee then
     change_endianness V (elementsize_for_change_endianness E.GetDataType elementsize)
   else pure V : Except Error ByteVector)

/-- Tag, datatype and count of a directory entry. -/
def entryShape (E : TiffDirEntry) : Nat × Nat × Nat := (E.Tag, E.GetDataType, E.GetDataCount)

/-- The Exif information `ConvertJpegToTiff` reads in its section APP 1 METADATA from the APP1
segments of the input (the empty information when there is none). -/
def readExifInfo (T : TiffTag) (G : GraphicsVector) : Except Error exif_info := do
  let App1Segments ← collectClones T Segmenttype.JpegApp1Segment G
  (if App1Segments.length > 0 then ReadApp1Metadata T App1Segments else pure {})

/-- The profile `ConvertJpegToTiff` reads in its section ICC PROFILE from the APP2 segments of
the input (empty when there is none). -/
def readIccProfile (T : TiffTag) (G : GraphicsVector) : Except Error ByteVector := do
  let App2Segments ← collectClones T Segmenttype.JpegApp2Segment G
  (if App2Segments.length > 0 then ReadIccProfile App2Segments else pure [])

/-- The tag ids of the entries of the last segment of a planned list. -/
def lastDirectoryTags (L : GraphicsVector) : List Nat :=
  match L.getLast? with
  | some dir => dir.m_entries.map TiffDirEntry.Tag
  | none => []

/-- The bytes of `V` with each consecutive element of `s` bytes byte-reversed: element `k` of
the result is the reverse of the bytes `k * s, ..., k * s + s - 1` of `V`. -/
def eachElementReversed (s : Nat) (V : ByteVector) : ByteVector :=
  (List.range (V.length / s)).flatMap (fun k => ((V.drop (k * s)).take s).reverse)

/-- The Exif information of an input whose APP1 segments are read without error (the empty
information otherwise). -/
def exifInfoOf (T : TiffTag) (G : GraphicsVector) : exif_info :=
  match readExifInfo T G with
  | .ok info => info
  | .error _ => default

/-- The offsets and payloads of the ByteVector segments of a planned list, in order. -/
def byteVectorPayloads (L : GraphicsVector) : List (Nat × ByteVector) :=
  (L.filter (fun s => decide (s.segmenttype = Segmenttype.TiffByteVector))).map
    (fun s => (s.m_offset, s.m_data))

/-- The offsets of the directory segments of a planned list with the tag, datatype and count of
their entries, in order. -/
def directoryShapes (L : GraphicsVector) : List (Nat × List (Nat × Nat × Nat)) :=
  (L.filter (fun s => decide (s.segmenttype = Segmenttype.TiffDirectory))).map
    (fun s => (s.m_offset, s.m_entries.map entryShape))

/-- The APP2 payload that wraps `piece` as chunk number `i` of `N`: the marker `FF E2`, the
big-endian length of what follows the marker, the signature `ICC_PROFILE` with its terminator,
the chunk number, the number of chunks, and the piece. -/
def iccChunk (i N : Nat) (piece : ByteVector) : ByteVector :=
  [0xff, 0xe2, (16 + piece.length) / 256, (16 + piece.length) % 256] ++ IccSignature ++ [i, N]
    ++ piece

/-- What the segment `s` presents under the label `d`: for `some j` the chunk number `j + 1` of
the `pieces`, for `none` a payload that `valid_icc_chunk` does not take for a chunk. -/
def Presents (pieces : List ByteVector) (s : FileSegment) (d : Option Nat) : Prop :=
  match d with
  | none => valid_icc_chunk s.Data = Except.ok false
  | some j => s.Data = iccChunk (j + 1) pieces.length (pieces.getD j [])

/-- Whether `valid_icc_chunk` returns true on `D`. -/
def isIccChunk (D : ByteVector) : Bool :=
  match valid_icc_chunk D with
  | .ok true => true
  | _ => false

/-- The byte `D[16]` that `ReadIccProfile` takes for the chunk number. -/
def chunk_no (D : ByteVector) : Nat := D.getD 16 0

/-- The byte `D[17]` that `ReadIccProfile` takes for the number of chunks. -/
def num_chunks (D : ByteVector) : Nat := D.getD 17 0

/-- The list `Chunks` of `ReadIccProfile` after the chunks with the indices `seen` of the
`pieces` have been stored. -/
def chunksOf (pieces : List ByteVector) (seen : List Nat) : List ByteVector :=
  (List.range pieces.length).map (fun k => if k ∈ seen then pieces.getD k [] else [])

/-- The state `(numchunks, Chunks)` of `ReadIccProfile` after the chunks with the indices `seen`
of the `pieces` have been stored. -/
def stateOf (pieces : List ByteVector) (seen : List Nat) : Nat × List ByteVector :=
  if seen = [] then (0, []) else (pieces.length, chunksOf pieces seen)

/-- The state `(numchunks, Chunks)` of the loop of `ReadIccProfile` after the segments `V` that
pass `valid_icc_chunk` have been stored: all of them declare the number of chunks `numchunks`,
their chunk numbers are in `1..numchunks` and pairwise different, and `Chunks[i]` is non-empty
exactly when one of them has the chunk number `i + 1`. -/
def IccState (V : List FileSegment) (st : Nat × List ByteVector) : Prop :=
  (V = [] → st = (0, []))
    ∧ (V ≠ [] → st.1 > 0 ∧ st.2.length = st.1
        ∧ (∀ s ∈ V, num_chunks s.Data = st.1 ∧ 1 ≤ chunk_no s.Data ∧ chunk_no s.Data ≤ st.1)
        ∧ (V.map (fun s => chunk_no s.Data)).Nodup
        ∧ ∀ i < st.1, (st.2.getD i [] ≠ [] ↔ ∃ s ∈ V, chunk_no s.Data = i + 1))


/-- No byte `FF` of `d` is the last byte of `d` or is followed by `FF` or by `D9`; stuffed pairs
`FF 00` and restart markers `FF D0` .. `FF D7` are allowed. -/
def MarkerFree (d : ByteVector) : Prop :=
  ∀ i, i < d.length → d.getD i 0 = 0xff →
    d.getD (i + 1) 0xff ≠ 0xff ∧ d.getD (i + 1) 0xff ≠ 0xd9

instance (d : ByteVector) : Decidable (MarkerFree d) := by
  unfold MarkerFree
  infer_instance

/-- A file system with the single file `in.jpg`, whose content is the minimal grayscale file,
in which every file with a name other than the empty one can be opened for writing. -/
def grayFiles : FileSystem :=
  { openRead := fun n => if n = "in.jpg" then some (fileBytes grayInput) else none,
    openWrite := fun n => decide (n ≠ "") }

/-- A file system with the single file `notes.txt`, which holds the bytes of `text`. -/
def textFiles : FileSystem :=
  { openRead := fun n => if n = "notes.txt" then some [0x74, 0x65, 0x78, 0x74] else none,
    openWrite := fun _ => true }

/-- A file system with the single file `cut.jpg`, a JPEG file that ends inside its APP0
segment. -/
def cutFiles : FileSystem :=
  { openRead := fun n => if n = "cut.jpg" then some [0xff, 0xd8, 0xff, 0xe0, 0, 16] else none,
    openWrite := fun _ => true }

/-- A reader of TIFF input that reads nothing. -/
def readNoTiff : ByteVector → GraphicsVector → Option (GraphicsVector × Option Error) :=
  fun _ G => some (G, none)

/-- A directory of one entry, Make (271, Ascii, count 8, value field 14), in little-endian
byte order, followed by eight bytes of data and one more byte. -/
def makeDirectory : ByteVector :=
  [1, 0, 0x0f, 1, 2, 0, 8, 0, 0, 0, 14, 0, 0, 0, 97, 98, 99, 100, 101, 102, 103, 0, 7]

/-- The directory `makeDirectory` cut after the third byte of the data. -/
def cutDirectory : ByteVector :=
  [1, 0, 0x0f, 1, 2, 0, 8, 0, 0, 0, 14, 0, 0, 0, 97, 98, 99]

/-- The entry of `makeDirectory` and of `cutDirectory`. -/
def makeEntry : TiffDirEntry :=
  { m_endianness := Endianness.Little, m_tagID := 271, m_dataType := 2, m_dataCount := 8,
    m_dataBytes := { b0 := 14, b1 := 0, b2 := 0, b3 := 0 },
    m_storageLogic := StorageLogic.OffsetData }

/-- The APP1 payload of `exifMainInput`. -/
def exifMainPayload : ByteVector := (exifMainInput.map (fun s => s.m_data)).getD 1 []

/-- An APP1 payload of 19 bytes: the marker, the length 17, the Exif signature, the
little-endian byte-order mark, the directory offset 8 and one more byte. -/
def shortExifPayload : ByteVector :=
  [0xff, 0xe1, 0, 17, 69, 120, 105, 102, 0, 0, 0x49, 0x49, 0x2a, 0, 8, 0, 0, 0, 0]

/-- Function `vibo::MakeSByte` applied to `&v[i]`; the sum lies in the range of `Byte_t`. -/
def MakeSByte (v : ByteVector) (i : Nat) : Except Error Int := do
  let d0 ← byteAt v i
  if d0 > 127 then pure (-256 + (d0 : Int)) else pure (d0 : Int)

/-- Function `vibo::MakeSShort` applied to `&v[i]`; the sum lies in the range of `Short_t`. -/
def MakeSShort (v : ByteVector) (i : Nat) (e : Endianness) : Except Error Int := do
  let retval ← MakeUShort v i e
  if retval > 32767 then pure (-65536 + (retval : Int)) else pure (retval : Int)

/-- Function `vibo::MakeSLong` applied to `&v[i]`; `retval` is a `long long`, and the sum
`-2147483648ll + retval` lies in the range of `SLong_t`. -/
def MakeSLong (v : ByteVector) (i : Nat) (e : Endianness) : Except Error Int := do
  let retval ← MakeULong v i e
  if retval > 2147483647 then pure (-2147483648 + (retval : Int)) else pure (retval : Int)

/-- A start-of-frame segment with one component whose sampling byte is `sf`. -/
def frameWithSampling (sf : Nat) : FileSegment :=
  { segmenttype := Segmenttype.JpegStartOfFrame,
    m_component_info := [{ id := 1, sampling_factors := sf, quantitation_table_number := 0 }] }

/-- A little-endian TiffDirectory segment with the single entry `makeEntry`, not yet
rebuilt. -/
def oneEntryDirectory : FileSegment :=
  { segmenttype := Segmenttype.TiffDirectory, m_Endianness := Endianness.Little,
    m_entries := [makeEntry] }

/-- The twelve bytes of a little-endian directory entry with the tag Orientation (274), the
datatype `datatype` (below 256), the count `c0 + 256 * c1 + 65536 * c2 + 16777216 * c3` and
the value bytes `01 00 00 00`. -/
def orientationBytes (datatype c0 c1 c2 c3 : Nat) : ByteVector :=
  [0x12, 0x01, datatype, 0, c0, c1, c2, c3, 1, 0, 0, 0]

/-- The little-endian entry read from `orientationBytes 3 count 0 0 0`: tag Orientation,
datatype Short, the count `count` and the value bytes `01 00 00 00`. -/
def orientationEntry (count : Nat) : TiffDirEntry :=
  { m_endianness := Endianness.Little, m_tagID := 274, m_dataType := 3, m_dataCount := count,
    m_dataBytes := { b0 := 1, b1 := 0, b2 := 0, b3 := 0 },
    m_storageLogic := StorageLogic.ShortData }

/-- The state of the loop of `Write_Selected_Entries` before the first entry, for an empty
list `outfile`. -/
def emptyWriteState : WriteState := { outfile := [], offset := 0, dir_entries := [] }

/-- The file positions at which the iterations of the marker loop of
`ReadJpegFileOrEmbeddedSection` begin, for at most `fuel` iterations from the position
`pos`. -/
def markerPositions (T : TiffTag) (f : ByteVector) (offset endoffset : Nat) (comment : String) :
    Nat → GraphicsVector → Nat → List Nat
  | 0, _, _ => []
  | fuel + 1, G, pos =>
    pos :: match markerStep T f offset endoffset comment G pos with
      | (G1, .ok (some pos1)) => markerPositions T f offset endoffset comment fuel G1 pos1
      | _ => []

/-- The file positions at which the iterations of the marker loop begin in a call of
`ReadJpegFileOrEmbeddedSection`; there is none when the call ends before the loop. -/
def sectionPositions (T : TiffTag) (f : ByteVector) (G : GraphicsVector)
    (offset datasize : Nat) (comment : String) (fuel : Nat) : List Nat :=
  match GetBytes f offset 2 with
  | .error _ => []
  | .ok vec =>
    if vec.getD 0 0 = 0xff ∧ vec.getD 1 0 = 0xd8 then
      match ReadJpegStartOfImage T f G offset comment with
      | .error _ => []
      | .ok G1 => markerPositions T f offset (offset + datasize) comment fuel G1 (offset + 2)
    else []

/-- The segments of a list lie one behind the other in the file `f` from the position `p` on,
each holding the bytes of the file at its offset: the position behind the last of them, or
`none` when they do not. -/
def tilesFrom (f : ByteVector) : Nat → GraphicsVector → Option Nat
  | p, [] => some p
  | p, S :: L =>
    if S.m_offset = p ∧ S.m_data = (f.drop p).take S.m_size ∧ S.m_data.length = S.m_size then
      tilesFrom f (p + S.m_size) L
    else none

/-- A file with a comment segment between SOI and EOI. -/
def commentFile : ByteVector := [0xff, 0xd8, 0xff, 0xfe, 0, 3, 0x41, 0xff, 0xd9]

/-- The segments that `ReadJpegFileOrEmbeddedSection` reads from `commentFile`. -/
def commentFileSegments : GraphicsVector :=
  [ (parsedSegment Segmenttype.JpegStartOfImage 0 [0xff, 0xd8]).SetLabel "JPEG file",
    parsedSegment Segmenttype.JpegCommentSegment 2 [0xff, 0xfe, 0, 3, 0x41],
    (parsedSegment Segmenttype.JpegEndOfImage 7 [0xff, 0xd9]).SetLabel "JPEG file" ]

/-- A file with the restart marker `FF D0` between SOI and EOI. -/
def restartFile : ByteVector := [0xff, 0xd8, 0xff, 0xd0, 0xff, 0xd9]

/-- A file in which the SOI is followed by a second `FF D8`. -/
def doubleStartFile : ByteVector := [0xff, 0xd8, 0xff, 0xd8, 0xff, 0xd9]

/-- An APP1 payload of 27 bytes that passes `valid_exif_chunk`: the little-endian byte-order
mark, the directory offset 8, the entry count 1 at the payload indices 18 and 19, and seven
of the twelve bytes of the entry. -/
def cutEntryPayload : ByteVector :=
  [0xff, 0xe1, 0, 25, 69, 120, 105, 102, 0, 0, 0x49, 0x49, 0x2a, 0, 8, 0, 0, 0,
   1, 0, 0x0f, 0x01, 2, 0, 4, 0, 0]

/-- An APP1 payload of 36 bytes that passes `valid_exif_chunk`: the directory at offset 8 has
one entry, of 16 bytes of data whose value field is `FFFFFFF8`. -/
def wrapRangePayload : ByteVector :=
  [0xff, 0xe1, 0, 34, 69, 120, 105, 102, 0, 0, 0x49, 0x49, 0x2a, 0, 8, 0, 0, 0,
   1, 0, 0x0f, 0x01, 1, 0, 16, 0, 0, 0, 0xf8, 0xff, 0xff, 0xff, 0, 0, 0, 0]

/-- An APP1 payload of 19 bytes that passes `valid_exif_chunk`, with the directory offset
`FFFFFFF6`. -/
def wrapOffsetPayload : ByteVector :=
  [0xff, 0xe1, 0, 17, 69, 120, 105, 102, 0, 0, 0x49, 0x49, 0x2a, 0, 0xf6, 0xff, 0xff, 0xff, 0]

/-! ## Lemmas -/

theorem bind_ok {α β : Type} {x : Except Error α} {f : α → Except Error β} {b : β} :
    (x >>= f) = Except.ok b ↔ ∃ a, x = Except.ok a ∧ f a = Except.ok b := by
  cases x <;> simp [bind, Except.bind]

theorem ASSERT_ok {c : Bool} {u : Unit} : ASSERT c = Except.ok u ↔ c = true := by
  cases c <;> simp [ASSERT]

theorem backEnd_append_single (L : GraphicsVector) (s : FileSegment) :
    backEnd (L ++ [s]) = if s.m_size = s.m_data.length then Except.ok (s.m_offset + s.m_size)
      else Except.error Error.AssertFailure := by
  simp only [backEnd, List.getLast?_append, List.getLast?_singleton, Option.or]
  by_cases h : s.m_size = s.m_data.length <;>
    simp [FileSegment.GetSize, FileSegment.GetOffset, ASSERT, h, bind, Except.bind, pure, Except.pure]

theorem AddSegmentPadded_eq (L : GraphicsVector) (seg : FileSegment) :
    AddSegmentPadded L seg = if seg.m_size = seg.m_data.length
      then Except.ok (L ++ block seg, blockEnd seg) else Except.error Error.AssertFailure := by
  unfold AddSegmentPadded
  simp only [backEnd_append_single]
  by_cases h : seg.m_size = seg.m_data.length
  · simp only [h, if_true]
    by_cases hp : (seg.m_offset + seg.m_data.length) % 2 = 0
    · simp [bind, Except.bind, pure, Except.pure, hp, block, blockEnd, h]
    · have hp1 : (seg.m_offset + seg.m_data.length) % 2 = 1 := by omega
      simp [bind, Except.bind, pure, Except.pure, hp1, block, blockEnd, h, CreateSegment, ASSERT,
        paddingAt, List.append_assoc]
  · simp [h, bind, Except.bind]

theorem layout_append (A B : List FileSegment) : layout (A ++ B) = layout A ++ layout B := by
  induction A with
  | nil => rfl
  | cons a A ih => simp [layout, ih]

theorem Placed_append {a c : Nat} {A B : List FileSegment} :
    Placed a (A ++ B) c ↔ ∃ b, Placed a A b ∧ Placed b B c := by
  induction A generalizing a with
  | nil => simp [Placed]
  | cons s A ih =>
    show Placed a (s :: (A ++ B)) c ↔ _
    constructor
    · rintro ⟨h1, h2, h3, h4⟩
      obtain ⟨b, h5, h6⟩ := ih.1 h4
      exact ⟨b, ⟨h1, h2, h3, h5⟩, h6⟩
    · rintro ⟨b, ⟨h1, h2, h3, h4⟩, h5⟩
      exact ⟨h1, h2, h3, ih.2 ⟨b, h4, h5⟩⟩

theorem blockEnd_even (s : FileSegment) : blockEnd s % 2 = 0 := by
  unfold blockEnd; omega

theorem Placed_even {a b : Nat} {segs : List FileSegment} (ha : a % 2 = 0)
    (h : Placed a segs b) : b % 2 = 0 := by
  induction segs generalizing a with
  | nil => simp only [Placed] at h; omega
  | cons s rest ih => exact ih (blockEnd_even s) h.2.2.2

theorem Contiguous_append {a : Nat} {A B : List FileSegment} :
    Contiguous a (A ++ B) ↔ Contiguous a A ∧ Contiguous (a + totalSize A) B := by
  induction A generalizing a with
  | nil => simp [Contiguous, totalSize]
  | cons s A ih =>
    show Contiguous a (s :: (A ++ B)) ↔ _
    have e : a + totalSize (s :: A) = a + s.m_size + totalSize A := by
      simp [totalSize, Nat.add_assoc]
    rw [e]
    constructor
    · rintro ⟨h1, h2, h3⟩
      obtain ⟨h4, h5⟩ := ih.1 h3
      exact ⟨⟨h1, h2, h4⟩, h5⟩
    · rintro ⟨⟨h1, h2, h3⟩, h4⟩
      exact ⟨h1, h2, ih.2 ⟨h3, h4⟩⟩

theorem totalSize_append (A B : List FileSegment) :
    totalSize (A ++ B) = totalSize A + totalSize B := by
  simp [totalSize]

theorem Contiguous_block {s : FileSegment} (h : s.m_size = s.m_data.length) :
    Contiguous s.m_offset (block s) ∧ s.m_offset + totalSize (block s) = blockEnd s := by
  unfold block blockEnd
  by_cases hp : (s.m_offset + s.m_size) % 2 = 0
  · rw [if_pos hp]
    simp [hp, Contiguous, totalSize]
    exact h
  · have hp1 : (s.m_offset + s.m_size) % 2 = 1 := by omega
    rw [if_neg hp]
    simp only [Contiguous, totalSize, paddingAt, List.map_cons, List.map_nil, List.sum_cons,
      List.sum_nil, List.length_singleton, and_true, true_and]
    refine ⟨h, ?_⟩
    omega

theorem Placed_contiguous {a b : Nat} {segs : List FileSegment} (h : Placed a segs b) :
    Contiguous a (layout segs) ∧ a + totalSize (layout segs) = b := by
  induction segs generalizing a with
  | nil => simpa [Placed, layout, Contiguous, totalSize] using h
  | cons s rest ih =>
    obtain ⟨h1, h2, _, h4⟩ := h
    obtain ⟨ih1, ih2⟩ := ih h4
    obtain ⟨c1, c2⟩ := Contiguous_block h2
    subst h1
    simp only [layout, Contiguous_append, totalSize_append]
    refine ⟨⟨c1, ?_⟩, ?_⟩
    · rw [c2]; exact ih1
    · omega

theorem AlignedAfter_append {p : Bool} {A B : List FileSegment} (hA : AlignedAfter p A)
    (hB : AlignedAfter false B) : AlignedAfter p (A ++ B) := by
  induction A generalizing p with
  | nil => simp only [AlignedAfter] at hA; subst hA; simpa using hB
  | cons s A ih =>
    obtain ⟨h1, h2, h3, h4⟩ := hA
    exact ⟨h1, h2, h3, ih h4⟩

theorem AlignedAfter_block {s : FileSegment} (hk : s.segmenttype ≠ Segmenttype.Padding)
    (he : s.m_offset % 2 = 0) : AlignedAfter false (block s) := by
  unfold block
  by_cases hp : (s.m_offset + s.m_size) % 2 = 0
  · have : ¬ (s.m_offset + s.m_size) % 2 = 1 := by omega
    simp [hp, AlignedAfter, hk, he, this]
  · have hp1 : (s.m_offset + s.m_size) % 2 = 1 := by omega
    have : ¬ (s.m_offset + s.m_size + 1) % 2 = 1 := by omega
    simp [hp, AlignedAfter, hk, he, hp1, paddingAt, this]

theorem Placed_aligned {a b : Nat} {segs : List FileSegment} (ha : a % 2 = 0)
    (h : Placed a segs b) : AlignedAfter false (layout segs) := by
  induction segs generalizing a with
  | nil => simp [layout, AlignedAfter]
  | cons s rest ih =>
    obtain ⟨h1, _, h3, h4⟩ := h
    subst h1
    exact AlignedAfter_append (AlignedAfter_block h3 ha) (ih (blockEnd_even s) h4)

theorem Placed_filter {a b : Nat} {segs : List FileSegment} (h : Placed a segs b) :
    (layout segs).filter notPadding = segs := by
  induction segs generalizing a with
  | nil => rfl
  | cons s rest ih =>
    obtain ⟨_, _, h3, h4⟩ := h
    have hb : (block s).filter notPadding = [s] := by
      unfold block
      by_cases hp : (s.m_offset + s.m_size) % 2 = 0 <;> simp [hp, notPadding, h3, paddingAt]
    simp [layout, List.filter_append, hb, ih h4]

theorem Placed_backEnd {a b : Nat} {segs : List FileSegment} (h : Placed a segs b)
    (hne : segs ≠ []) (L : List FileSegment) : backEnd (L ++ layout segs) = Except.ok b := by
  induction segs generalizing a L with
  | nil => exact absurd rfl hne
  | cons s rest ih =>
    obtain ⟨h1, h2, h3, h4⟩ := h
    by_cases hr : rest = []
    · subst hr
      simp only [Placed] at h4
      subst h4
      simp only [layout, List.append_nil]
      unfold block blockEnd
      by_cases hp : (s.m_offset + s.m_size) % 2 = 0
      · rw [if_pos hp, backEnd_append_single, if_pos h2, hp]
        rfl
      · have hp1 : (s.m_offset + s.m_size) % 2 = 1 := by omega
        have : L ++ [s, paddingAt s.FileEndianness (s.m_offset + s.m_size)]
            = (L ++ [s]) ++ [paddingAt s.FileEndianness (s.m_offset + s.m_size)] := by simp
        simp only [hp, if_false, this, backEnd_append_single]
        simp [paddingAt, hp1]
    · have := ih h4 hr (L ++ block s)
      simpa [layout, List.append_assoc] using this

theorem GetSegmenttype_ok {s : FileSegment} {k : Segmenttype} :
    s.GetSegmenttype = Except.ok k ↔ s.segmenttype ≠ Segmenttype.Undefined ∧ k = s.segmenttype := by
  unfold FileSegment.GetSegmenttype
  by_cases h : s.segmenttype = Segmenttype.Undefined
  · simp [h, ASSERT, bind, Except.bind]
  · simp [h, ASSERT, bind, Except.bind, pure, Except.pure, eq_comm]

theorem GetSize_eq (s : FileSegment) :
    s.GetSize = if s.m_size = s.m_data.length then Except.ok s.m_size
      else Except.error Error.AssertFailure := by
  unfold FileSegment.GetSize
  by_cases h : s.m_size = s.m_data.length <;> simp [h, ASSERT, bind, Except.bind, pure, Except.pure]

theorem Clone_jpeg (T : TiffTag) (s : FileSegment) (hj : s.segmenttype.isJpeg = true) :
    s.Clone T = if s.m_size = s.m_data.length then FileSegment.InterpretData T (cloneOf s)
      else Except.error Error.AssertFailure := by
  unfold FileSegment.Clone
  rw [GetSize_eq]
  by_cases h : s.m_size = s.m_data.length
  · rcases s with ⟨k, a1, a2, a3, a4, a5, a6, a7, a8, a9, a10, a11, a12, a13, a14, a15⟩
    cases k <;> simp_all [Segmenttype.isJpeg, FileSegment.GetSegmenttype, ASSERT, bind, Except.bind,
      pure, Except.pure, CreateSegment, Segmenttype.vectorDatatype, cloneOf,
      FileSegment.GetOffset, FileSegment.FileEndianness]
  · rcases s with ⟨k, a1, a2, a3, a4, a5, a6, a7, a8, a9, a10, a11, a12, a13, a14, a15⟩
    cases k <;> simp_all [Segmenttype.isJpeg, FileSegment.GetSegmenttype, ASSERT, bind, Except.bind,
      pure, Except.pure]

theorem InterpretData_StartOfFrame_base {c c1 : FileSegment}
    (h : FileSegment.InterpretData_StartOfFrame c = Except.ok c1) :
    c1.segmenttype = c.segmenttype ∧ c1.m_offset = c.m_offset ∧ c1.m_size = c.m_size
      ∧ c1.m_data = c.m_data := by
  unfold FileSegment.InterpretData_StartOfFrame at h
  simp only [bind_ok] at h
  obtain ⟨_, _, _, _, _, _, _, _, _, _, _, _, _, _, h⟩ := h
  simp only [pure, Except.pure, Except.ok.injEq] at h
  subst h
  simp

theorem Clone_base {T : TiffTag} {s c : FileSegment} (hj : s.segmenttype.isJpeg = true)
    (h : s.Clone T = Except.ok c) :
    s.m_size = s.m_data.length ∧ c.segmenttype = s.segmenttype ∧ c.m_offset = s.m_offset
      ∧ c.m_size = s.m_size ∧ c.m_data = s.m_data := by
  rw [Clone_jpeg T s hj] at h
  by_cases hs : s.m_size = s.m_data.length
  · rw [if_pos hs] at h
    refine ⟨hs, ?_⟩
    unfold FileSegment.InterpretData at h
    have hk : (cloneOf s).segmenttype = s.segmenttype := rfl
    rcases hq : s.segmenttype with _ | _ <;> rw [hk, hq] at h <;>
      first
      | (simp [Segmenttype.isJpeg, hq] at hj; done)
      | (simp only [pure, Except.pure, Except.ok.injEq] at h; subst h; simp [cloneOf, hq])
      | (have hb := InterpretData_StartOfFrame_base h; simpa [cloneOf, hq] using hb)
  · rw [if_neg hs] at h; cases h

theorem readFrame_SetOffset (F : FrameVars) (c : FileSegment) (o : Nat) :
    readFrame F (c.SetOffset o) = readFrame F c := rfl

theorem isImageKind_isJpeg {s : FileSegment} (h : isImageKind s = true) :
    s.segmenttype.isJpeg = true := by
  unfold isImageKind at h
  rcases hq : s.segmenttype with _ | _ <;> simp_all [Segmenttype.isJpeg]

theorem isImageKind_notPadding {s : FileSegment} (h : isImageKind s = true) :
    s.segmenttype ≠ Segmenttype.Padding := by
  unfold isImageKind at h
  intro hq
  simp [hq] at h

theorem embeddedImage_loop_ok (T : TiffTag) :
    ∀ (G : GraphicsVector) (st st1 : CloneState), embeddedImage_loop T G st = Except.ok st1 →
      ∃ segs, st1.TiffFile = st.TiffFile ++ layout segs ∧ Placed st.offset segs st1.offset
        ∧ segs.map kindData = (G.filter isImageKind).map kindData
        ∧ frames T (G.filter isFrame) st.F = Except.ok st1.F := by
  intro G
  induction G with
  | nil =>
    intro st st1 h
    simp only [embeddedImage_loop, pure, Except.pure, Except.ok.injEq] at h
    subst h
    exact ⟨[], by simp [layout], rfl, rfl, rfl⟩
  | cons it rest ih =>
    intro st st1 h
    simp only [embeddedImage_loop, bind_ok] at h
    obtain ⟨seg, hseg, h⟩ := h
    obtain ⟨hU, rfl⟩ := GetSegmenttype_ok.1 hseg
    by_cases hk : isImageKind it = true
    · have hk1 := hk
      unfold isImageKind at hk1
      simp only [decide_eq_true_eq] at hk1
      rw [if_pos hk1] at h
      simp only [bind_ok] at h
      obtain ⟨S, hS, F, hF, r, hr, h⟩ := h
      obtain ⟨hsz, c1, c2, c3, c4⟩ := Clone_base (isImageKind_isJpeg hk) hS
      rw [AddSegmentPadded_eq] at hr
      have hsz1 : (S.SetOffset st.offset).m_size = (S.SetOffset st.offset).m_data.length := by
        simp [FileSegment.SetOffset, c3, c4, hsz]
      rw [if_pos hsz1] at hr
      simp only [Except.ok.injEq] at hr
      subst hr
      obtain ⟨segs, e1, e2, e3, e4⟩ := ih _ _ h
      refine ⟨(S.SetOffset st.offset) :: segs, ?_, ?_, ?_, ?_⟩
      · simp [e1, layout, List.append_assoc]
      · refine ⟨rfl, hsz1, ?_, e2⟩
        simpa [FileSegment.SetOffset, c1] using isImageKind_notPadding hk
      · simp [List.filter_cons, hk, e3, kindData, FileSegment.SetOffset, c1, c4]
      · by_cases hf : it.segmenttype = Segmenttype.JpegStartOfFrame
        · rw [if_pos hf, readFrame_SetOffset] at hF
          simp only [List.filter_cons, isFrame, hf, decide_True, if_true, frames, bind_ok]
          exact ⟨S, hS, F, hF, e4⟩
        · rw [if_neg hf] at hF
          simp only [pure, Except.pure, Except.ok.injEq] at hF
          subst hF
          simpa [List.filter_cons, isFrame, hf] using e4
    · have hk1 := hk
      unfold isImageKind at hk1
      simp only [decide_eq_true_eq] at hk1
      rw [if_neg hk1] at h
      obtain ⟨segs, e1, e2, e3, e4⟩ := ih _ _ h
      refine ⟨segs, e1, e2, ?_, ?_⟩
      · simpa [List.filter_cons, hk] using e3
      · have hf : ¬ it.segmenttype = Segmenttype.JpegStartOfFrame := fun hq => hk1 (Or.inl hq)
        simpa [List.filter_cons, isFrame, hf] using e4

theorem isTableKind_isJpeg {s : FileSegment} (h : isTableKind s = true) :
    s.segmenttype.isJpeg = true := by
  unfold isTableKind at h
  rcases hq : s.segmenttype with _ | _ <;> simp_all [Segmenttype.isJpeg]

theorem isTableKind_notPadding {s : FileSegment} (h : isTableKind s = true) :
    s.segmenttype ≠ Segmenttype.Padding := by
  unfold isTableKind at h
  intro hq
  simp [hq] at h

theorem jpegTables_loop_ok (T : TiffTag) :
    ∀ (G : GraphicsVector) (st st1 : GraphicsVector × Nat), jpegTables_loop T G st = Except.ok st1 →
      ∃ segs, st1.1 = st.1 ++ layout segs ∧ Placed st.2 segs st1.2
        ∧ segs.map kindData = (G.filter isTableKind).map kindData := by
  intro G
  induction G with
  | nil =>
    intro st st1 h
    simp only [jpegTables_loop, pure, Except.pure, Except.ok.injEq] at h
    subst h
    exact ⟨[], by simp [layout], rfl, rfl⟩
  | cons it rest ih =>
    intro st st1 h
    simp only [jpegTables_loop, bind_ok] at h
    obtain ⟨seg, hseg, h⟩ := h
    obtain ⟨hU, rfl⟩ := GetSegmenttype_ok.1 hseg
    by_cases hk : isTableKind it = true
    · have hk1 := hk
      unfold isTableKind at hk1
      simp only [decide_eq_true_eq] at hk1
      rw [if_pos hk1] at h
      simp only [bind_ok] at h
      obtain ⟨S, hS, r, hr, h⟩ := h
      obtain ⟨hsz, c1, c2, c3, c4⟩ := Clone_base (isTableKind_isJpeg hk) hS
      rw [AddSegmentPadded_eq] at hr
      have hsz1 : (S.SetOffset st.2).m_size = (S.SetOffset st.2).m_data.length := by
        simp [FileSegment.SetOffset, c3, c4, hsz]
      rw [if_pos hsz1] at hr
      simp only [Except.ok.injEq] at hr
      subst hr
      obtain ⟨segs, e1, e2, e3⟩ := ih _ _ h
      refine ⟨(S.SetOffset st.2) :: segs, ?_, ?_, ?_⟩
      · simp [e1, layout, List.append_assoc]
      · refine ⟨rfl, hsz1, ?_, e2⟩
        simpa [FileSegment.SetOffset, c1] using isTableKind_notPadding hk
      · simp [List.filter_cons, hk, e3, kindData, FileSegment.SetOffset, c1, c4]
    · have hk1 := hk
      unfold isTableKind at hk1
      simp only [decide_eq_true_eq] at hk1
      rw [if_neg hk1] at h
      obtain ⟨segs, e1, e2, e3⟩ := ih _ _ h
      refine ⟨segs, e1, e2, ?_⟩
      simpa [List.filter_cons, hk] using e3

theorem TiffDatatypeLength_cases {t len : Nat} (h : TiffDatatypeLength t = Except.ok len) :
    len = 1 ∨ len = 2 ∨ len = 4 ∨ len = 8 := by
  unfold TiffDatatypeLength at h
  split at h <;> simp_all

theorem length_reverseElements (es : Nat) : ∀ (n : Nat) (src : ByteVector), n * es ≤ src.length →
    (reverseElements es n src).length = n * es := by
  intro n
  induction n with
  | zero => intro src _; simp [reverseElements]
  | succ n ih =>
    intro src h
    have h1 : es ≤ src.length := by
      have : (n + 1) * es = n * es + es := by ring
      omega
    have h2 : n * es ≤ (src.drop es).length := by
      have : (n + 1) * es = n * es + es := by ring
      simp only [List.length_drop]
      omega
    simp only [reverseElements, List.length_append, List.length_reverse, List.length_take, ih _ h2]
    have : (n + 1) * es = n * es + es := by ring
    omega

theorem length_vectorMemory {len : Nat} (hl : len ≤ 8) (v : List Nat) :
    (FileSegment.vectorMemory len v).length = v.length * len := by
  unfold FileSegment.vectorMemory
  induction v with
  | nil => simp
  | cons x v ih =>
    have hx : ((hostBytes32 x ++ [0, 0, 0, 0]).take len).length = len := by
      simp [hostBytes32]; omega
    simp only [List.map_cons, List.flatten_cons, List.length_append, hx, List.length_cons]
    rw [ih]; ring

theorem length_binary_copy {len : Nat} (hl : len ≤ 8) (v : List Nat) (e : Endianness) :
    (binary_copy (FileSegment.vectorMemory len v) v.length len e).length = v.length * len := by
  unfold binary_copy
  split
  · simp [length_vectorMemory hl]
  · exact length_reverseElements _ _ _ (by simp [length_vectorMemory hl])

theorem RebuildBinaryData_NumericVector_ok {s s1 : FileSegment}
    (h : FileSegment.RebuildBinaryData_NumericVector s = Except.ok s1) :
    s1.m_size = s1.m_data.length ∧ s1.segmenttype = s.segmenttype ∧ s1.m_offset = s.m_offset
      ∧ s1.m_vector = s.m_vector ∧ s1.m_datatype = s.m_datatype
      ∧ s1.m_Endianness = s.m_Endianness
      ∧ ∃ len, TiffDatatypeLength s.m_datatype = Except.ok len
          ∧ s1.m_data = binary_copy (FileSegment.vectorMemory len s.m_vector) s.m_vector.length len
              s.FileEndianness := by
  unfold FileSegment.RebuildBinaryData_NumericVector at h
  simp only [bind_ok] at h
  obtain ⟨len, hlen, _, _, _, _, h⟩ := h
  simp only [pure, Except.pure, Except.ok.injEq] at h
  subst h
  have hl : len ≤ 8 := by
    rcases TiffDatatypeLength_cases hlen with h | h | h | h <;> omega
  refine ⟨?_, rfl, rfl, rfl, rfl, rfl, len, hlen, rfl⟩
  simp [length_binary_copy hl]

theorem length_PutUShort (v : Nat) (e : Endianness) : (PutUShort v e).length = 2 := by
  unfold PutUShort; split <;> rfl

theorem length_PutUlong (v : Nat) (e : Endianness) : (PutUlong v e).length = 4 := by
  unfold PutUlong; split <;> rfl

theorem length_BuildMemoryRepresentation (E : TiffDirEntry) (e : Endianness) :
    (E.BuildMemoryRepresentation e).length = 12 := by
  simp [TiffDirEntry.BuildMemoryRepresentation, length_PutUShort, length_PutUlong]

theorem length_flatten_entries (e : Endianness) (es : List TiffDirEntry) :
    ((es.map (fun E => E.BuildMemoryRepresentation e)).flatten).length = 12 * es.length := by
  induction es with
  | nil => rfl
  | cons E es ih =>
    simp only [List.map_cons, List.flatten_cons, List.length_append, ih,
      length_BuildMemoryRepresentation, List.length_cons]
    omega

theorem RebuildBinaryData_TiffDirectory_size (s : FileSegment) :
    (FileSegment.RebuildBinaryData_TiffDirectory s).m_size
      = (FileSegment.RebuildBinaryData_TiffDirectory s).m_data.length
    ∧ (FileSegment.RebuildBinaryData_TiffDirectory s).m_size = 6 + 12 * s.m_entries.length := by
  constructor
  · simp only [FileSegment.RebuildBinaryData_TiffDirectory, List.length_append, length_PutUShort,
      length_PutUlong, length_flatten_entries]
    omega
  · rfl

theorem foldl_AddEntry (S : FileSegment) (es : List TiffDirEntry) :
    es.foldl FileSegment.AddEntry S = { S with m_entries := S.m_entries ++ es } := by
  induction es generalizing S with
  | nil => simp
  | cons E es ih => rw [List.foldl_cons, ih]; simp [FileSegment.AddEntry]

theorem MakeJpegStartOfImage_eq (offset : Nat) :
    MakeJpegStartOfImage offset = Except.ok (soiAt offset) := rfl

theorem MakeJpegEndOfImage_eq (offset : Nat) :
    MakeJpegEndOfImage offset = Except.ok (eoiAt offset) := rfl

theorem MakeTiffHeader_eq : MakeTiffHeader Endianness.Little 0 = Except.ok (headerWith 0) := rfl

theorem patchTiffHeader_header (o d : Nat) (X : GraphicsVector) :
    patchTiffHeader o (headerWith d :: X) = Except.ok (headerWith o :: X) := rfl

theorem CreateSegment_ByteVector (e : Endianness) (off size : Nat) :
    CreateSegment Segmenttype.TiffByteVector e off size
      = Except.ok { segmenttype := Segmenttype.TiffByteVector, m_offset := off, m_size := size,
                    m_Endianness := e, m_datatype := Datatype.Ubyte, m_datacount := size } := by
  simp [CreateSegment, ASSERT, Segmenttype.vectorDatatype, TiffDatatypeLength, bind, Except.bind,
    pure, Except.pure]

theorem CreateSegment_UShortVector (e : Endianness) (off : Nat) :
    CreateSegment Segmenttype.TiffUShortVector e off 0
      = Except.ok { segmenttype := Segmenttype.TiffUShortVector, m_offset := off, m_size := 0,
                    m_Endianness := e, m_datatype := Datatype.Ushort, m_datacount := 0 } := by
  simp [CreateSegment, ASSERT, Segmenttype.vectorDatatype, TiffDatatypeLength, bind, Except.bind,
    pure, Except.pure]

theorem CreateSegment_TiffDirectory (e : Endianness) (off size : Nat) :
    CreateSegment Segmenttype.TiffDirectory e off size
      = Except.ok { segmenttype := Segmenttype.TiffDirectory, m_offset := off, m_size := size,
                    m_Endianness := e } := rfl

theorem backEnd_layout {L : GraphicsVector} {off off1 : Nat} {segs : List FileSegment}
    (hb : backEnd L = Except.ok off) (hp : Placed off segs off1) :
    backEnd (L ++ layout segs) = Except.ok off1 := by
  by_cases hne : segs = []
  · subst hne
    simp only [Placed] at hp
    subst hp
    simpa [layout] using hb
  · exact Placed_backEnd hp hne L

theorem writeIccProfile_ok {icc : ByteVector} {L : GraphicsVector} {off : Nat} {e : Endianness}
    {r : GraphicsVector × Nat} (h : writeIccProfile icc L off e = Except.ok r) :
    ∃ segs, r.1 = L ++ layout segs ∧ Placed off segs r.2
      ∧ (∀ s ∈ segs, s.segmenttype = Segmenttype.TiffByteVector) := by
  unfold writeIccProfile at h
  split at h
  · simp only [bind_ok, CreateSegment_ByteVector, Except.ok.injEq, exists_eq_left'] at h
    obtain ⟨bv, hbv, bv1, hbv1, h⟩ := h
    obtain ⟨_, a2, a3, _⟩ := RebuildBinaryData_NumericVector_ok hbv
    have hk : bv.segmenttype = Segmenttype.TiffByteVector := a2
    simp only [FileSegment.RebuildBinaryData, hk] at hbv1
    obtain ⟨b1, b2, b3, _⟩ := RebuildBinaryData_NumericVector_ok hbv1
    rw [AddSegmentPadded_eq, if_pos b1] at h
    simp only [Except.ok.injEq] at h
    subst h
    refine ⟨[bv1], by simp [layout], ⟨?_, b1, ?_, rfl⟩, ?_⟩
    · rw [b3, a3]
    · rw [b2, hk]; decide
    · intro s hs
      simp only [List.mem_singleton] at hs
      subst hs
      rw [b2, hk]
  · simp only [pure, Except.pure, Except.ok.injEq] at h
    subst h
    exact ⟨[], by simp [layout], rfl, by simp⟩

theorem Write_Selected_Entries_step_ok {ee oe : Endianness} {foo : Nat → Nat → Bool}
    {st st1 : WriteState} {x : TiffDirEntry × ByteVector}
    (h : Write_Selected_Entries_step ee oe foo st x = Except.ok st1) :
    ∃ segs, st1.outfile = st.outfile ++ layout segs ∧ Placed st.offset segs st1.offset
      ∧ (∀ s ∈ segs, s.segmenttype = Segmenttype.TiffByteVector) := by
  unfold Write_Selected_Entries_step at h
  simp only [bind_ok] at h
  obtain ⟨dsU, _, es, _, h⟩ := h
  have triv : ∀ (d : List TiffDirEntry), ∃ segs,
      ({ st with dir_entries := d } : WriteState).outfile = st.outfile ++ layout segs
        ∧ Placed st.offset segs ({ st with dir_entries := d } : WriteState).offset
        ∧ (∀ s ∈ segs, s.segmenttype = Segmenttype.TiffByteVector) :=
    fun d => ⟨[], by simp [layout], rfl, by simp⟩
  split at h
  · split at h
    · simp only [bind_ok, CreateSegment_ByteVector, Except.ok.injEq, exists_eq_left'] at h
      obtain ⟨V1, _, bv, hbv, r, hr, e, _, h⟩ := h
      simp only [pure, Except.pure, Except.ok.injEq] at h
      subst h
      obtain ⟨a1, a2, a3, _⟩ := RebuildBinaryData_NumericVector_ok hbv
      rw [AddSegmentPadded_eq, if_pos a1] at hr
      simp only [Except.ok.injEq] at hr
      subst hr
      have hk : bv.segmenttype = Segmenttype.TiffByteVector := a2
      refine ⟨[bv], by simp [layout], ⟨a3, a1, ?_, rfl⟩, ?_⟩
      · rw [hk]; decide
      · intro s hs
        simp only [List.mem_singleton] at hs
        subst hs
        exact hk
    · split at h
      · simp only [bind_ok] at h
        obtain ⟨_, _, _, _, h⟩ := h
        simp only [pure, Except.pure, Except.ok.injEq] at h
        subst h
        exact triv _
      · split at h
        · simp only [pure, Except.pure, Except.ok.injEq] at h
          subst h
          exact triv _
        · split at h
          · simp only [bind_ok] at h
            obtain ⟨_, _, _, _, h⟩ := h
            simp only [pure, Except.pure, Except.ok.injEq] at h
            subst h
            exact triv _
          · split at h
            · simp only [bind_ok] at h
              obtain ⟨_, _, _, _, h⟩ := h
              simp only [pure, Except.pure, Except.ok.injEq] at h
              subst h
              exact triv _
            · cases h
  · simp only [pure, Except.pure, Except.ok.injEq] at h
    subst h
    exact ⟨[], by simp [layout], rfl, by simp⟩

theorem Write_Selected_Entries_loop_ok {ee oe : Endianness} {foo : Nat → Nat → Bool} :
    ∀ (dir : List (TiffDirEntry × ByteVector)) (st st1 : WriteState),
      Write_Selected_Entries_loop ee oe foo dir st = Except.ok st1 →
      ∃ segs, st1.outfile = st.outfile ++ layout segs ∧ Placed st.offset segs st1.offset
        ∧ (∀ s ∈ segs, s.segmenttype = Segmenttype.TiffByteVector) := by
  intro dir
  induction dir with
  | nil =>
    intro st st1 h
    simp only [Write_Selected_Entries_loop, pure, Except.pure, Except.ok.injEq] at h
    subst h
    exact ⟨[], by simp [layout], rfl, by simp⟩
  | cons x rest ih =>
    intro st st1 h
    simp only [Write_Selected_Entries_loop, bind_ok] at h
    obtain ⟨st2, h2, h⟩ := h
    obtain ⟨s1, a1, a2, a3⟩ := Write_Selected_Entries_step_ok h2
    obtain ⟨s2, b1, b2, b3⟩ := ih _ _ h
    refine ⟨s1 ++ s2, ?_, Placed_append.2 ⟨_, a2, b2⟩, ?_⟩
    · rw [b1, a1, layout_append, List.append_assoc]
    · intro s hs
      rcases List.mem_append.1 hs with hs | hs
      · exact a3 s hs
      · exact b3 s hs

theorem Write_Selected_Entries_ok {dir : List (TiffDirEntry × ByteVector)} {L : GraphicsVector}
    {ee oe : Endianness} {foo : Nat → Nat → Bool} {off : Nat}
    {w : List TiffDirEntry × GraphicsVector} (hb : backEnd L = Except.ok off)
    (h : Write_Selected_Entries dir L ee oe foo = Except.ok w) :
    ∃ segs off1, w.2 = L ++ layout segs ∧ Placed off segs off1
      ∧ backEnd w.2 = Except.ok off1
      ∧ (∀ s ∈ segs, s.segmenttype = Segmenttype.TiffByteVector) := by
  unfold Write_Selected_Entries at h
  simp only [bind_ok, hb, Except.ok.injEq, exists_eq_left'] at h
  obtain ⟨st1, h1, h⟩ := h
  simp only [pure, Except.pure, Except.ok.injEq] at h
  subst h
  obtain ⟨segs, a1, a2, a3⟩ := Write_Selected_Entries_loop_ok _ _ _ h1
  refine ⟨segs, st1.offset, a1, a2, ?_, a3⟩
  rw [a1]
  exact backEnd_layout hb a2

theorem writeMainEntries_ok {T : TiffTag} {dir : List (TiffDirEntry × ByteVector)}
    {L : GraphicsVector} {off : Nat} {ee oe : Endianness}
    {r : List TiffDirEntry × GraphicsVector × Nat} (hb : backEnd L = Except.ok off)
    (h : writeMainEntries T dir L off ee oe = Except.ok r) :
    ∃ segs, r.2.1 = L ++ layout segs ∧ Placed off segs r.2.2
      ∧ (∀ s ∈ segs, s.segmenttype = Segmenttype.TiffByteVector) := by
  unfold writeMainEntries at h
  split at h
  · simp only [bind_ok] at h
    obtain ⟨w, hw, o, ho, h⟩ := h
    simp only [pure, Except.pure, Except.ok.injEq] at h
    subst h
    obtain ⟨segs, off1, a1, a2, a3, a4⟩ := Write_Selected_Entries_ok hb hw
    rw [a3] at ho
    simp only [Except.ok.injEq] at ho
    subst ho
    exact ⟨segs, a1, a2, a4⟩
  · simp only [pure, Except.pure, Except.ok.injEq] at h
    subst h
    exact ⟨[], by simp [layout], rfl, by simp⟩

theorem directoryAt_facts (oe : Endianness) (off : Nat) (entries : List TiffDirEntry) :
    (directoryAt oe off entries).segmenttype = Segmenttype.TiffDirectory
      ∧ (directoryAt oe off entries).m_offset = off
      ∧ (directoryAt oe off entries).m_size = (directoryAt oe off entries).m_data.length
      ∧ (directoryAt oe off entries).m_size = 6 + 12 * entries.length
      ∧ (directoryAt oe off entries).m_entries = entries := by
  refine ⟨?_, ?_, (RebuildBinaryData_TiffDirectory_size _).1, ?_, ?_⟩
  · simp [directoryAt, FileSegment.RebuildBinaryData_TiffDirectory, foldl_AddEntry]
  · simp [directoryAt, FileSegment.RebuildBinaryData_TiffDirectory, foldl_AddEntry]
  · rw [directoryAt, (RebuildBinaryData_TiffDirectory_size _).2]
    simp [foldl_AddEntry]
  · simp [directoryAt, FileSegment.RebuildBinaryData_TiffDirectory, foldl_AddEntry]

theorem writeSubDirectory_ok {dir : List (TiffDirEntry × ByteVector)}
    {L : GraphicsVector} {off : Nat} {ee oe : Endianness} {foo : Nat → Nat → Bool}
    {r : GraphicsVector × Nat × Nat} (hb : backEnd L = Except.ok off)
    (h : writeSubDirectory dir L off ee oe foo = Except.ok r) :
    ∃ segs, r.1 = L ++ layout segs ∧ Placed off segs r.2.1
      ∧ (∀ s ∈ segs, s.segmenttype = Segmenttype.TiffByteVector
          ∨ s.segmenttype = Segmenttype.TiffDirectory) := by
  unfold writeSubDirectory at h
  split at h
  · simp only [bind_ok, CreateSegment_TiffDirectory, Except.ok.injEq, exists_eq_left'] at h
    obtain ⟨w, hw, o, ho, r1, hr, h⟩ := h
    simp only [pure, Except.pure, Except.ok.injEq] at h
    subst h
    obtain ⟨segs, off1, a1, a2, a3, a4⟩ := Write_Selected_Entries_ok hb hw
    rw [a3] at ho
    simp only [Except.ok.injEq] at ho
    subst ho
    change AddSegmentPadded w.2 (directoryAt oe off1 w.1) = Except.ok r1 at hr
    obtain ⟨d1, d2, d3, d4, d5⟩ := directoryAt_facts oe off1 w.1
    rw [AddSegmentPadded_eq, if_pos d3] at hr
    simp only [Except.ok.injEq] at hr
    subst hr
    refine ⟨segs ++ [directoryAt oe off1 w.1], ?_, ?_, ?_⟩
    · simp [a1, layout_append, layout, List.append_assoc]
    · refine Placed_append.2 ⟨off1, a2, d2, d3, ?_, rfl⟩
      rw [d1]; decide
    · intro s hs
      rcases List.mem_append.1 hs with hs | hs
      · exact Or.inl (a4 s hs)
      · simp only [List.mem_singleton] at hs
        subst hs
        exact Or.inr d1
  · simp only [pure, Except.pure, Except.ok.injEq] at h
    subst h
    exact ⟨[], by simp [layout], rfl, by simp⟩

theorem push_back_fold : ∀ (vals : List Nat) (S S1 : FileSegment),
    vals.foldlM FileSegment.push_back S = Except.ok S1 →
      S1.segmenttype = S.segmenttype ∧ S1.m_offset = S.m_offset
        ∧ S1.m_vector = S.m_vector ++ vals ∧ S1.m_datatype = S.m_datatype
        ∧ S1.m_Endianness = S.m_Endianness
        ∧ (vals ≠ [] → S1.m_size = S1.m_data.length
            ∧ ∃ len, TiffDatatypeLength S.m_datatype = Except.ok len
              ∧ S1.m_data = binary_copy (FileSegment.vectorMemory len S1.m_vector)
                  S1.m_vector.length len S1.FileEndianness) := by
  intro vals
  induction vals with
  | nil =>
    intro S S1 h
    simp only [List.foldlM_nil, pure, Except.pure, Except.ok.injEq] at h
    subst h
    simp
  | cons v rest ih =>
    intro S S1 h
    simp only [List.foldlM_cons, bind_ok] at h
    obtain ⟨S2, h2, h⟩ := h
    unfold FileSegment.push_back at h2
    obtain ⟨a1, a2, a3, a4, a5, a6, len, a7, a8⟩ := RebuildBinaryData_NumericVector_ok h2
    obtain ⟨b1, b2, b3, b4, b5, b6⟩ := ih _ _ h
    simp only at a2 a3 a4 a5 a6 a7 a8
    refine ⟨b1.trans a2, b2.trans a3, ?_, b4.trans a5, b5.trans a6, fun _ => ?_⟩
    · rw [b3, a4]; simp
    · by_cases hr : rest = []
      · subst hr
        simp only [List.foldlM_nil, pure, Except.pure, Except.ok.injEq] at h
        subst h
        refine ⟨a1, len, a7, ?_⟩
        rw [a8, a4]
        simp [FileSegment.FileEndianness, a2, a6]
      · obtain ⟨c1, len1, c2, c3⟩ := b6 hr
        rw [a5] at c2
        exact ⟨c1, len1, c2, c3⟩

theorem writeBitsPerSample_ok {F : FrameVars} {L : GraphicsVector} {off : Nat} {e : Endianness}
    {r : GraphicsVector × Nat} (h : writeBitsPerSample F L off e = Except.ok r) :
    ∃ segs, r.1 = L ++ layout segs ∧ Placed off segs r.2
      ∧ (F.numComponents > 2 → ∃ usv, segs = [usv]
          ∧ usv.segmenttype = Segmenttype.TiffUShortVector ∧ usv.m_offset = off
          ∧ usv.m_vector = List.replicate F.numComponents F.bitsPerSample
          ∧ usv.m_data = binary_copy (FileSegment.vectorMemory 2 usv.m_vector)
              usv.m_vector.length 2 e)
      ∧ (¬ F.numComponents > 2 → segs = []) := by
  unfold writeBitsPerSample at h
  split at h
  · rename_i hn
    simp only [bind_ok, CreateSegment_UShortVector, Except.ok.injEq, exists_eq_left'] at h
    obtain ⟨usv, hu, h⟩ := h
    obtain ⟨a1, a2, a3, a4, a5, a6⟩ := push_back_fold _ _ _ hu
    have hne : List.replicate F.numComponents F.bitsPerSample ≠ [] := by
      intro hq
      have := congrArg List.length hq
      simp at this
      omega
    obtain ⟨b1, len, b2, b3⟩ := a6 hne
    simp only at a1 a2 a3 a5 b2
    have hlen : len = 2 := by
      simp [TiffDatatypeLength] at b2
      exact b2.symm
    subst hlen
    rw [AddSegmentPadded_eq, if_pos b1] at h
    simp only [Except.ok.injEq] at h
    subst h
    refine ⟨[usv], by simp [layout], ⟨a2, b1, ?_, rfl⟩, fun _ => ⟨usv, rfl, a1, a2, ?_, ?_⟩,
      fun hq => absurd hn hq⟩
    · rw [a1]; decide
    · simpa using a3
    · rw [b3]
      simp [FileSegment.FileEndianness, a1, a5, Segmenttype.isJpeg]
  · rename_i hn
    simp only [pure, Except.pure, Except.ok.injEq] at h
    subst h
    exact ⟨[], by simp [layout], rfl, fun hq => absurd hq hn, fun _ => rfl⟩

theorem mainDirectory_facts (off : Nat) (entries : List TiffDirEntry) :
    (mainDirectory off entries).segmenttype = Segmenttype.TiffDirectory
      ∧ (mainDirectory off entries).m_offset = off
      ∧ (mainDirectory off entries).m_size = (mainDirectory off entries).m_data.length
      ∧ (mainDirectory off entries).m_size = 6 + 12 * entries.length
      ∧ (mainDirectory off entries).m_entries
          = entries.insertionSort (fun e1 e2 => e1.Tag ≤ e2.Tag) := by
  refine ⟨?_, ?_, (RebuildBinaryData_TiffDirectory_size _).1, ?_, ?_⟩
  · simp [mainDirectory, FileSegment.RebuildBinaryData_TiffDirectory, FileSegment.SortEntries,
      foldl_AddEntry]
  · simp [mainDirectory, FileSegment.RebuildBinaryData_TiffDirectory, FileSegment.SortEntries,
      foldl_AddEntry]
  · rw [mainDirectory, (RebuildBinaryData_TiffDirectory_size _).2]
    simp [FileSegment.SortEntries, foldl_AddEntry, List.length_insertionSort]
  · simp [mainDirectory, FileSegment.RebuildBinaryData_TiffDirectory, FileSegment.SortEntries,
      foldl_AddEntry]

theorem block_even {s : FileSegment} (h : (s.m_offset + s.m_size) % 2 = 0) :
    block s = [s] ∧ blockEnd s = s.m_offset + s.m_size := by
  unfold block blockEnd
  rw [if_pos h, h]
  simp

theorem Placed_layoutSegments {d a c e : Nat} {img tabs mid : List FileSegment}
    (ha : a % 2 = 0) (hc : c % 2 = 0) (hi : Placed 10 img a) (ht : Placed (a + 2 + 2) tabs c)
    (hm : Placed (c + 2) mid e) : Placed 0 (layoutSegments d a c img tabs mid) e := by
  have hh : blockEnd (headerWith d) = 8 := (block_even (by simp [headerWith])).2
  have h1 : blockEnd (soiAt 8) = 10 := (block_even (by rfl)).2
  have h2 : blockEnd (eoiAt a) = a + 2 := (block_even (by show (a + 2) % 2 = 0; omega)).2
  have h3 : blockEnd (soiAt (a + 2)) = a + 2 + 2 :=
    (block_even (by show (a + 2 + 2) % 2 = 0; omega)).2
  have h5 : blockEnd (eoiAt c) = c + 2 := (block_even (by show (c + 2) % 2 = 0; omega)).2
  unfold layoutSegments
  refine Placed_append.2 ⟨c + 2, Placed_append.2 ⟨c, Placed_append.2 ⟨a + 2 + 2,
    Placed_append.2 ⟨a, ?_, ?_⟩, ht⟩, ?_⟩, hm⟩
  · exact ⟨rfl, rfl, by simp [headerWith], by
      rw [hh]; exact ⟨rfl, rfl, by decide, by rw [h1]; exact hi⟩⟩
  · exact ⟨rfl, rfl, by simp [eoiAt], by
      rw [h2]; exact ⟨rfl, rfl, by simp [soiAt], by rw [h3]; rfl⟩⟩
  · exact ⟨rfl, rfl, by simp [eoiAt], by rw [h5]; rfl⟩

theorem layout_layoutSegments {d a c : Nat} {img tabs mid : List FileSegment}
    (ha : a % 2 = 0) (hc : c % 2 = 0) :
    layout (layoutSegments d a c img tabs mid)
      = headerWith d :: soiAt 8 :: (layout img ++ eoiAt a :: soiAt (a + 2)
          :: (layout tabs ++ eoiAt c :: layout mid)) := by
  have hh := (block_even (s := headerWith d) (by simp [headerWith])).1
  have h1 := (block_even (s := soiAt 8) (by rfl)).1
  have h2 := (block_even (s := eoiAt a) (by show (a + 2) % 2 = 0; omega)).1
  have h3 := (block_even (s := soiAt (a + 2)) (by show (a + 2 + 2) % 2 = 0; omega)).1
  have h5 := (block_even (s := eoiAt c) (by show (c + 2) % 2 = 0; omega)).1
  simp [layoutSegments, layout_append, layout, hh, h1, h2, h3, h5, List.append_assoc]

theorem planLayout_structure {T : TiffTag} {G : GraphicsVector} {L : LayoutState}
    (h : planLayout T G = Except.ok L) :
    ∃ (a c : Nat) (img tabs mid : List FileSegment),
      L.TiffFile = layout (layoutSegments 0 a c img tabs mid)
      ∧ a % 2 = 0 ∧ c % 2 = 0
      ∧ Placed 10 img a
      ∧ Placed (a + 2 + 2) tabs c
      ∧ Placed (c + 2) mid L.offset
      ∧ img.map kindData = (G.filter isImageKind).map kindData
      ∧ tabs.map kindData = (G.filter isTableKind).map kindData
      ∧ frames T (G.filter isFrame) {} = Except.ok L.F
      ∧ L.O.embedded_image_offset = 8
      ∧ L.O.embedded_image_end = a + 2
      ∧ L.O.jpeg_tables_start = a + 2
      ∧ L.O.jpeg_tables_end = c + 2
      ∧ (∀ s ∈ mid, s.segmenttype = Segmenttype.TiffByteVector
          ∨ s.segmenttype = Segmenttype.TiffDirectory)
      ∧ checkBaseline G = Except.ok ()
      ∧ (∃ g0 rest, G = g0 :: rest ∧ g0.segmenttype = Segmenttype.JpegStartOfImage) := by
  unfold planLayout at h
  cases G with
  | nil => cases h
  | cons g0 G1 =>
    simp only [bind_ok] at h
    obtain ⟨seg0, hseg0, h⟩ := h
    obtain ⟨_, rfl⟩ := GetSegmenttype_ok.1 hseg0
    split at h
    · cases h
    · rename_i hsoi0
      simp only [bind_ok, MakeTiffHeader_eq, MakeJpegStartOfImage_eq, MakeJpegEndOfImage_eq,
        Except.ok.injEq, exists_eq_left'] at h
      obtain ⟨_, hcb, r0, hr0, r1, hr1, st, hst, r2, hr2, r3, hr3, r4, hr4, r5, hr5, app2, _,
        icc, _, r6, hr6, app1, _, exif, _, back, hback, _, hassert, r7, hr7, r8, hr8, r9, hr9,
        h⟩ := h
      simp only [pure, Except.pure, Except.ok.injEq] at h
      subst h
      -- header and first SOI
      rw [AddSegmentPadded_eq, if_pos (by rfl)] at hr0
      simp only [Except.ok.injEq] at hr0
      subst hr0
      have hb0 : block (headerWith 0) = [headerWith 0] ∧ blockEnd (headerWith 0) = 8 :=
        block_even (by rfl)
      simp only [hb0.1, hb0.2, List.nil_append] at hr1 hst
      rw [AddSegmentPadded_eq, if_pos (by rfl)] at hr1
      simp only [Except.ok.injEq] at hr1
      subst hr1
      have hb1 : block (soiAt 8) = [soiAt 8] ∧ blockEnd (soiAt 8) = 10 := block_even (by rfl)
      simp only [hb1.1, hb1.2] at hst
      -- embedded image
      obtain ⟨img, i1, i2, i3, i4⟩ := embeddedImage_loop_ok T _ _ _ hst
      simp only at i1 i2 i4
      have ha : st.offset % 2 = 0 := Placed_even (by decide) i2
      rw [AddSegmentPadded_eq, if_pos (by rfl)] at hr2
      simp only [Except.ok.injEq] at hr2
      subst hr2
      have hb2 : block (eoiAt st.offset) = [eoiAt st.offset]
          ∧ blockEnd (eoiAt st.offset) = st.offset + 2 :=
        block_even (by show (st.offset + 2) % 2 = 0; omega)
      simp only [hb2.1, hb2.2] at hr3 hr4
      rw [AddSegmentPadded_eq, if_pos (by rfl)] at hr3
      simp only [Except.ok.injEq] at hr3
      subst hr3
      have hb3 : block (soiAt (st.offset + 2)) = [soiAt (st.offset + 2)]
          ∧ blockEnd (soiAt (st.offset + 2)) = st.offset + 2 + 2 :=
        block_even (by show (st.offset + 2 + 2) % 2 = 0; omega)
      simp only [hb3.1, hb3.2] at hr4
      -- tables
      obtain ⟨tabs, t1, t2, t3⟩ := jpegTables_loop_ok T _ _ _ hr4
      simp only at t1 t2
      have hc : r4.2 % 2 = 0 := Placed_even (by omega) t2
      rw [AddSegmentPadded_eq, if_pos (by rfl)] at hr5
      simp only [Except.ok.injEq] at hr5
      subst hr5
      have hb5 : block (eoiAt r4.2) = [eoiAt r4.2] ∧ blockEnd (eoiAt r4.2) = r4.2 + 2 :=
        block_even (by show (r4.2 + 2) % 2 = 0; omega)
      simp only [hb5.1, hb5.2] at hr6
      -- ICC profile
      obtain ⟨iccs, c1, c2, c3⟩ := writeIccProfile_ok hr6
      have hassert1 := ASSERT_ok.1 hassert
      simp only [decide_eq_true_eq] at hassert1
      rw [← hassert1] at hback
      -- Exif, GPS, main entries
      obtain ⟨exifs, x1, x2, x3⟩ := writeSubDirectory_ok hback hr7
      have hback7 : backEnd r7.1 = Except.ok r7.2.1 := by
        rw [x1]; exact backEnd_layout hback x2
      obtain ⟨gpss, g1, g2, g3⟩ := writeSubDirectory_ok hback7 hr8
      have hback8 : backEnd r8.1 = Except.ok r8.2.1 := by
        rw [g1]; exact backEnd_layout hback7 g2
      obtain ⟨mains, m1, m2, m3⟩ := writeMainEntries_ok hback8 hr9
      have hmid : Placed (r4.2 + 2) (iccs ++ exifs ++ gpss ++ mains) r9.2.2 :=
        Placed_append.2 ⟨_, Placed_append.2 ⟨_, Placed_append.2 ⟨_, c2, x2⟩, g2⟩, m2⟩
      refine ⟨st.offset, r4.2, img, tabs, iccs ++ exifs ++ gpss ++ mains, ?_, ha, hc, i2, t2,
        hmid, i3, t3, i4, hb0.2, hb2.2, hb2.2, hb5.2, ?_, hcb,
        ⟨g0, G1, rfl, by simpa using hsoi0⟩⟩
      · rw [layout_layoutSegments ha hc, m1, g1, x1, c1, t1, i1]
        simp [layout_append, List.append_assoc]
      · intro s hs
        simp only [List.mem_append] at hs
        rcases hs with ((hs | hs) | hs) | hs
        · exact Or.inl (c3 s hs)
        · exact x3 s hs
        · exact g3 s hs
        · exact Or.inl (m3 s hs)

theorem planDirectory_structure {T : TiffTag} {L : LayoutState} {P : Plan}
    {a c : Nat} {img tabs mid : List FileSegment}
    (hL : L.TiffFile = layout (layoutSegments 0 a c img tabs mid))
    (ha : a % 2 = 0) (hc : c % 2 = 0) (hi : Placed 10 img a) (ht : Placed (a + 2 + 2) tabs c)
    (hm : Placed (c + 2) mid L.offset)
    (h : planDirectory T L = Except.ok P) :
    ∃ (bps : List FileSegment) (entries : List TiffDirEntry),
      P.TiffFile = layout (planSegments P.offset a c img tabs (mid ++ bps) entries)
      ∧ Placed 0 (planSegments P.offset a c img tabs (mid ++ bps) entries)
          (P.offset + (6 + 12 * entries.length))
      ∧ Placed L.offset bps P.offset
      ∧ P.offset % 2 = 0
      ∧ mainDirectoryEntries T P.F P.O L.main_dir_entries_from_exif Endianness.Little
          = Except.ok entries
      ∧ P.F = L.F
      ∧ P.O = { L.O with bitsPerSample_offset := L.offset }
      ∧ (P.F.numComponents = 1 ∨ P.F.numComponents > 2)
      ∧ (P.F.numComponents > 2 → ∃ usv, bps = [usv]
          ∧ usv.segmenttype = Segmenttype.TiffUShortVector
          ∧ usv.m_offset = P.O.bitsPerSample_offset
          ∧ usv.m_vector = List.replicate P.F.numComponents P.F.bitsPerSample
          ∧ usv.m_data = binary_copy (FileSegment.vectorMemory 2 usv.m_vector)
              usv.m_vector.length 2 Endianness.Little)
      ∧ (¬ P.F.numComponents > 2 → bps = []) := by
  unfold planDirectory at h
  simp only [bind_ok, CreateSegment_TiffDirectory, Except.ok.injEq, exists_eq_left'] at h
  obtain ⟨_, hnc, r10, hr10, patched, hpatched, entries, hentries, r11, hr11, h⟩ := h
  simp only [pure, Except.pure, Except.ok.injEq] at h
  subst h
  obtain ⟨bps, b1, b2, b3, b4⟩ := writeBitsPerSample_ok hr10
  have hmid : Placed (c + 2) (mid ++ bps) r10.2 := Placed_append.2 ⟨_, hm, b2⟩
  have he10 : r10.2 % 2 = 0 := Placed_even (by omega) hmid
  have hL1 : r10.1 = layout (layoutSegments 0 a c img tabs (mid ++ bps)) := by
    rw [b1, hL, layout_layoutSegments ha hc, layout_layoutSegments ha hc]
    simp [layout_append, List.append_assoc]
  rw [hL1, layout_layoutSegments ha hc, patchTiffHeader_header] at hpatched
  simp only [Except.ok.injEq] at hpatched
  subst hpatched
  change AddSegmentNopad _ (mainDirectory r10.2 entries) = Except.ok r11 at hr11
  obtain ⟨d1, d2, d3, d4, d5⟩ := mainDirectory_facts r10.2 entries
  unfold AddSegmentNopad at hr11
  simp only [bind_ok, backEnd_append_single, if_pos d3, Except.ok.injEq,
    exists_eq_left'] at hr11
  simp only [pure, Except.pure, Except.ok.injEq] at hr11
  subst hr11
  have hbd : block (mainDirectory r10.2 entries) = [mainDirectory r10.2 entries]
      ∧ blockEnd (mainDirectory r10.2 entries) = r10.2 + (6 + 12 * entries.length) := by
    have := block_even (s := mainDirectory r10.2 entries) (by rw [d2, d4]; omega)
    rw [d2, d4] at this
    exact this
  refine ⟨bps, entries, ?_, ?_, b2, he10, hentries, rfl, rfl, ?_, ?_, b4⟩
  · show _ = layout (planSegments r10.2 a c img tabs (mid ++ bps) entries)
    have e1 : layout (planSegments r10.2 a c img tabs (mid ++ bps) entries)
        = layout (layoutSegments r10.2 a c img tabs (mid ++ bps))
          ++ [mainDirectory r10.2 entries] := by
      rw [planSegments, layout_append]
      simp [layout, hbd.1]
    rw [e1, layout_layoutSegments ha hc]
  · refine Placed_append.2 ⟨r10.2, Placed_layoutSegments ha hc hi ht hmid, d2, d3, ?_, ?_⟩
    · rw [d1]; decide
    · rw [hbd.2]; rfl
  · unfold checkNumComponents at hnc
    have := ASSERT_ok.1 hnc
    simpa using this
  · intro hn
    exact b3 hn

theorem plan_structure {T : TiffTag} {G : GraphicsVector} {P : Plan}
    (h : ConvertJpegToTiff_plan T G = Except.ok P) :
    ∃ (a c : Nat) (img tabs mid : List FileSegment) (fromExif entries : List TiffDirEntry),
      P.TiffFile = layout (planSegments P.offset a c img tabs mid entries)
      ∧ Placed 0 (planSegments P.offset a c img tabs mid entries)
          (P.offset + (6 + 12 * entries.length))
      ∧ a % 2 = 0 ∧ c % 2 = 0 ∧ P.offset % 2 = 0
      ∧ Placed 10 img a
      ∧ Placed (a + 2 + 2) tabs c
      ∧ Placed (c + 2) mid P.offset
      ∧ img.map kindData = (G.filter isImageKind).map kindData
      ∧ tabs.map kindData = (G.filter isTableKind).map kindData
      ∧ frames T (G.filter isFrame) {} = Except.ok P.F
      ∧ mainDirectoryEntries T P.F P.O fromExif Endianness.Little = Except.ok entries
      ∧ P.O.embedded_image_offset = 8
      ∧ P.O.embedded_image_end = a + 2
      ∧ P.O.jpeg_tables_start = a + 2
      ∧ P.O.jpeg_tables_end = c + 2
      ∧ (P.F.numComponents = 1 ∨ P.F.numComponents > 2)
      ∧ (P.F.numComponents > 2 → ∃ usv, usv ∈ mid
          ∧ usv.segmenttype = Segmenttype.TiffUShortVector
          ∧ usv.m_offset = P.O.bitsPerSample_offset
          ∧ usv.m_vector = List.replicate P.F.numComponents P.F.bitsPerSample
          ∧ usv.m_data = binary_copy (FileSegment.vectorMemory 2 usv.m_vector)
              usv.m_vector.length 2 Endianness.Little)
      ∧ (∀ s ∈ mid, s.segmenttype = Segmenttype.TiffByteVector
          ∨ s.segmenttype = Segmenttype.TiffDirectory
          ∨ s.segmenttype = Segmenttype.TiffUShortVector)
      ∧ checkBaseline G = Except.ok ()
      ∧ (∃ g0 rest, G = g0 :: rest ∧ g0.segmenttype = Segmenttype.JpegStartOfImage) := by
  unfold ConvertJpegToTiff_plan at h
  simp only [bind_ok] at h
  obtain ⟨L, hL, hD⟩ := h
  obtain ⟨a, c, img, tabs, mid, l1, ha, hc, l2, l3, l4, l5, l6, l7, l8, l9, l10, l11, l12, l13,
    l14⟩ := planLayout_structure hL
  obtain ⟨bps, entries, d1, d2, d3, d4, d5, d6, d7, d8, d9, d10⟩ :=
    planDirectory_structure l1 ha hc l2 l3 l4 hD
  refine ⟨a, c, img, tabs, mid ++ bps, L.main_dir_entries_from_exif, entries, d1, d2, ha, hc, d4,
    l2, l3, Placed_append.2 ⟨_, l4, d3⟩, l5, l6, ?_, d5, ?_, ?_, ?_, ?_, d8, ?_, ?_, l13, l14⟩
  · rw [d6]; exact l7
  · rw [d7]; exact l8
  · rw [d7]; exact l9
  · rw [d7]; exact l10
  · rw [d7]; exact l11
  · intro hn
    obtain ⟨usv, u1, u2, u3, u4, u5⟩ := d9 hn
    exact ⟨usv, by simp [u1], u2, u3, u4, u5⟩
  · intro s hs
    rcases List.mem_append.1 hs with hs | hs
    · rcases l12 s hs with q | q
      · exact Or.inl q
      · exact Or.inr (Or.inl q)
    · by_cases hn : P.F.numComponents > 2
      · obtain ⟨usv, u1, u2, _⟩ := d9 hn
        rw [u1] at hs
        simp only [List.mem_singleton] at hs
        subst hs
        exact Or.inr (Or.inr u2)
      · rw [d10 hn] at hs
        cases hs

theorem Contiguous_getElem {a : Nat} {L : List FileSegment} (h : Contiguous a L) :
    ∀ (i : Nat) (s : FileSegment), L[i]? = some s →
      s.m_offset = a + totalSize (L.take i) ∧ s.m_size = s.m_data.length := by
  induction L generalizing a with
  | nil => intro i s hs; simp at hs
  | cons x L ih =>
    intro i s hs
    obtain ⟨h1, h2, h3⟩ := h
    cases i with
    | zero =>
      simp only [List.getElem?_cons_zero, Option.some.injEq] at hs
      subst hs
      simp [totalSize, h1, h2]
    | succ i =>
      simp only [List.getElem?_cons_succ] at hs
      obtain ⟨e1, e2⟩ := ih h3 i s hs
      refine ⟨?_, e2⟩
      rw [e1]
      simp [totalSize, Nat.add_assoc]

theorem totalSize_take_succ {L : List FileSegment} {i : Nat} {s : FileSegment}
    (hs : L[i]? = some s) : totalSize (L.take (i + 1)) = totalSize (L.take i) + s.m_size := by
  induction L generalizing i with
  | nil => simp at hs
  | cons x L ih =>
    cases i with
    | zero =>
      simp only [List.getElem?_cons_zero, Option.some.injEq] at hs
      subst hs
      simp [totalSize]
    | succ i =>
      simp only [List.getElem?_cons_succ] at hs
      have := ih hs
      simp only [totalSize, List.take_succ_cons, List.map_cons, List.sum_cons] at this ⊢
      omega

theorem Contiguous_adjacent {a : Nat} {L : List FileSegment} (h : Contiguous a L)
    {i : Nat} {s t : FileSegment} (hs : L[i]? = some s) (ht : L[i + 1]? = some t) :
    s.m_offset + s.m_size = t.m_offset := by
  rw [(Contiguous_getElem h i s hs).1, (Contiguous_getElem h (i + 1) t ht).1,
    totalSize_take_succ hs]
  omega

theorem Contiguous_fileBytes {a : Nat} {L : List FileSegment} (h : Contiguous a L) :
    (fileBytes L).length = totalSize L := by
  induction L generalizing a with
  | nil => rfl
  | cons x L ih =>
    obtain ⟨_, h2, h3⟩ := h
    have := ih h3
    simp only [fileBytes, totalSize, List.map_cons, List.flatten_cons, List.length_append,
      List.sum_cons] at this ⊢
    omega

theorem Contiguous_take {a : Nat} {L : List FileSegment} (h : Contiguous a L) (i : Nat) :
    Contiguous a (L.take i) := by
  induction L generalizing a i with
  | nil => simp [Contiguous]
  | cons x L ih =>
    obtain ⟨h1, h2, h3⟩ := h
    cases i with
    | zero => simp [Contiguous]
    | succ i => exact ⟨h1, h2, ih h3 i⟩

theorem Contiguous_writeLoop {a : Nat} {L : List FileSegment} (h : Contiguous a L)
    (w : ByteVector) : writeLoop L w = (w ++ fileBytes L, none) := by
  induction L generalizing a w with
  | nil => simp [writeLoop, fileBytes]
  | cons x L ih =>
    obtain ⟨_, h2, h3⟩ := h
    have hx : x.WriteToFile = Except.ok x.m_data := by
      simp [FileSegment.WriteToFile, ASSERT, h2, bind, Except.bind, pure, Except.pure]
    simp only [writeLoop, hx, ih h3]
    simp [fileBytes, List.append_assoc]

theorem AlignedAfter_getElem {p : Bool} {L : List FileSegment} (h : AlignedAfter p L) :
    ∀ (i : Nat) (s : FileSegment), L[i]? = some s →
      (s.segmenttype ≠ Segmenttype.Padding → s.m_offset % 2 = 0)
        ∧ (s.segmenttype = Segmenttype.Padding → s.m_data = [0] ∧ s.m_size = 1)
        ∧ ((∃ t, L[i + 1]? = some t ∧ t.segmenttype = Segmenttype.Padding)
            ↔ (s.m_offset + s.m_size) % 2 = 1) := by
  induction L generalizing p with
  | nil => intro i s hs; simp at hs
  | cons x L ih =>
    intro i s hs
    obtain ⟨h1, h2, h3, h4⟩ := h
    cases i with
    | zero =>
      simp only [List.getElem?_cons_zero, Option.some.injEq] at hs
      subst hs
      refine ⟨h1, h2, ?_⟩
      cases L with
      | nil =>
        simp only [AlignedAfter, decide_eq_false_iff_not] at h4
        simp [h4]
      | cons y L =>
        obtain ⟨_, _, k3, _⟩ := h4
        simp only [decide_eq_true_eq] at k3
        simp [k3]
    | succ i =>
      simp only [List.getElem?_cons_succ] at hs
      have := ih h4 i s hs
      simpa using this

theorem Placed_mono {a b : Nat} {segs : List FileSegment} (h : Placed a segs b) : a ≤ b := by
  induction segs generalizing a with
  | nil => simp only [Placed] at h; omega
  | cons s rest ih =>
    obtain ⟨h1, _, _, h4⟩ := h
    have := ih h4
    unfold blockEnd at this
    omega

theorem Placed_offsets {a b : Nat} {segs : List FileSegment} (h : Placed a segs b) :
    ∀ s ∈ layout segs, s.m_offset ≤ b := by
  induction segs generalizing a with
  | nil => intro s hs; simp [layout] at hs
  | cons x rest ih =>
    intro s hs
    obtain ⟨h1, _, _, h4⟩ := h
    have hm := Placed_mono h4
    simp only [layout, List.mem_append] at hs
    rcases hs with hs | hs
    · unfold block at hs
      unfold blockEnd at hm
      split at hs
      · simp only [List.mem_singleton] at hs
        subst hs
        omega
      · simp only [List.mem_cons, List.mem_singleton, List.not_mem_nil, or_false] at hs
        rcases hs with hs | hs
        · subst hs; omega
        · subst hs
          simp only [paddingAt]
          omega
    · exact ih h4 s hs

theorem fromOffset_append {o : Nat} {A B : List FileSegment} {b : FileSegment}
    (hA : ∀ s ∈ A, s.m_offset ≠ o) (hb : b.m_offset = o) :
    fromOffset o (A ++ b :: B) = b :: B := by
  unfold fromOffset
  induction A with
  | nil => simp [List.dropWhile, hb]
  | cons x A ih =>
    have hx : x.m_offset ≠ o := hA x (by simp)
    simp only [List.cons_append, List.dropWhile_cons, hx, ne_eq, not_false_eq_true, decide_True,
      if_true]
    exact ih (fun s hs => hA s (by simp [hs]))

theorem uptoFirstEOI_append {A B : List FileSegment} {e : FileSegment}
    (hA : ∀ s ∈ A, s.segmenttype ≠ Segmenttype.JpegEndOfImage)
    (he : e.segmenttype = Segmenttype.JpegEndOfImage) :
    uptoFirstEOI (A ++ e :: B) = A ++ [e] := by
  induction A with
  | nil => simp [uptoFirstEOI, he]
  | cons x A ih =>
    have hx : x.segmenttype ≠ Segmenttype.JpegEndOfImage := hA x (by simp)
    have := ih (fun s hs => hA s (by simp [hs]))
    show uptoFirstEOI (x :: (A ++ e :: B)) = x :: (A ++ [e])
    simp only [uptoFirstEOI, hx, if_false, this]

theorem kinds_of_map_eq {A B : List FileSegment} (h : A.map kindData = B.map kindData) :
    ∀ s ∈ A, ∃ g ∈ B, s.segmenttype = g.segmenttype ∧ s.m_data = g.m_data := by
  intro s hs
  have : kindData s ∈ B.map kindData := by
    rw [← h]; exact List.mem_map_of_mem _ hs
  obtain ⟨g, hg, e⟩ := List.mem_map.1 this
  simp only [kindData, Prod.mk.injEq] at e
  exact ⟨g, hg, e.1.symm, e.2.symm⟩

theorem layout_single_even {s : FileSegment} (h : (s.m_offset + s.m_size) % 2 = 0) :
    layout [s] = [s] := by
  simp [layout, (block_even h).1]

theorem layout_cons_even {s : FileSegment} (h : (s.m_offset + s.m_size) % 2 = 0)
    (rest : List FileSegment) : layout (s :: rest) = s :: layout rest := by
  simp [layout, (block_even h).1]

theorem isImageKind_not_eoi {A B : List FileSegment}
    (h : A.map kindData = (B.filter isImageKind).map kindData) :
    ∀ s ∈ A, s.segmenttype ≠ Segmenttype.JpegEndOfImage := by
  intro s hs hq
  obtain ⟨g, hg, e1, _⟩ := kinds_of_map_eq h s hs
  have hk := (List.mem_filter.1 hg).2
  unfold isImageKind at hk
  rw [← e1, hq] at hk
  simp at hk

theorem isTableKind_not_eoi {A B : List FileSegment}
    (h : A.map kindData = (B.filter isTableKind).map kindData) :
    ∀ s ∈ A, s.segmenttype ≠ Segmenttype.JpegEndOfImage := by
  intro s hs hq
  obtain ⟨g, hg, e1, _⟩ := kinds_of_map_eq h s hs
  have hk := (List.mem_filter.1 hg).2
  unfold isTableKind at hk
  rw [← e1, hq] at hk
  simp at hk

theorem plan_streams (entries : List TiffDirEntry) {o a c : Nat}
    {img tabs mid : List FileSegment} (ha : a % 2 = 0) (hc : c % 2 = 0) (ho : o % 2 = 0)
    (hi : Placed 10 img a) (ht : Placed (a + 2 + 2) tabs c) (hm : Placed (c + 2) mid o)
    (ki : ∀ s ∈ img, s.segmenttype ≠ Segmenttype.JpegEndOfImage)
    (kt : ∀ s ∈ tabs, s.segmenttype ≠ Segmenttype.JpegEndOfImage) :
    jpegStreamAt 8 (layout (planSegments o a c img tabs mid entries))
        = soiAt 8 :: img ++ [eoiAt a]
      ∧ jpegStreamAt (a + 2) (layout (planSegments o a c img tabs mid entries))
        = soiAt (a + 2) :: tabs ++ [eoiAt c] := by
  obtain ⟨d1, d2, d3, d4, d5⟩ := mainDirectory_facts o entries
  have hdir : Placed o [mainDirectory o entries] (o + (6 + 12 * entries.length)) := by
    have hb := block_even (s := mainDirectory o entries) (by rw [d2, d4]; omega)
    refine ⟨d2, d3, by rw [d1]; decide, ?_⟩
    rw [hb.2, d2, d4]; rfl
  have e2 : blockEnd (eoiAt a) = a + 2 := (block_even (by show (a + 2) % 2 = 0; omega)).2
  have e3 : blockEnd (soiAt (a + 2)) = a + 2 + 2 :=
    (block_even (by show (a + 2 + 2) % 2 = 0; omega)).2
  have e5 : blockEnd (eoiAt c) = c + 2 := (block_even (by show (c + 2) % 2 = 0; omega)).2
  -- the tail of the list after the embedded image
  have hY : Placed (a + 2) (soiAt (a + 2) :: tabs ++ [eoiAt c] ++ (mid ++ [mainDirectory o entries]))
      (o + (6 + 12 * entries.length)) := by
    refine Placed_append.2 ⟨c + 2, ?_, Placed_append.2 ⟨o, hm, hdir⟩⟩
    refine ⟨rfl, rfl, by simp [soiAt], ?_⟩
    rw [e3]
    exact Placed_append.2 ⟨c, ht, rfl, rfl, by simp [eoiAt], by rw [e5]; rfl⟩
  have hX : Placed 8 (soiAt 8 :: img ++ [eoiAt a] ++ (soiAt (a + 2) :: tabs ++ [eoiAt c]
      ++ (mid ++ [mainDirectory o entries]))) (o + (6 + 12 * entries.length)) := by
    refine Placed_append.2 ⟨a + 2, ?_, hY⟩
    refine ⟨rfl, rfl, by simp [soiAt], ?_⟩
    rw [(block_even (s := soiAt 8) (by rfl)).2]
    exact Placed_append.2 ⟨a, hi, rfl, rfl, by simp [eoiAt], by rw [e2]; rfl⟩
  have hP : planSegments o a c img tabs mid entries
      = [headerWith o] ++ (soiAt 8 :: img ++ [eoiAt a] ++ (soiAt (a + 2) :: tabs ++ [eoiAt c]
          ++ (mid ++ [mainDirectory o entries]))) := by
    simp [planSegments, layoutSegments]
  constructor
  · rw [hP, layout_append, layout_single_even (by simp [headerWith])]
    unfold jpegStreamAt
    have hl : layout (soiAt 8 :: img ++ [eoiAt a] ++ (soiAt (a + 2) :: tabs ++ [eoiAt c]
        ++ (mid ++ [mainDirectory o entries])))
        = soiAt 8 :: layout (img ++ [eoiAt a] ++ (soiAt (a + 2) :: tabs ++ [eoiAt c]
          ++ (mid ++ [mainDirectory o entries]))) := by
      have := layout_cons_even (s := soiAt 8) (by rfl) (img ++ [eoiAt a]
        ++ (soiAt (a + 2) :: tabs ++ [eoiAt c] ++ (mid ++ [mainDirectory o entries])))
      simpa using this
    rw [hl, fromOffset_append (by simp [headerWith]) (by rfl), ← hl, Placed_filter hX]
    have := uptoFirstEOI_append (A := soiAt 8 :: img) (e := eoiAt a)
      (B := soiAt (a + 2) :: tabs ++ [eoiAt c] ++ (mid ++ [mainDirectory o entries]))
      (by
        intro s hs
        rcases List.mem_cons.1 hs with hs | hs
        · subst hs; simp [soiAt]
        · exact ki s hs) rfl
    simpa using this
  · have hP2 : planSegments o a c img tabs mid entries
        = ([headerWith o, soiAt 8] ++ img) ++ [eoiAt a] ++ (soiAt (a + 2) :: tabs ++ [eoiAt c]
            ++ (mid ++ [mainDirectory o entries])) := by
      simp [planSegments, layoutSegments]
    have hpre : Placed 0 ([headerWith o, soiAt 8] ++ img) a := by
      refine Placed_append.2 ⟨10, ?_, hi⟩
      refine ⟨rfl, rfl, by simp [headerWith], ?_⟩
      rw [(block_even (s := headerWith o) (by simp [headerWith])).2]
      exact ⟨rfl, rfl, by simp [soiAt], (block_even (s := soiAt 8) (by rfl)).2⟩
    rw [hP2, layout_append, layout_append, layout_single_even (by show (a + 2) % 2 = 0; omega)]
    unfold jpegStreamAt
    have hl : layout (soiAt (a + 2) :: tabs ++ [eoiAt c] ++ (mid ++ [mainDirectory o entries]))
        = soiAt (a + 2) :: layout (tabs ++ [eoiAt c] ++ (mid ++ [mainDirectory o entries])) := by
      have := layout_cons_even (s := soiAt (a + 2)) (by show (a + 2 + 2) % 2 = 0; omega)
        (tabs ++ [eoiAt c] ++ (mid ++ [mainDirectory o entries]))
      simpa using this
    rw [hl, fromOffset_append (b := soiAt (a + 2)) (by
        intro s hs
        rcases List.mem_append.1 hs with hs | hs
        · have := Placed_offsets hpre s hs
          omega
        · simp only [List.mem_singleton] at hs
          subst hs
          simp [eoiAt]) (by rfl), ← hl, Placed_filter hY]
    have := uptoFirstEOI_append (A := soiAt (a + 2) :: tabs) (e := eoiAt c)
      (B := mid ++ [mainDirectory o entries])
      (by
        intro s hs
        rcases List.mem_cons.1 hs with hs | hs
        · subst hs; simp [soiAt]
        · exact kt s hs) rfl
    simpa using this

theorem Placed_sizes {a b : Nat} {segs : List FileSegment} (h : Placed a segs b) :
    ∀ s ∈ segs, s.m_size = s.m_data.length := by
  induction segs generalizing a with
  | nil => intro s hs; cases hs
  | cons x rest ih =>
    intro s hs
    obtain ⟨_, h2, _, h4⟩ := h
    rcases List.mem_cons.1 hs with hs | hs
    · subst hs; exact h2
    · exact ih h4 s hs

theorem plan_contiguous {T : TiffTag} {G : GraphicsVector} {P : Plan}
    (h : ConvertJpegToTiff_plan T G = Except.ok P) :
    Contiguous 0 P.TiffFile ∧ AlignedAfter false P.TiffFile := by
  obtain ⟨a, c, img, tabs, mid, fromExif, entries, s1, s2, _⟩ := plan_structure h
  rw [s1]
  exact ⟨(Placed_contiguous s2).1, Placed_aligned (by decide) s2⟩

theorem plan_written {T : TiffTag} {G : GraphicsVector} {P : Plan}
    (h : ConvertJpegToTiff_plan T G = Except.ok P) :
    ConvertJpegToTiff T G = { error := none, outfile := some (fileBytes P.TiffFile) } := by
  unfold ConvertJpegToTiff
  rw [h]
  simp [Contiguous_writeLoop (plan_contiguous h).1]

/-- C1: for every accepted input, the non-padding segments of the planned list from the inner
SOI (the segment at the offset recorded as StripOffsets) up to the first EOI are a two-byte
`FF D8` segment, one clone per source segment of type SOF, SOS, RestartInterval or ImageData, in
source order and with the payload of its source, and a two-byte `FF D9` segment. -/
theorem C1_embedded_image_segments (T : TiffTag) (G : GraphicsVector) (P : Plan)
    (h : ConvertJpegToTiff_plan T G = Except.ok P) :
    (jpegStreamAt P.O.embedded_image_offset P.TiffFile).map kindData
        = (Segmenttype.JpegStartOfImage, [0xff, 0xd8])
            :: (G.filter isImageKind).map kindData ++ [(Segmenttype.JpegEndOfImage, [0xff, 0xd9])]
      ∧ (∀ s ∈ jpegStreamAt P.O.embedded_image_offset P.TiffFile,
          s.m_size = s.m_data.length) := by
  obtain ⟨a, c, img, tabs, mid, fromExif, entries, s1, s2, ha, hc, ho, hi, ht, hm, ki, kt, _, _,
    o1, _⟩ := plan_structure h
  have hs := (plan_streams entries ha hc ho hi ht hm (isImageKind_not_eoi ki)
    (isTableKind_not_eoi kt)).1
  rw [o1, s1, hs]
  constructor
  · simp [kindData, soiAt, eoiAt, ← ki]
  · intro s hs
    simp only [List.cons_append, List.mem_cons, List.mem_append, List.mem_singleton,
      List.not_mem_nil, or_false] at hs
    rcases hs with hs | hs | hs
    · subst hs; rfl
    · exact Placed_sizes hi s hs
    · subst hs; rfl

/-- Witness of C1 on the minimal grayscale input. -/
theorem C1_embedded_image_segments_witness :
    ConvertJpegToTiff_plan stdTags grayInput = Except.ok (planOf stdTags grayInput)
      ∧ (jpegStreamAt (planOf stdTags grayInput).O.embedded_image_offset
            (planOf stdTags grayInput).TiffFile).map kindData
          = (Segmenttype.JpegStartOfImage, [0xff, 0xd8])
              :: (grayInput.filter isImageKind).map kindData
                ++ [(Segmenttype.JpegEndOfImage, [0xff, 0xd9])] :=
  ⟨rfl, (C1_embedded_image_segments stdTags grayInput (planOf stdTags grayInput) rfl).1⟩

/-- C2: for every accepted input the planned list starts at offset 0, every segment
(padding included) ends where the next one starts, so the recorded offset of a segment is the
sum of the sizes before it, which is its position in the written file. -/
theorem C2_layout_contiguity (T : TiffTag) (G : GraphicsVector) (P : Plan)
    (h : ConvertJpegToTiff_plan T G = Except.ok P) :
    (∃ s rest, P.TiffFile = s :: rest ∧ s.m_offset = 0)
      ∧ (∀ (i : Nat) (s t : FileSegment), P.TiffFile[i]? = some s → P.TiffFile[i + 1]? = some t →
          s.m_offset + s.m_size = t.m_offset)
      ∧ (∀ (i : Nat) (s : FileSegment), P.TiffFile[i]? = some s →
          s.m_offset = totalSize (P.TiffFile.take i)
            ∧ s.m_offset = (fileBytes (P.TiffFile.take i)).length)
      ∧ ConvertJpegToTiff T G = { error := none, outfile := some (fileBytes P.TiffFile) } := by
  have hc := (plan_contiguous h).1
  refine ⟨?_, fun i s t hs ht => Contiguous_adjacent hc hs ht, fun i s hs => ?_, plan_written h⟩
  · obtain ⟨a, c, img, tabs, mid, fromExif, entries, s1, _⟩ := plan_structure h
    rw [s1]
    have e : planSegments P.offset a c img tabs mid entries
        = headerWith P.offset :: (soiAt 8 :: img ++ [eoiAt a, soiAt (a + 2)] ++ tabs ++ [eoiAt c]
            ++ mid ++ [mainDirectory P.offset entries]) := by
      simp [planSegments, layoutSegments]
    rw [e, layout_cons_even (by simp [headerWith])]
    exact ⟨_, _, rfl, rfl⟩
  · have e := (Contiguous_getElem hc i s hs).1
    rw [Contiguous_fileBytes (Contiguous_take hc i)]
    omega

/-- Witness of C2 on the minimal grayscale input. -/
theorem C2_layout_contiguity_witness :
    ConvertJpegToTiff_plan stdTags grayInput = Except.ok (planOf stdTags grayInput)
      ∧ ConvertJpegToTiff stdTags grayInput
          = { error := none, outfile := some (fileBytes (planOf stdTags grayInput).TiffFile) } :=
  ⟨rfl, (C2_layout_contiguity stdTags grayInput (planOf stdTags grayInput) rfl).2.2.2⟩

/-- C3: in the planned list of an accepted input every non-padding segment starts at an even
offset, a padding segment is one zero byte, and a padding segment follows a segment exactly when
that segment ends at an odd offset; `AddSegmentPadded` returns for every segment whose size is
the length of its payload, and what it returns is even and is the end of the last segment of
the list after the append. -/
theorem C3_alignment (T : TiffTag) (G : GraphicsVector) (P : Plan)
    (h : ConvertJpegToTiff_plan T G = Except.ok P) :
    (∀ (i : Nat) (s : FileSegment), P.TiffFile[i]? = some s →
        (s.segmenttype ≠ Segmenttype.Padding → s.m_offset % 2 = 0)
          ∧ (s.segmenttype = Segmenttype.Padding → s.m_data = [0] ∧ s.m_size = 1)
          ∧ ((∃ t, P.TiffFile[i + 1]? = some t ∧ t.segmenttype = Segmenttype.Padding)
              ↔ (s.m_offset + s.m_size) % 2 = 1))
      ∧ (∀ (vec : GraphicsVector) (seg : FileSegment), seg.m_size = seg.m_data.length →
          ∃ vec1 off, AddSegmentPadded vec seg = Except.ok (vec1, off) ∧ off % 2 = 0
            ∧ backEnd vec1 = Except.ok off)
      ∧ (∀ (vec vec1 : GraphicsVector) (seg : FileSegment) (off : Nat),
          AddSegmentPadded vec seg = Except.ok (vec1, off) →
            off % 2 = 0 ∧ backEnd vec1 = Except.ok off) := by
  have key : ∀ (vec : GraphicsVector) (seg : FileSegment), seg.m_size = seg.m_data.length →
      blockEnd seg % 2 = 0 ∧ backEnd (vec ++ block seg) = Except.ok (blockEnd seg) := by
    intro vec seg hs
    refine ⟨blockEnd_even seg, ?_⟩
    unfold block blockEnd
    by_cases hp : (seg.m_offset + seg.m_size) % 2 = 0
    · rw [if_pos hp, backEnd_append_single, if_pos hs, hp]
      rfl
    · have hp1 : (seg.m_offset + seg.m_size) % 2 = 1 := by omega
      have e : vec ++ [seg, paddingAt seg.FileEndianness (seg.m_offset + seg.m_size)]
          = (vec ++ [seg]) ++ [paddingAt seg.FileEndianness (seg.m_offset + seg.m_size)] := by
        simp
      rw [if_neg hp, e, backEnd_append_single]
      simp [paddingAt, hp1]
  refine ⟨AlignedAfter_getElem (plan_contiguous h).2, ?_, ?_⟩
  · intro vec seg hs
    refine ⟨vec ++ block seg, blockEnd seg, ?_, key vec seg hs⟩
    rw [AddSegmentPadded_eq, if_pos hs]
  · intro vec vec1 seg off hr
    rw [AddSegmentPadded_eq] at hr
    split at hr
    · rename_i hs
      simp only [Except.ok.injEq, Prod.mk.injEq] at hr
      obtain ⟨rfl, rfl⟩ := hr
      exact key vec seg hs
    · cases hr

/-- Witness of C3 on the minimal grayscale input. -/
theorem C3_alignment_witness :
    ConvertJpegToTiff_plan stdTags grayInput = Except.ok (planOf stdTags grayInput)
      ∧ (∀ (i : Nat) (s : FileSegment), (planOf stdTags grayInput).TiffFile[i]? = some s →
          (s.segmenttype ≠ Segmenttype.Padding → s.m_offset % 2 = 0)
            ∧ (s.segmenttype = Segmenttype.Padding → s.m_data = [0] ∧ s.m_size = 1)
            ∧ ((∃ t, (planOf stdTags grayInput).TiffFile[i + 1]? = some t
                  ∧ t.segmenttype = Segmenttype.Padding)
                ↔ (s.m_offset + s.m_size) % 2 = 1)) :=
  ⟨rfl, (C3_alignment stdTags grayInput (planOf stdTags grayInput) rfl).1⟩

theorem plan_last {T : TiffTag} {G : GraphicsVector} {P : Plan}
    (h : ConvertJpegToTiff_plan T G = Except.ok P) :
    ∃ (fromExif entries : List TiffDirEntry),
      P.TiffFile.getLast? = some (mainDirectory P.offset entries)
      ∧ mainDirectoryEntries T P.F P.O fromExif Endianness.Little = Except.ok entries
      ∧ (∃ rest, P.TiffFile = headerWith P.offset :: rest)
      ∧ totalSize P.TiffFile = P.offset + (6 + 12 * entries.length) := by
  obtain ⟨a, c, img, tabs, mid, fromExif, entries, s1, s2, ha, hc, ho, _, _, _, _, _, _, he, _⟩ :=
    plan_structure h
  obtain ⟨d1, d2, d3, d4, d5⟩ := mainDirectory_facts P.offset entries
  refine ⟨fromExif, entries, ?_, he, ?_, ?_⟩
  · rw [s1, planSegments, layout_append,
      layout_single_even (s := mainDirectory P.offset entries) (by rw [d2, d4]; omega)]
    simp
  · rw [s1]
    have e : planSegments P.offset a c img tabs mid entries
        = headerWith P.offset :: (soiAt 8 :: img ++ [eoiAt a, soiAt (a + 2)] ++ tabs ++ [eoiAt c]
            ++ mid ++ [mainDirectory P.offset entries]) := by
      simp [planSegments, layoutSegments]
    rw [e, layout_cons_even (by simp [headerWith])]
    exact ⟨_, rfl⟩
  · rw [s1]
    have := (Placed_contiguous s2).2
    omega

/-- C4: for every accepted input the written file begins with `49 49 2A 00` followed by the
little-endian 32-bit offset of the main directory segment; that segment is the last one of the
planned list, and the length of the file is its offset plus `6 + 12 n` for its `n` entries. -/
theorem C4_header_and_length (T : TiffTag) (G : GraphicsVector) (P : Plan)
    (h : ConvertJpegToTiff_plan T G = Except.ok P) :
    ∃ (dir : FileSegment) (w : ByteVector),
      P.TiffFile.getLast? = some dir
      ∧ dir.segmenttype = Segmenttype.TiffDirectory
      ∧ ConvertJpegToTiff T G = { error := none, outfile := some w }
      ∧ w.take 8 = [0x49, 0x49, 0x2a, 0x00, dir.m_offset % 256, dir.m_offset / 256 % 256,
          dir.m_offset / 65536 % 256, dir.m_offset / 16777216 % 256]
      ∧ w.length = dir.m_offset + 6 + 12 * dir.m_entries.length := by
  obtain ⟨fromExif, entries, l1, _, ⟨rest, l3⟩, l4⟩ := plan_last h
  obtain ⟨d1, d2, d3, d4, d5⟩ := mainDirectory_facts P.offset entries
  refine ⟨mainDirectory P.offset entries, fileBytes P.TiffFile, l1, d1, plan_written h, ?_, ?_⟩
  · rw [l3, d2]
    simp [fileBytes, headerWith, hostBytes32]
  · rw [Contiguous_fileBytes (plan_contiguous h).1, l4, d2, d5, List.length_insertionSort]
    omega

/-- Witness of C4 on the minimal grayscale input: the directory is at offset 64, has ten
entries, and the file has 190 bytes. -/
theorem C4_header_and_length_witness :
    ConvertJpegToTiff_plan stdTags grayInput = Except.ok (planOf stdTags grayInput)
      ∧ ∃ (dir : FileSegment) (w : ByteVector),
          (planOf stdTags grayInput).TiffFile.getLast? = some dir
          ∧ dir.segmenttype = Segmenttype.TiffDirectory
          ∧ ConvertJpegToTiff stdTags grayInput = { error := none, outfile := some w }
          ∧ w.take 8 = [0x49, 0x49, 0x2a, 0x00, dir.m_offset % 256, dir.m_offset / 256 % 256,
              dir.m_offset / 65536 % 256, dir.m_offset / 16777216 % 256]
          ∧ w.length = dir.m_offset + 6 + 12 * dir.m_entries.length :=
  ⟨rfl, C4_header_and_length stdTags grayInput (planOf stdTags grayInput) rfl⟩

theorem ofLong_eq (tag v : Nat) :
    TiffDirEntry.ofLong tag Datatype.Ulong 1 v Endianness.Little = Except.ok (longEntry tag v) :=
  rfl

theorem ofShorts_one (tag v : Nat) :
    TiffDirEntry.ofShorts tag Datatype.Ushort 1 (AsShort.ofInt v) Endianness.Little
      = Except.ok (shortsEntry tag 1 v 0) := rfl

theorem ofShorts_two (tag v1 v2 : Nat) :
    TiffDirEntry.ofShorts tag Datatype.Ushort 2 (AsShort.ofInts v1 v2) Endianness.Little
      = Except.ok (shortsEntry tag 2 v1 v2) := rfl

theorem ofOffset_ok {tag datatype datacount off : Nat} {x : TiffDirEntry}
    (h : TiffDirEntry.ofOffset tag datatype datacount off Endianness.Little = Except.ok x) :
    x = offsetEntry tag datatype datacount off := by
  unfold TiffDirEntry.ofOffset at h
  simp only [bind_ok] at h
  obtain ⟨len, _, _, _, h⟩ := h
  simp only [pure, Except.pure, Except.ok.injEq] at h
  exact h.symm

theorem ofOffset_long (tag off : Nat) :
    TiffDirEntry.ofOffset tag Datatype.Ulong 1 off Endianness.Little
      = Except.ok (offsetEntry tag Datatype.Ulong 1 off) := rfl

theorem value32_longBytes {E : TiffDirEntry} {v : Nat} (he : E.m_endianness = Endianness.Little)
    (hb : E.m_dataBytes = longBytes v Endianness.Little) : E.value32 = v % 4294967296 := by
  simp only [TiffDirEntry.value32, he, hb, longBytes, GetSystemEndianness, if_true]
  omega

theorem longEntry_value (tag v : Nat) :
    (longEntry tag v).GetLongValue = Except.ok (v % 4294967296) := by
  have hv : (longEntry tag v).value32 = v % 4294967296 := value32_longBytes rfl rfl
  simp only [TiffDirEntry.GetLongValue, hv]
  rfl

theorem offsetEntry_value (tag dt cnt off : Nat) :
    (offsetEntry tag dt cnt off).GetOffsetField = Except.ok (off % 4294967296) := by
  have hv : (offsetEntry tag dt cnt off).value32 = off % 4294967296 := value32_longBytes rfl rfl
  simp only [TiffDirEntry.GetOffsetField, hv]
  rfl

theorem shortsEntry_value (tag cnt v1 v2 : Nat) :
    (shortsEntry tag cnt v1 v2).GetTwoShorts
      = Except.ok { s0 := v1 % 65536, s1 := v2 % 65536 } := by
  simp only [TiffDirEntry.GetTwoShorts, shortsEntry, ASSERT, bind, Except.bind, pure,
    Except.pure, decide_True, if_true]
  congr 2 <;> omega
theorem byteAt_getD {d : ByteVector} {j b : Nat} (h : byteAt d j = Except.ok b) :
    d.getD j 0 = b := by
  unfold byteAt at h
  cases hq : d.get? j with
  | none => rw [hq] at h; cases h
  | some x =>
    rw [hq] at h
    simp only [Except.ok.injEq] at h
    subst h
    rw [List.get?_eq_getElem?] at hq
    simp [List.getD, hq]

theorem readComponents_get : ∀ (n i : Nat) (d : ByteVector) (infos : List Component_info),
    FileSegment.readComponents d i n = Except.ok infos →
      infos.length = n ∧ ∀ k, k < n → ∃ info, infos.get? k = some info
        ∧ info.sampling_factors = d.getD (11 + 3 * (i + k)) 0 := by
  intro n
  induction n with
  | zero =>
    intro i d infos h
    simp only [FileSegment.readComponents, pure, Except.pure, Except.ok.injEq] at h
    subst h
    exact ⟨rfl, fun k hk => absurd hk (Nat.not_lt_zero k)⟩
  | succ n ih =>
    intro i d infos h
    simp only [FileSegment.readComponents, bind_ok] at h
    obtain ⟨id, _, sf, hsf, q, _, rest, hrest, h⟩ := h
    simp only [pure, Except.pure, Except.ok.injEq] at h
    subst h
    obtain ⟨l1, l2⟩ := ih _ _ _ hrest
    refine ⟨by simp [l1], fun k hk => ?_⟩
    cases k with
    | zero => exact ⟨_, rfl, (byteAt_getD hsf).symm⟩
    | succ k =>
      obtain ⟨info, g1, g2⟩ := l2 k (by omega)
      refine ⟨info, by simpa using g1, ?_⟩
      rw [g2]
      congr 2
      omega

theorem Clone_frame {T : TiffTag} {s c : FileSegment}
    (hk : s.segmenttype = Segmenttype.JpegStartOfFrame) (h : s.Clone T = Except.ok c) :
    MakeUShort s.m_data 7 Endianness.Big = Except.ok c.m_width
      ∧ MakeUShort s.m_data 5 Endianness.Big = Except.ok c.m_length
      ∧ byteAt s.m_data 4 = Except.ok c.m_precision
      ∧ byteAt s.m_data 9 = Except.ok c.m_num_components
      ∧ s.m_data.length = 10 + 3 * c.m_num_components
      ∧ FileSegment.readComponents s.m_data 0 c.m_num_components
          = Except.ok c.m_component_info := by
  have hj : s.segmenttype.isJpeg = true := by rw [hk]; rfl
  rw [Clone_jpeg T s hj] at h
  by_cases hs : s.m_size = s.m_data.length
  · rw [if_pos hs] at h
    unfold FileSegment.InterpretData at h
    have hk1 : (cloneOf s).segmenttype = Segmenttype.JpegStartOfFrame := hk
    rw [hk1] at h
    simp only at h
    unfold FileSegment.InterpretData_StartOfFrame at h
    have he : (cloneOf s).FileEndianness = Endianness.Big := by
      simp [FileSegment.FileEndianness, hk1, Segmenttype.isJpeg]
    rw [he] at h
    simp only [bind_ok] at h
    obtain ⟨_, _, p, hp, l, hl, w, hw, n, hn, _, ha, infos, hi, h⟩ := h
    simp only [pure, Except.pure, Except.ok.injEq] at h
    subst h
    rw [ASSERT_ok] at ha
    simp only [decide_eq_true_eq] at ha
    exact ⟨hw, hl, hp, hn, ha, hi⟩
  · rw [if_neg hs] at h; cases h
theorem GetHorizontalSamplingFactor_ok {c : FileSegment} {d : ByteVector} {k v : Nat}
    (hi : FileSegment.readComponents d 0 c.m_num_components = Except.ok c.m_component_info)
    (h : c.GetHorizontalSamplingFactor k = Except.ok v) :
    v = hFactor d k ∧ 1 ≤ v ∧ v ≤ 4 := by
  obtain ⟨hlen, hget⟩ := readComponents_get _ _ _ _ hi
  unfold FileSegment.GetHorizontalSamplingFactor at h
  simp only [bind_ok, ASSERT_ok, decide_eq_true_eq] at h
  obtain ⟨_, hk, h⟩ := h
  obtain ⟨info, g1, g2⟩ := hget k (by omega)
  rw [g1] at h
  simp only [bind_ok, ASSERT_ok, decide_eq_true_eq] at h
  obtain ⟨_, hr, h⟩ := h
  simp only [pure, Except.pure, Except.ok.injEq] at h
  subst h
  refine ⟨?_, hr.1, hr.2⟩
  rw [g2]
  simp [hFactor]

theorem GetVerticalSamplingFactor_ok {c : FileSegment} {d : ByteVector} {k v : Nat}
    (hi : FileSegment.readComponents d 0 c.m_num_components = Except.ok c.m_component_info)
    (h : c.GetVerticalSamplingFactor k = Except.ok v) :
    v = vFactor d k ∧ 1 ≤ v ∧ v ≤ 4 := by
  obtain ⟨hlen, hget⟩ := readComponents_get _ _ _ _ hi
  unfold FileSegment.GetVerticalSamplingFactor at h
  simp only [bind_ok, ASSERT_ok, decide_eq_true_eq] at h
  obtain ⟨_, hk, h⟩ := h
  obtain ⟨info, g1, g2⟩ := hget k (by omega)
  rw [g1] at h
  simp only [bind_ok, ASSERT_ok, decide_eq_true_eq] at h
  obtain ⟨_, hr, h⟩ := h
  simp only [pure, Except.pure, Except.ok.injEq] at h
  subst h
  refine ⟨?_, hr.1, hr.2⟩
  rw [g2]
  simp [vFactor]

theorem readFrame_ok {T : TiffTag} {s c : FileSegment} {F F1 : FrameVars}
    (hk : s.segmenttype = Segmenttype.JpegStartOfFrame) (hc : s.Clone T = Except.ok c)
    (h : readFrame F c = Except.ok F1) :
    FrameOf s.m_data F1
      ∧ (¬ F1.numComponents > 2 →
          F1.horizontalSampleFactor_Y = F.horizontalSampleFactor_Y
            ∧ F1.horizontalSampleFactor_Cb = F.horizontalSampleFactor_Cb
            ∧ F1.horizontalSampleFactor_Cr = F.horizontalSampleFactor_Cr
            ∧ F1.verticalSampleFactor_Y = F.verticalSampleFactor_Y
            ∧ F1.verticalSampleFactor_Cb = F.verticalSampleFactor_Cb
            ∧ F1.verticalSampleFactor_Cr = F.verticalSampleFactor_Cr) := by
  obtain ⟨c1, c2, c3, c4, c5, c6⟩ := Clone_frame hk hc
  unfold readFrame at h
  by_cases hn : c.m_num_components > 2
  · rw [if_pos hn] at h
    simp only [bind_ok] at h
    obtain ⟨hY, h1, hCb, h2, hCr, h3, vY, h4, vCb, h5, vCr, h6, h⟩ := h
    simp only [pure, Except.pure, Except.ok.injEq] at h
    subst h
    refine ⟨⟨c1, c2, c3, c4, fun _ => ⟨(GetHorizontalSamplingFactor_ok c6 h1).1,
      (GetHorizontalSamplingFactor_ok c6 h2).1, (GetHorizontalSamplingFactor_ok c6 h3).1,
      (GetVerticalSamplingFactor_ok c6 h4).1, (GetVerticalSamplingFactor_ok c6 h5).1,
      (GetVerticalSamplingFactor_ok c6 h6).1⟩⟩, fun hq => absurd hn hq⟩
  · rw [if_neg hn] at h
    simp only [pure, Except.pure, Except.ok.injEq] at h
    subst h
    exact ⟨⟨c1, c2, c3, c4, fun hq => absurd hq hn⟩, fun _ => ⟨rfl, rfl, rfl, rfl, rfl, rfl⟩⟩

theorem frames_last {T : TiffTag} : ∀ (sofs : List FileSegment) (F0 F : FrameVars)
    (sof : FileSegment), (∀ s ∈ sofs, s.segmenttype = Segmenttype.JpegStartOfFrame) →
    frames T sofs F0 = Except.ok F → sofs.getLast? = some sof → FrameOf sof.m_data F := by
  intro sofs
  induction sofs with
  | nil => intro F0 F sof _ _ hl; cases hl
  | cons s rest ih =>
    intro F0 F sof hs h hl
    simp only [frames, bind_ok] at h
    obtain ⟨c, hc, F1, hF1, h⟩ := h
    cases rest with
    | nil =>
      simp only [frames, pure, Except.pure, Except.ok.injEq] at h
      subst h
      simp only [List.getLast?_singleton, Option.some.injEq] at hl
      subst hl
      exact (readFrame_ok (hs _ (List.mem_cons_self _ _)) hc hF1).1
    | cons s2 rest2 =>
      rw [List.getLast?_cons_cons] at hl
      exact ih F1 F sof (fun x hx => hs x (List.mem_cons_of_mem _ hx)) h hl

theorem mem_filter_isFrame {G : GraphicsVector} :
    ∀ s ∈ G.filter isFrame, s.segmenttype = Segmenttype.JpegStartOfFrame := by
  intro s hs
  have := (List.mem_filter.1 hs).2
  simpa [isFrame] using this

theorem frames_exists {T : TiffTag} {sofs : List FileSegment} {F : FrameVars}
    (hs : ∀ s ∈ sofs, s.segmenttype = Segmenttype.JpegStartOfFrame)
    (h : frames T sofs {} = Except.ok F) (hn : F.numComponents ≠ 0) :
    ∃ sof, sofs.getLast? = some sof ∧ sof.segmenttype = Segmenttype.JpegStartOfFrame
      ∧ FrameOf sof.m_data F := by
  cases hq : sofs.getLast? with
  | none =>
    rw [List.getLast?_eq_none_iff] at hq
    subst hq
    simp only [frames, pure, Except.pure, Except.ok.injEq] at h
    subst h
    exact absurd rfl hn
  | some sof =>
    exact ⟨sof, rfl, hs sof (List.mem_of_getLast?_eq_some hq), frames_last sofs {} F sof hs h hq⟩
theorem bitsPerSampleEntry_ok {T : TiffTag} {F : FrameVars} {O : Offsets}
    {e3 : List TiffDirEntry}
    (h : bitsPerSampleEntry T F O Endianness.Little = Except.ok e3) :
    (F.numComponents > 2 →
        e3 = [offsetEntry T.BitsPerSample Datatype.Ushort 3 O.bitsPerSample_offset])
      ∧ (F.numComponents = 1 → e3 = [shortsEntry T.BitsPerSample 1 F.bitsPerSample 0]) := by
  unfold bitsPerSampleEntry at h
  by_cases hn : F.numComponents > 2
  · rw [if_pos hn] at h
    have hq : TiffDirEntry.ofOffset T.BitsPerSample Datatype.Ushort 3 O.bitsPerSample_offset
        Endianness.Little
        = Except.ok (offsetEntry T.BitsPerSample Datatype.Ushort 3 O.bitsPerSample_offset) := rfl
    rw [hq] at h
    simp only [Except.map, Except.ok.injEq] at h
    exact ⟨fun _ => h.symm, fun h1 => by omega⟩
  · rw [if_neg hn] at h
    refine ⟨fun hq => absurd hq hn, fun h1 => ?_⟩
    rw [if_pos h1, ofShorts_one] at h
    simp only [Except.map, Except.ok.injEq] at h
    exact h.symm

theorem subSamplingEntry_ok {T : TiffTag} {F : FrameVars} {e12 : List TiffDirEntry}
    (h : subSamplingEntry T F Endianness.Little = Except.ok e12) :
    (horizontal_divisor F > 0 ∧ vertical_divisor F > 0 →
        e12 = [shortsEntry T.YCbCrSubSampling 2 (horizontal_divisor F) (vertical_divisor F)])
      ∧ (¬ (horizontal_divisor F > 0 ∧ vertical_divisor F > 0) →
          e12 = [] ∧ ¬ F.numComponents > 2) := by
  unfold subSamplingEntry at h
  by_cases hd : horizontal_divisor F > 0 ∧ vertical_divisor F > 0
  · rw [if_pos hd, ofShorts_two] at h
    simp only [Except.map, Except.ok.injEq] at h
    exact ⟨fun _ => h.symm, fun hq => absurd hd hq⟩
  · rw [if_neg hd] at h
    refine ⟨fun hq => absurd hq hd, fun _ => ?_⟩
    by_cases hn : F.numComponents > 2
    · rw [if_pos hn] at h; cases h
    · rw [if_neg hn] at h
      simp only [pure, Except.pure, Except.ok.injEq] at h
      exact ⟨h.symm, hn⟩

theorem mainDirectoryEntries_ok {T : TiffTag} {F : FrameVars} {O : Offsets}
    {fx entries : List TiffDirEntry}
    (h : mainDirectoryEntries T F O fx Endianness.Little = Except.ok entries) :
    ∃ e3 e12 rest, bitsPerSampleEntry T F O Endianness.Little = Except.ok e3
      ∧ subSamplingEntry T F Endianness.Little = Except.ok e12
      ∧ metadataEntries T O Endianness.Little = Except.ok rest
      ∧ entries = [longEntry T.ImageWidth F.imageWidth, longEntry T.ImageLength F.imageLength]
          ++ e3
          ++ [shortsEntry T.Compression 1 7 0,
              shortsEntry T.PhotometricInterpretation 1 (if F.numComponents = 1 then 1 else 6) 0,
              offsetEntry T.StripOffsets Datatype.Ulong 1 O.embedded_image_offset,
              shortsEntry T.SamplesPerPixel 1 F.numComponents 0,
              longEntry T.StripByteCounts (O.embedded_image_end - O.embedded_image_offset),
              shortsEntry T.PlanarConfig 1 1 0,
              offsetEntry T.JPEGTables Datatype.Xbyte (O.jpeg_tables_end - O.jpeg_tables_start)
                O.jpeg_tables_start]
          ++ e12 ++ fx ++ rest := by
  unfold mainDirectoryEntries at h
  simp only [ofLong_eq, ofShorts_one, ofOffset_long, bind_ok, Except.ok.injEq,
    exists_eq_left'] at h
  obtain ⟨e3, h3, e10, h10, e12, h12, rest, hr, h⟩ := h
  simp only [pure, Except.pure, Except.ok.injEq] at h
  have := ofOffset_ok h10
  subst this
  exact ⟨e3, e12, rest, h3, h12, hr, h.symm⟩

theorem mem_mainDirectory {off : Nat} {entries : List TiffDirEntry} {e : TiffDirEntry}
    (h : e ∈ entries) : e ∈ (mainDirectory off entries).m_entries := by
  rw [(mainDirectory_facts off entries).2.2.2.2]
  exact (List.mem_insertionSort _).2 h

theorem Placed_end {a b : Nat} {segs : List FileSegment} (h : Placed a segs b)
    (ha : a % 2 = 0) :
    b = a + (segs.map (fun s => paddedSize s.m_data.length)).sum := by
  induction segs generalizing a with
  | nil => simpa [Placed] using h.symm
  | cons s rest ih =>
    obtain ⟨h1, h2, _, h4⟩ := h
    have he : blockEnd s = a + paddedSize s.m_data.length := by
      unfold blockEnd paddedSize
      rw [h1, h2]
      omega
    have := ih h4 (blockEnd_even s)
    rw [this, he]
    simp [Nat.add_assoc]

theorem paddedSizes_of_kinds {A B : List FileSegment} (h : A.map kindData = B.map kindData) :
    (A.map (fun s => paddedSize s.m_data.length)).sum
      = (B.map (fun s => paddedSize s.m_data.length)).sum := by
  have e : ∀ L : List FileSegment, L.map (fun s => paddedSize s.m_data.length)
      = (L.map kindData).map (fun p => paddedSize p.2.length) := by
    intro L
    simp [kindData, Function.comp_def]
  rw [e A, e B, h]

theorem mem_layout {segs : List FileSegment} {s : FileSegment} (h : s ∈ segs) :
    s ∈ layout segs := by
  induction segs with
  | nil => cases h
  | cons x rest ih =>
    have hx : x ∈ block x := by
      unfold block
      split <;> simp
    rcases List.mem_cons.1 h with h | h
    · subst h
      exact List.mem_append_left _ hx
    · exact List.mem_append_right _ (ih h)

theorem plan_summary {T : TiffTag} {G : GraphicsVector} {P : Plan}
    (h : ConvertJpegToTiff_plan T G = Except.ok P) :
    ∃ (a c : Nat) (img tabs : List FileSegment) (dir sof : FileSegment)
      (e3 e12 fx rest : List TiffDirEntry),
      P.TiffFile.getLast? = some dir
      ∧ dir.segmenttype = Segmenttype.TiffDirectory
      ∧ (∀ e ∈ [longEntry T.ImageWidth P.F.imageWidth, longEntry T.ImageLength P.F.imageLength]
          ++ e3
          ++ [shortsEntry T.Compression 1 7 0,
              shortsEntry T.PhotometricInterpretation 1
                (if P.F.numComponents = 1 then 1 else 6) 0,
              offsetEntry T.StripOffsets Datatype.Ulong 1 8,
              shortsEntry T.SamplesPerPixel 1 P.F.numComponents 0,
              longEntry T.StripByteCounts (a + 2 - 8),
              shortsEntry T.PlanarConfig 1 1 0,
              offsetEntry T.JPEGTables Datatype.Xbyte (c + 2 - (a + 2)) (a + 2)]
          ++ e12 ++ fx ++ rest, e ∈ dir.m_entries)
      ∧ bitsPerSampleEntry T P.F P.O Endianness.Little = Except.ok e3
      ∧ subSamplingEntry T P.F Endianness.Little = Except.ok e12
      ∧ jpegStreamAt 8 P.TiffFile = soiAt 8 :: img ++ [eoiAt a]
      ∧ jpegStreamAt (a + 2) P.TiffFile = soiAt (a + 2) :: tabs ++ [eoiAt c]
      ∧ Placed 10 img a ∧ Placed (a + 2 + 2) tabs c
      ∧ img.map kindData = (G.filter isImageKind).map kindData
      ∧ tabs.map kindData = (G.filter isTableKind).map kindData
      ∧ P.O.embedded_image_offset = 8 ∧ P.O.embedded_image_end = a + 2
      ∧ P.O.jpeg_tables_start = a + 2 ∧ P.O.jpeg_tables_end = c + 2
      ∧ (G.filter isFrame).getLast? = some sof
      ∧ sof.segmenttype = Segmenttype.JpegStartOfFrame
      ∧ FrameOf sof.m_data P.F
      ∧ (P.F.numComponents = 1 ∨ P.F.numComponents > 2)
      ∧ (P.F.numComponents > 2 → ∃ usv, usv ∈ P.TiffFile
          ∧ usv.segmenttype = Segmenttype.TiffUShortVector
          ∧ usv.m_offset = P.O.bitsPerSample_offset
          ∧ usv.m_vector = List.replicate P.F.numComponents P.F.bitsPerSample)
      ∧ P.TiffFile[1]? = some (soiAt 8) := by
  obtain ⟨a, c, img, tabs, mid, fromExif, entries, s1, s2, ha, hc, ho, hi, ht, hm, ki, kt, hf, he,
    o1, o2, o3, o4, hn, hu, _, _, _⟩ := plan_structure h
  obtain ⟨d1, d2, d3, d4, d5⟩ := mainDirectory_facts P.offset entries
  obtain ⟨e3, e12, rest, b1, b2, b3, b4⟩ := mainDirectoryEntries_ok he
  obtain ⟨hs1, hs2⟩ := plan_streams entries ha hc ho hi ht hm (isImageKind_not_eoi ki)
    (isTableKind_not_eoi kt)
  have hn0 : P.F.numComponents ≠ 0 := by omega
  obtain ⟨sof, f1, f2, f3⟩ := frames_exists mem_filter_isFrame hf hn0
  rw [o1, o2, o3, o4] at b4
  refine ⟨a, c, img, tabs, mainDirectory P.offset entries, sof, e3, e12, fromExif, rest, ?_, d1,
    ?_, b1, b2, ?_, ?_, hi, ht, ki, kt, o1, o2, o3, o4, f1, f2, f3, hn, ?_, ?_⟩
  · rw [s1, planSegments, layout_append,
      layout_single_even (s := mainDirectory P.offset entries) (by rw [d2, d4]; omega)]
    simp
  · intro e he1
    rw [← b4] at he1
    exact mem_mainDirectory he1
  · rw [s1]; exact hs1
  · rw [s1]; exact hs2
  · intro hq
    obtain ⟨usv, u1, u2, u3, u4, _⟩ := hu hq
    refine ⟨usv, ?_, u2, u3, u4⟩
    rw [s1]
    apply mem_layout
    simp [planSegments, layoutSegments, u1]
  · rw [s1, planSegments, layout_append, layout_layoutSegments ha hc]
    simp
theorem getLast_stream (x y : FileSegment) (A : List FileSegment) :
    (x :: (A ++ [y])).getLast? = some y := by
  have : x :: (A ++ [y]) = (x :: A) ++ [y] := rfl
  rw [this, List.getLast?_append]
  simp
theorem MakeUShort_lt {d : ByteVector} {i w : Nat} {e : Endianness}
    (h : MakeUShort d i e = Except.ok w) : w < 65536 := by
  unfold MakeUShort at h
  simp only [bind_ok] at h
  obtain ⟨d0, _, d1, _, h⟩ := h
  cases e <;> simp only [pure, Except.pure, Except.ok.injEq] at h <;> omega

/-- C5 (as stated, refuted): the minimal grayscale input is accepted, and in its main directory
the one entry with the tag StripByteCounts holds 38, while `2 + (13 + 10 + 10) + 2`, the sizes
of the inner SOI, of the clones of the SOF, SOS and image data segments and of the inner EOI,
add up to 37: the padding byte after the 13-byte SOF segment lies inside the strip. -/
theorem C5_counterexample :
    ∃ (P : Plan) (dir : FileSegment) (e : TiffDirEntry),
      ConvertJpegToTiff_plan stdTags grayInput = Except.ok P
      ∧ P.TiffFile.getLast? = some dir
      ∧ dir.m_entries.filter (fun x => decide (x.Tag = stdTags.StripByteCounts)) = [e]
      ∧ e.GetLongValue = Except.ok 38
      ∧ 2 + ((grayInput.filter isImageKind).map (fun s => s.m_size)).sum + 2 = 37 :=
  ⟨planOf stdTags grayInput, _, _, rfl, rfl, rfl, rfl, rfl⟩

/-- C5 (amended): for every accepted input the main directory has a StripByteCounts entry of
datatype ULong and count 1 whose value is, as a 32-bit number, `2 + S + 2`, where `S` is the sum
over the source segments of type SOF, SOS, RestartInterval and ImageData of the length of the
payload rounded up to an even number; and the inner EOI, the last segment of the stream that
StripOffsets points to, ends that many bytes after the offset of the inner SOI. -/
theorem C5_strip_byte_counts (T : TiffTag) (G : GraphicsVector) (P : Plan)
    (h : ConvertJpegToTiff_plan T G = Except.ok P) :
    ∃ (dir eoi : FileSegment) (e : TiffDirEntry),
      P.TiffFile.getLast? = some dir
      ∧ e ∈ dir.m_entries
      ∧ e.Tag = T.StripByteCounts ∧ e.GetDataType = Datatype.Ulong ∧ e.GetDataCount = 1
      ∧ e.GetLongValue = Except.ok
          ((2 + ((G.filter isImageKind).map (fun s => paddedSize s.m_data.length)).sum + 2)
            % 4294967296)
      ∧ (jpegStreamAt P.O.embedded_image_offset P.TiffFile).getLast? = some eoi
      ∧ eoi.segmenttype = Segmenttype.JpegEndOfImage
      ∧ eoi.m_offset + eoi.m_size = P.O.embedded_image_offset
          + (2 + ((G.filter isImageKind).map (fun s => paddedSize s.m_data.length)).sum + 2) := by
  obtain ⟨a, c, img, tabs, dir, sof, e3, e12, fx, rest, g1, _, hmem, _, _, hs1, _, hi, _, ki, _,
    o1, _⟩ := plan_summary h
  have ha : a = 10 + ((G.filter isImageKind).map (fun s => paddedSize s.m_data.length)).sum := by
    rw [← paddedSizes_of_kinds ki]
    exact Placed_end hi (by rfl)
  refine ⟨dir, eoiAt a, longEntry T.StripByteCounts (a + 2 - 8), g1, hmem _ (by simp), rfl, rfl,
    rfl, ?_, ?_, rfl, ?_⟩
  · rw [longEntry_value]
    congr 2
    omega
  · rw [o1, hs1]
    exact getLast_stream _ _ _
  · rw [o1]
    show a + 2 = _
    omega

/-- Witness of C5 on the minimal grayscale input, where the value is 38. -/
theorem C5_strip_byte_counts_witness :
    ConvertJpegToTiff_plan stdTags grayInput = Except.ok (planOf stdTags grayInput)
      ∧ ∃ (dir eoi : FileSegment) (e : TiffDirEntry),
          (planOf stdTags grayInput).TiffFile.getLast? = some dir
          ∧ e ∈ dir.m_entries
          ∧ e.Tag = stdTags.StripByteCounts ∧ e.GetDataType = Datatype.Ulong
          ∧ e.GetDataCount = 1
          ∧ e.GetLongValue = Except.ok
              ((2 + ((grayInput.filter isImageKind).map
                  (fun s => paddedSize s.m_data.length)).sum + 2) % 4294967296)
          ∧ (jpegStreamAt (planOf stdTags grayInput).O.embedded_image_offset
              (planOf stdTags grayInput).TiffFile).getLast? = some eoi
          ∧ eoi.segmenttype = Segmenttype.JpegEndOfImage
          ∧ eoi.m_offset + eoi.m_size = (planOf stdTags grayInput).O.embedded_image_offset
              + (2 + ((grayInput.filter isImageKind).map
                  (fun s => paddedSize s.m_data.length)).sum + 2) :=
  ⟨rfl, C5_strip_byte_counts stdTags grayInput (planOf stdTags grayInput) rfl⟩
/-- C6: for every accepted input, with `sof` the start-of-frame segment of the source (the last
one, should there be several), `soi` the inner SOI (the second segment of the planned list) and
`eoi` the inner EOI (the last segment of the stream that starts at `soi`), the main directory
holds, each with count 1: ImageWidth (ULong) with the big-endian 16-bit value at bytes 7..8 of
`sof`, ImageLength (ULong) with the one at bytes 5..6, Compression (UShort) 7,
PhotometricInterpretation (UShort) 1 if byte 9 of `sof`, the number of components, is 1 and 6
otherwise, StripOffsets (ULong) with the offset of `soi`, SamplesPerPixel (UShort) with the
number of components (as a 16-bit number), StripByteCounts (ULong) with the offset just after
`eoi` minus the offset of `soi` (as a 32-bit number), and PlanarConfig (UShort) 1. -/
theorem C6_main_directory_fields (T : TiffTag) (G : GraphicsVector) (P : Plan)
    (h : ConvertJpegToTiff_plan T G = Except.ok P) :
    ∃ (sof soi eoi dir : FileSegment) (w l n : Nat),
      (G.filter isFrame).getLast? = some sof
      ∧ MakeUShort sof.m_data 7 Endianness.Big = Except.ok w
      ∧ MakeUShort sof.m_data 5 Endianness.Big = Except.ok l
      ∧ byteAt sof.m_data 9 = Except.ok n
      ∧ P.TiffFile[1]? = some soi ∧ soi.segmenttype = Segmenttype.JpegStartOfImage
      ∧ (jpegStreamAt soi.m_offset P.TiffFile).getLast? = some eoi
      ∧ eoi.segmenttype = Segmenttype.JpegEndOfImage
      ∧ P.TiffFile.getLast? = some dir ∧ dir.segmenttype = Segmenttype.TiffDirectory
      ∧ (∃ e ∈ dir.m_entries, e.Tag = T.ImageWidth ∧ e.GetDataType = Datatype.Ulong
          ∧ e.GetDataCount = 1 ∧ e.GetLongValue = Except.ok w)
      ∧ (∃ e ∈ dir.m_entries, e.Tag = T.ImageLength ∧ e.GetDataType = Datatype.Ulong
          ∧ e.GetDataCount = 1 ∧ e.GetLongValue = Except.ok l)
      ∧ (∃ e ∈ dir.m_entries, e.Tag = T.Compression ∧ e.GetDataType = Datatype.Ushort
          ∧ e.GetDataCount = 1 ∧ e.GetTwoShorts = Except.ok { s0 := 7, s1 := 0 })
      ∧ (∃ e ∈ dir.m_entries, e.Tag = T.PhotometricInterpretation
          ∧ e.GetDataType = Datatype.Ushort ∧ e.GetDataCount = 1
          ∧ e.GetTwoShorts = Except.ok { s0 := if n = 1 then 1 else 6, s1 := 0 })
      ∧ (∃ e ∈ dir.m_entries, e.Tag = T.StripOffsets ∧ e.GetDataType = Datatype.Ulong
          ∧ e.GetDataCount = 1 ∧ e.GetOffsetField = Except.ok soi.m_offset)
      ∧ (∃ e ∈ dir.m_entries, e.Tag = T.SamplesPerPixel ∧ e.GetDataType = Datatype.Ushort
          ∧ e.GetDataCount = 1 ∧ e.GetTwoShorts = Except.ok { s0 := n % 65536, s1 := 0 })
      ∧ (∃ e ∈ dir.m_entries, e.Tag = T.StripByteCounts ∧ e.GetDataType = Datatype.Ulong
          ∧ e.GetDataCount = 1
          ∧ e.GetLongValue
              = Except.ok ((eoi.m_offset + eoi.m_size - soi.m_offset) % 4294967296))
      ∧ (∃ e ∈ dir.m_entries, e.Tag = T.PlanarConfig ∧ e.GetDataType = Datatype.Ushort
          ∧ e.GetDataCount = 1 ∧ e.GetTwoShorts = Except.ok { s0 := 1, s1 := 0 }) := by
  obtain ⟨a, c, img, tabs, dir, sof, e3, e12, fx, rest, g1, g2, hmem, _, _, hs1, _, _, _, _, _,
    _, _, _, _, f1, _, ⟨w1, w2, _, w4, _⟩, _, _, hsoi⟩ := plan_summary h
  refine ⟨sof, soiAt 8, eoiAt a, dir, P.F.imageWidth, P.F.imageLength, P.F.numComponents, f1, w1,
    w2, w4, hsoi, rfl, ?_, rfl, g1, g2,
    ⟨_, hmem (longEntry T.ImageWidth P.F.imageWidth) (by simp), rfl, rfl, rfl, ?_⟩,
    ⟨_, hmem (longEntry T.ImageLength P.F.imageLength) (by simp), rfl, rfl, rfl, ?_⟩,
    ⟨_, hmem (shortsEntry T.Compression 1 7 0) (by simp), rfl, rfl, rfl, ?_⟩,
    ⟨_, hmem (shortsEntry T.PhotometricInterpretation 1
      (if P.F.numComponents = 1 then 1 else 6) 0) (by simp), rfl, rfl, rfl, ?_⟩,
    ⟨_, hmem (offsetEntry T.StripOffsets Datatype.Ulong 1 8) (by simp), rfl, rfl, rfl, ?_⟩,
    ⟨_, hmem (shortsEntry T.SamplesPerPixel 1 P.F.numComponents 0) (by simp), rfl, rfl, rfl, ?_⟩,
    ⟨_, hmem (longEntry T.StripByteCounts (a + 2 - 8)) (by simp), rfl, rfl, rfl, ?_⟩,
    ⟨_, hmem (shortsEntry T.PlanarConfig 1 1 0) (by simp), rfl, rfl, rfl, ?_⟩⟩
  · show (jpegStreamAt 8 P.TiffFile).getLast? = _
    rw [hs1]
    exact getLast_stream _ _ _
  · rw [longEntry_value, Nat.mod_eq_of_lt (by have := MakeUShort_lt w1; omega)]
  · rw [longEntry_value, Nat.mod_eq_of_lt (by have := MakeUShort_lt w2; omega)]
  · rw [shortsEntry_value]
  · rw [shortsEntry_value]
    split <;> rfl
  · rw [offsetEntry_value]
    rfl
  · rw [shortsEntry_value]
  · rw [longEntry_value]
    rfl
  · rw [shortsEntry_value]

/-- Witness of C6 on the minimal grayscale input (8 by 8 pixels, one component; the strip
starts at offset 8 and takes 38 bytes). -/
theorem C6_main_directory_fields_witness :
    ConvertJpegToTiff_plan stdTags grayInput = Except.ok (planOf stdTags grayInput)
      ∧ ∃ (sof soi eoi dir : FileSegment) (w l n : Nat),
        (grayInput.filter isFrame).getLast? = some sof
        ∧ MakeUShort sof.m_data 7 Endianness.Big = Except.ok w
        ∧ MakeUShort sof.m_data 5 Endianness.Big = Except.ok l
        ∧ byteAt sof.m_data 9 = Except.ok n
        ∧ (planOf stdTags grayInput).TiffFile[1]? = some soi
            ∧ soi.segmenttype = Segmenttype.JpegStartOfImage
        ∧ (jpegStreamAt soi.m_offset (planOf stdTags grayInput).TiffFile).getLast? = some eoi
        ∧ eoi.segmenttype = Segmenttype.JpegEndOfImage
        ∧ (planOf stdTags grayInput).TiffFile.getLast? = some dir
            ∧ dir.segmenttype = Segmenttype.TiffDirectory
        ∧ (∃ e ∈ dir.m_entries, e.Tag = stdTags.ImageWidth ∧ e.GetDataType = Datatype.Ulong
            ∧ e.GetDataCount = 1 ∧ e.GetLongValue = Except.ok w)
        ∧ (∃ e ∈ dir.m_entries, e.Tag = stdTags.ImageLength ∧ e.GetDataType = Datatype.Ulong
            ∧ e.GetDataCount = 1 ∧ e.GetLongValue = Except.ok l)
        ∧ (∃ e ∈ dir.m_entries, e.Tag = stdTags.Compression ∧ e.GetDataType = Datatype.Ushort
            ∧ e.GetDataCount = 1 ∧ e.GetTwoShorts = Except.ok { s0 := 7, s1 := 0 })
        ∧ (∃ e ∈ dir.m_entries, e.Tag = stdTags.PhotometricInterpretation
            ∧ e.GetDataType = Datatype.Ushort ∧ e.GetDataCount = 1
            ∧ e.GetTwoShorts = Except.ok { s0 := if n = 1 then 1 else 6, s1 := 0 })
        ∧ (∃ e ∈ dir.m_entries, e.Tag = stdTags.StripOffsets ∧ e.GetDataType = Datatype.Ulong
            ∧ e.GetDataCount = 1 ∧ e.GetOffsetField = Except.ok soi.m_offset)
        ∧ (∃ e ∈ dir.m_entries, e.Tag = stdTags.SamplesPerPixel ∧ e.GetDataType = Datatype.Ushort
            ∧ e.GetDataCount = 1 ∧ e.GetTwoShorts = Except.ok { s0 := n % 65536, s1 := 0 })
        ∧ (∃ e ∈ dir.m_entries, e.Tag = stdTags.StripByteCounts ∧ e.GetDataType = Datatype.Ulong
            ∧ e.GetDataCount = 1
            ∧ e.GetLongValue
                = Except.ok ((eoi.m_offset + eoi.m_size - soi.m_offset) % 4294967296))
        ∧ (∃ e ∈ dir.m_entries, e.Tag = stdTags.PlanarConfig ∧ e.GetDataType = Datatype.Ushort
            ∧ e.GetDataCount = 1 ∧ e.GetTwoShorts = Except.ok { s0 := 1, s1 := 0 }) :=
  ⟨rfl, C6_main_directory_fields stdTags grayInput (planOf stdTags grayInput) rfl⟩
/-- C7: for every accepted input, `jpeg_tables_start` is the offset just after the inner EOI;
the non-padding segments of the planned list from that offset up to the first EOI are a two-byte
`FF D8` segment, one clone per source segment of type DQT or DHT, in source order and with the
payload of its source, and a two-byte `FF D9` segment that ends at `jpeg_tables_end`; and the
main directory holds a JPEGTables entry of datatype 7 whose count is
`jpeg_tables_end - jpeg_tables_start` and whose value field is the offset `jpeg_tables_start`
(as a 32-bit number). -/
theorem C7_jpeg_tables (T : TiffTag) (G : GraphicsVector) (P : Plan)
    (h : ConvertJpegToTiff_plan T G = Except.ok P) :
    ∃ (eoi eoi2 dir : FileSegment) (e : TiffDirEntry),
      (jpegStreamAt P.O.embedded_image_offset P.TiffFile).getLast? = some eoi
      ∧ eoi.segmenttype = Segmenttype.JpegEndOfImage
      ∧ P.O.jpeg_tables_start = eoi.m_offset + eoi.m_size
      ∧ (jpegStreamAt P.O.jpeg_tables_start P.TiffFile).map kindData
          = (Segmenttype.JpegStartOfImage, [0xff, 0xd8])
              :: (G.filter isTableKind).map kindData
                ++ [(Segmenttype.JpegEndOfImage, [0xff, 0xd9])]
      ∧ (∀ s ∈ jpegStreamAt P.O.jpeg_tables_start P.TiffFile, s.m_size = s.m_data.length)
      ∧ (jpegStreamAt P.O.jpeg_tables_start P.TiffFile).getLast? = some eoi2
      ∧ P.O.jpeg_tables_end = eoi2.m_offset + eoi2.m_size
      ∧ P.TiffFile.getLast? = some dir
      ∧ e ∈ dir.m_entries
      ∧ e.Tag = T.JPEGTables ∧ e.GetDataType = 7
      ∧ e.GetDataCount = P.O.jpeg_tables_end - P.O.jpeg_tables_start
      ∧ e.GetOffsetField = Except.ok (P.O.jpeg_tables_start % 4294967296) := by
  obtain ⟨a, c, img, tabs, dir, sof, e3, e12, fx, rest, g1, _, hmem, _, _, hs1, hs2, _, ht, _, kt,
    o1, _, o3, o4, _⟩ := plan_summary h
  rw [o1, o3, o4, hs1, hs2]
  refine ⟨eoiAt a, eoiAt c, dir,
    offsetEntry T.JPEGTables Datatype.Xbyte (c + 2 - (a + 2)) (a + 2),
    getLast_stream _ _ _, rfl, rfl, ?_, ?_, getLast_stream _ _ _, rfl, g1, hmem _ (by simp), rfl,
    rfl, rfl, offsetEntry_value _ _ _ _⟩
  · simp [kindData, soiAt, eoiAt, ← kt]
  · intro s hs
    simp only [List.cons_append, List.mem_cons, List.mem_append, List.mem_singleton,
      List.not_mem_nil, or_false] at hs
    rcases hs with hs | hs | hs
    · subst hs; rfl
    · exact Placed_sizes ht s hs
    · subst hs; rfl

/-- Witness of C7 on the minimal grayscale input (the tables stream lies at offsets 46 to 64). -/
theorem C7_jpeg_tables_witness :
    ConvertJpegToTiff_plan stdTags grayInput = Except.ok (planOf stdTags grayInput)
      ∧ ∃ (eoi eoi2 dir : FileSegment) (e : TiffDirEntry),
        (jpegStreamAt (planOf stdTags grayInput).O.embedded_image_offset
            (planOf stdTags grayInput).TiffFile).getLast? = some eoi
        ∧ eoi.segmenttype = Segmenttype.JpegEndOfImage
        ∧ (planOf stdTags grayInput).O.jpeg_tables_start = eoi.m_offset + eoi.m_size
        ∧ (jpegStreamAt (planOf stdTags grayInput).O.jpeg_tables_start
            (planOf stdTags grayInput).TiffFile).map kindData
            = (Segmenttype.JpegStartOfImage, [0xff, 0xd8])
                :: (grayInput.filter isTableKind).map kindData
                  ++ [(Segmenttype.JpegEndOfImage, [0xff, 0xd9])]
        ∧ (∀ s ∈ jpegStreamAt (planOf stdTags grayInput).O.jpeg_tables_start
            (planOf stdTags grayInput).TiffFile, s.m_size = s.m_data.length)
        ∧ (jpegStreamAt (planOf stdTags grayInput).O.jpeg_tables_start
            (planOf stdTags grayInput).TiffFile).getLast? = some eoi2
        ∧ (planOf stdTags grayInput).O.jpeg_tables_end = eoi2.m_offset + eoi2.m_size
        ∧ (planOf stdTags grayInput).TiffFile.getLast? = some dir
        ∧ e ∈ dir.m_entries
        ∧ e.Tag = stdTags.JPEGTables ∧ e.GetDataType = 7
        ∧ e.GetDataCount
            = (planOf stdTags grayInput).O.jpeg_tables_end -
                (planOf stdTags grayInput).O.jpeg_tables_start
        ∧ e.GetOffsetField
            = Except.ok ((planOf stdTags grayInput).O.jpeg_tables_start % 4294967296) :=
  ⟨rfl, C7_jpeg_tables stdTags grayInput (planOf stdTags grayInput) rfl⟩

theorem push_back_succeeds (s : FileSegment) (num : Nat)
    (hd : s.m_datatype = Datatype.Ushort) :
    ∃ s1, s.push_back num = Except.ok s1 ∧ s1.m_datatype = Datatype.Ushort := by
  cases hr : s.push_back num with
  | ok s1 =>
    unfold FileSegment.push_back at hr
    have hq := (RebuildBinaryData_NumericVector_ok hr).2.2.2.2.1
    exact ⟨s1, rfl, hq.trans hd⟩
  | error err =>
    exfalso
    simp [FileSegment.push_back, FileSegment.RebuildBinaryData_NumericVector, hd,
      TiffDatatypeLength, ASSERT, bind, Except.bind, pure, Except.pure] at hr

theorem foldlM_push_back_succeeds : ∀ (vals : List Nat) (s : FileSegment),
    s.m_datatype = Datatype.Ushort → ∃ s1, vals.foldlM FileSegment.push_back s = Except.ok s1 := by
  intro vals
  induction vals with
  | nil => intro s _; exact ⟨s, rfl⟩
  | cons v rest ih =>
    intro s hd
    obtain ⟨s1, h1, h2⟩ := push_back_succeeds s v hd
    obtain ⟨s2, h3⟩ := ih s1 h2
    refine ⟨s2, ?_⟩
    simp only [List.foldlM_cons, h1]
    exact h3

theorem writeBitsPerSample_succeeds (F : FrameVars) (L : GraphicsVector) (off : Nat) :
    ∃ r, writeBitsPerSample F L off Endianness.Little = Except.ok r := by
  unfold writeBitsPerSample
  by_cases hn : F.numComponents > 2
  · rw [if_pos hn, CreateSegment_UShortVector]
    obtain ⟨usv, hu⟩ := foldlM_push_back_succeeds
      (List.replicate F.numComponents F.bitsPerSample)
      { segmenttype := Segmenttype.TiffUShortVector, m_offset := off, m_size := 0,
        m_Endianness := Endianness.Little, m_datatype := Datatype.Ushort, m_datacount := 0 } rfl
    have hne : List.replicate F.numComponents F.bitsPerSample ≠ [] := by
      intro hq
      have := congrArg List.length hq
      simp at this
      omega
    obtain ⟨hsz, _⟩ := (push_back_fold _ _ _ hu).2.2.2.2.2 hne
    refine ⟨(L ++ block usv, blockEnd usv), ?_⟩
    show (Except.ok _ >>= fun S => _) = _
    simp only [bind, Except.bind, hu]
    rw [AddSegmentPadded_eq, if_pos hsz]
  · rw [if_neg hn]
    exact ⟨_, rfl⟩

theorem ofOffset_bytes_eq (tag cnt off : Nat) (h4 : 4 ≤ cnt) (hlt : cnt < 2147483648) :
    TiffDirEntry.ofOffset tag Datatype.Xbyte cnt off Endianness.Little
      = Except.ok (offsetEntry tag Datatype.Xbyte cnt off) := by
  have ht : toInt32 (cnt * 1) ≥ 4 := by
    unfold toInt32
    rw [Nat.mul_one, Nat.mod_eq_of_lt (by omega), if_pos hlt]
    omega
  simp only [TiffDirEntry.ofOffset, TiffDatatypeLength, ASSERT, bind, Except.bind, ht,
    decide_True, if_true, pure, Except.pure]
  rfl

theorem mainDirectoryEntries_illegal (T : TiffTag) (F : FrameVars) (O : Offsets)
    (fx : List TiffDirEntry) (hn : F.numComponents > 2)
    (h4 : 4 ≤ O.jpeg_tables_end - O.jpeg_tables_start)
    (hlt : O.jpeg_tables_end - O.jpeg_tables_start < 2147483648)
    (hd : ¬ (horizontal_divisor F > 0 ∧ vertical_divisor F > 0)) :
    mainDirectoryEntries T F O fx Endianness.Little
      = Except.error Error.IllegalSubsampling := by
  have h3 : bitsPerSampleEntry T F O Endianness.Little
      = Except.ok [offsetEntry T.BitsPerSample Datatype.Ushort 3 O.bitsPerSample_offset] := by
    unfold bitsPerSampleEntry
    rw [if_pos hn]
    rfl
  have h12 : subSamplingEntry T F Endianness.Little = Except.error Error.IllegalSubsampling := by
    unfold subSamplingEntry
    rw [if_neg hd, if_pos hn]
  unfold mainDirectoryEntries
  simp only [ofLong_eq, ofShorts_one, ofOffset_long, ofOffset_bytes_eq _ _ _ h4 hlt, h3, h12, bind,
    Except.bind]
theorem divisors_legal {d : ByteVector} {F : FrameVars}
    (hf : F.horizontalSampleFactor_Y = hFactor d 0 ∧ F.horizontalSampleFactor_Cb = hFactor d 1
      ∧ F.horizontalSampleFactor_Cr = hFactor d 2 ∧ F.verticalSampleFactor_Y = vFactor d 0
      ∧ F.verticalSampleFactor_Cb = vFactor d 1 ∧ F.verticalSampleFactor_Cr = vFactor d 2) :
    (horizontal_divisor F > 0 ∧ vertical_divisor F > 0) ↔ legalSubsampling d := by
  obtain ⟨h1, h2, h3, h4, h5, h6⟩ := hf
  unfold horizontal_divisor vertical_divisor legalSubsampling
  rw [h1, h2, h3, h4, h5, h6]
  constructor
  · rintro ⟨p, q⟩
    split at p
    · split at q
      · rename_i x y
        exact ⟨x.1, x.2.1, x.2.2, y.1, y.2.1, y.2.2⟩
      · omega
    · omega
  · intro hl
    rw [if_pos ⟨hl.1, hl.2.1, hl.2.2.1⟩, if_pos ⟨hl.2.2.2.1, hl.2.2.2.2.1, hl.2.2.2.2.2⟩]
    obtain ⟨_, _, x, _, _, y⟩ := hl
    omega

theorem planDirectory_illegal {T : TiffTag} {L : LayoutState} {a c : Nat}
    {img tabs mid : List FileSegment}
    (hL : L.TiffFile = layout (layoutSegments 0 a c img tabs mid))
    (ha : a % 2 = 0) (hc : c % 2 = 0) (hn : L.F.numComponents > 2)
    (h4 : 4 ≤ L.O.jpeg_tables_end - L.O.jpeg_tables_start)
    (hlt : L.O.jpeg_tables_end - L.O.jpeg_tables_start < 2147483648)
    (hd : ¬ (horizontal_divisor L.F > 0 ∧ vertical_divisor L.F > 0)) :
    planDirectory T L = Except.error Error.IllegalSubsampling := by
  obtain ⟨r10, hr⟩ := writeBitsPerSample_succeeds L.F L.TiffFile L.offset
  obtain ⟨segs, hs, _⟩ := writeBitsPerSample_ok hr
  have hp : patchTiffHeader r10.2 r10.1
      = Except.ok (headerWith r10.2 :: (soiAt 8 :: (layout img ++ eoiAt a :: soiAt (a + 2)
          :: (layout tabs ++ eoiAt c :: layout mid)) ++ layout segs)) := by
    rw [hs, hL, layout_layoutSegments ha hc]
    exact patchTiffHeader_header _ _ _
  have hA : checkNumComponents L.F.numComponents = Except.ok () := by
    simp [checkNumComponents, ASSERT, hn]
  have hm := mainDirectoryEntries_illegal T L.F { L.O with bitsPerSample_offset := L.offset }
    L.main_dir_entries_from_exif hn h4 hlt hd
  unfold planDirectory
  simp only [hA, hr, hp, CreateSegment_TiffDirectory, hm, bind, Except.bind]

theorem plan_illegal {T : TiffTag} {G : GraphicsVector} {L : LayoutState} {sof : FileSegment}
    (hL : planLayout T G = Except.ok L) (hs : (G.filter isFrame).getLast? = some sof)
    (hlt : L.offset < 2147483648) (hn : declaredComponents sof.m_data > 2)
    (hl : ¬ legalSubsampling sof.m_data) :
    ConvertJpegToTiff_plan T G = Except.error Error.IllegalSubsampling := by
  obtain ⟨a, c, img, tabs, mid, l1, ha, hc, l2, l3, l4, l5, l6, l7, l8, l9, l10, l11, l12, l13,
    l14⟩ := planLayout_structure hL
  obtain ⟨f1, f2, f3, f4, f5⟩ := frames_last _ _ _ _ mem_filter_isFrame l7 hs
  have hn1 : L.F.numComponents > 2 := by
    have := byteAt_getD f4
    unfold declaredComponents at hn
    omega
  have hd : ¬ (horizontal_divisor L.F > 0 ∧ vertical_divisor L.F > 0) :=
    fun hq => hl ((divisors_legal (f5 hn1)).1 hq)
  have m1 := Placed_mono l3
  have m2 := Placed_mono l4
  have hq := planDirectory_illegal (T := T) l1 ha hc hn1 (by rw [l10, l11]; omega)
    (by rw [l10, l11]; omega) hd
  unfold ConvertJpegToTiff_plan
  simp only [hL, hq, bind, Except.bind]
theorem frames_keep {T : TiffTag} : ∀ (sofs : List FileSegment) (F0 F : FrameVars),
    (∀ s ∈ sofs, s.segmenttype = Segmenttype.JpegStartOfFrame
      ∧ declaredComponents s.m_data ≤ 2) →
    frames T sofs F0 = Except.ok F →
    F.horizontalSampleFactor_Y = F0.horizontalSampleFactor_Y := by
  intro sofs
  induction sofs with
  | nil =>
    intro F0 F _ h
    simp only [frames, pure, Except.pure, Except.ok.injEq] at h
    rw [h]
  | cons s rest ih =>
    intro F0 F hs h
    simp only [frames, bind_ok] at h
    obtain ⟨c, hc, F1, hF1, h⟩ := h
    obtain ⟨hk, hn⟩ := hs s (List.mem_cons_self _ _)
    obtain ⟨⟨_, _, _, f4, _⟩, keep⟩ := readFrame_ok hk hc hF1
    have hq : ¬ F1.numComponents > 2 := by
      have := byteAt_getD f4
      unfold declaredComponents at hn
      omega
    rw [ih F1 F (fun x hx => hs x (List.mem_cons_of_mem _ hx)) h]
    exact (keep hq).1

theorem checkBaseline_unsupported : ∀ (G : GraphicsVector),
    (∀ s ∈ G, s.segmenttype ≠ Segmenttype.Undefined) →
    (∀ s ∈ G, s.segmenttype = Segmenttype.JpegStartOfFrame →
      ∃ b rest, s.m_data = 0xff :: b :: rest) →
    (∃ s ∈ G, s.segmenttype = Segmenttype.JpegStartOfFrame ∧ s.m_data.take 2 ≠ [0xff, 0xc0]) →
    checkBaseline G = Except.error Error.UnsupportedFrame := by
  intro G
  induction G with
  | nil => rintro _ _ ⟨s, hs, _⟩; cases hs
  | cons it rest ih =>
    intro hU hM hbad
    have hseg : it.GetSegmenttype = Except.ok it.segmenttype :=
      GetSegmenttype_ok.2 ⟨hU it (List.mem_cons_self _ _), rfl⟩
    have hrest : (∃ s ∈ rest, s.segmenttype = Segmenttype.JpegStartOfFrame
        ∧ s.m_data.take 2 ≠ [0xff, 0xc0]) →
        checkBaseline rest = Except.error Error.UnsupportedFrame :=
      ih (fun s hs => hU s (List.mem_cons_of_mem _ hs))
        (fun s hs => hM s (List.mem_cons_of_mem _ hs))
    unfold checkBaseline
    simp only [hseg, bind, Except.bind]
    by_cases hk : it.segmenttype = Segmenttype.JpegStartOfFrame
    · rw [if_pos hk]
      obtain ⟨b, tl, hd⟩ := hM it (List.mem_cons_self _ _) hk
      have g0 : it.GetDataByte 0 = Except.ok 0xff := by
        simp [FileSegment.GetDataByte, hd, ASSERT, byteAt, bind, Except.bind]
      have g1 : it.GetDataByte 1 = Except.ok b := by
        simp [FileSegment.GetDataByte, hd, ASSERT, byteAt, bind, Except.bind]
      simp only [g0, g1, ASSERT, decide_True, if_true]
      by_cases hb : b = 0xc0
      · rw [if_neg (by simpa using hb)]
        apply hrest
        obtain ⟨s, hs, h1, h2⟩ := hbad
        rcases List.mem_cons.1 hs with hs | hs
        · subst hs
          rw [hd, hb] at h2
          exact absurd rfl h2
        · exact ⟨s, hs, h1, h2⟩
      · rw [if_pos (by simpa using hb)]
    · rw [if_neg hk]
      apply hrest
      obtain ⟨s, hs, h1, h2⟩ := hbad
      rcases List.mem_cons.1 hs with hs | hs
      · subst hs
        exact absurd h1 hk
      · exact ⟨s, hs, h1, h2⟩

theorem plan_unsupported {T : TiffTag} {G : GraphicsVector}
    (h0 : ∃ g0 rest, G = g0 :: rest ∧ g0.segmenttype = Segmenttype.JpegStartOfImage)
    (hc : checkBaseline G = Except.error Error.UnsupportedFrame) :
    ConvertJpegToTiff_plan T G = Except.error Error.UnsupportedFrame := by
  obtain ⟨g0, rest, hG, hk⟩ := h0
  subst hG
  have hseg : g0.GetSegmenttype = Except.ok Segmenttype.JpegStartOfImage :=
    GetSegmenttype_ok.2 ⟨by rw [hk]; decide, hk.symm⟩
  unfold ConvertJpegToTiff_plan planLayout
  simp only [hseg, hc, bind, Except.bind, ne_eq, not_true_eq_false, if_false]
theorem divisors_value {d : ByteVector} {F : FrameVars}
    (hf : F.horizontalSampleFactor_Y = hFactor d 0 ∧ F.horizontalSampleFactor_Cb = hFactor d 1
      ∧ F.horizontalSampleFactor_Cr = hFactor d 2 ∧ F.verticalSampleFactor_Y = vFactor d 0
      ∧ F.verticalSampleFactor_Cb = vFactor d 1 ∧ F.verticalSampleFactor_Cr = vFactor d 2)
    (hl : legalSubsampling d) :
    horizontal_divisor F = hFactor d 0 ∧ vertical_divisor F = vFactor d 0
      ∧ hFactor d 0 ≤ 4 ∧ vFactor d 0 ≤ 4 := by
  obtain ⟨h1, h2, h3, h4, h5, h6⟩ := hf
  unfold horizontal_divisor vertical_divisor
  unfold legalSubsampling at hl
  rw [h1, h2, h3, h4, h5, h6, if_pos ⟨hl.1, hl.2.1, hl.2.2.1⟩,
    if_pos ⟨hl.2.2.2.1, hl.2.2.2.2.1, hl.2.2.2.2.2⟩]
  obtain ⟨_, _, x, _, _, y⟩ := hl
  exact ⟨rfl, rfl, by omega, by omega⟩

theorem subSamplingEntry_none {T : TiffTag} {F : FrameVars}
    (hY : F.horizontalSampleFactor_Y = 0) (hn : F.numComponents = 1) :
    subSamplingEntry T F Endianness.Little = Except.ok [] := by
  have hd : horizontal_divisor F = 0 := by
    unfold horizontal_divisor
    rw [hY]
    split <;> rfl
  unfold subSamplingEntry
  rw [if_neg (by rw [hd]; omega), if_neg (by omega)]
  rfl

/-- C8 (what the code does): for every accepted input, with `prec` and `n` the bytes 4 and 9 of
the start-of-frame segment (precision and number of components), the main directory holds a
BitsPerSample entry of datatype UShort; if `n > 2` its count is the constant 3, whatever `n`
is, and its value field is the offset (as a 32-bit number) of a `TiffUShortVector` segment of
the planned list that has `n` entries, each equal to `prec`; if `n = 1` its count is 1 and
`prec` (as a 16-bit number) is stored inline. -/
theorem C8_bits_per_sample (T : TiffTag) (G : GraphicsVector) (P : Plan)
    (h : ConvertJpegToTiff_plan T G = Except.ok P) :
    ∃ (sof dir : FileSegment) (e : TiffDirEntry) (prec n : Nat),
      (G.filter isFrame).getLast? = some sof
      ∧ byteAt sof.m_data 4 = Except.ok prec
      ∧ byteAt sof.m_data 9 = Except.ok n
      ∧ P.TiffFile.getLast? = some dir
      ∧ e ∈ dir.m_entries
      ∧ e.Tag = T.BitsPerSample ∧ e.GetDataType = Datatype.Ushort
      ∧ (n > 2 → e.GetDataCount = 3
          ∧ ∃ usv ∈ P.TiffFile, usv.segmenttype = Segmenttype.TiffUShortVector
            ∧ e.GetOffsetField = Except.ok (usv.m_offset % 4294967296)
            ∧ usv.m_vector = List.replicate n prec)
      ∧ (n = 1 → e.GetDataCount = 1
          ∧ e.GetTwoShorts = Except.ok { s0 := prec % 65536, s1 := 0 }) := by
  obtain ⟨a, c, img, tabs, dir, sof, e3, e12, fx, rest, g1, _, hmem, b1, _, _, _, _, _, _, _,
    _, _, _, _, f1, _, ⟨_, _, w3, w4, _⟩, hn, hu, _⟩ := plan_summary h
  obtain ⟨q1, q2⟩ := bitsPerSampleEntry_ok b1
  rcases hn with hn | hn
  · have he := q2 hn
    subst he
    refine ⟨sof, dir, shortsEntry T.BitsPerSample 1 P.F.bitsPerSample 0, P.F.bitsPerSample,
      P.F.numComponents, f1, w3, w4, g1, hmem _ (by simp), rfl, rfl, fun hq => by omega,
      fun _ => ⟨rfl, ?_⟩⟩
    rw [shortsEntry_value]
  · have he := q1 hn
    subst he
    obtain ⟨usv, u1, u2, u3, u4⟩ := hu hn
    refine ⟨sof, dir, offsetEntry T.BitsPerSample Datatype.Ushort 3 P.O.bitsPerSample_offset,
      P.F.bitsPerSample, P.F.numComponents, f1, w3, w4, g1, hmem _ (by simp), rfl, rfl,
      fun _ => ⟨rfl, usv, u1, u2, ?_, u4⟩, fun hq => by omega⟩
    rw [offsetEntry_value, u3]

/-- C8 (the failing input): the four-component input is accepted; the one BitsPerSample entry of
its main directory has count 3 and points to offset 66, where the planned list has a
`TiffUShortVector` segment with the four entries 8, 8, 8, 8; the SamplesPerPixel entry holds 4. -/
theorem C8_four_components :
    ∃ (P : Plan) (dir usv : FileSegment) (e e7 : TiffDirEntry),
      ConvertJpegToTiff_plan stdTags fourComponentInput = Except.ok P
      ∧ P.TiffFile.getLast? = some dir
      ∧ dir.m_entries.filter (fun x => decide (x.Tag = stdTags.BitsPerSample)) = [e]
      ∧ e.GetDataCount = 3
      ∧ e.GetOffsetField = Except.ok 66
      ∧ P.TiffFile.filter (fun s => decide (s.m_offset = 66)) = [usv]
      ∧ usv.segmenttype = Segmenttype.TiffUShortVector
      ∧ usv.m_vector = [8, 8, 8, 8]
      ∧ dir.m_entries.filter (fun x => decide (x.Tag = stdTags.SamplesPerPixel)) = [e7]
      ∧ e7.GetTwoShorts = Except.ok { s0 := 4, s1 := 0 } :=
  ⟨planOf stdTags fourComponentInput, _, _, _, _, rfl, rfl, rfl, rfl, rfl, rfl, rfl, rfl, rfl,
    rfl⟩

/-- Witness of C8 on the four-component input. -/
theorem C8_bits_per_sample_witness :
    ConvertJpegToTiff_plan stdTags fourComponentInput
        = Except.ok (planOf stdTags fourComponentInput)
      ∧ ∃ (sof dir : FileSegment) (e : TiffDirEntry) (prec n : Nat),
        (fourComponentInput.filter isFrame).getLast? = some sof
        ∧ byteAt sof.m_data 4 = Except.ok prec
        ∧ byteAt sof.m_data 9 = Except.ok n
        ∧ (planOf stdTags fourComponentInput).TiffFile.getLast? = some dir
        ∧ e ∈ dir.m_entries
        ∧ e.Tag = stdTags.BitsPerSample ∧ e.GetDataType = Datatype.Ushort
        ∧ (n > 2 → e.GetDataCount = 3
            ∧ ∃ usv ∈ (planOf stdTags fourComponentInput).TiffFile, usv.segmenttype
                = Segmenttype.TiffUShortVector
              ∧ e.GetOffsetField = Except.ok (usv.m_offset % 4294967296)
              ∧ usv.m_vector = List.replicate n prec)
        ∧ (n = 1 → e.GetDataCount = 1
            ∧ e.GetTwoShorts = Except.ok { s0 := prec % 65536, s1 := 0 }) :=
  ⟨rfl, C8_bits_per_sample stdTags fourComponentInput (planOf stdTags fourComponentInput) rfl⟩

/-- C9 (as stated, refuted): the three-component input whose Y component has the sampling byte
`52` (horizontal factor 5) does not meet the condition on the factors, yet `ConvertJpegToTiff`
does not fail with the illegal-subsampling error: `GetHorizontalSamplingFactor` fails its
assertion that the factor lies between 1 and 4. -/
theorem C9_counterexample :
    ∃ sof, (colorInput 0x52 0x11 0x11).filter isFrame = [sof]
      ∧ declaredComponents sof.m_data = 3
      ∧ hFactor sof.m_data 0 = 5
      ∧ ¬ legalSubsampling sof.m_data
      ∧ ConvertJpegToTiff stdTags (colorInput 0x52 0x11 0x11)
          = { error := some Error.AssertFailure, outfile := none } :=
  ⟨_, rfl, rfl, rfl, by decide, rfl⟩

/-- C9 (amended): let `sof` be the start-of-frame segment of the input (the last one, should
there be several), with the sampling factors as `GetHorizontalSamplingFactor` and
`GetVerticalSamplingFactor` compute them. (1) If the input is accepted and `sof` declares more
than two components, then the factors of components 1 and 2 are all 1, the two factors of
component 0 are each 1, 2 or 4, and the main directory holds a YCbCrSubSampling entry of
datatype UShort and count 2 whose two inline shorts are the horizontal and the vertical factor
of component 0. (2) If the input passes the planner up to the section that builds the main
directory, with less than 2^31 bytes planned, `sof` declares more than two components and the
factors do not meet that condition, then `ConvertJpegToTiff` fails with the illegal-subsampling
error and writes nothing. (3) If the input is accepted and every start-of-frame segment
declares one component, the YCbCrSubSampling block adds no entry and throws nothing. -/
theorem C9_subsampling (T : TiffTag) (G : GraphicsVector) (sof : FileSegment)
    (hs : (G.filter isFrame).getLast? = some sof) :
    (∀ P, ConvertJpegToTiff_plan T G = Except.ok P → declaredComponents sof.m_data > 2 →
        legalSubsampling sof.m_data
          ∧ ∃ dir e, P.TiffFile.getLast? = some dir ∧ e ∈ dir.m_entries
            ∧ e.Tag = T.YCbCrSubSampling ∧ e.GetDataType = Datatype.Ushort
            ∧ e.GetDataCount = 2
            ∧ e.GetTwoShorts
                = Except.ok { s0 := hFactor sof.m_data 0, s1 := vFactor sof.m_data 0 })
      ∧ (∀ L, planLayout T G = Except.ok L → L.offset < 2147483648 →
          declaredComponents sof.m_data > 2 → ¬ legalSubsampling sof.m_data →
          ConvertJpegToTiff T G = { error := some Error.IllegalSubsampling, outfile := none })
      ∧ (∀ P, ConvertJpegToTiff_plan T G = Except.ok P →
          (∀ s ∈ G.filter isFrame, declaredComponents s.m_data = 1) →
          subSamplingEntry T P.F Endianness.Little = Except.ok []) := by
  refine ⟨fun P h hn => ?_, fun L hL hlt hn hl => ?_, fun P h hone => ?_⟩
  · obtain ⟨a, c, img, tabs, dir, sof1, e3, e12, fx, rest, g1, _, hmem, _, b2, _, _, _, _, _, _,
      _, _, _, _, f1, _, ⟨_, _, _, w4, w5⟩, _, _, _⟩ := plan_summary h
    rw [hs, Option.some.injEq] at f1
    subst f1
    have hn1 : P.F.numComponents > 2 := by
      have := byteAt_getD w4
      unfold declaredComponents at hn
      omega
    obtain ⟨q1, q2⟩ := subSamplingEntry_ok b2
    by_cases hd : horizontal_divisor P.F > 0 ∧ vertical_divisor P.F > 0
    · have hl := (divisors_legal (w5 hn1)).1 hd
      obtain ⟨v1, v2, v3, v4⟩ := divisors_value (w5 hn1) hl
      have he := q1 hd
      subst he
      refine ⟨hl, dir, shortsEntry T.YCbCrSubSampling 2 (horizontal_divisor P.F)
        (vertical_divisor P.F), g1, hmem _ (by simp), rfl, rfl, rfl, ?_⟩
      rw [shortsEntry_value, v1, v2, Nat.mod_eq_of_lt (by omega), Nat.mod_eq_of_lt (by omega)]
    · exact absurd hn1 (q2 hd).2
  · unfold ConvertJpegToTiff
    rw [plan_illegal hL hs hlt hn hl]
  · obtain ⟨a, c, img, tabs, dir, sof1, e3, e12, fx, rest, _, _, _, _, _, _, _, _, _, _, _,
      _, _, _, _, f1, _, ⟨_, _, _, w4, _⟩, _, _, _⟩ := plan_summary h
    obtain ⟨_, _, _, _, _, _, _, _, _, _, _, _, _, _, _, _, _, hf, _⟩ := plan_structure h
    have hY := frames_keep _ _ _ (fun s hs1 => ⟨mem_filter_isFrame s hs1, by
      rw [hone s hs1]; omega⟩) hf
    have hn1 : P.F.numComponents = 1 := by
      have := byteAt_getD w4
      have := hone sof1 (List.mem_of_getLast?_eq_some f1)
      unfold declaredComponents at this
      omega
    exact subSamplingEntry_none hY hn1

/-- Witness of C9: the 4:2:0 input (sampling bytes `22`, `11`, `11`) gets the entry with the
shorts 2 and 2; the input whose Cb component has the sampling byte `21` is refused with the
illegal-subsampling error; the grayscale input gets no entry. -/
theorem C9_subsampling_witness :
    (∃ dir e, (planOf stdTags (colorInput 0x22 0x11 0x11)).TiffFile.getLast? = some dir
        ∧ e ∈ dir.m_entries ∧ e.Tag = stdTags.YCbCrSubSampling
        ∧ e.GetDataType = Datatype.Ushort ∧ e.GetDataCount = 2
        ∧ e.GetTwoShorts = Except.ok { s0 := 2, s1 := 2 })
      ∧ ConvertJpegToTiff stdTags (colorInput 0x22 0x21 0x11)
          = { error := some Error.IllegalSubsampling, outfile := none }
      ∧ subSamplingEntry stdTags (planOf stdTags grayInput).F Endianness.Little
          = Except.ok [] :=
  ⟨((C9_subsampling stdTags (colorInput 0x22 0x11 0x11) (colorFrame 0x22 0x11 0x11) rfl).1
      (planOf stdTags (colorInput 0x22 0x11 0x11)) rfl (by decide)).2,
    (C9_subsampling stdTags (colorInput 0x22 0x21 0x11) (colorFrame 0x22 0x21 0x11) rfl).2.1
      (layoutOf stdTags (colorInput 0x22 0x21 0x11)) rfl (by decide) (by decide) (by decide),
    (C9_subsampling stdTags grayInput
      (parsedSegment Segmenttype.JpegStartOfFrame 15
        [0xff, 0xc0, 0, 11, 8, 0, 8, 0, 8, 1, 1, 0x11, 0]) rfl).2.2
      (planOf stdTags grayInput) rfl (by decide)⟩

/-- C10 (as stated, refuted): the segment list that `ReadFile` hands to `ConvertJpegToTiff` for
a TIFF file with an embedded progressive JPEG stream contains a start-of-frame segment with the
marker `FF C2`, but the failure is the not-a-JPEG error of the first check, not the
unsupported-frame error. -/
theorem C10_counterexample :
    ∃ sof, tiffInput.filter isFrame = [sof]
      ∧ sof.m_data.take 2 = [0xff, 0xc2]
      ∧ ConvertJpegToTiff stdTags tiffInput = { error := some Error.NotJpeg, outfile := none } :=
  ⟨_, rfl, rfl, rfl⟩

/-- C10 (amended): for every segment list whose first segment is a start-of-image segment, in
which no segment has the type Undefined and every start-of-frame payload has at least two bytes
and begins with `FF` (as in every list the JPEG reader builds), and that contains a
start-of-frame segment whose first two bytes are not `FF C0`, `ConvertJpegToTiff` fails with the
unsupported-frame error and the output file is never opened. -/
theorem C10_unsupported_frame (T : TiffTag) (G : GraphicsVector)
    (h0 : ∃ g0 rest, G = g0 :: rest ∧ g0.segmenttype = Segmenttype.JpegStartOfImage)
    (hU : ∀ s ∈ G, s.segmenttype ≠ Segmenttype.Undefined)
    (hM : ∀ s ∈ G, s.segmenttype = Segmenttype.JpegStartOfFrame →
      2 ≤ s.m_data.length ∧ s.m_data.head? = some 0xff)
    (hbad : ∃ s ∈ G, s.segmenttype = Segmenttype.JpegStartOfFrame
      ∧ s.m_data.take 2 ≠ [0xff, 0xc0]) :
    ConvertJpegToTiff T G = { error := some Error.UnsupportedFrame, outfile := none } := by
  have hM1 : ∀ s ∈ G, s.segmenttype = Segmenttype.JpegStartOfFrame →
      ∃ b rest, s.m_data = 0xff :: b :: rest := by
    intro s hs hk
    obtain ⟨hl, hh⟩ := hM s hs hk
    rcases hd : s.m_data with _ | ⟨x, _ | ⟨y, tl⟩⟩
    · rw [hd] at hl; simp at hl
    · rw [hd] at hl; simp at hl
    · rw [hd] at hh
      simp only [List.head?_cons, Option.some.injEq] at hh
      subst hh
      exact ⟨y, tl, rfl⟩
  unfold ConvertJpegToTiff
  rw [plan_unsupported h0 (checkBaseline_unsupported G hU hM1 hbad)]

/-- Witness of C10 on the segment list of a small progressive JPEG file, whose first segment
is the start-of-image segment and whose start-of-frame segment has the marker `FF C2`. -/
theorem C10_unsupported_frame_witness :
    (∃ g0 rest, progressiveInput = g0 :: rest
        ∧ g0.segmenttype = Segmenttype.JpegStartOfImage)
      ∧ (∃ s ∈ progressiveInput, s.segmenttype = Segmenttype.JpegStartOfFrame
          ∧ s.m_data.take 2 ≠ [0xff, 0xc0])
      ∧ ConvertJpegToTiff stdTags progressiveInput
          = { error := some Error.UnsupportedFrame, outfile := none } :=
  ⟨⟨_, _, rfl, rfl⟩, by decide,
    C10_unsupported_frame stdTags progressiveInput ⟨_, _, rfl, rfl⟩ (by decide) (by decide)
      (by decide)⟩

theorem plan_parts {T : TiffTag} {G : GraphicsVector} {P : Plan}
    (h : ConvertJpegToTiff_plan T G = Except.ok P) :
    ∃ L, planLayout T G = Except.ok L ∧ planDirectory T L = Except.ok P := by
  unfold ConvertJpegToTiff_plan at h
  exact bind_ok.1 h

theorem planDirectory_badcount {T : TiffTag} {L : LayoutState}
    (hn : L.F.numComponents = 0 ∨ L.F.numComponents = 2) :
    planDirectory T L = Except.error Error.AssertFailure := by
  have hA : checkNumComponents L.F.numComponents = Except.error Error.AssertFailure := by
    unfold checkNumComponents ASSERT
    rw [if_neg]
    simp only [decide_eq_true_eq]
    omega
  unfold planDirectory
  simp only [hA, bind, Except.bind]

theorem layout_numComponents {T : TiffTag} {G : GraphicsVector} {L : LayoutState}
    (hL : planLayout T G = Except.ok L)
    (hbad : G.filter isFrame = [] ∨ ∃ sof, (G.filter isFrame).getLast? = some sof
      ∧ declaredComponents sof.m_data = 2) :
    L.F.numComponents = 0 ∨ L.F.numComponents = 2 := by
  obtain ⟨a, c, img, tabs, mid, _, _, _, _, _, _, _, _, l7, _⟩ := planLayout_structure hL
  rcases hbad with hq | ⟨sof, hs, hn⟩
  · rw [hq] at l7
    simp only [frames, pure, Except.pure, Except.ok.injEq] at l7
    left
    rw [← l7]
  · obtain ⟨_, _, _, f4, _⟩ := frames_last _ _ _ _ mem_filter_isFrame l7 hs
    have := byteAt_getD f4
    unfold declaredComponents at hn
    right
    omega

theorem Contiguous_sizes {a : Nat} {L : List FileSegment} (h : Contiguous a L) :
    ∀ s ∈ L, s.m_size = s.m_data.length := by
  induction L generalizing a with
  | nil => intro s hs; cases hs
  | cons x L ih =>
    obtain ⟨_, h2, h3⟩ := h
    intro s hs
    rcases List.mem_cons.1 hs with hs | hs
    · subst hs; exact h2
    · exact ih h3 s hs

/-- C11: for every input that has no start-of-frame segment, or whose start-of-frame segment
(the last one, should there be several) declares exactly two components, `ConvertJpegToTiff`
fails and the output file is never opened; if the input passes everything before the section
TIFF DIRECTORY, the failure is the assertion on the number of components. That check passes
exactly for one component and for every count of three or more. -/
theorem C11_component_count (T : TiffTag) (G : GraphicsVector)
    (hbad : G.filter isFrame = [] ∨ ∃ sof, (G.filter isFrame).getLast? = some sof
      ∧ declaredComponents sof.m_data = 2) :
    (∃ err, ConvertJpegToTiff T G = { error := some err, outfile := none })
      ∧ (∀ L, planLayout T G = Except.ok L →
          ConvertJpegToTiff T G = { error := some Error.AssertFailure, outfile := none })
      ∧ (∀ n, checkNumComponents n = Except.ok () ↔ (n = 1 ∨ 3 ≤ n)) := by
  have key : ∀ L, planLayout T G = Except.ok L →
      ConvertJpegToTiff_plan T G = Except.error Error.AssertFailure := by
    intro L hL
    unfold ConvertJpegToTiff_plan
    simp only [hL, planDirectory_badcount (layout_numComponents hL hbad), bind, Except.bind]
  refine ⟨?_, fun L hL => ?_, fun n => ?_⟩
  · cases h : ConvertJpegToTiff_plan T G with
    | error err => exact ⟨err, by unfold ConvertJpegToTiff; rw [h]⟩
    | ok P =>
      obtain ⟨L, hL, _⟩ := plan_parts h
      rw [key L hL] at h
      cases h
  · unfold ConvertJpegToTiff
    rw [key L hL]
  · unfold checkNumComponents
    rw [ASSERT_ok]
    simp only [decide_eq_true_eq]
    omega

/-- Witness of C11 on the two-component input, which passes everything before the section TIFF
DIRECTORY. -/
theorem C11_component_count_witness :
    (∃ sof, (twoComponentInput.filter isFrame).getLast? = some sof
        ∧ declaredComponents sof.m_data = 2)
      ∧ planLayout stdTags twoComponentInput
          = Except.ok (layoutOf stdTags twoComponentInput)
      ∧ ConvertJpegToTiff stdTags twoComponentInput
          = { error := some Error.AssertFailure, outfile := none } :=
  ⟨⟨_, rfl, rfl⟩, rfl,
    (C11_component_count stdTags twoComponentInput (Or.inr ⟨_, rfl, rfl⟩)).2.1
      (layoutOf stdTags twoComponentInput) rfl⟩

/-- C12: whenever `ConvertJpegToTiff` ends with an exception the output file has not been
opened, so no byte has been written; and for every accepted input each segment of the planned
list has a payload whose length is its recorded size, `WriteToFile` passes its size assertion on
it, and the write loop ends without an exception after writing the payloads in order. -/
theorem C12_no_output_on_failure (T : TiffTag) (G : GraphicsVector) :
    ((ConvertJpegToTiff T G).error ≠ none → (ConvertJpegToTiff T G).outfile = none)
      ∧ (∀ P, ConvertJpegToTiff_plan T G = Except.ok P →
          (∀ s ∈ P.TiffFile, s.m_data.length = s.m_size
            ∧ s.WriteToFile = Except.ok s.m_data)
          ∧ writeLoop P.TiffFile [] = (fileBytes P.TiffFile, none)
          ∧ ConvertJpegToTiff T G
              = { error := none, outfile := some (fileBytes P.TiffFile) }) := by
  constructor
  · intro he
    cases h : ConvertJpegToTiff_plan T G with
    | error err => unfold ConvertJpegToTiff; rw [h]
    | ok P =>
      rw [plan_written h] at he
      exact absurd rfl he
  · intro P h
    have hc := (plan_contiguous h).1
    refine ⟨fun s hs => ?_, ?_, plan_written h⟩
    · have h2 := Contiguous_sizes hc s hs
      refine ⟨h2.symm, ?_⟩
      simp [FileSegment.WriteToFile, ASSERT, h2, bind, Except.bind, pure, Except.pure]
    · have := Contiguous_writeLoop hc []
      simpa using this

/-- Witness of C12: the input with illegal sampling factors ends with an exception and without
an output file; the minimal grayscale input is accepted and written in full. -/
theorem C12_no_output_on_failure_witness :
    (ConvertJpegToTiff stdTags (colorInput 0x22 0x21 0x11)).error
        = some Error.IllegalSubsampling
      ∧ (ConvertJpegToTiff stdTags (colorInput 0x22 0x21 0x11)).outfile = none
      ∧ ConvertJpegToTiff stdTags grayInput
          = { error := none, outfile := some (fileBytes (planOf stdTags grayInput).TiffFile) } :=
  ⟨rfl, (C12_no_output_on_failure stdTags (colorInput 0x22 0x21 0x11)).1 (by decide),
    ((C12_no_output_on_failure stdTags grayInput).2 (planOf stdTags grayInput) rfl).2.2⟩

theorem mainDirectory_sorted (off : Nat) (entries : List TiffDirEntry) :
    ((mainDirectory off entries).m_entries.map TiffDirEntry.Tag).Pairwise (fun a b => a ≤ b) := by
  rw [(mainDirectory_facts off entries).2.2.2.2]
  haveI : IsTotal TiffDirEntry (fun e1 e2 => e1.Tag ≤ e2.Tag) :=
    ⟨fun a b => Nat.le_total a.Tag b.Tag⟩
  haveI : IsTrans TiffDirEntry (fun e1 e2 => e1.Tag ≤ e2.Tag) :=
    ⟨fun a b c h1 h2 => Nat.le_trans h1 h2⟩
  have hs := List.sorted_insertionSort (fun e1 e2 : TiffDirEntry => e1.Tag ≤ e2.Tag) entries
  exact List.pairwise_map.2 hs

theorem mainDirectory_perm (off : Nat) (entries : List TiffDirEntry) :
    (mainDirectory off entries).m_entries.Perm entries := by
  rw [(mainDirectory_facts off entries).2.2.2.2]
  exact List.perm_insertionSort _ _

theorem mainDirectory_data (off : Nat) (entries : List TiffDirEntry) :
    (mainDirectory off entries).m_data
      = PutUShort (mainDirectory off entries).m_entries.length Endianness.Little
        ++ ((mainDirectory off entries).m_entries.map
            (fun E => E.BuildMemoryRepresentation Endianness.Little)).flatten
        ++ PutUlong 0 Endianness.Little := by
  simp [mainDirectory, FileSegment.RebuildBinaryData_TiffDirectory, FileSegment.SortEntries,
    foldl_AddEntry, FileSegment.FileEndianness, Segmenttype.isJpeg]

theorem strictly_increasing_iff {l : List Nat} (hs : l.Pairwise (fun a b => a ≤ b)) :
    l.Pairwise (fun a b => a < b) ↔ l.Nodup := by
  constructor
  · intro h
    exact h.imp (fun hab => Nat.ne_of_lt hab)
  · intro hn
    exact (hs.and hn).imp (fun hab => Nat.lt_of_le_of_ne hab.1 hab.2)

/-- C13 (as stated, refuted): the input whose Exif main directory holds two Ascii entries with
the tag Make (271) is accepted, and the tag ids of the entries of its main directory are
256, 257, 258, 259, 262, 271, 271, 273, 277, 279, 284, 347: sorted, but not strictly
increasing. -/
theorem C13_counterexample :
    ∃ (P : Plan) (dir : FileSegment),
      ConvertJpegToTiff_plan stdTags dupMakeInput = Except.ok P
      ∧ P.TiffFile.getLast? = some dir
      ∧ dir.m_entries.map TiffDirEntry.Tag
          = [256, 257, 258, 259, 262, 271, 271, 273, 277, 279, 284, 347]
      ∧ ¬ (dir.m_entries.map TiffDirEntry.Tag).Pairwise (fun a b => a < b) :=
  ⟨planOf stdTags dupMakeInput, _, rfl, rfl, rfl, by decide⟩

/-- C13 (amended): for every accepted input the entries of the main directory segment are a
permutation of the entries the planner added, the payload of the segment is the entry count,
the twelve bytes of each entry in that order and a zero next-directory offset, and the sequence
of the tag ids of these entries is non-decreasing; it is strictly increasing exactly when no two
of the added entries have the same tag id. -/
theorem C13_tag_order (T : TiffTag) (G : GraphicsVector) (P : Plan)
    (h : ConvertJpegToTiff_plan T G = Except.ok P) :
    ∃ (dir : FileSegment) (fromExif entries : List TiffDirEntry),
      P.TiffFile.getLast? = some dir
      ∧ mainDirectoryEntries T P.F P.O fromExif Endianness.Little = Except.ok entries
      ∧ dir.m_entries.Perm entries
      ∧ dir.m_data = PutUShort dir.m_entries.length Endianness.Little
          ++ (dir.m_entries.map (fun E => E.BuildMemoryRepresentation Endianness.Little)).flatten
          ++ PutUlong 0 Endianness.Little
      ∧ (dir.m_entries.map TiffDirEntry.Tag).Pairwise (fun a b => a ≤ b)
      ∧ ((dir.m_entries.map TiffDirEntry.Tag).Pairwise (fun a b => a < b)
          ↔ (entries.map TiffDirEntry.Tag).Nodup) := by
  obtain ⟨fromExif, entries, l1, l2, _, _⟩ := plan_last h
  have hp := mainDirectory_perm P.offset entries
  refine ⟨mainDirectory P.offset entries, fromExif, entries, l1, l2, hp,
    mainDirectory_data P.offset entries, mainDirectory_sorted P.offset entries, ?_⟩
  rw [strictly_increasing_iff (mainDirectory_sorted P.offset entries)]
  exact (hp.map TiffDirEntry.Tag).nodup_iff

/-- Witness of C13 on the minimal grayscale input, whose main directory has the strictly
increasing tag ids 256, 257, 258, 259, 262, 273, 277, 279, 284, 347. -/
theorem C13_tag_order_witness :
    ConvertJpegToTiff_plan stdTags grayInput = Except.ok (planOf stdTags grayInput)
      ∧ ∃ (dir : FileSegment) (fromExif entries : List TiffDirEntry),
          (planOf stdTags grayInput).TiffFile.getLast? = some dir
          ∧ mainDirectoryEntries stdTags (planOf stdTags grayInput).F
              (planOf stdTags grayInput).O fromExif Endianness.Little = Except.ok entries
          ∧ dir.m_entries.Perm entries
          ∧ dir.m_data = PutUShort dir.m_entries.length Endianness.Little
              ++ (dir.m_entries.map
                  (fun E => E.BuildMemoryRepresentation Endianness.Little)).flatten
              ++ PutUlong 0 Endianness.Little
          ∧ (dir.m_entries.map TiffDirEntry.Tag).Pairwise (fun a b => a ≤ b)
          ∧ ((dir.m_entries.map TiffDirEntry.Tag).Pairwise (fun a b => a < b)
              ↔ (entries.map TiffDirEntry.Tag).Nodup) :=
  ⟨rfl, C13_tag_order stdTags grayInput (planOf stdTags grayInput) rfl⟩

theorem vectorMemory_one (V : ByteVector) :
    FileSegment.vectorMemory 1 V = V.map (fun b => b % 256) := by
  induction V with
  | nil => rfl
  | cons v V ih =>
    simp only [FileSegment.vectorMemory, List.map_cons, List.flatten_cons] at ih ⊢
    rw [ih]
    rfl

theorem byteVectorAt_facts (oe : Endianness) (off : Nat) (V : ByteVector) :
    (byteVectorAt oe off V).segmenttype = Segmenttype.TiffByteVector
      ∧ (byteVectorAt oe off V).m_offset = off
      ∧ (byteVectorAt oe off V).m_size = (byteVectorAt oe off V).m_data.length
      ∧ (byteVectorAt oe off V).m_size = V.length
      ∧ (byteVectorAt oe off V).m_data = V.map (fun b => b % 256) := by
  have hd : (byteVectorAt oe off V).m_data = V.map (fun b => b % 256) := by
    simp [byteVectorAt, binary_copy, vectorMemory_one]
  refine ⟨rfl, rfl, ?_, by simp [byteVectorAt], hd⟩
  rw [hd]
  simp [byteVectorAt]

theorem map_mod_bytes {V : ByteVector} (h : ∀ b ∈ V, b < 256) :
    V.map (fun b => b % 256) = V := by
  induction V with
  | nil => rfl
  | cons v V ih =>
    rw [List.map_cons, ih (fun b hb => h b (List.mem_cons_of_mem _ hb)),
      Nat.mod_eq_of_lt (h v (List.mem_cons_self _ _))]

theorem assign_ByteVector {oe : Endianness} {off size : Nat} {V : ByteVector}
    {bv : FileSegment}
    (h : FileSegment.assign
      { segmenttype := Segmenttype.TiffByteVector, m_offset := off, m_size := size,
        m_Endianness := oe, m_datatype := Datatype.Ubyte, m_datacount := size } V
        = Except.ok bv) :
    bv = byteVectorAt oe off V ∧ V ≠ [] := by
  unfold FileSegment.assign FileSegment.RebuildBinaryData_NumericVector at h
  simp only [bind_ok, ASSERT_ok, decide_eq_true_eq] at h
  obtain ⟨len, hlen, _, _, _, hpos, h⟩ := h
  simp only [TiffDatatypeLength, Except.ok.injEq] at hlen
  subst hlen
  simp only [pure, Except.pure, Except.ok.injEq] at h
  subst h
  refine ⟨?_, ?_⟩
  · simp [byteVectorAt, FileSegment.FileEndianness, Segmenttype.isJpeg]
  · intro hq
    subst hq
    simp at hpos
theorem ofOffset_fields {tag dt cnt off : Nat} {oe : Endianness} {e : TiffDirEntry}
    (h : TiffDirEntry.ofOffset tag dt cnt off oe = Except.ok e) :
    e.Tag = tag ∧ e.GetDataType = dt ∧ e.GetDataCount = cnt
      ∧ e.m_endianness = oe ∧ e.m_dataBytes = longBytes off oe
      ∧ e.m_storageLogic = StorageLogic.OffsetData := by
  unfold TiffDirEntry.ofOffset at h
  simp only [bind_ok] at h
  obtain ⟨_, _, _, _, h⟩ := h
  simp only [pure, Except.pure, Except.ok.injEq] at h
  subst h
  exact ⟨rfl, rfl, rfl, rfl, rfl, rfl⟩

theorem ofShorts_fields {tag dt cnt : Nat} {ts : AsShort} {oe : Endianness} {e : TiffDirEntry}
    (h : TiffDirEntry.ofShorts tag dt cnt ts oe = Except.ok e) :
    e.Tag = tag ∧ e.GetDataType = dt ∧ e.GetDataCount = cnt := by
  unfold TiffDirEntry.ofShorts at h
  simp only [bind_ok] at h
  obtain ⟨_, _, _, _, h⟩ := h
  simp only [pure, Except.pure, Except.ok.injEq] at h
  subst h
  exact ⟨rfl, rfl, rfl⟩

theorem ofLong_fields {tag dt cnt v : Nat} {oe : Endianness} {e : TiffDirEntry}
    (h : TiffDirEntry.ofLong tag dt cnt v oe = Except.ok e) :
    e.Tag = tag ∧ e.GetDataType = dt ∧ e.GetDataCount = cnt := by
  unfold TiffDirEntry.ofLong at h
  simp only [bind_ok] at h
  obtain ⟨_, _, _, _, h⟩ := h
  simp only [pure, Except.pure, Except.ok.injEq] at h
  subst h
  exact ⟨rfl, rfl, rfl⟩

theorem Write_step_inv {ee oe : Endianness} {foo : Nat → Nat → Bool}
    {st st1 : WriteState} {x : TiffDirEntry × ByteVector}
    (h : Write_Selected_Entries_step ee oe foo st x = Except.ok st1) :
    (foo x.1.Tag x.1.GetDataType = false → st1 = st)
      ∧ (foo x.1.Tag x.1.GetDataType = true →
          ∃ e ds, x.1.GetDataSize = Except.ok ds
            ∧ st1.dir_entries = st.dir_entries ++ [e]
            ∧ e.Tag = x.1.Tag ∧ e.GetDataType = x.1.GetDataType
            ∧ e.GetDataCount = x.1.GetDataCount
            ∧ (toInt32 ds > 4 → ∃ V1, convertData ee oe x.1 x.2 = Except.ok V1 ∧ V1 ≠ []
                ∧ st1.outfile = st.outfile ++ block (byteVectorAt oe st.offset V1)
                ∧ st1.offset = blockEnd (byteVectorAt oe st.offset V1)
                ∧ TiffDirEntry.ofOffset x.1.Tag x.1.GetDataType x.1.GetDataCount st.offset oe
                    = Except.ok e)
            ∧ (¬ toInt32 ds > 4 → st1.outfile = st.outfile ∧ st1.offset = st.offset)) := by
  unfold Write_Selected_Entries_step at h
  simp only [bind_ok] at h
  obtain ⟨ds, hds, es, hes, h⟩ := h
  by_cases hsel : foo x.1.Tag x.1.GetDataType = true
  · rw [if_pos hsel] at h
    refine ⟨fun hq => absurd (hsel.symm.trans hq) (by decide), fun _ => ?_⟩
    by_cases hbig : toInt32 ds > 4
    · rw [if_pos hbig] at h
      simp only [bind_ok, CreateSegment_ByteVector, Except.ok.injEq, exists_eq_left'] at h
      obtain ⟨V1, hV1, bv, hbv, r, hr, e, he, h⟩ := h
      simp only [pure, Except.pure, Except.ok.injEq] at h
      subst h
      obtain ⟨hb1, hb2⟩ := assign_ByteVector hbv
      subst hb1
      rw [AddSegmentPadded_eq, if_pos (byteVectorAt_facts _ _ _).2.2.1] at hr
      simp only [Except.ok.injEq] at hr
      subst hr
      obtain ⟨f1, f2, f3, _⟩ := ofOffset_fields he
      refine ⟨e, ds, hds, rfl, f1, f2, f3, fun _ => ⟨V1, ?_, hb2, rfl, rfl, he⟩,
        fun hq => absurd hbig hq⟩
      unfold convertData
      simp only [hes, bind, Except.bind]
      by_cases hoe : oe ≠ ee
      · rw [if_pos hoe] at hV1 ⊢
        exact hV1
      · rw [if_neg hoe] at hV1 ⊢
        exact hV1
    · rw [if_neg hbig] at h
      have fin : ∀ e : TiffDirEntry,
          (e.Tag = x.1.Tag ∧ e.GetDataType = x.1.GetDataType
            ∧ e.GetDataCount = x.1.GetDataCount) →
          st1 = { st with dir_entries := st.dir_entries ++ [e] } →
          ∃ e ds, x.1.GetDataSize = Except.ok ds
            ∧ st1.dir_entries = st.dir_entries ++ [e]
            ∧ e.Tag = x.1.Tag ∧ e.GetDataType = x.1.GetDataType
            ∧ e.GetDataCount = x.1.GetDataCount
            ∧ (toInt32 ds > 4 → ∃ V1, convertData ee oe x.1 x.2 = Except.ok V1 ∧ V1 ≠ []
                ∧ st1.outfile = st.outfile ++ block (byteVectorAt oe st.offset V1)
                ∧ st1.offset = blockEnd (byteVectorAt oe st.offset V1)
                ∧ TiffDirEntry.ofOffset x.1.Tag x.1.GetDataType x.1.GetDataCount st.offset oe
                    = Except.ok e)
            ∧ (¬ toInt32 ds > 4 → st1.outfile = st.outfile ∧ st1.offset = st.offset) := by
        intro e ⟨f1, f2, f3⟩ hst
        subst hst
        exact ⟨e, ds, hds, rfl, f1, f2, f3, fun hq => absurd hq hbig, fun _ => ⟨rfl, rfl⟩⟩
      split at h
      · simp only [bind_ok] at h
        obtain ⟨ts, _, e, he, h⟩ := h
        simp only [pure, Except.pure, Except.ok.injEq] at h
        exact fin e (ofShorts_fields he) h.symm
      · split at h
        · simp only [pure, Except.pure, Except.ok.injEq] at h
          exact fin (TiffDirEntry.ofBytes x.1.Tag x.1.GetDataType x.1.GetDataCount
            x.1.GetFourBytes oe) ⟨rfl, rfl, rfl⟩ h.symm
        · split at h
          · simp only [bind_ok] at h
            obtain ⟨ts, _, e, he, h⟩ := h
            simp only [pure, Except.pure, Except.ok.injEq] at h
            exact fin e (ofShorts_fields he) h.symm
          · split at h
            · simp only [bind_ok] at h
              obtain ⟨v, _, e, he, h⟩ := h
              simp only [pure, Except.pure, Except.ok.injEq] at h
              exact fin e (ofLong_fields he) h.symm
            · cases h
  · rw [if_neg hsel] at h
    simp only [pure, Except.pure, Except.ok.injEq] at h
    exact ⟨fun _ => h.symm, fun hq => absurd hq hsel⟩
theorem Write_loop_inv {ee oe : Endianness} {foo : Nat → Nat → Bool} :
    ∀ (dir : List (TiffDirEntry × ByteVector)) (st st1 : WriteState),
      Write_Selected_Entries_loop ee oe foo dir st = Except.ok st1 →
      st1.dir_entries.map entryShape = st.dir_entries.map entryShape
          ++ (dir.filter (fun x => foo x.1.Tag x.1.GetDataType)).map (fun x => entryShape x.1)
        ∧ (∃ more, st1.dir_entries = st.dir_entries ++ more)
        ∧ (∃ segs, st1.outfile = st.outfile ++ segs)
        ∧ ∀ x ∈ dir, foo x.1.Tag x.1.GetDataType = true →
            ∀ ds, x.1.GetDataSize = Except.ok ds → toInt32 ds > 4 →
            ∃ V1 off e, convertData ee oe x.1 x.2 = Except.ok V1 ∧ V1 ≠ []
              ∧ byteVectorAt oe off V1 ∈ st1.outfile ∧ e ∈ st1.dir_entries
              ∧ TiffDirEntry.ofOffset x.1.Tag x.1.GetDataType x.1.GetDataCount off oe
                  = Except.ok e := by
  intro dir
  induction dir with
  | nil =>
    intro st st1 h
    simp only [Write_Selected_Entries_loop, pure, Except.pure, Except.ok.injEq] at h
    subst h
    exact ⟨by simp, ⟨[], by simp⟩, ⟨[], by simp⟩, fun x hx => by cases hx⟩
  | cons y rest ih =>
    intro st st1 h
    simp only [Write_Selected_Entries_loop, bind_ok] at h
    obtain ⟨st2, h2, h⟩ := h
    obtain ⟨i1, i2⟩ := Write_step_inv h2
    obtain ⟨r1, ⟨more, r2⟩, ⟨segs, r3⟩, r4⟩ := ih _ _ h
    by_cases hsel : foo y.1.Tag y.1.GetDataType = true
    · obtain ⟨e, ds, hds, a1, a2, a3, a4, a5, a6⟩ := i2 hsel
      refine ⟨?_, ⟨[e] ++ more, by rw [r2, a1, List.append_assoc]⟩, ?_, ?_⟩
      · rw [r1, a1, List.filter_cons, if_pos hsel]
        simp [entryShape, a2, a3, a4]
      · by_cases hbig : toInt32 ds > 4
        · obtain ⟨V1, _, _, b3, _⟩ := a5 hbig
          exact ⟨block (byteVectorAt oe st.offset V1) ++ segs, by
            rw [r3, b3, List.append_assoc]⟩
        · exact ⟨segs, by rw [r3, (a6 hbig).1]⟩
      · intro x hx hfx ds1 hds1 hbig1
        rcases List.mem_cons.1 hx with hx | hx
        · subst hx
          rw [hds] at hds1
          simp only [Except.ok.injEq] at hds1
          subst hds1
          obtain ⟨V1, b1, b2, b3, _, b5⟩ := a5 hbig1
          refine ⟨V1, st.offset, e, b1, b2, ?_, ?_, b5⟩
          · rw [r3, b3]
            apply List.mem_append_left
            apply List.mem_append_right
            unfold block
            split <;> simp
          · rw [r2, a1]
            simp
        · exact r4 x hx hfx ds1 hds1 hbig1
    · have hf : foo y.1.Tag y.1.GetDataType = false := by
        cases hq : foo y.1.Tag y.1.GetDataType
        · rfl
        · exact absurd hq hsel
      have hst := i1 hf
      subst hst
      refine ⟨?_, ⟨more, r2⟩, ⟨segs, r3⟩, ?_⟩
      · rw [r1, List.filter_cons, if_neg hsel]
      · intro x hx hfx ds1 hds1 hbig1
        rcases List.mem_cons.1 hx with hx | hx
        · subst hx
          exact absurd hfx hsel
        · exact r4 x hx hfx ds1 hds1 hbig1

theorem Write_Selected_Entries_inv {dir : List (TiffDirEntry × ByteVector)}
    {L : GraphicsVector} {ee oe : Endianness} {foo : Nat → Nat → Bool}
    {w : List TiffDirEntry × GraphicsVector}
    (h : Write_Selected_Entries dir L ee oe foo = Except.ok w) :
    w.1.map entryShape
        = (dir.filter (fun x => foo x.1.Tag x.1.GetDataType)).map (fun x => entryShape x.1)
      ∧ ∀ x ∈ dir, foo x.1.Tag x.1.GetDataType = true →
          ∀ ds, x.1.GetDataSize = Except.ok ds → toInt32 ds > 4 →
          ∃ V1 off e, convertData ee oe x.1 x.2 = Except.ok V1 ∧ V1 ≠ []
            ∧ byteVectorAt oe off V1 ∈ w.2 ∧ e ∈ w.1
            ∧ TiffDirEntry.ofOffset x.1.Tag x.1.GetDataType x.1.GetDataCount off oe
                = Except.ok e := by
  unfold Write_Selected_Entries at h
  simp only [bind_ok] at h
  obtain ⟨off, _, st1, h1, h⟩ := h
  simp only [pure, Except.pure, Except.ok.injEq] at h
  subst h
  obtain ⟨a1, _, _, a4⟩ := Write_loop_inv _ _ _ h1
  exact ⟨by simpa using a1, a4⟩
theorem writeIccProfile_inv {icc : ByteVector} {L : GraphicsVector} {off : Nat}
    {e : Endianness} {r : GraphicsVector × Nat} (h : writeIccProfile icc L off e = Except.ok r) :
    (icc.length > 0 → r = (L ++ block (byteVectorAt e off icc), blockEnd (byteVectorAt e off icc)))
      ∧ (¬ icc.length > 0 → r = (L, off)) := by
  unfold writeIccProfile at h
  by_cases hn : icc.length > 0
  · rw [if_pos hn] at h
    refine ⟨fun _ => ?_, fun hq => absurd hn hq⟩
    simp only [bind_ok, CreateSegment_ByteVector, Except.ok.injEq, exists_eq_left'] at h
    obtain ⟨bv, hbv, bv1, hbv1, h⟩ := h
    obtain ⟨hb1, hb2⟩ := assign_ByteVector hbv
    subst hb1
    have hk : (byteVectorAt e off icc).segmenttype = Segmenttype.TiffByteVector := rfl
    simp only [FileSegment.RebuildBinaryData, hk] at hbv1
    unfold FileSegment.RebuildBinaryData_NumericVector at hbv1
    simp only [bind_ok] at hbv1
    obtain ⟨len, hlen, _, _, _, _, hbv1⟩ := hbv1
    have hl : len = 1 := by
      simp only [byteVectorAt, TiffDatatypeLength, Except.ok.injEq] at hlen
      exact hlen.symm
    subst hl
    simp only [pure, Except.pure, Except.ok.injEq] at hbv1
    have hsame : bv1 = byteVectorAt e off icc := by
      rw [← hbv1]
      simp [byteVectorAt, FileSegment.FileEndianness, Segmenttype.isJpeg]
    subst hsame
    rw [AddSegmentPadded_eq, if_pos (byteVectorAt_facts _ _ _).2.2.1] at h
    simp only [Except.ok.injEq] at h
    exact h.symm
  · rw [if_neg hn] at h
    simp only [pure, Except.pure, Except.ok.injEq] at h
    exact ⟨fun hq => absurd hq hn, fun _ => h.symm⟩

theorem writeSubDirectory_inv {dir : List (TiffDirEntry × ByteVector)}
    {L : GraphicsVector} {off : Nat} {ee oe : Endianness} {foo : Nat → Nat → Bool}
    {r : GraphicsVector × Nat × Nat}
    (h : writeSubDirectory dir L off ee oe foo = Except.ok r) :
    (dir.length > 0 → ∃ w off1, Write_Selected_Entries dir L ee oe foo = Except.ok w
        ∧ r.1 = w.2 ++ block (directoryAt oe off1 w.1) ∧ r.2.2 = off1)
      ∧ (¬ dir.length > 0 → r = (L, off, 0)) := by
  unfold writeSubDirectory at h
  by_cases hn : dir.length > 0
  · rw [if_pos hn] at h
    refine ⟨fun _ => ?_, fun hq => absurd hn hq⟩
    simp only [bind_ok, CreateSegment_TiffDirectory, Except.ok.injEq, exists_eq_left'] at h
    obtain ⟨w, hw, o, ho, r1, hr, h⟩ := h
    simp only [pure, Except.pure, Except.ok.injEq] at h
    subst h
    change AddSegmentPadded w.2 (directoryAt oe o w.1) = Except.ok r1 at hr
    rw [AddSegmentPadded_eq, if_pos (directoryAt_facts oe o w.1).2.2.1] at hr
    simp only [Except.ok.injEq] at hr
    subst hr
    exact ⟨w, o, hw, rfl, rfl⟩
  · rw [if_neg hn] at h
    simp only [pure, Except.pure, Except.ok.injEq] at h
    exact ⟨fun hq => absurd hq hn, fun _ => h.symm⟩

theorem writeMainEntries_inv {T : TiffTag} {dir : List (TiffDirEntry × ByteVector)}
    {L : GraphicsVector} {off : Nat} {ee oe : Endianness}
    {r : List TiffDirEntry × GraphicsVector × Nat}
    (h : writeMainEntries T dir L off ee oe = Except.ok r) :
    (dir.length > 0 → ∃ w, Write_Selected_Entries dir L ee oe (relevant_main_directory_tags T)
        = Except.ok w ∧ r.1 = w.1 ∧ r.2.1 = w.2)
      ∧ (¬ dir.length > 0 → r = ([], L, off)) := by
  unfold writeMainEntries at h
  by_cases hn : dir.length > 0
  · rw [if_pos hn] at h
    refine ⟨fun _ => ?_, fun hq => absurd hn hq⟩
    simp only [bind_ok] at h
    obtain ⟨w, hw, o, ho, h⟩ := h
    simp only [pure, Except.pure, Except.ok.injEq] at h
    subst h
    exact ⟨w, hw, rfl, rfl⟩
  · rw [if_neg hn] at h
    simp only [pure, Except.pure, Except.ok.injEq] at h
    exact ⟨fun hq => absurd hq hn, fun _ => h.symm⟩

theorem Write_Selected_Entries_prefix {dir : List (TiffDirEntry × ByteVector)}
    {L : GraphicsVector} {ee oe : Endianness} {foo : Nat → Nat → Bool}
    {w : List TiffDirEntry × GraphicsVector}
    (h : Write_Selected_Entries dir L ee oe foo = Except.ok w) : ∃ segs, w.2 = L ++ segs := by
  unfold Write_Selected_Entries at h
  simp only [bind_ok] at h
  obtain ⟨off, _, st1, h1, h⟩ := h
  simp only [pure, Except.pure, Except.ok.injEq] at h
  subst h
  obtain ⟨_, _, a3, _⟩ := Write_loop_inv _ _ _ h1
  exact a3

theorem writeIccProfile_prefix {icc : ByteVector} {L : GraphicsVector} {off : Nat}
    {e : Endianness} {r : GraphicsVector × Nat} (h : writeIccProfile icc L off e = Except.ok r) :
    ∃ segs, r.1 = L ++ segs := by
  obtain ⟨h1, h2⟩ := writeIccProfile_inv h
  by_cases hn : icc.length > 0
  · exact ⟨_, by rw [h1 hn]⟩
  · exact ⟨[], by rw [h2 hn]; simp⟩

theorem writeSubDirectory_prefix {dir : List (TiffDirEntry × ByteVector)}
    {L : GraphicsVector} {off : Nat} {ee oe : Endianness} {foo : Nat → Nat → Bool}
    {r : GraphicsVector × Nat × Nat}
    (h : writeSubDirectory dir L off ee oe foo = Except.ok r) : ∃ segs, r.1 = L ++ segs := by
  obtain ⟨h1, h2⟩ := writeSubDirectory_inv h
  by_cases hn : dir.length > 0
  · obtain ⟨w, off1, hw, hr, _⟩ := h1 hn
    obtain ⟨segs, hs⟩ := Write_Selected_Entries_prefix hw
    exact ⟨segs ++ block (directoryAt oe off1 w.1), by rw [hr, hs, List.append_assoc]⟩
  · exact ⟨[], by rw [h2 hn]; simp⟩

theorem writeMainEntries_prefix {T : TiffTag} {dir : List (TiffDirEntry × ByteVector)}
    {L : GraphicsVector} {off : Nat} {ee oe : Endianness}
    {r : List TiffDirEntry × GraphicsVector × Nat}
    (h : writeMainEntries T dir L off ee oe = Except.ok r) : ∃ segs, r.2.1 = L ++ segs := by
  obtain ⟨h1, h2⟩ := writeMainEntries_inv h
  by_cases hn : dir.length > 0
  · obtain ⟨w, hw, _, hr⟩ := h1 hn
    obtain ⟨segs, hs⟩ := Write_Selected_Entries_prefix hw
    exact ⟨segs, by rw [hr, hs]⟩
  · exact ⟨[], by rw [h2 hn]; simp⟩

theorem planLayout_metadata {T : TiffTag} {G : GraphicsVector} {L : LayoutState}
    (h : planLayout T G = Except.ok L) :
    ∃ (F0 : GraphicsVector) (app2 : List FileSegment) (icc : ByteVector)
      (app1 : List FileSegment) (info : exif_info) (r6 : GraphicsVector × Nat)
      (r7 r8 : GraphicsVector × Nat × Nat) (r9 : List TiffDirEntry × GraphicsVector × Nat),
      collectClones T Segmenttype.JpegApp2Segment G = Except.ok app2
      ∧ (if app2.length > 0 then ReadIccProfile app2 else pure []) = Except.ok icc
      ∧ writeIccProfile icc F0 L.O.icc_profile_begin Endianness.Little = Except.ok r6
      ∧ L.O.icc_profile_end = r6.2
      ∧ collectClones T Segmenttype.JpegApp1Segment G = Except.ok app1
      ∧ (if app1.length > 0 then ReadApp1Metadata T app1 else pure {}) = Except.ok info
      ∧ writeSubDirectory info.exif_dir r6.1 r6.2 info.endianness Endianness.Little
          (relevant_exif_tags T) = Except.ok r7
      ∧ writeSubDirectory info.gps_dir r7.1 r7.2.1 info.endianness Endianness.Little
          (relevant_gps_tags T) = Except.ok r8
      ∧ writeMainEntries T info.main_dir r8.1 r8.2.1 info.endianness Endianness.Little
          = Except.ok r9
      ∧ L.TiffFile = r9.2.1
      ∧ L.main_dir_entries_from_exif = r9.1
      ∧ L.O.exifdir_offset = r7.2.2
      ∧ L.O.gpsdir_offset = r8.2.2 := by
  unfold planLayout at h
  cases G with
  | nil => cases h
  | cons g0 G1 =>
    simp only [bind_ok] at h
    obtain ⟨seg0, hseg0, h⟩ := h
    split at h
    · cases h
    · simp only [bind_ok] at h
      obtain ⟨_, _, hdr, _, r0, _, soi, _, r1, _, st, _, eoi, _, r2, _, soi2, _, r3, _, r4, _,
        eoi2, _, r5, _, app2, h2, icc, hicc, r6, hr6, app1, h1, exif, hexif, back, _, _, _,
        r7, hr7, r8, hr8, r9, hr9, h⟩ := h
      simp only [pure, Except.pure, Except.ok.injEq] at h
      subst h
      exact ⟨r5.1, app2, icc, app1, exif, r6, r7, r8, r9, h2, hicc, hr6, rfl, h1, hexif, hr7, hr8,
        hr9, rfl, rfl, rfl, rfl⟩

theorem plan_extends {T : TiffTag} {G : GraphicsVector} {L : LayoutState} {P : Plan}
    (hL : planLayout T G = Except.ok L) (hD : planDirectory T L = Except.ok P) :
    ∃ (tail more : List FileSegment) (entries : List TiffDirEntry),
      L.TiffFile = headerWith 0 :: tail
      ∧ P.TiffFile = headerWith P.offset :: (tail ++ more)
      ∧ P.TiffFile.getLast? = some (mainDirectory P.offset entries)
      ∧ mainDirectoryEntries T P.F P.O L.main_dir_entries_from_exif Endianness.Little
          = Except.ok entries
      ∧ P.O = { L.O with bitsPerSample_offset := L.offset } := by
  obtain ⟨a, c, img, tabs, mid, l1, ha, hc, l2, l3, l4, _⟩ := planLayout_structure hL
  obtain ⟨bps, entries, d1, d2, d3, d4, d5, d6, d7, _⟩ :=
    planDirectory_structure l1 ha hc l2 l3 l4 hD
  obtain ⟨m1, m2, m3, m4, m5⟩ := mainDirectory_facts P.offset entries
  refine ⟨soiAt 8 :: (layout img ++ eoiAt a :: soiAt (a + 2)
      :: (layout tabs ++ eoiAt c :: layout mid)),
    layout bps ++ [mainDirectory P.offset entries], entries, ?_, ?_, ?_, d5, d7⟩
  · rw [l1, layout_layoutSegments ha hc]
  · rw [d1, planSegments, layout_append, layout_layoutSegments ha hc, layout_append,
      layout_single_even (s := mainDirectory P.offset entries) (by rw [m2, m4]; omega)]
    simp
  · rw [d1, planSegments, layout_append,
      layout_single_even (s := mainDirectory P.offset entries) (by rw [m2, m4]; omega)]
    simp

theorem readExifInfo_eq {T : TiffTag} {G : GraphicsVector} {app1 : List FileSegment}
    {info : exif_info} (h1 : collectClones T Segmenttype.JpegApp1Segment G = Except.ok app1)
    (h2 : (if app1.length > 0 then ReadApp1Metadata T app1 else pure {}) = Except.ok info) :
    readExifInfo T G = Except.ok info := by
  unfold readExifInfo
  exact bind_ok.2 ⟨app1, h1, h2⟩

theorem readIccProfile_eq {T : TiffTag} {G : GraphicsVector} {app2 : List FileSegment}
    {icc : ByteVector} (h1 : collectClones T Segmenttype.JpegApp2Segment G = Except.ok app2)
    (h2 : (if app2.length > 0 then ReadIccProfile app2 else pure []) = Except.ok icc) :
    readIccProfile T G = Except.ok icc := by
  unfold readIccProfile
  exact bind_ok.2 ⟨app2, h1, h2⟩

theorem mem_mainDirectory_fromExif {T : TiffTag} {F : FrameVars} {O : Offsets}
    {fx entries : List TiffDirEntry} (off : Nat)
    (h : mainDirectoryEntries T F O fx Endianness.Little = Except.ok entries) :
    ∀ e ∈ fx, e ∈ (mainDirectory off entries).m_entries := by
  intro e he
  obtain ⟨e3, e12, rest, _, _, _, hE⟩ := mainDirectoryEntries_ok h
  refine (mainDirectory_perm off entries).mem_iff.2 ?_
  rw [hE]
  simp [he]

theorem plan_fromExif {T : TiffTag} {G : GraphicsVector} {P : Plan}
    (h : ConvertJpegToTiff_plan T G = Except.ok P) :
    ∃ (info : exif_info) (fx entries : List TiffDirEntry),
      readExifInfo T G = Except.ok info
      ∧ P.TiffFile.getLast? = some (mainDirectory P.offset entries)
      ∧ mainDirectoryEntries T P.F P.O fx Endianness.Little = Except.ok entries
      ∧ fx.map entryShape
          = (info.main_dir.filter
              (fun x => relevant_main_directory_tags T x.1.Tag x.1.GetDataType)).map
              (fun x => entryShape x.1) := by
  obtain ⟨L, hL, hD⟩ := plan_parts h
  obtain ⟨F0, app2, icc, app1, info, r6, r7, r8, r9, m1, m2, m3, m4, m5, m6, m7, m8, m9, m10, m11,
    m12, m13⟩ := planLayout_metadata hL
  obtain ⟨tail, more, entries, x1, x2, x3, x4, x5⟩ := plan_extends hL hD
  refine ⟨info, L.main_dir_entries_from_exif, entries, readExifInfo_eq m5 m6, x3, x4, ?_⟩
  rw [m11]
  obtain ⟨w1, w2⟩ := writeMainEntries_inv m9
  by_cases hn : info.main_dir.length > 0
  · obtain ⟨w, hw, e1, _⟩ := w1 hn
    rw [e1]
    exact (Write_Selected_Entries_inv hw).1
  · rw [w2 hn]
    have : info.main_dir = [] := List.length_eq_zero.1 (by omega)
    rw [this]
    rfl

/-- C14: the selector `relevant_exif_tags` is false exactly for the tags SubIFDs, MakerNote,
ExifPixelXDimension, ExifPixelYDimension and InteroperabilityIFD, and `relevant_gps_tags` exactly
for SubIFDs and InteroperabilityIFD; `relevant_main_directory_tags` is false for SubIFDs and
InteroperabilityIFD and true for Orientation and Exposure whatever the datatype (the tag ids of
Orientation and Exposure being different from those of SubIFDs and InteroperabilityIFD), and for
any other tag it is true exactly when the datatype is Ascii.  For every accepted input the
entries the planner copies from the main directory of the Exif block into the main directory
segment are, in tag, datatype and count, exactly the entries of that source directory the main
selector accepts, in the order of the source, and each of them is an entry of the main directory
segment. -/
theorem C14_selectors (T : TiffTag) (G : GraphicsVector) (P : Plan)
    (hT : T.Orientation ≠ T.SubIFDs ∧ T.Orientation ≠ T.InteroperabilityIFD
      ∧ T.Exposure ≠ T.SubIFDs ∧ T.Exposure ≠ T.InteroperabilityIFD)
    (h : ConvertJpegToTiff_plan T G = Except.ok P) :
    (∀ tag t, relevant_exif_tags T tag t = false
        ↔ tag ∈ [T.SubIFDs, T.MakerNote, T.ExifPixelXDimension, T.ExifPixelYDimension,
            T.InteroperabilityIFD])
      ∧ (∀ tag t, relevant_gps_tags T tag t = false ↔ tag ∈ [T.SubIFDs, T.InteroperabilityIFD])
      ∧ (∀ t, relevant_main_directory_tags T T.SubIFDs t = false
          ∧ relevant_main_directory_tags T T.InteroperabilityIFD t = false
          ∧ relevant_main_directory_tags T T.Orientation t = true
          ∧ relevant_main_directory_tags T T.Exposure t = true)
      ∧ (∀ tag t, tag ∉ [T.SubIFDs, T.InteroperabilityIFD, T.Orientation, T.Exposure] →
          (relevant_main_directory_tags T tag t = true ↔ t = Datatype.Ascii))
      ∧ ∃ (info : exif_info) (dir : FileSegment) (fromExif entries : List TiffDirEntry),
          readExifInfo T G = Except.ok info
          ∧ P.TiffFile.getLast? = some dir
          ∧ mainDirectoryEntries T P.F P.O fromExif Endianness.Little = Except.ok entries
          ∧ dir.m_entries.Perm entries
          ∧ fromExif.map entryShape
              = (info.main_dir.filter
                  (fun x => relevant_main_directory_tags T x.1.Tag x.1.GetDataType)).map
                  (fun x => entryShape x.1)
          ∧ ∀ e ∈ fromExif, e ∈ dir.m_entries := by
  obtain ⟨t1, t2, t3, t4⟩ := hT
  refine ⟨?_, ?_, ?_, ?_, ?_⟩
  · intro tag t
    unfold relevant_exif_tags
    split_ifs <;> simp_all
  · intro tag t
    unfold relevant_gps_tags
    split_ifs <;> simp_all
  · intro t
    simp [relevant_main_directory_tags, t1, t2, t3, t4]
  · intro tag t hn
    simp only [List.mem_cons, List.mem_singleton, List.not_mem_nil, or_false, not_or] at hn
    simp [relevant_main_directory_tags, hn.1, hn.2.1, hn.2.2.1, hn.2.2.2]
  · obtain ⟨info, fx, entries, p1, p2, p3, p4⟩ := plan_fromExif h
    exact ⟨info, mainDirectory P.offset entries, fx, entries, p1, p2, p3,
      mainDirectory_perm P.offset entries, p4, mem_mainDirectory_fromExif P.offset p3⟩

/-- Witness of C14 on the input whose Exif main directory holds Artist (315), Orientation (274),
SubIFDs (330), ImageDescription (270) and Make (271): the input is accepted and the tag ids of
its main directory segment are 256, 257, 258, 259, 262, 270, 271, 273, 274, 277, 279, 284, 315
and 347, so that all of them but SubIFDs are there. -/
theorem C14_selectors_witness :
    (stdTags.Orientation ≠ stdTags.SubIFDs ∧ stdTags.Orientation ≠ stdTags.InteroperabilityIFD
      ∧ stdTags.Exposure ≠ stdTags.SubIFDs ∧ stdTags.Exposure ≠ stdTags.InteroperabilityIFD)
      ∧ ConvertJpegToTiff_plan stdTags exifMainInput = Except.ok (planOf stdTags exifMainInput)
      ∧ (∃ info, readExifInfo stdTags exifMainInput = Except.ok info
          ∧ info.main_dir.map (fun x => entryShape x.1)
              = [(315, 2, 6), (274, 3, 1), (330, 4, 1), (270, 2, 4), (271, 2, 3)])
      ∧ lastDirectoryTags (planOf stdTags exifMainInput).TiffFile
          = [256, 257, 258, 259, 262, 270, 271, 273, 274, 277, 279, 284, 315, 347]
      ∧ ∃ (info : exif_info) (dir : FileSegment) (fromExif entries : List TiffDirEntry),
          readExifInfo stdTags exifMainInput = Except.ok info
          ∧ (planOf stdTags exifMainInput).TiffFile.getLast? = some dir
          ∧ mainDirectoryEntries stdTags (planOf stdTags exifMainInput).F
              (planOf stdTags exifMainInput).O fromExif Endianness.Little = Except.ok entries
          ∧ dir.m_entries.Perm entries
          ∧ fromExif.map entryShape
              = (info.main_dir.filter
                  (fun x => relevant_main_directory_tags stdTags x.1.Tag x.1.GetDataType)).map
                  (fun x => entryShape x.1)
          ∧ ∀ e ∈ fromExif, e ∈ dir.m_entries :=
  ⟨by decide, rfl, ⟨_, rfl, rfl⟩, rfl,
    (C14_selectors stdTags exifMainInput (planOf stdTags exifMainInput) (by decide) rfl).2.2.2.2⟩

theorem reverseElements_eq (s : Nat) :
    ∀ (n : Nat) (V : ByteVector), reverseElements s n V
      = (List.range n).flatMap (fun k => ((V.drop (k * s)).take s).reverse) := by
  intro n
  induction n with
  | zero => intro V; rfl
  | succ n ih =>
    intro V
    rw [reverseElements, ih, List.range_succ_eq_map, List.flatMap_cons, List.flatMap_map]
    simp only [Nat.zero_mul, List.drop_zero, List.drop_drop, Nat.succ_eq_add_one]
    congr 1
    refine List.flatMap_congr ?_
    intro k _
    have : s + k * s = (k + 1) * s := by ring
    rw [this]

theorem reverseElements_length (s : Nat) :
    ∀ (n : Nat) (V : ByteVector), n * s ≤ V.length → (reverseElements s n V).length = n * s := by
  intro n
  induction n with
  | zero => intro V _; simp [reverseElements]
  | succ n ih =>
    intro V h
    have h1 : (n + 1) * s = s + n * s := by ring
    rw [reverseElements, List.length_append, List.length_reverse, List.length_take,
      ih _ (by rw [List.length_drop]; omega), h1, Nat.min_eq_left (by omega)]

theorem reverseElements_one : ∀ V : ByteVector, reverseElements 1 V.length V = V := by
  intro V
  induction V with
  | nil => rfl
  | cons v V ih =>
    rw [List.length_cons, reverseElements]
    simp [ih]

theorem eachElementReversed_one (V : ByteVector) : eachElementReversed 1 V = V := by
  unfold eachElementReversed
  rw [← reverseElements_eq, Nat.div_one, reverseElements_one]

theorem eachElementReversed_length {s : Nat} {V : ByteVector}
    (hd : s ∣ V.length) : (eachElementReversed s V).length = V.length := by
  unfold eachElementReversed
  rw [← reverseElements_eq, reverseElements_length _ _ _ (by rw [Nat.div_mul_cancel hd]),
    Nat.div_mul_cancel hd]

theorem change_endianness_ok {s : Nat} {V : ByteVector} (hs : 0 < s) (hd : s ∣ V.length) :
    change_endianness V s = Except.ok (eachElementReversed s V) := by
  unfold change_endianness
  by_cases h1 : s = 1
  · rw [if_pos h1, h1, eachElementReversed_one]
    rfl
  · rw [if_neg h1]
    by_cases h0 : V.length = 0
    · rw [if_pos h0]
      simp [eachElementReversed, h0, pure, Except.pure]
    · rw [if_neg h0, if_neg (by omega), if_neg (by simpa using Nat.mod_eq_zero_of_dvd hd)]
      simp only [pure, Except.pure, eachElementReversed, reverseElements_eq]

theorem assign_ByteVector_ok (oe : Endianness) (off size : Nat) {V : ByteVector} (hV : V ≠ []) :
    FileSegment.assign
      { segmenttype := Segmenttype.TiffByteVector, m_offset := off, m_size := size,
        m_Endianness := oe, m_datatype := Datatype.Ubyte, m_datacount := size } V
      = Except.ok (byteVectorAt oe off V) := by
  have hl : V.length > 0 := List.length_pos.2 hV
  unfold FileSegment.assign FileSegment.RebuildBinaryData_NumericVector
  simp [TiffDatatypeLength, ASSERT, bind, Except.bind, pure, Except.pure, hl, byteVectorAt,
    FileSegment.FileEndianness, Segmenttype.isJpeg]

theorem datatypeLength_dvd {dt es : Nat} (h : TiffDatatypeLength dt = Except.ok es) :
    0 < es ∧ es ∣ 4294967296 ∧ (es = 1 ∨ es = 2 ∨ es = 4 ∨ es = 8) := by
  unfold TiffDatatypeLength at h
  split at h <;> first
    | (simp only [Except.ok.injEq] at h; subst h; refine ⟨by decide, by decide, by decide⟩)
    | cases h

theorem toInt32_mod (n : Nat) : toInt32 (n % 4294967296) = toInt32 n := by
  unfold toInt32
  rw [Nat.mod_mod]

/-- C15: for an entry the selector accepts, whose data size exceeds 4 and whose external bytes
were captured in full, the step of `Write_Selected_Entries` succeeds and appends one ByteVector
segment at the current offset; its payload is the captured bytes with each consecutive element
of `s` bytes byte-reversed when the output endianness differs from the Exif endianness, where
`s` is 4 for Rational and SRational and the datatype length otherwise, and the captured bytes
unchanged when the two endiannesses agree or `s = 1`; the entry it adds holds the offset of
that segment. -/
theorem C15_converted_payload (ee oe : Endianness) (foo : Nat → Nat → Bool) (st : WriteState)
    (E : TiffDirEntry) (V : ByteVector) (ds es s : Nat)
    (hsel : foo E.Tag E.GetDataType = true)
    (hds : E.GetDataSize = Except.ok ds) (hes : E.GetElementSize = Except.ok es)
    (hs : s = if E.GetDataType = Datatype.Rational ∨ E.GetDataType = Datatype.SRational then 4
      else es)
    (hbig : toInt32 ds > 4) (hfull : V.length = ds) (hbytes : ∀ b ∈ V, b < 256) :
    ∃ (payload : ByteVector) (e : TiffDirEntry) (st1 : WriteState),
      Write_Selected_Entries_step ee oe foo st (E, V) = Except.ok st1
      ∧ st1.outfile = st.outfile ++ block (byteVectorAt oe st.offset payload)
      ∧ (byteVectorAt oe st.offset payload).segmenttype = Segmenttype.TiffByteVector
      ∧ (byteVectorAt oe st.offset payload).m_offset = st.offset
      ∧ (byteVectorAt oe st.offset payload).m_data = payload
      ∧ TiffDirEntry.ofOffset E.Tag E.GetDataType E.GetDataCount st.offset oe = Except.ok e
      ∧ st1.dir_entries = st.dir_entries ++ [e]
      ∧ payload.length = V.length
      ∧ (oe ≠ ee → payload = eachElementReversed s V)
      ∧ (oe = ee ∨ s = 1 → payload = V) := by
  have hes1 : TiffDatatypeLength E.m_dataType = Except.ok es := hes
  obtain ⟨hpos, hdvd, hcases⟩ := datatypeLength_dvd hes1
  have hdsv : ds = (E.m_dataCount * es) % 4294967296 := by
    unfold TiffDirEntry.GetDataSize at hds
    rw [hes1] at hds
    simp only [bind, Except.bind, pure, Except.pure, Except.ok.injEq] at hds
    exact hds.symm
  have hlt : 4 < ds ∧ ds < 2147483648 := by
    have hm : ds < 4294967296 := by rw [hdsv]; exact Nat.mod_lt _ (by decide)
    unfold toInt32 at hbig
    rw [Nat.mod_eq_of_lt hm] at hbig
    split at hbig <;> omega
  have hes_dvd : es ∣ V.length := by
    rw [hfull, hdsv]
    exact (Nat.dvd_mod_iff hdvd).2 (Dvd.intro_left _ rfl)
  have hs_pos : 0 < s := by
    rw [hs]; split <;> omega
  have hs_dvd : s ∣ V.length := by
    rw [hs]
    split
    · rename_i hr
      have h8 : es = 8 := by
        have hdt : E.m_dataType = 5 ∨ E.m_dataType = 10 := hr
        rcases hdt with hdt | hdt <;> rw [hdt] at hes1 <;>
          simp only [TiffDatatypeLength, Except.ok.injEq] at hes1 <;> exact hes1.symm
      rw [h8] at hes_dvd
      exact Dvd.dvd.trans (by decide) hes_dvd
    · exact hes_dvd
  have hVne : V ≠ [] := by
    intro hq
    rw [hq] at hfull
    simp at hfull
    omega
  have hconv : ∃ payload, (if oe ≠ ee then change_endianness V s else pure V : Except Error _)
      = Except.ok payload ∧ payload.length = V.length ∧ (∀ b ∈ payload, b < 256)
      ∧ (oe ≠ ee → payload = eachElementReversed s V) ∧ (oe = ee ∨ s = 1 → payload = V) := by
    by_cases hoe : oe ≠ ee
    · rw [if_pos hoe, change_endianness_ok hs_pos hs_dvd]
      refine ⟨_, rfl, eachElementReversed_length hs_dvd, ?_, fun _ => rfl, ?_⟩
      · intro b hb
        unfold eachElementReversed at hb
        simp only [List.mem_flatMap, List.mem_reverse] at hb
        obtain ⟨k, _, hk⟩ := hb
        exact hbytes b (List.mem_of_mem_drop (List.mem_of_mem_take hk))
      · intro hq
        rcases hq with hq | hq
        · exact absurd hq hoe
        · rw [hq, eachElementReversed_one]
    · rw [if_neg hoe]
      exact ⟨V, rfl, rfl, hbytes, fun hq => absurd hq hoe, fun _ => rfl⟩
  obtain ⟨payload, c1, c2, c3, c4, c5⟩ := hconv
  have hpne : payload ≠ [] := by
    intro hq
    rw [hq] at c2
    exact hVne (List.length_eq_zero.1 c2.symm)
  have hoff : ∃ e, TiffDirEntry.ofOffset E.Tag E.GetDataType E.GetDataCount st.offset oe
      = Except.ok e := by
    have hge : toInt32 (E.m_dataCount * es) ≥ 4 := by
      rw [← toInt32_mod, ← hdsv]
      omega
    cases hr : TiffDirEntry.ofOffset E.Tag E.GetDataType E.GetDataCount st.offset oe with
    | ok e => exact ⟨e, rfl⟩
    | error err =>
      exfalso
      unfold TiffDirEntry.ofOffset at hr
      simp [TiffDirEntry.GetDataType, TiffDirEntry.GetDataCount, hes1, ASSERT, hge,
        bind, Except.bind, pure, Except.pure] at hr
  obtain ⟨e, he⟩ := hoff
  refine ⟨payload, e, ⟨st.outfile ++ block (byteVectorAt oe st.offset payload),
    blockEnd (byteVectorAt oe st.offset payload), st.dir_entries ++ [e]⟩, ?_, rfl, rfl, rfl, ?_,
    he, rfl, c2, c4, c5⟩
  · unfold Write_Selected_Entries_step
    rw [hs] at c1
    simp only [pure, Except.pure] at c1
    simp only [hds, hes, hsel, hbig, if_true, bind, Except.bind, CreateSegment_ByteVector,
      AddSegmentPadded_eq, he, pure, Except.pure]
    rw [c1]
    simp only [assign_ByteVector_ok _ _ _ hpne, (byteVectorAt_facts _ _ _).2.2.1, if_true]
  · rw [(byteVectorAt_facts _ _ _).2.2.2.2, map_mod_bytes c3]

/-- Witness of C15: a Rational entry (ExposureTime, one element of eight bytes) of a big-endian
Exif block written to a little-endian file; the captured bytes `00 00 00 01 00 00 00 32` are
written as `01 00 00 00 32 00 00 00`, each half of four bytes reversed. -/
theorem C15_converted_payload_witness :
    eachElementReversed 4 [0, 0, 0, 1, 0, 0, 0, 50] = [1, 0, 0, 0, 50, 0, 0, 0]
      ∧ ∃ (payload : ByteVector) (e : TiffDirEntry) (st1 : WriteState),
          Write_Selected_Entries_step Endianness.Big Endianness.Little (relevant_exif_tags stdTags)
              ⟨[], 64, []⟩ (offsetEntry 33434 Datatype.Rational 1 56, [0, 0, 0, 1, 0, 0, 0, 50])
            = Except.ok st1
          ∧ st1.outfile = [] ++ block (byteVectorAt Endianness.Little 64 payload)
          ∧ (byteVectorAt Endianness.Little 64 payload).segmenttype = Segmenttype.TiffByteVector
          ∧ (byteVectorAt Endianness.Little 64 payload).m_offset = 64
          ∧ (byteVectorAt Endianness.Little 64 payload).m_data = payload
          ∧ TiffDirEntry.ofOffset 33434 Datatype.Rational 1 64 Endianness.Little = Except.ok e
          ∧ st1.dir_entries = [] ++ [e]
          ∧ payload.length = 8
          ∧ (Endianness.Little ≠ Endianness.Big →
              payload = eachElementReversed 4 [0, 0, 0, 1, 0, 0, 0, 50])
          ∧ (Endianness.Little = Endianness.Big ∨ 4 = 1 → payload = [0, 0, 0, 1, 0, 0, 0, 50]) :=
  ⟨by decide,
    C15_converted_payload Endianness.Big Endianness.Little (relevant_exif_tags stdTags)
      ⟨[], 64, []⟩ (offsetEntry 33434 Datatype.Rational 1 56) [0, 0, 0, 1, 0, 0, 0, 50] 8 8 4
      rfl rfl rfl rfl (by decide) rfl (by decide)⟩

theorem mem_block (s : FileSegment) : s ∈ block s := by
  unfold block
  split <;> simp

theorem layout_mem_plan {T : TiffTag} {G : GraphicsVector} {L : LayoutState} {P : Plan}
    (hL : planLayout T G = Except.ok L) (hD : planDirectory T L = Except.ok P)
    {s : FileSegment} (hs : s ∈ L.TiffFile) (hk : s.segmenttype ≠ Segmenttype.TiffHeader) :
    s ∈ P.TiffFile := by
  obtain ⟨tail, more, entries, x1, x2, _⟩ := plan_extends hL hD
  rw [x1] at hs
  rw [x2]
  rcases List.mem_cons.1 hs with h | h
  · exact absurd (by rw [h]; rfl) hk
  · exact List.mem_cons_of_mem _ (List.mem_append_left _ h)

theorem planLayout_icc_begin {T : TiffTag} {G : GraphicsVector} {L : LayoutState}
    (h : planLayout T G = Except.ok L) :
    L.O.icc_profile_begin = L.O.jpeg_tables_end ∧ L.O.icc_profile_begin % 2 = 0 := by
  obtain ⟨a, c, img, tabs, mid, _, _, hc, _, _, _, _, _, _, _, _, _, l11, _⟩ :=
    planLayout_structure h
  have hb : L.O.icc_profile_begin = L.O.jpeg_tables_end := by
    unfold planLayout at h
    cases G with
    | nil => cases h
    | cons g0 G1 =>
      simp only [bind_ok] at h
      obtain ⟨seg0, hseg0, h⟩ := h
      split at h
      · cases h
      · simp only [bind_ok] at h
        obtain ⟨_, _, hdr, _, r0, _, soi, _, r1, _, st, _, eoi, _, r2, _, soi2, _, r3, _, r4, _,
          eoi2, _, r5, _, app2, h2, icc, hicc, r6, hr6, app1, h1, exif, hexif, back, _, _, _,
          r7, hr7, r8, hr8, r9, hr9, h⟩ := h
        simp only [pure, Except.pure, Except.ok.injEq] at h
        subst h
        rfl
  refine ⟨hb, ?_⟩
  rw [hb, l11]
  omega

theorem metadataEntries_ok {T : TiffTag} {O : Offsets} {rest : List TiffDirEntry}
    (h : metadataEntries T O Endianness.Little = Except.ok rest) :
    ∃ e13 e14 e15 : List TiffDirEntry, rest = e13 ++ e14 ++ e15
      ∧ (O.icc_profile_end > O.icc_profile_begin →
          e13 = [offsetEntry T.IccProfile Datatype.Xbyte
            (O.icc_profile_end - O.icc_profile_begin) O.icc_profile_begin])
      ∧ (¬ O.icc_profile_end > O.icc_profile_begin → e13 = [])
      ∧ (∀ e ∈ e14, e.Tag = T.ExifIFD) ∧ (∀ e ∈ e15, e.Tag = T.GPSIFD) := by
  unfold metadataEntries at h
  simp only [bind_ok] at h
  obtain ⟨e13, h13, e14, h14, e15, h15, h⟩ := h
  simp only [pure, Except.pure, Except.ok.injEq] at h
  refine ⟨e13, e14, e15, h.symm, ?_, ?_, ?_, ?_⟩
  · intro hq
    rw [if_pos hq] at h13
    cases hr : TiffDirEntry.ofOffset T.IccProfile Datatype.Xbyte
        (O.icc_profile_end - O.icc_profile_begin) O.icc_profile_begin Endianness.Little with
    | error err => rw [hr] at h13; cases h13
    | ok e =>
      rw [hr] at h13
      simp only [Except.map, Except.ok.injEq] at h13
      rw [← h13, ofOffset_ok hr]
  · intro hq
    rw [if_neg hq] at h13
    simp only [pure, Except.pure, Except.ok.injEq] at h13
    exact h13.symm
  · intro e he
    by_cases hq : O.exifdir_offset > 0
    · rw [if_pos hq, ofOffset_long] at h14
      simp only [Except.map, Except.ok.injEq] at h14
      rw [← h14] at he
      rw [List.mem_singleton.1 he]
      rfl
    · rw [if_neg hq] at h14
      simp only [pure, Except.pure, Except.ok.injEq] at h14
      rw [← h14] at he
      cases he
  · intro e he
    by_cases hq : O.gpsdir_offset > 0
    · rw [if_pos hq, ofOffset_long] at h15
      simp only [Except.map, Except.ok.injEq] at h15
      rw [← h15] at he
      rw [List.mem_singleton.1 he]
      rfl
    · rw [if_neg hq] at h15
      simp only [pure, Except.pure, Except.ok.injEq] at h15
      rw [← h15] at he
      cases he

theorem elementsize_dvd {E : TiffDirEntry} {ds es : Nat} {V : ByteVector}
    (hds : E.GetDataSize = Except.ok ds) (hes : E.GetElementSize = Except.ok es)
    (hfull : V.length = ds) :
    0 < elementsize_for_change_endianness E.GetDataType es
      ∧ elementsize_for_change_endianness E.GetDataType es ∣ V.length := by
  have hes1 : TiffDatatypeLength E.m_dataType = Except.ok es := hes
  obtain ⟨hpos, hdvd, hcases⟩ := datatypeLength_dvd hes1
  have hdsv : ds = (E.m_dataCount * es) % 4294967296 := by
    unfold TiffDirEntry.GetDataSize at hds
    rw [hes1] at hds
    simp only [bind, Except.bind, pure, Except.pure, Except.ok.injEq] at hds
    exact hds.symm
  have hes_dvd : es ∣ V.length := by
    rw [hfull, hdsv]
    exact (Nat.dvd_mod_iff hdvd).2 (Dvd.intro_left _ rfl)
  unfold elementsize_for_change_endianness
  split
  · rename_i hr
    have h8 : es = 8 := by
      have hdt : E.m_dataType = 5 ∨ E.m_dataType = 10 := hr
      rcases hdt with hdt | hdt <;> rw [hdt] at hes1 <;>
        simp only [TiffDatatypeLength, Except.ok.injEq] at hes1 <;> exact hes1.symm
    rw [h8] at hes_dvd
    exact ⟨by decide, Dvd.dvd.trans (by decide) hes_dvd⟩
  · exact ⟨hpos, hes_dvd⟩

theorem convertData_cases {ee oe : Endianness} {E : TiffDirEntry} {V V1 : ByteVector}
    {es : Nat} (hes : E.GetElementSize = Except.ok es)
    (h : convertData ee oe E V = Except.ok V1) :
    (oe = ee → V1 = V)
      ∧ (oe ≠ ee →
          change_endianness V (elementsize_for_change_endianness E.GetDataType es)
            = Except.ok V1) := by
  unfold convertData at h
  simp only [hes, bind, Except.bind] at h
  by_cases hoe : oe ≠ ee
  · rw [if_pos hoe] at h
    exact ⟨fun hq => absurd hq hoe, fun _ => h⟩
  · rw [if_neg hoe] at h
    simp only [pure, Except.pure, Except.ok.injEq] at h
    exact ⟨fun _ => h.symm, fun hq => absurd hq hoe⟩

theorem bitsPerSampleEntry_tag {T : TiffTag} {F : FrameVars} {O : Offsets}
    {e3 : List TiffDirEntry}
    (h : bitsPerSampleEntry T F O Endianness.Little = Except.ok e3) :
    ∀ e ∈ e3, e.Tag = T.BitsPerSample := by
  intro e he
  unfold bitsPerSampleEntry at h
  have hq : TiffDirEntry.ofOffset T.BitsPerSample Datatype.Ushort 3 O.bitsPerSample_offset
      Endianness.Little
      = Except.ok (offsetEntry T.BitsPerSample Datatype.Ushort 3 O.bitsPerSample_offset) := rfl
  rw [hq, ofShorts_one] at h
  split at h
  · simp only [Except.map, Except.ok.injEq] at h
    rw [← h] at he
    rw [List.mem_singleton.1 he]
    rfl
  · split at h
    · simp only [Except.map, Except.ok.injEq] at h
      rw [← h] at he
      rw [List.mem_singleton.1 he]
      rfl
    · simp only [pure, Except.pure, Except.ok.injEq] at h
      rw [← h] at he
      cases he

theorem subSamplingEntry_tag {T : TiffTag} {F : FrameVars} {e12 : List TiffDirEntry}
    (h : subSamplingEntry T F Endianness.Little = Except.ok e12) :
    ∀ e ∈ e12, e.Tag = T.YCbCrSubSampling := by
  intro e he
  unfold subSamplingEntry at h
  rw [ofShorts_two] at h
  split at h
  · simp only [Except.map, Except.ok.injEq] at h
    rw [← h] at he
    rw [List.mem_singleton.1 he]
    rfl
  · split at h
    · cases h
    · simp only [pure, Except.pure, Except.ok.injEq] at h
      rw [← h] at he
      cases he

theorem fromExif_selected {foo : Nat → Nat → Bool} {fx : List TiffDirEntry}
    {dir : List (TiffDirEntry × ByteVector)}
    (h : fx.map entryShape
      = (dir.filter (fun x => foo x.1.Tag x.1.GetDataType)).map (fun x => entryShape x.1)) :
    ∀ e ∈ fx, foo e.Tag e.GetDataType = true := by
  intro e he
  have h1 : entryShape e ∈ fx.map entryShape := List.mem_map_of_mem _ he
  rw [h] at h1
  obtain ⟨x, hx, hxe⟩ := List.mem_map.1 h1
  have hsel := (List.mem_filter.1 hx).2
  simp only [entryShape, Prod.mk.injEq] at hxe
  rw [← hxe.1, ← hxe.2.1]
  exact hsel

theorem plan_icc {T : TiffTag} {G : GraphicsVector} {P : Plan} {icc : ByteVector}
    (h : ConvertJpegToTiff_plan T G = Except.ok P)
    (hicc : readIccProfile T G = Except.ok icc) :
    (icc ≠ [] → byteVectorAt Endianness.Little P.O.icc_profile_begin icc ∈ P.TiffFile
        ∧ P.O.icc_profile_end = P.O.icc_profile_begin + paddedSize icc.length)
      ∧ (icc = [] → P.O.icc_profile_end = P.O.icc_profile_begin) := by
  obtain ⟨L, hL, hD⟩ := plan_parts h
  obtain ⟨F0, app2, icc1, app1, info1, r6, r7, r8, r9, m1, m2, m3, m4, m5, m6, m7, m8, m9, m10,
    m11, m12, m13⟩ := planLayout_metadata hL
  have hi : icc1 = icc := Except.ok.inj ((readIccProfile_eq m1 m2).symm.trans hicc)
  subst hi
  obtain ⟨_, _, _, _, _, _, _, x5⟩ := plan_extends hL hD
  obtain ⟨b1, b2⟩ := planLayout_icc_begin hL
  have hb : P.O.icc_profile_begin = L.O.icc_profile_begin := by rw [x5]
  have he : P.O.icc_profile_end = L.O.icc_profile_end := by rw [x5]
  obtain ⟨w1, w2⟩ := writeIccProfile_inv m3
  obtain ⟨s7, hs7⟩ := writeSubDirectory_prefix m7
  obtain ⟨s8, hs8⟩ := writeSubDirectory_prefix m8
  obtain ⟨s9, hs9⟩ := writeMainEntries_prefix m9
  obtain ⟨f1, f2, f3, f4, f5⟩ := byteVectorAt_facts Endianness.Little L.O.icc_profile_begin icc1
  refine ⟨fun hne => ?_, fun hnil => ?_⟩
  · have hr := w1 (List.length_pos.2 hne)
    refine ⟨?_, ?_⟩
    · rw [hb]
      refine layout_mem_plan hL hD ?_ (by rw [f1]; decide)
      rw [m10, hs9, hs8, hs7, hr]
      exact List.mem_append_left _ (List.mem_append_left _ (List.mem_append_left _
        (List.mem_append_right _ (mem_block _))))
    · rw [he, hb, m4, hr]
      show blockEnd _ = _
      unfold blockEnd paddedSize
      rw [f2, f4]
      omega
  · have hr := w2 (by rw [hnil]; decide)
    rw [he, hb, m4, hr]

/-- C16 (as stated, refuted): the input with a little-endian Exif block (`49 49 2A 00`) and an
ICC profile in two APP2 chunks is accepted; the eight bytes `01 00 00 00 32 00 00 00` of its
ExposureTime entry are written at the new offset 72 unchanged, not byte-reversed (reversed in
two halves of four bytes they would be `00 00 00 01 00 00 00 32`). -/
theorem C16_counterexample :
    ∃ (P : Plan) (info : exif_info),
      ConvertJpegToTiff_plan stdTags exifIccInput = Except.ok P
      ∧ readExifInfo stdTags exifIccInput = Except.ok info
      ∧ info.endianness = Endianness.Little
      ∧ info.exif_dir.map (fun x => (entryShape x.1, x.2))
          = [((33434, 5, 1), [1, 0, 0, 0, 50, 0, 0, 0]), ((34855, 3, 1), [])]
      ∧ readIccProfile stdTags exifIccInput = Except.ok [1, 2, 3, 4, 5, 6, 7, 8]
      ∧ byteVectorPayloads P.TiffFile
          = [(64, [1, 2, 3, 4, 5, 6, 7, 8]), (72, [1, 0, 0, 0, 50, 0, 0, 0])]
      ∧ directoryShapes P.TiffFile
          = [(80, [(33434, 5, 1), (34855, 3, 1)]),
             (110, [(256, 4, 1), (257, 4, 1), (258, 3, 1), (259, 3, 1), (262, 3, 1), (273, 4, 1),
                    (277, 3, 1), (279, 4, 1), (284, 3, 1), (347, 7, 18), (34665, 4, 1),
                    (34675, 7, 8)])]
      ∧ eachElementReversed 4 [1, 0, 0, 0, 50, 0, 0, 0] = [0, 0, 0, 1, 0, 0, 0, 50] :=
  ⟨planOf stdTags exifIccInput, exifInfoOf stdTags exifIccInput, rfl, rfl, rfl, rfl, rfl, rfl,
    rfl, by decide⟩

/-- C16 (amended): for every accepted input, each entry of the Exif sub-directory that the Exif
selector accepts and whose data size exceeds 4 is written at a new offset: a ByteVector segment
of the planned list carries its data and the Exif directory segment, at the offset recorded for
the ExifIFD entry, holds an entry with the same tag, datatype and count and the offset of that
segment.  The data are the captured bytes unchanged when the Exif block is little-endian; they
are converted by `change_endianness` only when it is big-endian, each element of `s` bytes
reversed, `s` being 4 for Rational and SRational and the datatype length otherwise. -/
theorem C16_exif_external_data (T : TiffTag) (G : GraphicsVector) (P : Plan) (info : exif_info)
    (x : TiffDirEntry × ByteVector) (ds es : Nat)
    (h : ConvertJpegToTiff_plan T G = Except.ok P) (hinfo : readExifInfo T G = Except.ok info)
    (hx : x ∈ info.exif_dir) (hsel : relevant_exif_tags T x.1.Tag x.1.GetDataType = true)
    (hds : x.1.GetDataSize = Except.ok ds) (hes : x.1.GetElementSize = Except.ok es)
    (hbig : toInt32 ds > 4) :
    ∃ (payload : ByteVector) (off : Nat) (e : TiffDirEntry) (dirseg : FileSegment),
      byteVectorAt Endianness.Little off payload ∈ P.TiffFile
      ∧ TiffDirEntry.ofOffset x.1.Tag x.1.GetDataType x.1.GetDataCount off Endianness.Little
          = Except.ok e
      ∧ dirseg ∈ P.TiffFile
      ∧ dirseg.segmenttype = Segmenttype.TiffDirectory
      ∧ dirseg.m_offset = P.O.exifdir_offset
      ∧ e ∈ dirseg.m_entries
      ∧ (info.endianness = Endianness.Little → payload = x.2)
      ∧ (info.endianness = Endianness.Big →
          change_endianness x.2
              (if x.1.GetDataType = Datatype.Rational ∨ x.1.GetDataType = Datatype.SRational
               then 4 else es) = Except.ok payload
          ∧ (x.2.length = ds → payload = eachElementReversed
              (if x.1.GetDataType = Datatype.Rational ∨ x.1.GetDataType = Datatype.SRational
               then 4 else es) x.2)) := by
  obtain ⟨L, hL, hD⟩ := plan_parts h
  obtain ⟨F0, app2, icc, app1, info1, r6, r7, r8, r9, m1, m2, m3, m4, m5, m6, m7, m8, m9, m10,
    m11, m12, m13⟩ := planLayout_metadata hL
  have hi : info1 = info := by
    have := (readExifInfo_eq m5 m6).symm.trans hinfo
    exact Except.ok.inj this
  subst hi
  obtain ⟨_, _, _, _, _, _, _, x5⟩ := plan_extends hL hD
  have hne : info1.exif_dir.length > 0 := List.length_pos_of_mem hx
  obtain ⟨w, off1, hw, hr, ho⟩ := (writeSubDirectory_inv m7).1 hne
  obtain ⟨V1, off, e, c1, c2, c3, c4, c5⟩ := (Write_Selected_Entries_inv hw).2 x hx hsel ds hds hbig
  obtain ⟨s8, hs8⟩ := writeSubDirectory_prefix m8
  obtain ⟨s9, hs9⟩ := writeMainEntries_prefix m9
  have hin : ∀ s, s ∈ r7.1 → s.segmenttype ≠ Segmenttype.TiffHeader → s ∈ P.TiffFile := by
    intro s hs hk
    refine layout_mem_plan hL hD ?_ hk
    rw [m10, hs9, hs8]
    exact List.mem_append_left _ (List.mem_append_left _ hs)
  obtain ⟨d1, d2, d3, d4, d5⟩ := directoryAt_facts Endianness.Little off1 w.1
  obtain ⟨k1, k2⟩ := convertData_cases hes c1
  refine ⟨V1, off, e, directoryAt Endianness.Little off1 w.1, ?_, c5, ?_, d1, ?_, ?_, ?_, ?_⟩
  · refine hin _ ?_ (by rw [(byteVectorAt_facts _ _ _).1]; decide)
    rw [hr]
    exact List.mem_append_left _ c3
  · refine hin _ ?_ (by rw [d1]; decide)
    rw [hr]
    exact List.mem_append_right _ (mem_block _)
  · rw [d2, x5, ← ho]
    exact m12.symm
  · rw [d5]
    exact c4
  · intro hle
    exact k1 hle.symm
  · intro hbe
    have hne : Endianness.Little ≠ info1.endianness := by rw [hbe]; decide
    refine ⟨k2 hne, fun hfull => ?_⟩
    obtain ⟨p1, p2⟩ := elementsize_dvd hds hes hfull
    have := (change_endianness_ok p1 p2).symm.trans (k2 hne)
    exact (Except.ok.inj this).symm

/-- Witness of C16 on the input with a big-endian Exif block whose ExposureTime entry has the
captured bytes `00 00 00 01 00 00 00 32`: the input is accepted and the only ByteVector segment
of the plan, at offset 64, carries `01 00 00 00 32 00 00 00`. -/
theorem C16_exif_external_data_witness :
    (exifInfoOf stdTags exifBigInput).endianness = Endianness.Big
      ∧ ((exifInfoOf stdTags exifBigInput).exif_dir.getD 0 default).2
          = [0, 0, 0, 1, 0, 0, 0, 50]
      ∧ byteVectorPayloads (planOf stdTags exifBigInput).TiffFile
          = [(64, [1, 0, 0, 0, 50, 0, 0, 0])]
      ∧ ∃ (payload : ByteVector) (off : Nat) (e : TiffDirEntry) (dirseg : FileSegment),
          byteVectorAt Endianness.Little off payload ∈ (planOf stdTags exifBigInput).TiffFile
          ∧ TiffDirEntry.ofOffset 33434 5 1 off Endianness.Little = Except.ok e
          ∧ dirseg ∈ (planOf stdTags exifBigInput).TiffFile
          ∧ dirseg.segmenttype = Segmenttype.TiffDirectory
          ∧ dirseg.m_offset = (planOf stdTags exifBigInput).O.exifdir_offset
          ∧ e ∈ dirseg.m_entries
          ∧ ((exifInfoOf stdTags exifBigInput).endianness = Endianness.Little →
              payload = [0, 0, 0, 1, 0, 0, 0, 50])
          ∧ ((exifInfoOf stdTags exifBigInput).endianness = Endianness.Big →
              change_endianness [0, 0, 0, 1, 0, 0, 0, 50] 4 = Except.ok payload
              ∧ ([0, 0, 0, 1, 0, 0, 0, 50].length = 8 →
                  payload = eachElementReversed 4 [0, 0, 0, 1, 0, 0, 0, 50])) :=
  ⟨rfl, rfl, rfl,
    C16_exif_external_data stdTags exifBigInput (planOf stdTags exifBigInput)
      (exifInfoOf stdTags exifBigInput)
      ((exifInfoOf stdTags exifBigInput).exif_dir.getD 0 default) 8 8 rfl rfl (by decide) rfl rfl
      rfl (by decide)⟩

/-- C17 (as stated, refuted): the input whose ICC profile has the five bytes `01 02 03 04 05` is
accepted; the ByteVector segment at offset 64 carries these five bytes, and the IccProfile entry
(34675, datatype 7) of the main directory has the count 6, not 5. -/
theorem C17_counterexample :
    ∃ (P : Plan) (dir : FileSegment),
      ConvertJpegToTiff_plan stdTags oddIccInput = Except.ok P
      ∧ readIccProfile stdTags oddIccInput = Except.ok [1, 2, 3, 4, 5]
      ∧ byteVectorPayloads P.TiffFile = [(64, [1, 2, 3, 4, 5])]
      ∧ P.TiffFile.getLast? = some dir
      ∧ (dir.m_entries.filter (fun e => decide (e.Tag = 34675))).map entryShape
          = [(34675, 7, 6)]
      ∧ offsetEntry 34675 Datatype.Xbyte 6 64 ∈ dir.m_entries :=
  ⟨planOf stdTags oddIccInput, _, rfl, rfl, rfl, rfl, rfl, by decide⟩

/-- C17 (amended): for every accepted input with a non-empty reassembled ICC profile, a
ByteVector segment of the planned list carries the profile at the offset `icc_profile_begin`,
and the main directory holds an IccProfile entry of datatype 7 whose value field is that offset
and whose count is the length of the profile rounded up to the next even number (the padding
byte after a profile of odd length is counted).  The tag id of IccProfile being different from
the other tag ids the planner uses, an entry of the main directory with the tag IccProfile and
datatype 7 is this entry, and there is none when the profile is empty. -/
theorem C17_icc_profile_entry (T : TiffTag) (G : GraphicsVector) (P : Plan) (icc : ByteVector)
    (hT : T.IccProfile ∉ [T.ImageWidth, T.ImageLength, T.BitsPerSample, T.Compression,
      T.PhotometricInterpretation, T.StripOffsets, T.SamplesPerPixel, T.StripByteCounts,
      T.PlanarConfig, T.JPEGTables, T.YCbCrSubSampling, T.ExifIFD, T.GPSIFD, T.Orientation,
      T.Exposure])
    (h : ConvertJpegToTiff_plan T G = Except.ok P)
    (hicc : readIccProfile T G = Except.ok icc) :
    ∃ dir : FileSegment, P.TiffFile.getLast? = some dir
      ∧ (icc ≠ [] →
          byteVectorAt Endianness.Little P.O.icc_profile_begin icc ∈ P.TiffFile
          ∧ offsetEntry T.IccProfile Datatype.Xbyte (paddedSize icc.length)
              P.O.icc_profile_begin ∈ dir.m_entries)
      ∧ (∀ e ∈ dir.m_entries, e.Tag = T.IccProfile → e.GetDataType = Datatype.Xbyte →
          icc ≠ [] ∧ e = offsetEntry T.IccProfile Datatype.Xbyte (paddedSize icc.length)
            P.O.icc_profile_begin)
      ∧ (icc = [] → ∀ e ∈ dir.m_entries,
          ¬ (e.Tag = T.IccProfile ∧ e.GetDataType = Datatype.Xbyte)) := by
  obtain ⟨info, fx, entries, p1, p2, p3, p4⟩ := plan_fromExif h
  obtain ⟨e3, e12, rest, q1, q2, q3, q4⟩ := mainDirectoryEntries_ok p3
  obtain ⟨e13, e14, e15, g1, g2, g3, g4, g5⟩ := metadataEntries_ok q3
  obtain ⟨i1, i2⟩ := plan_icc h hicc
  have hpad : icc ≠ [] → paddedSize icc.length > 0 := by
    intro hq
    have := List.length_pos.2 hq
    unfold paddedSize
    omega
  have key : ∀ e ∈ (mainDirectory P.offset entries).m_entries, e.Tag = T.IccProfile →
      e.GetDataType = Datatype.Xbyte →
      icc ≠ [] ∧ e = offsetEntry T.IccProfile Datatype.Xbyte (paddedSize icc.length)
        P.O.icc_profile_begin := by
    intro e he htag hdt
    have he1 : e ∈ entries := (mainDirectory_perm P.offset entries).mem_iff.1 he
    rw [q4, g1] at he1
    have fixedTag : ∀ {l : List TiffDirEntry}, e ∈ l → (∀ x ∈ l, x.Tag ∈ [T.ImageWidth,
        T.ImageLength, T.BitsPerSample, T.Compression, T.PhotometricInterpretation,
        T.StripOffsets, T.SamplesPerPixel, T.StripByteCounts, T.PlanarConfig, T.JPEGTables,
        T.YCbCrSubSampling, T.ExifIFD, T.GPSIFD, T.Orientation, T.Exposure]) → False := by
      intro l hl hall
      exact hT (by rw [← htag]; exact hall e hl)
    rcases List.mem_append.1 he1 with h1 | h1
    · rcases List.mem_append.1 h1 with h2 | h2
      · rcases List.mem_append.1 h2 with h3 | h3
        · rcases List.mem_append.1 h3 with h4 | h4
          · rcases List.mem_append.1 h4 with h5 | h5
            · exact (fixedTag h5 (by
                intro x hx
                simp only [List.mem_cons, List.mem_singleton, List.not_mem_nil, or_false] at hx
                rcases hx with hx | hx <;> rw [hx] <;> simp [longEntry, TiffDirEntry.Tag])).elim
            · exact (fixedTag h5 (by
                intro x hx
                rw [bitsPerSampleEntry_tag q1 x hx]
                simp)).elim
          · exact (fixedTag h4 (by
              intro x hx
              simp only [List.mem_cons, List.mem_singleton, List.not_mem_nil, or_false] at hx
              rcases hx with hx | hx | hx | hx | hx | hx | hx <;> rw [hx] <;>
                simp [longEntry, shortsEntry, offsetEntry, TiffDirEntry.Tag])).elim
        · exact (fixedTag h3 (by
            intro x hx
            rw [subSamplingEntry_tag q2 x hx]
            simp)).elim
      · exfalso
        have hsel := fromExif_selected p4 e h2
        rw [htag, hdt] at hsel
        unfold relevant_main_directory_tags at hsel
        split at hsel
        · cases hsel
        · split at hsel
          · rename_i ho
            rcases ho with ho | ho
            · exact hT (by rw [ho]; simp)
            · exact hT (by rw [ho]; simp)
          · revert hsel
            decide
    · rcases List.mem_append.1 h1 with h2 | h2
      · rcases List.mem_append.1 h2 with h3 | h3
        · by_cases hgt : P.O.icc_profile_end > P.O.icc_profile_begin
          · have hicc_ne : icc ≠ [] := by
              intro hq
              have := i2 hq
              omega
            rw [g2 hgt] at h3
            have h4 := List.mem_singleton.1 h3
            refine ⟨hicc_ne, ?_⟩
            rw [h4, (i1 hicc_ne).2]
            congr 1
            omega
          · rw [g3 hgt] at h3
            cases h3
        · exact (fixedTag h3 (by
            intro x hx
            rw [g4 x hx]
            simp)).elim
      · exact (fixedTag h2 (by
          intro x hx
          rw [g5 x hx]
          simp)).elim
  refine ⟨mainDirectory P.offset entries, p2, ?_, key, ?_⟩
  · intro hq
    refine ⟨(i1 hq).1, mem_mainDirectory ?_⟩
    have hgt : P.O.icc_profile_end > P.O.icc_profile_begin := by
      have := hpad hq
      rw [(i1 hq).2]
      omega
    have h13 := g2 hgt
    rw [(i1 hq).2] at h13
    have hsub : P.O.icc_profile_begin + paddedSize icc.length - P.O.icc_profile_begin
        = paddedSize icc.length := by omega
    rw [hsub] at h13
    rw [q4, g1, h13]
    simp
  · intro hq e he hc
    exact (key e he hc.1 hc.2).1 hq

/-- Witness of C17 on the input with an ICC profile of eight bytes in two APP2 chunks: the
profile is carried at offset 64 and the main directory holds the entry (34675, 7, 8, 64). -/
theorem C17_icc_profile_entry_witness :
    readIccProfile stdTags exifIccInput = Except.ok [1, 2, 3, 4, 5, 6, 7, 8]
      ∧ (planOf stdTags exifIccInput).O.icc_profile_begin = 64
      ∧ paddedSize 8 = 8
      ∧ ∃ dir : FileSegment, (planOf stdTags exifIccInput).TiffFile.getLast? = some dir
          ∧ (([1, 2, 3, 4, 5, 6, 7, 8] : ByteVector) ≠ [] →
              byteVectorAt Endianness.Little (planOf stdTags exifIccInput).O.icc_profile_begin
                  [1, 2, 3, 4, 5, 6, 7, 8] ∈ (planOf stdTags exifIccInput).TiffFile
              ∧ offsetEntry stdTags.IccProfile Datatype.Xbyte
                  (paddedSize ([1, 2, 3, 4, 5, 6, 7, 8] : ByteVector).length)
                  (planOf stdTags exifIccInput).O.icc_profile_begin ∈ dir.m_entries)
          ∧ (∀ e ∈ dir.m_entries, e.Tag = stdTags.IccProfile →
              e.GetDataType = Datatype.Xbyte →
              ([1, 2, 3, 4, 5, 6, 7, 8] : ByteVector) ≠ []
                ∧ e = offsetEntry stdTags.IccProfile Datatype.Xbyte
                    (paddedSize ([1, 2, 3, 4, 5, 6, 7, 8] : ByteVector).length)
                    (planOf stdTags exifIccInput).O.icc_profile_begin)
          ∧ (([1, 2, 3, 4, 5, 6, 7, 8] : ByteVector) = [] → ∀ e ∈ dir.m_entries,
              ¬ (e.Tag = stdTags.IccProfile ∧ e.GetDataType = Datatype.Xbyte)) :=
  ⟨rfl, rfl, rfl,
    C17_icc_profile_entry stdTags exifIccInput (planOf stdTags exifIccInput)
      [1, 2, 3, 4, 5, 6, 7, 8] (by decide) rfl rfl⟩

theorem mapM_range'_get {α : Type} (l pre : List α) :
    (List.range' pre.length l.length).mapM (fun i => (pre ++ l).get? i) = some l := by
  induction l generalizing pre with
  | nil => rfl
  | cons a l ih =>
    rw [List.length_cons, List.range'_succ, List.mapM_cons]
    have h1 : (pre ++ a :: l).get? pre.length = some a := by
      rw [List.get?_eq_getElem?, List.getElem?_append_right (Nat.le_refl _)]
      simp
    have h2 := ih (pre ++ [a])
    rw [List.length_append, List.length_singleton, List.append_assoc, List.singleton_append] at h2
    rw [h1, h2]
    rfl

theorem mapM_range_get {α : Type} (l : List α) :
    (List.range l.length).mapM (fun i => l.get? i) = some l := by
  have := mapM_range'_get l []
  rwa [List.length_nil, List.nil_append, ← List.range_eq_range'] at this

theorem concatChunks_ok {l : List ByteVector} {r : ByteVector}
    (h : concatChunks l = Except.ok r) : (∀ c ∈ l, c ≠ []) ∧ r = l.flatten := by
  induction l generalizing r with
  | nil =>
    simp only [concatChunks, pure, Except.pure, Except.ok.injEq] at h
    refine ⟨?_, ?_⟩
    · intro c hc
      cases hc
    · rw [← h]
      rfl
  | cons c l ih =>
    simp only [concatChunks, bind_ok, ASSERT_ok, decide_eq_true_eq] at h
    obtain ⟨_, hc, r1, hr1, h⟩ := h
    simp only [pure, Except.pure, Except.ok.injEq] at h
    obtain ⟨i1, i2⟩ := ih hr1
    refine ⟨?_, by rw [← h, i2]; rfl⟩
    intro x hx
    rcases List.mem_cons.1 hx with hx | hx
    · rw [hx]; exact hc
    · exact i1 x hx

theorem concatChunks_flatten {l : List ByteVector} (h : ∀ c ∈ l, c ≠ []) :
    concatChunks l = Except.ok l.flatten := by
  induction l with
  | nil => rfl
  | cons c l ih =>
    have hc : c ≠ [] := h c (List.mem_cons_self _ _)
    simp only [concatChunks, ASSERT, hc, ne_eq, not_false_eq_true, decide_True, if_true,
      bind, Except.bind, ih (fun x hx => h x (List.mem_cons_of_mem _ hx)), pure, Except.pure,
      List.flatten_cons]

theorem iccChunk_facts (i N : Nat) {p : ByteVector} (hp : p ≠ []) (hl : p.length ≤ 65519) :
    valid_icc_chunk (iccChunk i N p) = Except.ok true
      ∧ byteAt (iccChunk i N p) 17 = Except.ok N
      ∧ byteAt (iccChunk i N p) 16 = Except.ok i
      ∧ (iccChunk i N p).drop 18 = p := by
  have hpos : p.length > 0 := List.length_pos.2 hp
  refine ⟨?_, rfl, rfl, rfl⟩
  have hlen : (iccChunk i N p).length = 18 + p.length := by
    simp [iccChunk, IccSignature]
    omega
  have hsig : ((iccChunk i N p).drop 4).take 12 = IccSignature := rfl
  have hus : MakeUShort (iccChunk i N p) 2 Endianness.Big = Except.ok (16 + p.length) := by
    have : MakeUShort (iccChunk i N p) 2 Endianness.Big
        = Except.ok (((16 + p.length) % 256 + 256 * ((16 + p.length) / 256)) % 65536) := rfl
    rw [this]
    congr 1
    omega
  have h0 : byteAt (iccChunk i N p) 0 = Except.ok 0xff := rfl
  have h1 : byteAt (iccChunk i N p) 1 = Except.ok 0xe2 := rfl
  unfold valid_icc_chunk
  rw [if_neg (by rw [hlen]; omega)]
  simp only [h0, h1, hus, hsig, hlen, ASSERT, bind, Except.bind, pure, Except.pure]
  rw [if_neg (by decide), if_pos (by simp; omega)]
  simp

theorem chunksOf_length (pieces : List ByteVector) (seen : List Nat) :
    (chunksOf pieces seen).length = pieces.length := by
  simp [chunksOf]

theorem chunksOf_get (pieces : List ByteVector) (seen : List Nat) {k : Nat}
    (hk : k < pieces.length) :
    (chunksOf pieces seen).get? k = some (if k ∈ seen then pieces.getD k [] else []) := by
  simp [chunksOf, List.getElem?_range hk, hk]

theorem chunksOf_nil (pieces : List ByteVector) :
    chunksOf pieces [] = List.replicate pieces.length [] := by
  apply List.ext_get?
  intro k
  by_cases hk : k < pieces.length
  · rw [chunksOf_get _ _ hk]
    simp [hk]
  · rw [List.get?_eq_none.2 (by rw [chunksOf_length]; omega),
      List.get?_eq_none.2 (by rw [List.length_replicate]; omega)]

theorem chunksOf_set (pieces : List ByteVector) (seen : List Nat) {j : Nat}
    (hj : j < pieces.length) :
    (chunksOf pieces seen).set j (pieces.getD j []) = chunksOf pieces (j :: seen) := by
  apply List.ext_get?
  intro k
  by_cases hk : k < pieces.length
  · rw [chunksOf_get _ _ hk, List.get?_eq_getElem?, List.getElem?_set]
    by_cases hjk : j = k
    · subst hjk
      simp [chunksOf_length, hj]
    · rw [if_neg hjk, ← List.get?_eq_getElem?, chunksOf_get _ _ hk]
      have : (k ∈ j :: seen) ↔ k ∈ seen := by
        simp only [List.mem_cons]
        constructor
        · rintro (h | h)
          · exact absurd h.symm hjk
          · exact h
        · exact Or.inr
      simp only [this]
  · rw [List.get?_eq_none.2 (by rw [List.length_set, chunksOf_length]; omega),
      List.get?_eq_none.2 (by rw [chunksOf_length]; omega)]

theorem chunksOf_all (pieces : List ByteVector) {seen : List Nat}
    (h : ∀ k < pieces.length, k ∈ seen) : chunksOf pieces seen = pieces := by
  apply List.ext_get?
  intro k
  by_cases hk : k < pieces.length
  · rw [chunksOf_get _ _ hk, if_pos (h k hk), List.getD_eq_getElem _ _ hk, List.get?_eq_get hk]
    rfl
  · rw [List.get?_eq_none.2 (by rw [chunksOf_length]; omega), List.get?_eq_none.2 (by omega)]

theorem ReadIccProfile_step_other {st : Nat × List ByteVector} {D : ByteVector}
    (h : valid_icc_chunk D = Except.ok false) : ReadIccProfile_step st D = Except.ok st := by
  unfold ReadIccProfile_step
  simp [h, bind, Except.bind, pure, Except.pure]

theorem ReadIccProfile_step_chunk (pieces : List ByteVector) (seen : List Nat) {j : Nat}
    (hj : j < pieces.length) (hns : j ∉ seen)
    (hp : ∀ p ∈ pieces, p ≠ [] ∧ p.length ≤ 65519) :
    ReadIccProfile_step (stateOf pieces seen)
        (iccChunk (j + 1) pieces.length (pieces.getD j []))
      = Except.ok (stateOf pieces (j :: seen)) := by
  have hmem : pieces.getD j [] ∈ pieces := by
    rw [List.getD_eq_getElem _ _ hj]
    exact List.getElem_mem _
  obtain ⟨hp1, hp2⟩ := hp _ hmem
  obtain ⟨f1, f2, f3, f4⟩ := iccChunk_facts (j + 1) pieces.length hp1 hp2
  have hN : pieces.length > 0 := by omega
  have hN0 : pieces.length ≠ 0 := by omega
  have hget := chunksOf_get pieces seen hj
  rw [if_neg hns] at hget
  have hrange : ¬ (j + 1 < 1 ∨ j + 1 > pieces.length) := by omega
  unfold ReadIccProfile_step
  simp only [f1, f2, f3, f4, bind, Except.bind, if_true]
  by_cases hs : seen = []
  · subst hs
    simp only [stateOf, if_true, List.length_nil, pure, Except.pure, ASSERT, hN, decide_True,
      hrange, if_false, Nat.add_sub_cancel, ← chunksOf_nil, hget, List.length_nil,
      chunksOf_set pieces [] hj]
    simp
  · simp only [stateOf, hs, if_false, hN0, ne_eq, not_true_eq_false, pure, Except.pure, ASSERT,
      hN, decide_True, if_true, chunksOf_length, hrange, Nat.add_sub_cancel, hget,
      List.length_nil, chunksOf_set pieces seen hj]
    simp

theorem ReadIccProfile_loop_pieces (pieces : List ByteVector)
    (hp : ∀ p ∈ pieces, p ≠ [] ∧ p.length ≤ 65519) :
    ∀ (S : List FileSegment) (desc : List (Option Nat)) (seen : List Nat),
      List.Forall₂ (Presents pieces) S desc →
      (∀ j ∈ desc.filterMap id, j < pieces.length ∧ j ∉ seen) →
      (desc.filterMap id).Nodup →
      ReadIccProfile_loop S (stateOf pieces seen)
        = Except.ok (stateOf pieces ((desc.filterMap id).reverse ++ seen)) := by
  intro S desc seen hF
  induction hF generalizing seen with
  | nil => intro _ _; rfl
  | @cons s d S desc hsd _ ih =>
    intro hj hnd
    cases d with
    | none =>
      have hv : valid_icc_chunk s.Data = Except.ok false := hsd
      simp only [ReadIccProfile_loop, ReadIccProfile_step_other hv, bind, Except.bind]
      exact ih seen hj hnd
    | some j =>
      have hD : s.Data = iccChunk (j + 1) pieces.length (pieces.getD j []) := hsd
      have hfm : (some j :: desc).filterMap id = j :: desc.filterMap id := rfl
      rw [hfm] at hj hnd ⊢
      obtain ⟨hjl, hjs⟩ := hj j (List.mem_cons_self _ _)
      obtain ⟨hjn, hnd1⟩ := List.nodup_cons.1 hnd
      simp only [ReadIccProfile_loop, hD, ReadIccProfile_step_chunk pieces seen hjl hjs hp, bind,
        Except.bind]
      rw [ih (j :: seen) ?_ hnd1]
      · simp
      · intro k hk
        refine ⟨(hj k (List.mem_cons_of_mem _ hk)).1, ?_⟩
        intro hq
        rcases List.mem_cons.1 hq with hq | hq
        · exact hjn (hq ▸ hk)
        · exact (hj k (List.mem_cons_of_mem _ hk)).2 hq

theorem getD_set (l : List ByteVector) (j i : Nat) (a : ByteVector) (hj : j < l.length) :
    (l.set j a).getD i [] = if i = j then a else l.getD i [] := by
  simp only [List.getD_eq_getElem?_getD, List.getElem?_set]
  by_cases hij : j = i
  · subst hij
    simp [hj]
  · rw [if_neg hij, if_neg (fun hq => hij hq.symm)]

theorem valid_icc_chunk_length {D : ByteVector} (h : valid_icc_chunk D = Except.ok true) :
    19 ≤ D.length := by
  unfold valid_icc_chunk at h
  by_cases hl : D.length < 4 + 12 + 2 + 1
  · rw [if_pos hl] at h
    cases h
  · omega

theorem byteAt_getD_zero {d : ByteVector} {j b : Nat} (h : byteAt d j = Except.ok b) :
    d.getD j 0 = b := byteAt_getD h

theorem IccState_step {V : List FileSegment} {st st1 : Nat × List ByteVector}
    {s : FileSegment} (hI : IccState V st)
    (hv : valid_icc_chunk s.Data = Except.ok true)
    (h : ReadIccProfile_step st s.Data = Except.ok st1) : IccState (V ++ [s]) st1 := by
  have hlen := valid_icc_chunk_length hv
  have hdrop : s.Data.drop 18 ≠ [] := by
    intro hq
    have := congrArg List.length hq
    rw [List.length_drop, List.length_nil] at this
    omega
  unfold ReadIccProfile_step at h
  simp only [hv, bind, Except.bind, if_true] at h
  cases h17 : byteAt s.Data 17 with
  | error err => rw [h17] at h; cases h
  | ok d17 =>
    cases h16 : byteAt s.Data 16 with
    | error err =>
      rw [h17, h16] at h
      simp only at h
      split at h
      · cases h
      · rename_i n hn
        split at h
        · cases h
        · cases h
    | ok c =>
      rw [h17, h16] at h
      simp only at h
      have e17 : num_chunks s.Data = d17 := byteAt_getD h17
      have e16 : chunk_no s.Data = c := byteAt_getD h16
      split at h
      · cases h
      · rename_i n hn
        simp only [ASSERT] at h
        by_cases hpos : n > 0
        · simp only [hpos, decide_True, if_true] at h
          by_cases hr : c < 1 ∨ c > n
          · rw [if_pos hr] at h
            cases h
          · rw [if_neg hr] at h
            split at h
            · cases h
            · rename_i ch hch
              by_cases hc0 : ch.length = 0
              · simp only [hc0, decide_True, if_true, pure, Except.pure, Except.ok.injEq] at h
                subst h
                have hch0 : ch = [] := List.length_eq_zero.1 hc0
                subst hch0
                -- the facts about the list `Chunks` before the assignment
                have J : d17 = n
                    ∧ (if st.2.length = 0 then List.replicate n [] else st.2).length = n
                    ∧ (∀ x ∈ V, num_chunks x.Data = n ∧ 1 ≤ chunk_no x.Data ∧ chunk_no x.Data ≤ n)
                    ∧ (V.map (fun x => chunk_no x.Data)).Nodup
                    ∧ ∀ i < n, ((if st.2.length = 0 then List.replicate n [] else st.2).getD i []
                        ≠ [] ↔ ∃ x ∈ V, chunk_no x.Data = i + 1) := by
                  by_cases hV : V = []
                  · have hst := hI.1 hV
                    subst hV
                    rw [hst] at hn ⊢
                    simp only [if_true, pure, Except.pure, Except.ok.injEq] at hn
                    refine ⟨hn, by simp, fun x hx => (by cases hx), List.nodup_nil, ?_⟩
                    intro i hi
                    simp [List.getD_eq_getElem?_getD, hi]
                  · obtain ⟨i1, i2, i3, i4, i5⟩ := hI.2 hV
                    have h10 : ¬ st.1 = 0 := by omega
                    rw [if_neg h10] at hn
                    by_cases hm : st.1 ≠ d17
                    · rw [if_pos hm] at hn
                      cases hn
                    · rw [if_neg hm] at hn
                      simp only [pure, Except.pure, Except.ok.injEq] at hn
                      subst hn
                      have h20 : ¬ st.2.length = 0 := by omega
                      simp only [if_neg h20]
                      exact ⟨(not_not.1 hm).symm, i2, i3, i4, i5⟩
                obtain ⟨j0, j1, j2, j3, j4⟩ := J
                have hcl : c - 1 < n := by omega
                have hnot : ¬ ∃ x ∈ V, chunk_no x.Data = c := by
                  intro hq
                  have := (j4 (c - 1) hcl).2 (by
                    obtain ⟨x, hx, hxc⟩ := hq
                    exact ⟨x, hx, by omega⟩)
                  apply this
                  rw [List.getD_eq_getElem?_getD, ← List.get?_eq_getElem?, hch]
                  rfl
                refine ⟨fun hq => absurd hq (by simp), fun _ => ⟨hpos, ?_, ?_, ?_, ?_⟩⟩
                · rw [List.length_set]
                  exact j1
                · intro x hx
                  rcases List.mem_append.1 hx with hx | hx
                  · exact j2 x hx
                  · rw [List.mem_singleton.1 hx, e17, e16]
                    exact ⟨j0, by omega, by omega⟩
                · rw [List.map_append, List.nodup_append]
                  refine ⟨j3, by simp, ?_⟩
                  intro a ha hb
                  simp only [List.map_cons, List.map_nil, List.mem_singleton] at hb
                  obtain ⟨x, hx, hxa⟩ := List.mem_map.1 ha
                  exact hnot ⟨x, hx, by rw [hxa, hb, e16]⟩
                · intro i hi
                  rw [getD_set _ _ _ _ (by rw [j1]; exact hcl)]
                  by_cases hic : i = c - 1
                  · rw [if_pos hic]
                    refine ⟨fun _ => ⟨s, by simp, by rw [e16]; omega⟩, fun _ => hdrop⟩
                  · rw [if_neg hic, j4 i hi]
                    constructor
                    · rintro ⟨x, hx, hxc⟩
                      exact ⟨x, List.mem_append_left _ hx, hxc⟩
                    · rintro ⟨x, hx, hxc⟩
                      rcases List.mem_append.1 hx with hx | hx
                      · exact ⟨x, hx, hxc⟩
                      · rw [List.mem_singleton.1 hx, e16] at hxc
                        omega
              · simp only [hc0, decide_False] at h
                cases h
        · simp only [hpos, decide_False] at h
          cases h

theorem isIccChunk_iff {D : ByteVector} :
    isIccChunk D = true ↔ valid_icc_chunk D = Except.ok true := by
  unfold isIccChunk
  split
  · rename_i h
    simp [h]
  · rename_i h
    constructor
    · intro hq; cases hq
    · intro hq; exact absurd hq (h)

theorem ReadIccProfile_step_skip {st st1 : Nat × List ByteVector} {D : ByteVector}
    (hv : isIccChunk D = false) (h : ReadIccProfile_step st D = Except.ok st1) : st1 = st := by
  unfold ReadIccProfile_step at h
  simp only [bind_ok] at h
  obtain ⟨valid, hvalid, h⟩ := h
  cases valid with
  | true =>
    have := isIccChunk_iff.2 hvalid
    rw [hv] at this
    cases this
  | false =>
    simp only [Bool.false_eq_true, if_false, pure, Except.pure, Except.ok.injEq] at h
    exact h.symm

theorem IccState_loop :
    ∀ (S V : List FileSegment) (st st1 : Nat × List ByteVector), IccState V st →
      ReadIccProfile_loop S st = Except.ok st1 →
      IccState (V ++ S.filter (fun s => isIccChunk s.Data)) st1 := by
  intro S
  induction S with
  | nil =>
    intro V st st1 hI h
    simp only [ReadIccProfile_loop, pure, Except.pure, Except.ok.injEq] at h
    subst h
    simpa using hI
  | cons s S ih =>
    intro V st st1 hI h
    simp only [ReadIccProfile_loop, bind_ok] at h
    obtain ⟨st2, h2, h⟩ := h
    by_cases hv : isIccChunk s.Data = true
    · have := ih (V ++ [s]) st2 st1 (IccState_step hI (isIccChunk_iff.1 hv) h2) h
      rw [List.filter_cons, if_pos hv]
      simpa using this
    · have hv1 : isIccChunk s.Data = false := by simpa using hv
      have e := ReadIccProfile_step_skip hv1 h2
      subst e
      rw [List.filter_cons, if_neg hv]
      exact ih V st2 st1 hI h

theorem ReadIccProfile_ok_inv {S : List FileSegment} {r : ByteVector}
    (h : ReadIccProfile S = Except.ok r) :
    ((S.filter (fun s => isIccChunk s.Data)).map (fun s => chunk_no s.Data)).Nodup
      ∧ ∀ s ∈ S, isIccChunk s.Data = true →
          1 ≤ chunk_no s.Data ∧ chunk_no s.Data ≤ num_chunks s.Data
          ∧ (∀ s2 ∈ S, isIccChunk s2.Data = true → num_chunks s2.Data = num_chunks s.Data)
          ∧ ∀ i, 1 ≤ i → i ≤ num_chunks s.Data →
              ∃ s2 ∈ S, isIccChunk s2.Data = true ∧ chunk_no s2.Data = i := by
  unfold ReadIccProfile at h
  simp only [bind_ok] at h
  obtain ⟨st, hst, h⟩ := h
  have hI := IccState_loop S [] (0, []) st ⟨fun _ => rfl, fun hq => absurd rfl hq⟩ hst
  rw [List.nil_append] at hI
  by_cases hV : S.filter (fun s => isIccChunk s.Data) = []
  · rw [hV]
    refine ⟨List.nodup_nil, ?_⟩
    intro s hs hv
    have : s ∈ S.filter (fun s => isIccChunk s.Data) := List.mem_filter.2 ⟨hs, hv⟩
    rw [hV] at this
    cases this
  · obtain ⟨i1, i2, i3, i4, i5⟩ := hI.2 hV
    rw [if_pos i1, ← i2, mapM_range_get] at h
    obtain ⟨c1, _⟩ := concatChunks_ok h
    refine ⟨i4, ?_⟩
    intro s hs hv
    have hsV : s ∈ S.filter (fun s => isIccChunk s.Data) := List.mem_filter.2 ⟨hs, hv⟩
    obtain ⟨a1, a2, a3⟩ := i3 s hsV
    refine ⟨a2, by omega, ?_, ?_⟩
    · intro s2 hs2 hv2
      rw [a1, (i3 s2 (List.mem_filter.2 ⟨hs2, hv2⟩)).1]
    · intro i hi1 hi2
      have hlt : i - 1 < st.1 := by omega
      have hne : st.2.getD (i - 1) [] ≠ [] := by
        have hl : i - 1 < st.2.length := by omega
        rw [List.getD_eq_getElem _ _ hl]
        exact c1 _ (List.getElem_mem _)
      obtain ⟨s2, hs2, hc2⟩ := (i5 (i - 1) hlt).1 hne
      obtain ⟨m1, m2⟩ := List.mem_filter.1 hs2
      exact ⟨s2, m1, m2, by omega⟩

/-- C18: for pieces `piece_1, ..., piece_N` with `1 ≤ N ≤ 255`, all non-empty (and short enough
for the 16-bit length field), and for every list of APP2 segments in which each segment is
either the chunk `FF E2 <len> ICC_PROFILE 00 <i> <N> <piece_i>` of one index `i` or a payload
that `valid_icc_chunk` does not take for a chunk, every index `1..N` occurring exactly once in
any order, `ReadIccProfile` returns `piece_1 ++ ... ++ piece_N`. -/
theorem C18_icc_reassembly (pieces : List ByteVector) (S : List FileSegment)
    (desc : List (Option Nat))
    (hN : 1 ≤ pieces.length ∧ pieces.length ≤ 255)
    (hp : ∀ p ∈ pieces, p ≠ [] ∧ p.length ≤ 65519)
    (hS : List.Forall₂ (Presents pieces) S desc)
    (hperm : (desc.filterMap id).Perm (List.range pieces.length)) :
    ReadIccProfile S = Except.ok pieces.flatten := by
  have hnd : (desc.filterMap id).Nodup := hperm.nodup_iff.2 (List.nodup_range _)
  have hmem : ∀ j, j ∈ desc.filterMap id ↔ j < pieces.length := by
    intro j
    rw [hperm.mem_iff, List.mem_range]
  have hloop := ReadIccProfile_loop_pieces pieces hp S desc [] hS
    (fun j hj => ⟨(hmem j).1 hj, List.not_mem_nil _⟩) hnd
  rw [List.append_nil] at hloop
  have hne : (desc.filterMap id).reverse ≠ [] := by
    intro hq
    have h0 : 0 ∈ desc.filterMap id := (hmem 0).2 (by omega)
    rw [← List.mem_reverse, hq] at h0
    cases h0
  have hst : stateOf pieces (desc.filterMap id).reverse = (pieces.length, pieces) := by
    unfold stateOf
    rw [if_neg hne, chunksOf_all pieces (fun k hk => List.mem_reverse.2 ((hmem k).2 hk))]
  rw [hst] at hloop
  have h0 : stateOf pieces [] = (0, []) := rfl
  rw [h0] at hloop
  unfold ReadIccProfile
  simp only [hloop, bind, Except.bind]
  rw [if_pos (by omega), mapM_range_get]
  exact concatChunks_flatten (fun c hc => (hp c hc).1)

/-- Witness of C18: the profile `01 02 03 04 05` in the two pieces `01 02 03` and `04 05`, the
second chunk presented first and a third APP2 segment without the signature between them. -/
theorem C18_icc_reassembly_witness :
    ReadIccProfile
        [parsedSegment Segmenttype.JpegApp2Segment 2 (iccChunk 2 2 [4, 5]),
         parsedSegment Segmenttype.JpegApp2Segment 22 [0xff, 0xe2, 0, 4, 1, 2],
         parsedSegment Segmenttype.JpegApp2Segment 28 (iccChunk 1 2 [1, 2, 3])]
      = Except.ok ([[1, 2, 3], [4, 5]] : List ByteVector).flatten :=
  C18_icc_reassembly [[1, 2, 3], [4, 5]]
    [parsedSegment Segmenttype.JpegApp2Segment 2 (iccChunk 2 2 [4, 5]),
     parsedSegment Segmenttype.JpegApp2Segment 22 [0xff, 0xe2, 0, 4, 1, 2],
     parsedSegment Segmenttype.JpegApp2Segment 28 (iccChunk 1 2 [1, 2, 3])]
    [some 1, none, some 0] (by decide) (by decide)
    (List.Forall₂.cons rfl (List.Forall₂.cons rfl (List.Forall₂.cons rfl List.Forall₂.nil)))
    (by decide)

/-- C19: `ReadIccProfile` fails (it returns no profile) whenever, among the APP2 segments that
pass `valid_icc_chunk`, two declare different numbers of chunks, or one has a chunk number
outside `1..num_chunks`, or two carry the same chunk number, or some index in `1..num_chunks` is
carried by none of them. -/
theorem C19_icc_failures (S : List FileSegment)
    (hbad : (∃ s1 ∈ S, ∃ s2 ∈ S, isIccChunk s1.Data = true ∧ isIccChunk s2.Data = true
          ∧ num_chunks s1.Data ≠ num_chunks s2.Data)
      ∨ (∃ s ∈ S, isIccChunk s.Data = true
          ∧ (chunk_no s.Data < 1 ∨ chunk_no s.Data > num_chunks s.Data))
      ∨ ¬ ((S.filter (fun s => isIccChunk s.Data)).map (fun s => chunk_no s.Data)).Nodup
      ∨ (∃ s ∈ S, isIccChunk s.Data = true ∧ ∃ i, 1 ≤ i ∧ i ≤ num_chunks s.Data
          ∧ ∀ s2 ∈ S, isIccChunk s2.Data = true → chunk_no s2.Data ≠ i)) :
    ∃ err, ReadIccProfile S = Except.error err := by
  cases hr : ReadIccProfile S with
  | error err => exact ⟨err, rfl⟩
  | ok r =>
    exfalso
    obtain ⟨n1, n2⟩ := ReadIccProfile_ok_inv hr
    rcases hbad with ⟨s1, h1, s2, h2, v1, v2, hne⟩ | ⟨s, hs, hv, hc⟩ | hdup | ⟨s, hs, hv, i, i1, i2, i3⟩
    · exact hne ((n2 s2 h2 v2).2.2.1 s1 h1 v1)
    · have := n2 s hs hv
      omega
    · exact hdup n1
    · obtain ⟨s2, m1, m2, m3⟩ := (n2 s hs hv).2.2.2 i i1 i2
      exact i3 s2 m1 m2 m3

/-- Witness of C19: two APP2 segments that both carry chunk number 1 of 2; the assertion on the
slot of chunk 1 fails at the second one. -/
theorem C19_icc_failures_witness :
    ¬ (([parsedSegment Segmenttype.JpegApp2Segment 2 (iccChunk 1 2 [1, 2, 3]),
          parsedSegment Segmenttype.JpegApp2Segment 23 (iccChunk 1 2 [4, 5])].filter
            (fun s => isIccChunk s.Data)).map (fun s => chunk_no s.Data)).Nodup
      ∧ ReadIccProfile
          [parsedSegment Segmenttype.JpegApp2Segment 2 (iccChunk 1 2 [1, 2, 3]),
           parsedSegment Segmenttype.JpegApp2Segment 23 (iccChunk 1 2 [4, 5])]
        = Except.error Error.AssertFailure
      ∧ ∃ err, ReadIccProfile
          [parsedSegment Segmenttype.JpegApp2Segment 2 (iccChunk 1 2 [1, 2, 3]),
           parsedSegment Segmenttype.JpegApp2Segment 23 (iccChunk 1 2 [4, 5])]
        = Except.error err :=
  ⟨by decide, rfl,
    C19_icc_failures
      [parsedSegment Segmenttype.JpegApp2Segment 2 (iccChunk 1 2 [1, 2, 3]),
       parsedSegment Segmenttype.JpegApp2Segment 23 (iccChunk 1 2 [4, 5])]
      (Or.inr (Or.inr (Or.inl (by decide))))⟩

theorem GetUShort_big {f : ByteVector} {pos hi lo : Nat}
    (h0 : f.get? pos = some hi) (h1 : f.get? (pos + 1) = some lo) :
    GetUShort f pos Endianness.Big = Except.ok ((lo + 256 * hi) % 65536) := by
  have hl : pos + 1 < f.length := (List.get?_eq_some.1 h1).1
  have hlen : ((f.drop pos).take 2).length = 2 := by
    rw [List.length_take, List.length_drop]
    omega
  have g0 : byteAt ((f.drop pos).take 2) 0 = Except.ok hi := by
    unfold byteAt
    rw [List.get?_eq_getElem?, List.getElem?_take_of_lt (by omega), List.getElem?_drop,
      ← List.get?_eq_getElem?, Nat.add_zero, h0]
  have g1 : byteAt ((f.drop pos).take 2) 1 = Except.ok lo := by
    unfold byteAt
    rw [List.get?_eq_getElem?, List.getElem?_take_of_lt (by omega), List.getElem?_drop,
      ← List.get?_eq_getElem?, h1]
  unfold GetUShort
  simp only [hlen, ne_eq, not_true_eq_false, if_false, g0, g1, bind, Except.bind, pure,
    Except.pure]

theorem GetBytes_ok {f : ByteVector} {pos n : Nat} (h : pos + n ≤ f.length) :
    GetBytes f pos n = Except.ok ((f.drop pos).take n) := by
  have hlen : ((f.drop pos).take n).length = n := by
    rw [List.length_take, List.length_drop]
    omega
  unfold GetBytes
  simp only [hlen, ne_eq, not_true_eq_false, if_false, pure, Except.pure]

/-- C20: for a marker segment whose two-byte big-endian length field holds `L` with
`L ≤ 65533`, whose `2 + L` bytes are in the file and begin with `FF`, and whose type is a JPEG
segment type other than the start of frame, `ReadJpegUnspecifiedSegment` appends one segment of
that type at the offset of the marker, of size `2 + L`, whose payload is the `2 + L` bytes of the
file from the `FF` of the marker on. -/
theorem C20_segment_length (T : TiffTag) (f : ByteVector) (G : GraphicsVector)
    (seg : Segmenttype) (offset hi lo L : Nat)
    (hseg : seg.isJpeg = true ∧ seg ≠ Segmenttype.JpegStartOfFrame)
    (hff : f.get? offset = some 0xff)
    (hhi : f.get? (offset + 2) = some hi) (hlo : f.get? (offset + 3) = some lo)
    (hL : L = 256 * hi + lo) (hmax : L ≤ 65533)
    (havail : offset + (2 + L) ≤ f.length) :
    ReadJpegUnspecifiedSegment T f G seg offset
      = Except.ok (G ++ [{ segmenttype := seg, m_offset := offset, m_size := 2 + L,
                           m_Endianness := Endianness.Big,
                           m_data := (f.drop offset).take (2 + L) }]) := by
  obtain ⟨hj, hsof⟩ := hseg
  have hus : GetUShort f (offset + 2) Endianness.Big = Except.ok L := by
    rw [GetUShort_big hhi hlo, hL]
    congr 1
    omega
  have hlen : (L + 2) % 65536 = 2 + L := by omega
  have hcs : CreateSegment seg Endianness.Big offset (2 + L)
      = Except.ok { segmenttype := seg, m_offset := offset, m_size := 2 + L,
                    m_Endianness := Endianness.Big } := by
    cases seg <;> first
      | (exfalso; revert hj; decide)
      | rfl
  have hb0 : byteAt ((f.drop offset).take (2 + L)) 0 = Except.ok 0xff := by
    unfold byteAt
    rw [List.get?_eq_getElem?, List.getElem?_take_of_lt (by omega), List.getElem?_drop,
      ← List.get?_eq_getElem?, Nat.add_zero, hff]
  have hdl : ((f.drop offset).take (2 + L)).length = 2 + L := by
    rw [List.length_take, List.length_drop]
    omega
  have hint : ∀ s : FileSegment, s.segmenttype = seg → FileSegment.InterpretData T s
      = Except.ok s := by
    intro s hs
    unfold FileSegment.InterpretData
    rw [hs]
    cases seg <;> first
      | (exfalso; revert hj; decide)
      | (exfalso; exact hsof rfl)
      | rfl
  unfold ReadJpegUnspecifiedSegment
  simp only [hus, hlen, hcs, bind, Except.bind, FileSegment.ReadData, ASSERT,
    GetBytes_ok havail, pure, Except.pure]
  have hpos : 2 + L > 0 := by omega
  simp only [hpos, decide_True, if_true]
  rw [hint _ rfl]
  simp [FileSegment.GetDataByte, hb0, hdl, AddSegmentNopad, backEnd, FileSegment.GetSize,
    FileSegment.GetOffset, bind, Except.bind, pure, Except.pure, ASSERT]

/-- Witness of C20: the APP0 segment `FF E0 00 04 01 02` at offset 0, whose length field is 4,
is emitted with size 6 and these six bytes. -/
theorem C20_segment_length_witness :
    ReadJpegUnspecifiedSegment stdTags [0xff, 0xe0, 0, 4, 1, 2] [] Segmenttype.JpegApp0Segment 0
      = Except.ok ([] ++ [{ segmenttype := Segmenttype.JpegApp0Segment, m_offset := 0,
                            m_size := 2 + 4, m_Endianness := Endianness.Big,
                            m_data := (([0xff, 0xe0, 0, 4, 1, 2] : ByteVector).drop 0).take
                              (2 + 4) }]) :=
  C20_segment_length stdTags [0xff, 0xe0, 0, 4, 1, 2] [] Segmenttype.JpegApp0Segment 0 0 4 4
    (by decide) rfl rfl rfl rfl (by decide) (by decide)

/-- C20 (the lengths 65534 and 65535): for the APP0 segment whose length field is `FF FF`
(65535), with all its 65537 bytes in the file, the segment `ReadJpegUnspecifiedSegment` emits
has the size 1 and the payload `FF`, not the size 65537; for the length field `FF FE` (65534)
the computed size is 0, the assertion of `ReadData` fails and no segment is emitted. -/
theorem C20_length_wraps :
    ([0xff, 0xe0, 0xff, 0xff] ++ List.replicate 65533 0 : ByteVector).length = 2 + 65535
      ∧ (∃ S : FileSegment,
          ReadJpegUnspecifiedSegment stdTags ([0xff, 0xe0, 0xff, 0xff] ++ List.replicate 65533 0)
              [] Segmenttype.JpegApp0Segment 0 = Except.ok [S]
          ∧ S.m_size = 1 ∧ S.m_data = [0xff])
      ∧ ([0xff, 0xe0, 0xff, 0xfe] ++ List.replicate 65532 0 : ByteVector).length = 2 + 65534
      ∧ ReadJpegUnspecifiedSegment stdTags ([0xff, 0xe0, 0xff, 0xfe] ++ List.replicate 65532 0)
          [] Segmenttype.JpegApp0Segment 0 = Except.error Error.AssertFailure :=
  ⟨by rw [List.length_append, List.length_replicate]; rfl, ⟨_, rfl, rfl, rfl⟩,
    by rw [List.length_append, List.length_replicate]; rfl, rfl⟩

theorem CreateSegment_jpeg {seg : Segmenttype} (hj : seg.isJpeg = true) (off size : Nat) :
    CreateSegment seg Endianness.Big off size
      = Except.ok { segmenttype := seg, m_offset := off, m_size := size,
                    m_Endianness := Endianness.Big } := by
  cases seg <;> first
    | (exfalso; revert hj; decide)
    | rfl

theorem CreateSegment_fields {seg : Segmenttype} {e : Endianness} {off size : Nat}
    {S : FileSegment} (h : CreateSegment seg e off size = Except.ok S) :
    S.segmenttype = seg ∧ S.m_offset = off ∧ S.m_size = size ∧ S.m_label = "" := by
  unfold CreateSegment at h
  simp only [bind_ok] at h
  obtain ⟨_, _, h⟩ := h
  split at h
  · simp only [pure, Except.pure, Except.ok.injEq] at h; subst h; exact ⟨rfl, rfl, rfl, rfl⟩
  · simp only [pure, Except.pure, Except.ok.injEq] at h; subst h; exact ⟨rfl, rfl, rfl, rfl⟩
  · simp only [pure, Except.pure, Except.ok.injEq] at h; subst h; exact ⟨rfl, rfl, rfl, rfl⟩
  · simp only [pure, Except.pure, Except.ok.injEq] at h; subst h; exact ⟨rfl, rfl, rfl, rfl⟩
  · split at h
    · simp only [bind_ok] at h
      obtain ⟨_, _, _, _, _, _, h⟩ := h
      simp only [pure, Except.pure, Except.ok.injEq] at h; subst h; exact ⟨rfl, rfl, rfl, rfl⟩
    · simp only [pure, Except.pure, Except.ok.injEq] at h; subst h; exact ⟨rfl, rfl, rfl, rfl⟩

theorem InterpretData_fields {T : TiffTag} {s s1 : FileSegment}
    (h : FileSegment.InterpretData T s = Except.ok s1) :
    s1.segmenttype = s.segmenttype ∧ s1.m_offset = s.m_offset ∧ s1.m_size = s.m_size
      ∧ s1.m_data = s.m_data ∧ s1.m_label = s.m_label := by
  unfold FileSegment.InterpretData at h
  split at h
  · unfold FileSegment.InterpretData_StartOfFrame at h
    simp only [bind_ok] at h
    obtain ⟨_, _, _, _, _, _, _, _, _, _, _, _, _, _, h⟩ := h
    simp only [pure, Except.pure, Except.ok.injEq] at h; subst h; exact ⟨rfl, rfl, rfl, rfl, rfl⟩
  · unfold FileSegment.InterpretData_TiffHeader at h
    simp only [bind_ok] at h
    obtain ⟨_, _, _, _, h⟩ := h
    simp only [pure, Except.pure, Except.ok.injEq] at h; subst h; exact ⟨rfl, rfl, rfl, rfl, rfl⟩
  · unfold FileSegment.InterpretData_TiffDirectory at h
    simp only [bind_ok] at h
    obtain ⟨_, _, _, _, _, _, _, _, h⟩ := h
    simp only [pure, Except.pure, Except.ok.injEq] at h; subst h; exact ⟨rfl, rfl, rfl, rfl, rfl⟩
  all_goals first
    | (unfold FileSegment.InterpretData_NumericVector at h
       simp only [bind_ok] at h
       obtain ⟨_, _, _, _, _, _, _, _, h⟩ := h
       simp only [pure, Except.pure, Except.ok.injEq] at h; subst h
       exact ⟨rfl, rfl, rfl, rfl, rfl⟩)
    | (simp only [pure, Except.pure, Except.ok.injEq] at h; subst h
       exact ⟨rfl, rfl, rfl, rfl, rfl⟩)

theorem GetBytes_inv {f : ByteVector} {pos n : Nat} {vec : ByteVector}
    (h : GetBytes f pos n = Except.ok vec) :
    vec = (f.drop pos).take n ∧ vec.length = n ∧ (0 < n → pos + n ≤ f.length) := by
  unfold GetBytes at h
  by_cases hl : ((f.drop pos).take n).length ≠ n
  · simp only [hl, ne_eq, not_false_eq_true, if_true] at h
    cases h
  · simp only [hl, if_false, pure, Except.pure, Except.ok.injEq] at h
    have hl1 : ((f.drop pos).take n).length = n := not_not.1 hl
    refine ⟨h.symm, by rw [← h]; exact hl1, fun hn => ?_⟩
    rw [List.length_take, List.length_drop] at hl1
    omega

theorem GetBytes_short {f : ByteVector} {pos n : Nat} (hn : 0 < n) (h : f.length < pos + n) :
    GetBytes f pos n = Except.error Error.ReadError := by
  have hl : ((f.drop pos).take n).length ≠ n := by
    rw [List.length_take, List.length_drop]
    omega
  unfold GetBytes
  simp only [hl, ne_eq, not_false_eq_true, if_true]

theorem ReadData_inv {T : TiffTag} {s s1 : FileSegment} {f : ByteVector}
    (h : FileSegment.ReadData T s f = Except.ok s1) :
    s.m_size > 0 ∧ s.m_offset + s.m_size ≤ f.length
      ∧ s1.m_data = (f.drop s.m_offset).take s.m_size ∧ s1.m_data.length = s.m_size
      ∧ s1.segmenttype = s.segmenttype ∧ s1.m_offset = s.m_offset ∧ s1.m_size = s.m_size
      ∧ s1.m_label = s.m_label := by
  unfold FileSegment.ReadData at h
  simp only [bind_ok, ASSERT_ok, decide_eq_true_eq] at h
  obtain ⟨_, hpos, data, hdata, h⟩ := h
  obtain ⟨g1, g2, g3⟩ := GetBytes_inv hdata
  obtain ⟨i1, i2, i3, i4, i5⟩ := InterpretData_fields h
  simp only at i1 i2 i3 i4 i5
  exact ⟨hpos, g3 hpos, by rw [i4, g1], by rw [i4, g2], i1, i2, i3, i5⟩

theorem AddSegmentNopad_eq (G : GraphicsVector) (S : FileSegment) :
    AddSegmentNopad G S = if S.m_size = S.m_data.length
      then Except.ok (G ++ [S], S.m_offset + S.m_size) else Except.error Error.AssertFailure := by
  unfold AddSegmentNopad
  simp only [backEnd_append_single]
  by_cases h : S.m_size = S.m_data.length
  · simp [h, bind, Except.bind, pure, Except.pure]
  · simp [h, bind, Except.bind, pure, Except.pure]

theorem positionAfter_append (G : GraphicsVector) (S : FileSegment) :
    positionAfter (G ++ [S]) = S.m_offset + S.m_size := by
  simp [positionAfter]

theorem take_two_of_get {f : ByteVector} {p a b : Nat} (h0 : f.get? p = some a)
    (h1 : f.get? (p + 1) = some b) : (f.drop p).take 2 = [a, b] := by
  have hl : p + 1 < f.length := (List.get?_eq_some.1 h1).1
  apply List.ext_get?
  intro k
  rw [List.get?_eq_getElem?, List.get?_eq_getElem?]
  rcases k with _ | _ | k
  · rw [List.getElem?_take_of_lt (by omega), List.getElem?_drop, ← List.get?_eq_getElem?,
      Nat.add_zero, h0]
    rfl
  · rw [List.getElem?_take_of_lt (by omega), List.getElem?_drop, ← List.get?_eq_getElem?, h1]
    rfl
  · rw [List.getElem?_eq_none (by rw [List.length_take]; omega)]
    rfl

theorem get_of_take_two {f : ByteVector} {p a b : Nat} (h : (f.drop p).take 2 = [a, b]) :
    f.get? p = some a ∧ f.get? (p + 1) = some b := by
  have h0 := congrArg (fun l => l.get? 0) h
  have h1 := congrArg (fun l => l.get? 1) h
  simp only [List.get?_eq_getElem?, List.getElem?_take_of_lt (show 0 < 2 by decide),
    List.getElem?_take_of_lt (show 1 < 2 by decide), List.getElem?_drop] at h0 h1
  rw [List.get?_eq_getElem?, List.get?_eq_getElem?]
  exact ⟨by simpa using h0, by simpa using h1⟩

theorem list_two {l : ByteVector} (h : l.length = 2) : l = [l.getD 0 0, l.getD 1 0] := by
  rcases l with _ | ⟨a, _ | ⟨b, _ | ⟨c, r⟩⟩⟩
  · cases h
  · cases h
  · rfl
  · simp at h

theorem ReadJpegMarker_ok (T : TiffTag) (f : ByteVector) (k : Segmenttype) (offset : Nat)
    (hk : k = Segmenttype.JpegStartOfImage ∨ k = Segmenttype.JpegEndOfImage) {a b : Nat}
    (h0 : f.get? offset = some a) (h1 : f.get? (offset + 1) = some b) :
    ∃ S, CreateSegment k Endianness.Big offset 2 = Except.ok S
      ∧ S.ReadData T f = Except.ok (parsedSegment k offset [a, b]) := by
  have hj : k.isJpeg = true := by rcases hk with hk | hk <;> rw [hk] <;> rfl
  refine ⟨_, CreateSegment_jpeg hj offset 2, ?_⟩
  have hl : offset + 1 < f.length := (List.get?_eq_some.1 h1).1
  have hg : GetBytes f offset 2 = Except.ok [a, b] := by
    have : ((f.drop offset).take 2).length = 2 := by rw [take_two_of_get h0 h1]; rfl
    unfold GetBytes
    simp only [this, ne_eq, not_true_eq_false, if_false, pure, Except.pure,
      take_two_of_get h0 h1]
    simp
  unfold FileSegment.ReadData
  simp only [ASSERT, Nat.zero_lt_succ, gt_iff_lt, decide_True, if_true, hg, bind, Except.bind]
  rcases hk with hk | hk <;> subst hk <;> rfl

theorem ReadJpegStartOfImage_ok (T : TiffTag) (f : ByteVector) (G : GraphicsVector)
    (offset : Nat) (comment : String)
    (h0 : f.get? offset = some 0xff) (h1 : f.get? (offset + 1) = some 0xd8) :
    ReadJpegStartOfImage T f G offset comment
      = Except.ok (G ++ [(parsedSegment Segmenttype.JpegStartOfImage offset
          [0xff, 0xd8]).SetLabel comment]) := by
  obtain ⟨S, hS, hR⟩ := ReadJpegMarker_ok T f Segmenttype.JpegStartOfImage offset (Or.inl rfl) h0 h1
  unfold ReadJpegStartOfImage
  simp only [hS, hR, bind, Except.bind]
  by_cases hc : comment = ""
  · subst hc
    simp [FileSegment.GetDataByte, ASSERT, byteAt, AddSegmentNopad_eq, parsedSegment,
      FileSegment.SetLabel, bind, Except.bind, pure, Except.pure]
  · simp [hc, FileSegment.GetDataByte, ASSERT, byteAt, AddSegmentNopad_eq, parsedSegment,
      FileSegment.SetLabel, bind, Except.bind, pure, Except.pure]

theorem ReadJpegEndOfImage_ok (T : TiffTag) (f : ByteVector) (G : GraphicsVector)
    (offset : Nat) (comment : String)
    (h0 : f.get? offset = some 0xff) (h1 : f.get? (offset + 1) = some 0xd9) :
    ReadJpegEndOfImage T f G offset comment
      = Except.ok (G ++ [(parsedSegment Segmenttype.JpegEndOfImage offset
          [0xff, 0xd9]).SetLabel comment]) := by
  obtain ⟨S, hS, hR⟩ := ReadJpegMarker_ok T f Segmenttype.JpegEndOfImage offset (Or.inr rfl) h0 h1
  unfold ReadJpegEndOfImage
  simp only [hS, hR, bind, Except.bind]
  by_cases hc : comment = ""
  · subst hc
    simp [FileSegment.GetDataByte, ASSERT, byteAt, AddSegmentNopad_eq, parsedSegment,
      FileSegment.SetLabel, bind, Except.bind, pure, Except.pure]
  · simp [hc, FileSegment.GetDataByte, ASSERT, byteAt, AddSegmentNopad_eq, parsedSegment,
      FileSegment.SetLabel, bind, Except.bind, pure, Except.pure]

theorem ReadJpegEndOfImage_inv {T : TiffTag} {f : ByteVector} {G G1 : GraphicsVector}
    {offset : Nat} {comment : String}
    (h : ReadJpegEndOfImage T f G offset comment = Except.ok G1) :
    ∃ S, G1 = G ++ [S] ∧ S.segmenttype = Segmenttype.JpegEndOfImage ∧ S.m_offset = offset
      ∧ S.m_size = 2 ∧ S.m_data = [0xff, 0xd9] := by
  unfold ReadJpegEndOfImage at h
  simp only [bind_ok, ASSERT_ok, decide_eq_true_eq] at h
  obtain ⟨S, hS, S1, hS1, b0, hb0, _, e0, b1, hb1, _, e1, r, hr, h⟩ := h
  simp only [pure, Except.pure, Except.ok.injEq] at h
  obtain ⟨c1, c2, c3, c4⟩ := CreateSegment_fields hS
  obtain ⟨d1, d2, d3, d4, d5, d6, d7, d8⟩ := ReadData_inv hS1
  rw [c3] at d4 d7
  have key : ∀ S2 : FileSegment, S2.m_data = S1.m_data → S2.segmenttype = S1.segmenttype →
      S2.m_offset = S1.m_offset → S2.m_size = S1.m_size →
      S2.GetDataByte 0 = Except.ok b0 → S2.GetDataByte 1 = Except.ok b1 →
      AddSegmentNopad G S2 = Except.ok r →
      ∃ S, G1 = G ++ [S] ∧ S.segmenttype = Segmenttype.JpegEndOfImage ∧ S.m_offset = offset
        ∧ S.m_size = 2 ∧ S.m_data = [0xff, 0xd9] := by
    intro S2 k1 k2 k3 k4 g0 g1 ha
    rw [AddSegmentNopad_eq, if_pos (by rw [k4, k1, d7, d4])] at ha
    simp only [Except.ok.injEq] at ha
    refine ⟨S2, by rw [← h, ← ha], by rw [k2, d5, c1], by rw [k3, d6, c2], by rw [k4, d7], ?_⟩
    have hl : S2.m_data.length = 2 := by rw [k1, d4]
    rw [list_two hl]
    simp only [FileSegment.GetDataByte, bind_ok] at g0 g1
    obtain ⟨_, _, g0⟩ := g0
    obtain ⟨_, _, g1⟩ := g1
    rw [byteAt_getD g0, byteAt_getD g1, e0, e1]
  by_cases hc : comment ≠ ""
  · rw [if_pos hc] at hb0 hb1 hr
    exact key (S1.SetLabel comment) rfl rfl rfl rfl hb0 hb1 hr
  · rw [if_neg hc] at hb0 hb1 hr
    exact key S1 rfl rfl rfl rfl hb0 hb1 hr

theorem ReadJpegUnspecifiedSegment_inv {T : TiffTag} {f : ByteVector} {G G1 : GraphicsVector}
    {seg : Segmenttype} {offset : Nat}
    (h : ReadJpegUnspecifiedSegment T f G seg offset = Except.ok G1) :
    ∃ S, G1 = G ++ [S] ∧ S.segmenttype = seg ∧ S.m_offset = offset ∧ S.m_size > 0
      ∧ S.m_data = (f.drop offset).take S.m_size ∧ S.m_data.length = S.m_size
      ∧ offset + S.m_size ≤ f.length
      ∧ ∃ L, GetUShort f (offset + 2) Endianness.Big = Except.ok L
          ∧ S.m_size = (L + 2) % 65536 := by
  unfold ReadJpegUnspecifiedSegment at h
  simp only [bind_ok, ASSERT_ok, decide_eq_true_eq] at h
  obtain ⟨L, hL, S, hS, S1, hS1, b0, hb0, _, e0, r, hr, h⟩ := h
  simp only [pure, Except.pure, Except.ok.injEq] at h
  obtain ⟨c1, c2, c3, c4⟩ := CreateSegment_fields hS
  obtain ⟨d1, d2, d3, d4, d5, d6, d7, d8⟩ := ReadData_inv hS1
  rw [AddSegmentNopad_eq, if_pos (by rw [d7, d4])] at hr
  simp only [Except.ok.injEq] at hr
  refine ⟨S1, by rw [← h, ← hr], by rw [d5, c1], by rw [d6, c2], by rw [d7]; exact d1,
    by rw [d3, d7, c2], by rw [d4, d7], by rw [d7, ← c2]; exact d2, L, hL, by rw [d7, c3]⟩

theorem GetBytes_two {f : ByteVector} {p a b : Nat} (h0 : f.get? p = some a)
    (h1 : f.get? (p + 1) = some b) : GetBytes f p 2 = Except.ok [a, b] := by
  have : ((f.drop p).take 2).length = 2 := by rw [take_two_of_get h0 h1]; rfl
  unfold GetBytes
  simp only [this, ne_eq, not_true_eq_false, if_false, pure, Except.pure,
    take_two_of_get h0 h1]
  simp

theorem markerStep_eq (T : TiffTag) (f : ByteVector) (offset endoffset : Nat)
    (comment : String) (G : GraphicsVector) {filepos v0 v1 : Nat}
    (h0 : f.get? filepos = some v0) (h1 : f.get? (filepos + 1) = some v1)
    (hlo : offset < filepos) (hhi : filepos ≤ endoffset) :
    markerStep T f offset endoffset comment G filepos
      = if v0 = 0xff then
          match markerAction v1 with
          | MarkerAction.EndOfImage =>
            match ReadJpegEndOfImage T f G filepos comment with
            | .error err => (G, .error err)
            | .ok G1 => (G1, .ok none)
          | MarkerAction.NestedStartOfImage =>
            match ReadJpegStartOfImage T f G offset "NESTED SEGMENT" with
            | .error err => (G, .error err)
            | .ok G1 => afterMarker T f v0 v1 G1 (positionAfter G1)
          | MarkerAction.NoSegment => afterMarker T f v0 v1 G (filepos + 2)
          | MarkerAction.Unspecified seg =>
            match ReadJpegUnspecifiedSegment T f G seg filepos with
            | .error err => (G, .error err)
            | .ok G1 => afterMarker T f v0 v1 G1 (positionAfter G1)
        else (G, .ok none) := by
  unfold markerStep
  rw [GetBytes_two h0 h1]
  simp only [if_neg (show ¬ filepos > endoffset by omega),
    if_neg (show ¬ ¬ filepos > offset by omega)]
  rfl

theorem ReadJpegUnspecifiedSegment_ok (T : TiffTag) (f : ByteVector) (G : GraphicsVector)
    {seg : Segmenttype} {offset hi lo L : Nat}
    (hseg : seg.isJpeg = true ∧ seg ≠ Segmenttype.JpegStartOfFrame)
    (hff : f.get? offset = some 0xff)
    (hhi : f.get? (offset + 2) = some hi) (hlo : f.get? (offset + 3) = some lo)
    (hL : L = 256 * hi + lo) (hmax : L ≤ 65533)
    (havail : offset + (2 + L) ≤ f.length) :
    ReadJpegUnspecifiedSegment T f G seg offset
      = Except.ok (G ++ [parsedSegment seg offset ((f.drop offset).take (2 + L))]) := by
  obtain ⟨hj, hsof⟩ := hseg
  have hus : GetUShort f (offset + 2) Endianness.Big = Except.ok L := by
    rw [GetUShort_big hhi hlo, hL]
    congr 1
    omega
  have hlen : (L + 2) % 65536 = 2 + L := by omega
  have hb0 : byteAt ((f.drop offset).take (2 + L)) 0 = Except.ok 0xff := by
    unfold byteAt
    rw [List.get?_eq_getElem?, List.getElem?_take_of_lt (by omega), List.getElem?_drop,
      ← List.get?_eq_getElem?, Nat.add_zero, hff]
  have hdl : ((f.drop offset).take (2 + L)).length = 2 + L := by
    rw [List.length_take, List.length_drop]
    omega
  have hint : ∀ s : FileSegment, s.segmenttype = seg → FileSegment.InterpretData T s
      = Except.ok s := by
    intro s hs
    unfold FileSegment.InterpretData
    rw [hs]
    cases seg <;> first
      | (exfalso; revert hj; decide)
      | (exfalso; exact hsof rfl)
      | rfl
  unfold ReadJpegUnspecifiedSegment
  simp only [hus, hlen, CreateSegment_jpeg hj, bind, Except.bind, FileSegment.ReadData, ASSERT,
    GetBytes_ok havail, pure, Except.pure]
  have hpos : 2 + L > 0 := by omega
  simp only [hpos, decide_True, if_true]
  rw [hint _ rfl]
  simp [FileSegment.GetDataByte, hb0, hdl, AddSegmentNopad_eq, parsedSegment, bind, Except.bind,
    pure, Except.pure, ASSERT]

theorem MarkerFree_tail {b : Nat} {d : ByteVector} (h : MarkerFree (b :: d)) : MarkerFree d := by
  intro i hi hff
  have := h (i + 1) (by rw [List.length_cons]; omega) (by simpa using hff)
  simpa using this

theorem scanImagedata_clean (rest : ByteVector) :
    ∀ (n : Nat) (d : ByteVector) (pos : Nat), d.length ≤ n → MarkerFree d →
      scanImagedata (d ++ 0xff :: 0xd9 :: rest) pos = Except.ok (pos + d.length + 2) := by
  intro n
  induction n with
  | zero =>
    intro d pos hl _
    have : d = [] := List.length_eq_zero.1 (by omega)
    subst this
    simp [scanImagedata, pure, Except.pure]
  | succ n ih =>
    intro d pos hl hm
    rcases d with _ | ⟨b, d1⟩
    · simp [scanImagedata, pure, Except.pure]
    · by_cases hb : b ≠ 0xff
      · have hres := ih d1 (pos + 1) (by rw [List.length_cons] at hl; omega) (MarkerFree_tail hm)
        have hlen : pos + 1 + d1.length + 2 = pos + (b :: d1).length + 2 := by
          simp only [List.length_cons]
          omega
        rw [hlen] at hres
        rw [List.cons_append]
        unfold scanImagedata
        simp only [if_pos hb]
        exact hres
      · have hbf : b = 0xff := not_not.1 hb
        have h0 := hm 0 (by rw [List.length_cons]; omega) (by simpa using hbf)
        rcases d1 with _ | ⟨b2, d2⟩
        · simp at h0
        · simp only [List.getD_cons_succ, List.getD_cons_zero, Nat.zero_add] at h0
          have hm2 : MarkerFree d2 := MarkerFree_tail (MarkerFree_tail hm)
          have hl2 : d2.length ≤ n := by
            simp only [List.length_cons] at hl
            omega
          have hres := ih d2 (pos + 2) hl2 hm2
          have hlen : pos + 2 + d2.length + 2 = pos + (b :: b2 :: d2).length + 2 := by
            simp only [List.length_cons]
            omega
          rw [hlen] at hres
          rw [List.cons_append, List.cons_append]
          unfold scanImagedata
          simp only [if_neg hb, h0.2, if_false]
          by_cases hz : b2 = 0
          · rw [if_pos hz]
            exact hres
          · rw [if_neg hz]
            exact hres

theorem ReadJpegImagedata_ok (T : TiffTag) (f : ByteVector) (G : GraphicsVector)
    {pos : Nat} {d rest : ByteVector} (hf : f.drop pos = d ++ 0xff :: 0xd9 :: rest)
    (hd : d ≠ []) (hm : MarkerFree d) :
    ReadJpegImagedata T f G pos
      = Except.ok (G ++ [parsedSegment Segmenttype.JpegImageData pos d], pos + d.length) := by
  have hpos : d.length > 0 := List.length_pos.2 hd
  have hlen : pos + d.length ≤ f.length := by
    have := congrArg List.length hf
    rw [List.length_drop, List.length_append, List.length_cons, List.length_cons] at this
    omega
  have htake : (f.drop pos).take d.length = d := by rw [hf, List.take_left]
  have hsz : pos + d.length + 2 - pos - 2 = d.length := by omega
  unfold ReadJpegImagedata
  simp only [hf, scanImagedata_clean rest d.length d pos (Nat.le_refl _) hm, bind, Except.bind,
    hsz, CreateSegment_jpeg (show Segmenttype.JpegImageData.isJpeg = true from rfl),
    FileSegment.ReadData, ASSERT, hpos, gt_iff_lt, decide_True, if_true, GetBytes_ok hlen,
    htake, pure, Except.pure]
  have hint : ∀ s : FileSegment, s.segmenttype = Segmenttype.JpegImageData →
      FileSegment.InterpretData T s = Except.ok s := by
    intro s hs
    unfold FileSegment.InterpretData
    rw [hs]
    rfl
  rw [hint _ rfl]
  simp [AddSegmentNopad_eq, parsedSegment, bind, Except.bind, pure, Except.pure]

theorem ReadJpegImagedata_inv {T : TiffTag} {f : ByteVector} {G : GraphicsVector} {pos : Nat}
    {r : GraphicsVector × Nat} (h : ReadJpegImagedata T f G pos = Except.ok r) :
    ∃ D, r.1 = G ++ [D] ∧ D.segmenttype = Segmenttype.JpegImageData ∧ D.m_offset = pos
      ∧ D.m_size > 0 ∧ D.m_data = (f.drop pos).take D.m_size ∧ D.m_data.length = D.m_size
      ∧ r.2 = pos + D.m_size := by
  unfold ReadJpegImagedata at h
  simp only [bind_ok] at h
  obtain ⟨p2, hp2, S, hS, S1, hS1, r1, hr1, h⟩ := h
  simp only [pure, Except.pure, Except.ok.injEq] at h
  obtain ⟨c1, c2, c3, c4⟩ := CreateSegment_fields hS
  obtain ⟨d1, d2, d3, d4, d5, d6, d7, d8⟩ := ReadData_inv hS1
  rw [AddSegmentNopad_eq, if_pos (by rw [d7, d4])] at hr1
  simp only [Except.ok.injEq] at hr1
  refine ⟨S1, by rw [← h, ← hr1], by rw [d5, c1], by rw [d6, c2], by rw [d7]; exact d1,
    by rw [d3, d7, c2], by rw [d4, d7], by rw [← h, d7, c3]⟩

theorem ite_ne_of {α : Type} {c : Prop} [Decidable c] {a b x : α} (ha : a ≠ x) (hb : b ≠ x) :
    (if c then a else b) ≠ x := by
  split <;> assumption

theorem markerAction_eoi {xx : Nat} (h : markerAction xx = MarkerAction.EndOfImage) :
    xx = 0xd9 := by
  by_contra hx
  revert h
  unfold markerAction
  rw [if_neg hx]
  iterate 18 (refine ite_ne_of (fun hq => by cases hq) ?_)
  intro hq
  cases hq

theorem markerAction_nested {xx : Nat} (h : markerAction xx = MarkerAction.NestedStartOfImage) :
    xx = 0xd8 := by
  by_contra hx
  revert h
  unfold markerAction
  refine ite_ne_of (fun hq => by cases hq) ?_
  rw [if_neg hx]
  iterate 17 (refine ite_ne_of (fun hq => by cases hq) ?_)
  intro hq
  cases hq

theorem afterMarker_cases (T : TiffTag) (f : ByteVector) (v0 v1 : Nat) (G : GraphicsVector)
    (pos : Nat) :
    (∃ err, afterMarker T f v0 v1 G pos = (G, Except.error err))
      ∨ afterMarker T f v0 v1 G pos = (G, Except.ok (some pos))
      ∨ (v0 = 0xff ∧ v1 = 0xda ∧ ∃ r, ReadJpegImagedata T f G pos = Except.ok r
          ∧ afterMarker T f v0 v1 G pos = (r.1, Except.ok (some r.2))) := by
  unfold afterMarker
  by_cases hc : v0 = 0xff ∧ v1 = 0xda
  · rw [if_pos hc]
    cases hr : ReadJpegImagedata T f G pos with
    | error err => exact Or.inl ⟨err, rfl⟩
    | ok r => exact Or.inr (Or.inr ⟨hc.1, hc.2, r, rfl, rfl⟩)
  · rw [if_neg hc]
    exact Or.inr (Or.inl rfl)

theorem afterMarker_not_return {T : TiffTag} {f : ByteVector} {v0 v1 : Nat}
    {G G1 : GraphicsVector} {pos : Nat} :
    afterMarker T f v0 v1 G pos ≠ (G1, Except.ok none) := by
  intro h
  rcases afterMarker_cases T f v0 v1 G pos with ⟨err, he⟩ | he | ⟨_, _, r, _, he⟩
  · rw [he] at h; cases h
  · rw [he] at h; cases h
  · rw [he] at h; cases h

theorem markerStep_return {T : TiffTag} {f : ByteVector} {offset endoffset : Nat}
    {comment : String} {G G1 : GraphicsVector} {pos : Nat}
    (h : markerStep T f offset endoffset comment G pos = (G1, Except.ok none)) :
    (∃ S, G1 = G ++ [S] ∧ S.segmenttype = Segmenttype.JpegEndOfImage ∧ S.m_offset = pos
        ∧ S.m_size = 2 ∧ S.m_data = [0xff, 0xd9] ∧ f.get? pos = some 0xff
        ∧ f.get? (pos + 1) = some 0xd9)
      ∨ (G1 = G ∧ offset < pos ∧ ∃ b0 b1, f.get? pos = some b0 ∧ f.get? (pos + 1) = some b1
          ∧ b0 ≠ 0xff) := by
  unfold markerStep at h
  cases hg : GetBytes f pos 2 with
  | error err => rw [hg] at h; cases h
  | ok vec =>
    rw [hg] at h
    simp only at h
    obtain ⟨g1, g2, _⟩ := GetBytes_inv hg
    have hv := list_two g2
    rw [g1] at hv
    obtain ⟨q0, q1⟩ := get_of_take_two hv
    rw [← g1] at q0 q1
    by_cases h1 : pos > endoffset
    · rw [if_pos h1] at h; cases h
    · rw [if_neg h1] at h
      by_cases h2 : ¬ pos > offset
      · rw [if_pos h2] at h; cases h
      · rw [if_neg h2] at h
        by_cases h3 : vec.getD 0 0 = 0xff
        · rw [if_pos h3] at h
          cases ha : markerAction (vec.getD 1 0) with
          | EndOfImage =>
            rw [ha] at h
            simp only at h
            cases hr : ReadJpegEndOfImage T f G pos comment with
            | error err => rw [hr] at h; cases h
            | ok G2 =>
              rw [hr] at h
              simp only [Prod.mk.injEq, and_true] at h
              subst h
              obtain ⟨S, e1, e2, e3, e4, e5⟩ := ReadJpegEndOfImage_inv hr
              have hd9 : vec.getD 1 0 = 0xd9 := markerAction_eoi ha
              exact Or.inl ⟨S, e1, e2, e3, e4, e5, by rw [q0, h3], by rw [q1, hd9]⟩
          | NestedStartOfImage =>
            rw [ha] at h
            simp only at h
            cases hr : ReadJpegStartOfImage T f G offset "NESTED SEGMENT" with
            | error err => rw [hr] at h; cases h
            | ok G2 => rw [hr] at h; exact absurd h afterMarker_not_return
          | NoSegment =>
            rw [ha] at h
            exact absurd h afterMarker_not_return
          | Unspecified seg =>
            rw [ha] at h
            simp only at h
            cases hr : ReadJpegUnspecifiedSegment T f G seg pos with
            | error err => rw [hr] at h; cases h
            | ok G2 => rw [hr] at h; exact absurd h afterMarker_not_return
        · rw [if_neg h3] at h
          simp only [Prod.mk.injEq, and_true] at h
          exact Or.inr ⟨h.symm, by omega, _, _, q0, q1, h3⟩

theorem markerLoop_return {T : TiffTag} {f : ByteVector} {offset endoffset : Nat}
    {comment : String} :
    ∀ (n : Nat) (G G1 : GraphicsVector) (pos : Nat),
      markerLoop T f offset endoffset comment n G pos = some (G1, none) →
      (∃ G0 S, G1 = G0 ++ [S] ∧ S.segmenttype = Segmenttype.JpegEndOfImage
          ∧ S.m_data = [0xff, 0xd9] ∧ offset < S.m_offset
          ∧ f.get? S.m_offset = some 0xff ∧ f.get? (S.m_offset + 1) = some 0xd9)
        ∨ (∃ p b0 b1, offset < p ∧ f.get? p = some b0 ∧ f.get? (p + 1) = some b1
            ∧ b0 ≠ 0xff) := by
  intro n
  induction n with
  | zero => intro G G1 pos h; cases h
  | succ n ih =>
    intro G G1 pos h
    unfold markerLoop at h
    cases hs : markerStep T f offset endoffset comment G pos with
    | mk G2 res =>
      rw [hs] at h
      cases res with
      | error err => cases h
      | ok o =>
        cases o with
        | none =>
          simp only [Option.some.injEq, Prod.mk.injEq, and_true] at h
          subst h
          rcases markerStep_return hs with ⟨S, e1, e2, e3, e4, e5, e6, e7⟩ | ⟨_, e2, b0, b1, e3, e4, e5⟩
          · refine Or.inl ⟨G, S, e1, e2, e5, ?_, by rw [e3]; exact e6, by rw [e3]; exact e7⟩
            rw [e3]
            unfold markerStep at hs
            cases hg : GetBytes f pos 2 with
            | error err => rw [hg] at hs; cases hs
            | ok vec =>
              rw [hg] at hs
              simp only at hs
              by_cases h1 : pos > endoffset
              · rw [if_pos h1] at hs; cases hs
              · rw [if_neg h1] at hs
                by_cases h2 : ¬ pos > offset
                · rw [if_pos h2] at hs; cases hs
                · omega
          · exact Or.inr ⟨pos, b0, b1, e2, e3, e4, e5⟩
        | some pos1 => exact ih G2 G1 pos1 h

theorem ite_of_both {α : Type} {c : Prop} [Decidable c] {a b : α} (P : α → Prop) (ha : P a)
    (hb : P b) : P (if c then a else b) := by
  split
  · exact ha
  · exact hb

/-- Every kind that the marker loop hands to `ReadJpegUnspecifiedSegment` is a JPEG kind other
than ImageData, and it is the kind of a scan header only for the marker `FF DA`. -/
theorem markerAction_unspecified {xx : Nat} {seg : Segmenttype}
    (h : markerAction xx = MarkerAction.Unspecified seg) :
    seg.isJpeg = true ∧ (seg = Segmenttype.JpegStartOfScan → xx = 0xda) := by
  refine ⟨?_, ?_⟩
  · have key : ∀ s : Segmenttype, markerAction xx = MarkerAction.Unspecified s
        → s.isJpeg = true := by
      unfold markerAction
      iterate 19
        (apply ite_of_both (fun m => ∀ s, m = MarkerAction.Unspecified s → s.isJpeg = true)
         exact fun s hs => by cases hs <;> rfl)
      exact fun s hs => by cases hs; rfl
    exact key seg h
  · intro hs
    subst hs
    by_contra hx
    revert h
    unfold markerAction
    iterate 6 (refine ite_ne_of (fun hq => by cases hq) ?_)
    rw [if_neg hx]
    iterate 12 (refine ite_ne_of (fun hq => by cases hq) ?_)
    exact fun hq => by cases hq

/-- An iteration of the marker loop at a marker, other than `FF DA`, that is handed to
`ReadJpegUnspecifiedSegment` with a kind other than start-of-frame. -/
theorem markerStep_unspecified (T : TiffTag) (f : ByteVector) (offset endoffset : Nat)
    (comment : String) (G : GraphicsVector) {filepos xx hi lo L : Nat} {seg : Segmenttype}
    (h0 : f.get? filepos = some 0xff) (h1 : f.get? (filepos + 1) = some xx)
    (hhi : f.get? (filepos + 2) = some hi) (hlo : f.get? (filepos + 3) = some lo)
    (hL : L = 256 * hi + lo) (hmax : L ≤ 65533) (havail : filepos + (2 + L) ≤ f.length)
    (hlow : offset < filepos) (hhigh : filepos ≤ endoffset)
    (hact : markerAction xx = MarkerAction.Unspecified seg) (hx : xx ≠ 0xda)
    (hsof : seg ≠ Segmenttype.JpegStartOfFrame) :
    markerStep T f offset endoffset comment G filepos
      = (G ++ [parsedSegment seg filepos ((f.drop filepos).take (2 + L))],
         Except.ok (some (filepos + (2 + L)))) := by
  have hsos := ReadJpegUnspecifiedSegment_ok T f G
    (show seg.isJpeg = true ∧ seg ≠ Segmenttype.JpegStartOfFrame from
      ⟨(markerAction_unspecified hact).1, hsof⟩) h0 hhi hlo hL hmax havail
  have htl : ((f.drop filepos).take (2 + L)).length = 2 + L := by
    rw [List.length_take, List.length_drop]
    omega
  have hpa : positionAfter (G ++ [parsedSegment seg filepos
      ((f.drop filepos).take (2 + L))]) = filepos + (2 + L) := by
    rw [positionAfter_append]
    simp only [parsedSegment, htl]
  rw [markerStep_eq T f offset endoffset comment G h0 h1 hlow hhigh, if_pos rfl, hact]
  simp only [hsos, hpa]
  unfold afterMarker
  rw [if_neg (fun hc => hx hc.2)]

/-- An iteration of the marker loop at a marker `FF D8`: the reader is called with the offset
of the section, and the loop goes on behind the segment it read there. -/
theorem markerStep_nested (T : TiffTag) (f : ByteVector) (offset endoffset : Nat)
    (comment : String) (G : GraphicsVector) {p : Nat}
    (s0 : f.get? offset = some 0xff) (s1 : f.get? (offset + 1) = some 0xd8)
    (h0 : f.get? p = some 0xff) (h1 : f.get? (p + 1) = some 0xd8)
    (hlow : offset < p) (hhigh : p ≤ endoffset) :
    markerStep T f offset endoffset comment G p
      = (G ++ [(parsedSegment Segmenttype.JpegStartOfImage offset [0xff, 0xd8]).SetLabel
                 "NESTED SEGMENT"],
         Except.ok (some (offset + 2))) := by
  rw [markerStep_eq T f offset endoffset comment G h0 h1 hlow hhigh, if_pos rfl]
  have ha : markerAction 0xd8 = MarkerAction.NestedStartOfImage := by decide
  rw [ha]
  simp only [ReadJpegStartOfImage_ok T f G offset "NESTED SEGMENT" s0 s1, positionAfter_append]
  unfold afterMarker
  rw [if_neg (fun hc => by cases hc.2)]
  rfl

/-- The first two bytes decide whether `ReadJpegFileOrEmbeddedSection` enters the marker
loop. -/
theorem ReadJpegFileOrEmbeddedSection_soi (T : TiffTag) (f : ByteVector) (G : GraphicsVector)
    (offset datasize : Nat) (comment : String) (fuel : Nat)
    (s0 : f.get? offset = some 0xff) (s1 : f.get? (offset + 1) = some 0xd8) :
    ReadJpegFileOrEmbeddedSection T f G offset datasize comment fuel
      = markerLoop T f offset (offset + datasize) comment fuel
          (G ++ [(parsedSegment Segmenttype.JpegStartOfImage offset [0xff, 0xd8]).SetLabel
            comment]) (offset + 2) := by
  unfold ReadJpegFileOrEmbeddedSection
  rw [GetBytes_two s0 s1]
  simp only [ReadJpegStartOfImage_ok T f G offset comment s0 s1]
  rw [if_pos ⟨rfl, rfl⟩]

theorem ReadJpegFileOrEmbeddedSection_not_soi (T : TiffTag) (f : ByteVector)
    (G : GraphicsVector) (offset datasize : Nat) (comment : String) (fuel : Nat)
    (h : ¬ (f.get? offset = some 0xff ∧ f.get? (offset + 1) = some 0xd8)) :
    ReadJpegFileOrEmbeddedSection T f G offset datasize comment fuel
        = some (G, some Error.ReadError)
      ∨ ReadJpegFileOrEmbeddedSection T f G offset datasize comment fuel
        = some (G, some Error.JpegDataExpected) := by
  unfold ReadJpegFileOrEmbeddedSection
  cases hg : GetBytes f offset 2 with
  | error err =>
    left
    have : err = Error.ReadError := by
      unfold GetBytes at hg
      simp only at hg
      split at hg
      · cases hg; rfl
      · cases hg
    rw [this]
  | ok vec =>
    right
    obtain ⟨g1, g2, _⟩ := GetBytes_inv hg
    have hv := list_two g2
    simp only
    rw [if_neg]
    intro hc
    rw [hc.1, hc.2, g1] at hv
    exact h (get_of_take_two hv)

/-- A section in which the first segment after the SOI is followed by a second `FF D8` is
never parsed to an end: the marker loop goes from the position behind the SOI to the second
`FF D8` and back. -/
theorem markerLoop_nested_diverges (T : TiffTag) (f : ByteVector) (offset endoffset : Nat)
    (comment : String) {xx hi lo L : Nat} {seg : Segmenttype}
    (s0 : f.get? offset = some 0xff) (s1 : f.get? (offset + 1) = some 0xd8)
    (h0 : f.get? (offset + 2) = some 0xff) (h1 : f.get? (offset + 2 + 1) = some xx)
    (hhi : f.get? (offset + 2 + 2) = some hi) (hlo : f.get? (offset + 2 + 3) = some lo)
    (hL : L = 256 * hi + lo) (hmax : L ≤ 65533)
    (hact : markerAction xx = MarkerAction.Unspecified seg) (hx : xx ≠ 0xda)
    (hsof : seg ≠ Segmenttype.JpegStartOfFrame)
    (n0 : f.get? (offset + 2 + (2 + L)) = some 0xff)
    (n1 : f.get? (offset + 2 + (2 + L) + 1) = some 0xd8)
    (hend : offset + 2 + (2 + L) ≤ endoffset) :
    ∀ (fuel : Nat) (G : GraphicsVector),
      markerLoop T f offset endoffset comment fuel G (offset + 2) = none
        ∧ markerLoop T f offset endoffset comment fuel G (offset + 2 + (2 + L)) = none := by
  have havail : offset + 2 + (2 + L) ≤ f.length :=
    Nat.le_of_lt (List.get?_eq_some.1 n0).1
  intro fuel
  induction fuel with
  | zero => intro G; exact ⟨rfl, rfl⟩
  | succ n ih =>
    intro G
    constructor
    · unfold markerLoop
      rw [markerStep_unspecified T f offset endoffset comment G h0 h1 hhi hlo hL hmax havail
        (by omega) (by omega) hact hx hsof]
      exact (ih _).2
    · unfold markerLoop
      rw [markerStep_nested T f offset endoffset comment G s0 s1 n0 n1 (by omega) hend]
      exact (ih _).1

/-- C21: when the marker loop meets the marker `FF DA` of a segment whose length field holds
`L ≤ 65533`, and the bytes after that segment are `d` followed by `FF D9`, where `d` is not
empty and no `FF` of `d` is its last byte or is followed by `FF` or `D9` (stuffed pairs `FF 00`
and restart markers `FF D0` .. `FF D7` are allowed), the iteration appends the SOS segment and
one ImageData segment that starts at the byte just after the SOS segment, whose payload is `d`
and whose length is the distance to that `FF D9`, and the next iteration begins at the
`FF D9`. -/
theorem C21_image_data (T : TiffTag) (f : ByteVector) (offset endoffset : Nat)
    (comment : String) (G : GraphicsVector) (filepos hi lo L : Nat) (d rest : ByteVector)
    (hmark : f.get? filepos = some 0xff ∧ f.get? (filepos + 1) = some 0xda)
    (hlen : f.get? (filepos + 2) = some hi ∧ f.get? (filepos + 3) = some lo
      ∧ L = 256 * hi + lo ∧ L ≤ 65533)
    (hpos : offset < filepos ∧ filepos ≤ endoffset)
    (hf : f.drop (filepos + (2 + L)) = d ++ 0xff :: 0xd9 :: rest)
    (hd : d ≠ []) (hm : MarkerFree d) :
    markerStep T f offset endoffset comment G filepos
      = (G ++ [parsedSegment Segmenttype.JpegStartOfScan filepos
                 ((f.drop filepos).take (2 + L)),
               parsedSegment Segmenttype.JpegImageData (filepos + (2 + L)) d],
         Except.ok (some (filepos + (2 + L) + d.length))) := by
  obtain ⟨m0, m1⟩ := hmark
  obtain ⟨l0, l1, l2, l3⟩ := hlen
  have havail : filepos + (2 + L) ≤ f.length := by
    have := congrArg List.length hf
    rw [List.length_drop, List.length_append, List.length_cons, List.length_cons] at this
    omega
  have hsos := ReadJpegUnspecifiedSegment_ok T f G
    (show Segmenttype.JpegStartOfScan.isJpeg = true ∧ Segmenttype.JpegStartOfScan
      ≠ Segmenttype.JpegStartOfFrame from ⟨rfl, by decide⟩) m0 l0 l1 l2 l3 havail
  have htl : ((f.drop filepos).take (2 + L)).length = 2 + L := by
    rw [List.length_take, List.length_drop]
    omega
  have hpa : positionAfter (G ++ [parsedSegment Segmenttype.JpegStartOfScan filepos
      ((f.drop filepos).take (2 + L))]) = filepos + (2 + L) := by
    rw [positionAfter_append]
    simp only [parsedSegment, htl]
  rw [markerStep_eq T f offset endoffset comment G m0 m1 hpos.1 hpos.2, if_pos rfl]
  have ha : markerAction 0xda = MarkerAction.Unspecified Segmenttype.JpegStartOfScan := by
    decide
  rw [ha]
  simp only [hsos, hpa]
  unfold afterMarker
  rw [if_pos ⟨rfl, rfl⟩, ReadJpegImagedata_ok T f _ hf hd hm]
  simp

/-- Witness of C21: after the SOS segment `FF DA 00 02` at offset 2 the data
`12 FF 00 FF D0 07` (a stuffed `FF 00` and a restart marker) are followed by `FF D9`; the
ImageData segment starts at 6 and has these six bytes. -/
theorem C21_image_data_witness :
    markerStep stdTags [0xff, 0xd8, 0xff, 0xda, 0, 2, 0x12, 0xff, 0, 0xff, 0xd0, 7, 0xff, 0xd9]
        0 14 "JPEG file" [] 2
      = ([] ++ [parsedSegment Segmenttype.JpegStartOfScan 2
                  ((([0xff, 0xd8, 0xff, 0xda, 0, 2, 0x12, 0xff, 0, 0xff, 0xd0, 7, 0xff, 0xd9] :
                    ByteVector).drop 2).take (2 + 2)),
                parsedSegment Segmenttype.JpegImageData (2 + (2 + 2))
                  [0x12, 0xff, 0, 0xff, 0xd0, 7]],
         Except.ok (some (2 + (2 + 2) + ([0x12, 0xff, 0, 0xff, 0xd0, 7] : ByteVector).length))) :=
  C21_image_data stdTags [0xff, 0xd8, 0xff, 0xda, 0, 2, 0x12, 0xff, 0, 0xff, 0xd0, 7, 0xff, 0xd9]
    0 14 "JPEG file" [] 2 0 2 2 [0x12, 0xff, 0, 0xff, 0xd0, 7] [] ⟨rfl, rfl⟩ ⟨rfl, rfl, rfl, by decide⟩
    (by decide) rfl (by decide) (by decide)

/-- C21 (fill byte before the end marker, and empty data): in the file
`FF D8 FF DA 00 02 12 FF FF D9 34 FF D9` the data start at 6 and the first pair `FF D9` is at 8,
but `ReadJpegImagedata` reads `FF FF` as one pair and goes on: the ImageData segment it appends
has the five bytes `12 FF FF D9 34`, not the two bytes `12 FF`.  Without the second `FF D9` the
scan runs into the end of the file and the read error of `GetByte` ends the parse, the SOS
segment being the last one appended.  When `FF D9` follows the SOS segment at once, the
computed size is 0 and the assertion of `ReadData` fails. -/
theorem C21_fill_byte :
    (([0xff, 0xd8, 0xff, 0xda, 0, 2, 0x12, 0xff, 0xff, 0xd9, 0x34, 0xff, 0xd9] :
        ByteVector).drop 8).take 2 = [0xff, 0xd9]
      ∧ ReadJpegImagedata stdTags
            [0xff, 0xd8, 0xff, 0xda, 0, 2, 0x12, 0xff, 0xff, 0xd9, 0x34, 0xff, 0xd9] [] 6
          = Except.ok ([parsedSegment Segmenttype.JpegImageData 6 [0x12, 0xff, 0xff, 0xd9, 0x34]],
              11)
      ∧ ReadJpegImagedata stdTags [0xff, 0xd8, 0xff, 0xda, 0, 2, 0x12, 0xff, 0xff, 0xd9] [] 6
          = Except.error Error.ReadError
      ∧ (ReadJpegFileOrEmbeddedSection stdTags
            [0xff, 0xd8, 0xff, 0xda, 0, 2, 0x12, 0xff, 0xff, 0xd9] [] 0 10 "" 4).map
            (fun r => (r.1.map kindData, r.2))
          = some ([(Segmenttype.JpegStartOfImage, [0xff, 0xd8]),
                   (Segmenttype.JpegStartOfScan, [0xff, 0xda, 0, 2])], some Error.ReadError)
      ∧ ReadJpegImagedata stdTags [0xff, 0xd8, 0xff, 0xda, 0, 2, 0xff, 0xd9] [] 6
          = Except.error Error.AssertFailure :=
  ⟨rfl, rfl, rfl, rfl, rfl⟩

/-- C23: the kind of the segment that the marker loop reads for the marker `FF xx`.  When the
length field of the segment holds `L ≤ 65533` and the `2 + L` bytes are in the file, an
iteration at a marker other than `FF DA` whose kind `seg` is not start-of-frame appends exactly
the segment of kind `seg` at the marker position; and every iteration that goes on after a
marker handed to `ReadJpegUnspecifiedSegment` has appended first a segment of that kind at the
marker position, followed by an ImageData segment only after `FF DA`.  The kinds are: App0,
App1, App2 for `E0`, `E1`, `E2` and OtherApp for `E3..EF`; Special for `01`, `CC`, `DE`, `DF`;
Reserved for `03..BF` and `F0..FD`; start-of-frame for every `C0..CF` other than `C4` and `CC`
(`C8` included); DHT for `C4`, DQT for `DB`, SOS for `DA`, NumberOfLines for `DC`,
RestartInterval for `DD`, Comment for `FE`; Unknown for `00`, `02` and `FF`; no segment is read
for `D0..D7`, and `D8`, `D9` have their own readers. -/
theorem C23_marker_kinds (xx : Nat) :
    (∀ (T : TiffTag) (f : ByteVector) (offset endoffset : Nat) (comment : String)
        (G : GraphicsVector) (filepos hi lo L : Nat) (seg : Segmenttype),
        f.get? filepos = some 0xff ∧ f.get? (filepos + 1) = some xx →
        f.get? (filepos + 2) = some hi ∧ f.get? (filepos + 3) = some lo
          ∧ L = 256 * hi + lo ∧ L ≤ 65533 ∧ filepos + (2 + L) ≤ f.length →
        offset < filepos ∧ filepos ≤ endoffset →
        markerAction xx = MarkerAction.Unspecified seg ∧ xx ≠ 0xda
          ∧ seg ≠ Segmenttype.JpegStartOfFrame →
        markerStep T f offset endoffset comment G filepos
          = (G ++ [parsedSegment seg filepos ((f.drop filepos).take (2 + L))],
             Except.ok (some (filepos + (2 + L)))))
      ∧ (∀ (T : TiffTag) (f : ByteVector) (offset endoffset : Nat) (comment : String)
          (G G1 : GraphicsVector) (filepos : Nat) (seg : Segmenttype) (r : Option Nat),
          f.get? filepos = some 0xff ∧ f.get? (filepos + 1) = some xx →
          offset < filepos ∧ filepos ≤ endoffset →
          markerAction xx = MarkerAction.Unspecified seg →
          markerStep T f offset endoffset comment G filepos = (G1, Except.ok r) →
          ∃ S tail, G1 = G ++ S :: tail ∧ S.segmenttype = seg ∧ S.m_offset = filepos
            ∧ (xx ≠ 0xda → tail = [])
            ∧ (∀ D ∈ tail, D.segmenttype = Segmenttype.JpegImageData))
      ∧ markerAction 0xe0 = MarkerAction.Unspecified Segmenttype.JpegApp0Segment
      ∧ markerAction 0xe1 = MarkerAction.Unspecified Segmenttype.JpegApp1Segment
      ∧ markerAction 0xe2 = MarkerAction.Unspecified Segmenttype.JpegApp2Segment
      ∧ (0xe3 ≤ xx ∧ xx ≤ 0xef
          → markerAction xx = MarkerAction.Unspecified Segmenttype.JpegOtherAppSegment)
      ∧ (xx = 0x01 ∨ xx = 0xcc ∨ xx = 0xde ∨ xx = 0xdf
          → markerAction xx = MarkerAction.Unspecified Segmenttype.JpegSpecialSegment)
      ∧ ((0x03 ≤ xx ∧ xx ≤ 0xbf) ∨ (0xf0 ≤ xx ∧ xx ≤ 0xfd)
          → markerAction xx = MarkerAction.Unspecified Segmenttype.JpegReservedSegment)
      ∧ (0xc0 ≤ xx ∧ xx ≤ 0xcf ∧ xx ≠ 0xc4 ∧ xx ≠ 0xcc
          → markerAction xx = MarkerAction.Unspecified Segmenttype.JpegStartOfFrame)
      ∧ markerAction 0xc4 = MarkerAction.Unspecified Segmenttype.JpegHuffmanTable
      ∧ markerAction 0xdb = MarkerAction.Unspecified Segmenttype.JpegQuantizationTable
      ∧ markerAction 0xda = MarkerAction.Unspecified Segmenttype.JpegStartOfScan
      ∧ markerAction 0xdc = MarkerAction.Unspecified Segmenttype.JpegNumberOfLines
      ∧ markerAction 0xdd = MarkerAction.Unspecified Segmenttype.JpegRestartInterval
      ∧ markerAction 0xfe = MarkerAction.Unspecified Segmenttype.JpegCommentSegment
      ∧ (xx = 0x00 ∨ xx = 0x02 ∨ 0xff ≤ xx
          → markerAction xx = MarkerAction.Unspecified Segmenttype.JpegUnknownSegment)
      ∧ (0xd0 ≤ xx ∧ xx ≤ 0xd7 → markerAction xx = MarkerAction.NoSegment)
      ∧ markerAction 0xd8 = MarkerAction.NestedStartOfImage
      ∧ markerAction 0xd9 = MarkerAction.EndOfImage := by
  refine ⟨?_, ?_, by decide, by decide, by decide, ?_, ?_, ?_, ?_, by decide, by decide,
    by decide, by decide, by decide, by decide, ?_, ?_, by decide, by decide⟩
  · intro T f offset endoffset comment G filepos hi lo L seg hmark hlen hpos hact
    obtain ⟨l0, l1, l2, l3, l4⟩ := hlen
    exact markerStep_unspecified T f offset endoffset comment G hmark.1 hmark.2 l0 l1 l2 l3 l4
      hpos.1 hpos.2 hact.1 hact.2.1 hact.2.2
  · intro T f offset endoffset comment G G1 filepos seg r hmark hpos hact h
    rw [markerStep_eq T f offset endoffset comment G hmark.1 hmark.2 hpos.1 hpos.2, if_pos rfl,
      hact] at h
    simp only at h
    cases hu : ReadJpegUnspecifiedSegment T f G seg filepos with
    | error err =>
      rw [hu] at h
      simp only [Prod.mk.injEq] at h
      cases h.2
    | ok G2 =>
      rw [hu] at h
      simp only at h
      obtain ⟨S, s1, s2, s3, _⟩ := ReadJpegUnspecifiedSegment_inv hu
      rcases afterMarker_cases T f 0xff xx G2 (positionAfter G2) with ⟨err, he⟩ | he | he
      · rw [he] at h
        simp only [Prod.mk.injEq] at h
        cases h.2
      · rw [he] at h
        simp only [Prod.mk.injEq] at h
        refine ⟨S, [], by rw [← h.1, s1], s2, s3, fun _ => rfl, fun D hD => by cases hD⟩
      · obtain ⟨_, hda, q, hq, he⟩ := he
        rw [he] at h
        simp only [Prod.mk.injEq] at h
        obtain ⟨D, d1, d2, _⟩ := ReadJpegImagedata_inv hq
        refine ⟨S, [D], by rw [← h.1, d1, s1, List.append_assoc]; rfl, s2, s3,
          fun hx => absurd hda hx, fun D1 hD => ?_⟩
        rw [List.mem_singleton] at hD
        rw [hD]
        exact d2
  · intro h
    simp +decide (disch := omega) only [markerAction, if_pos, if_neg]
  · intro h
    rcases h with h | h | h | h <;> subst h <;> decide
  · intro h
    simp +decide (disch := omega) only [markerAction, if_pos, if_neg]
  · intro h
    simp +decide (disch := omega) only [markerAction, if_pos, if_neg]
  · intro h
    simp +decide (disch := omega) only [markerAction, if_pos, if_neg]
  · intro h
    simp +decide (disch := omega) only [markerAction, if_pos, if_neg]

/-- Witness of C23: the marker `FF E1` at offset 2 of `FF D8 FF E1 00 02 FF D9`. -/
theorem C23_marker_kinds_witness :
    markerStep stdTags [0xff, 0xd8, 0xff, 0xe1, 0, 2, 0xff, 0xd9] 0 8 "" [] 2
      = ([] ++ [parsedSegment Segmenttype.JpegApp1Segment 2
                  ((([0xff, 0xd8, 0xff, 0xe1, 0, 2, 0xff, 0xd9] : ByteVector).drop 2).take
                    (2 + 2))],
         Except.ok (some (2 + (2 + 2)))) :=
  (C23_marker_kinds 0xe1).1 stdTags [0xff, 0xd8, 0xff, 0xe1, 0, 2, 0xff, 0xd9] 0 8 "" [] 2 0 2 2
    Segmenttype.JpegApp1Segment ⟨rfl, rfl⟩ ⟨rfl, rfl, rfl, by decide, by decide⟩
    ⟨by decide, by decide⟩ ⟨rfl, by decide, by decide⟩

/-- C23 (markers `C8`, `02`, `01`, `E3`): the comparison `vec[1] == 0xc8` of the Reserved
branch is never reached, because the branch `C0..CF` above it takes `C8`: a segment `FF C8`
with a frame header is emitted as start-of-frame.  The Reserved branch tests `vec[1] > 0x02`,
so `02` is Unknown; `01` has its own branch and is Special; `E3` is OtherApp, and no marker is
given the kind App3. -/
theorem C23_reserved_markers :
    markerAction 0xc8 = MarkerAction.Unspecified Segmenttype.JpegStartOfFrame
      ∧ markerAction 0x02 = MarkerAction.Unspecified Segmenttype.JpegUnknownSegment
      ∧ markerAction 0x01 = MarkerAction.Unspecified Segmenttype.JpegSpecialSegment
      ∧ markerAction 0xe3 = MarkerAction.Unspecified Segmenttype.JpegOtherAppSegment
      ∧ (ReadJpegFileOrEmbeddedSection stdTags
            [0xff, 0xd8, 0xff, 0xc8, 0, 11, 8, 0, 8, 0, 8, 1, 1, 0x11, 0, 0xff, 0xd9] [] 0 17 ""
            3).map (fun r => (r.1.map (fun s => s.segmenttype), r.2))
          = some ([Segmenttype.JpegStartOfImage, Segmenttype.JpegStartOfFrame,
                   Segmenttype.JpegEndOfImage], none)
      ∧ (ReadJpegFileOrEmbeddedSection stdTags
            [0xff, 0xd8, 0xff, 0xe3, 0, 2, 0xff, 1, 0, 2, 0xff, 2, 0, 2, 0xff, 0xd9] [] 0 16 ""
            5).map (fun r => (r.1.map (fun s => s.segmenttype), r.2))
          = some ([Segmenttype.JpegStartOfImage, Segmenttype.JpegOtherAppSegment,
                   Segmenttype.JpegSpecialSegment, Segmenttype.JpegUnknownSegment,
                   Segmenttype.JpegEndOfImage], none) :=
  ⟨rfl, rfl, rfl, rfl, rfl, rfl⟩

/-- C28: when the marker loop of a section that starts with `FF D8` at `offset` meets `FF D8`
at a later position `p`, the iteration appends exactly one SOI segment labelled
"NESTED SEGMENT"; the reader is called with `offset`, so the segment has the offset of the
section and the two bytes found there, and the next marker is read at `offset + 2`. -/
theorem C28_nested_start_of_image (T : TiffTag) (f : ByteVector) (offset endoffset : Nat)
    (comment : String) (G : GraphicsVector) (p : Nat)
    (hsoi : f.get? offset = some 0xff ∧ f.get? (offset + 1) = some 0xd8)
    (hp : f.get? p = some 0xff ∧ f.get? (p + 1) = some 0xd8)
    (hpos : offset < p ∧ p ≤ endoffset) :
    markerStep T f offset endoffset comment G p
      = (G ++ [(parsedSegment Segmenttype.JpegStartOfImage offset [0xff, 0xd8]).SetLabel
                 "NESTED SEGMENT"],
         Except.ok (some (offset + 2))) :=
  markerStep_nested T f offset endoffset comment G hsoi.1 hsoi.2 hp.1 hp.2 hpos.1 hpos.2

/-- Witness of C28: the second `FF D8` of `FF D8 FF E0 00 02 FF D8 FF D9`, at position 6. -/
theorem C28_nested_start_of_image_witness :
    markerStep stdTags [0xff, 0xd8, 0xff, 0xe0, 0, 2, 0xff, 0xd8, 0xff, 0xd9] 0 10 "JPEG file"
        [] 6
      = ([] ++ [(parsedSegment Segmenttype.JpegStartOfImage 0 [0xff, 0xd8]).SetLabel
                  "NESTED SEGMENT"],
         Except.ok (some (0 + 2))) :=
  C28_nested_start_of_image stdTags [0xff, 0xd8, 0xff, 0xe0, 0, 2, 0xff, 0xd8, 0xff, 0xd9] 0 10
    "JPEG file" [] 6 ⟨rfl, rfl⟩ ⟨rfl, rfl⟩ ⟨by decide, by decide⟩

/-- C28 (offset of the nested segment): in `FF D8 FF E0 00 02 FF D8 FF D9` the second
`FF D8` is at position 6.  The iteration that meets it appends an SOI segment whose offset is
0, the start of the section, and reads the next marker at 2, not at 8; from there the APP0
segment and the second `FF D8` are met again, and the parse has no end for any number of
iterations. -/
theorem C28_nested_offset :
    ((markerStep stdTags [0xff, 0xd8, 0xff, 0xe0, 0, 2, 0xff, 0xd8, 0xff, 0xd9] 0 10
        "JPEG file" [] 6).1.map (fun s => (s.segmenttype, s.m_offset, s.m_data, s.m_label))
        = [(Segmenttype.JpegStartOfImage, 0, [0xff, 0xd8], "NESTED SEGMENT")])
      ∧ (markerStep stdTags [0xff, 0xd8, 0xff, 0xe0, 0, 2, 0xff, 0xd8, 0xff, 0xd9] 0 10
          "JPEG file" [] 6).2 = Except.ok (some 2)
      ∧ (∀ fuel : Nat, ReadJpegFileOrEmbeddedSection stdTags
          [0xff, 0xd8, 0xff, 0xe0, 0, 2, 0xff, 0xd8, 0xff, 0xd9] [] 0 10 "JPEG file" fuel
            = none) := by
  refine ⟨rfl, rfl, fun fuel => ?_⟩
  rw [ReadJpegFileOrEmbeddedSection_soi stdTags
    [0xff, 0xd8, 0xff, 0xe0, 0, 2, 0xff, 0xd8, 0xff, 0xd9] [] 0 10 "JPEG file" fuel rfl rfl]
  exact (markerLoop_nested_diverges stdTags
    [0xff, 0xd8, 0xff, 0xe0, 0, 2, 0xff, 0xd8, 0xff, 0xd9] 0 (0 + 10) "JPEG file"
    (show _ = some 0xff from rfl) (show _ = some 0xd8 from rfl) (show _ = some 0xff from rfl)
    (show _ = some 0xe0 from rfl) (show _ = some 0 from rfl) (show _ = some 2 from rfl)
    (show 2 = 256 * 0 + 2 from rfl) (by decide)
    (show markerAction 0xe0 = MarkerAction.Unspecified Segmenttype.JpegApp0Segment from rfl)
    (by decide) (by decide) (show _ = some 0xff from rfl) (show _ = some 0xd8 from rfl)
    (by decide) fuel _).1

/-- C22 (normal return without EOI): the four bytes `FF D8 00 00` begin with `FF D8` and hold
no EOI marker.  The first iteration of the marker loop reads `00 00`, whose first byte is not
`FF`, and leaves the loop: the function returns normally, with the SOI segment as the only
segment. -/
theorem C22_returns_without_eoi :
    (ReadJpegFileOrEmbeddedSection stdTags [0xff, 0xd8, 0, 0] [] 0 4 "JPEG file" 1).map
        (fun r => (r.1.map kindData, r.2))
      = some ([(Segmenttype.JpegStartOfImage, [0xff, 0xd8])], none) :=
  rfl

theorem reverseElements_involutive (s : Nat) :
    ∀ (n : Nat) (V : ByteVector), n * s ≤ V.length →
      reverseElements s n (reverseElements s n V) = V.take (n * s) := by
  intro n
  induction n with
  | zero => intro V _; simp [reverseElements]
  | succ n ih =>
    intro V h
    have h1 : (n + 1) * s = s + n * s := by ring
    have hs : s ≤ V.length := by omega
    have hA : ((V.take s).reverse).length = s := by
      rw [List.length_reverse, List.length_take, Nat.min_eq_left hs]
    have hd : n * s ≤ (V.drop s).length := by rw [List.length_drop]; omega
    rw [reverseElements, reverseElements, List.take_left' hA, List.drop_left' hA,
      List.reverse_reverse, ih _ hd, h1, List.take_add]

theorem reverseElements_chunk (s : Nat) :
    ∀ (n : Nat) (V : ByteVector) (j : Nat), n * s ≤ V.length → j < n →
      ((reverseElements s n V).drop (j * s)).take s = ((V.drop (j * s)).take s).reverse := by
  intro n
  induction n with
  | zero => intro V j _ hj; omega
  | succ n ih =>
    intro V j h hj
    have h1 : (n + 1) * s = s + n * s := by ring
    have hs : s ≤ V.length := by omega
    have hA : ((V.take s).reverse).length = s := by
      rw [List.length_reverse, List.length_take, Nat.min_eq_left hs]
    have hd : n * s ≤ (V.drop s).length := by rw [List.length_drop]; omega
    rw [reverseElements]
    cases j with
    | zero =>
      rw [Nat.zero_mul, List.drop_zero, List.drop_zero, List.take_left' hA]
    | succ j =>
      have h2 : (j + 1) * s = s + j * s := by ring
      rw [h2, ← List.drop_drop, List.drop_left' hA, ih _ j hd (by omega), List.drop_drop]

theorem eachElementReversed_eq {s : Nat} {V : ByteVector} :
    eachElementReversed s V = reverseElements s (V.length / s) V := by
  unfold eachElementReversed
  rw [reverseElements_eq]

theorem eachElementReversed_involutive {s : Nat} {V : ByteVector} (hd : s ∣ V.length) :
    eachElementReversed s (eachElementReversed s V) = V := by
  have hl := eachElementReversed_length hd
  rw [eachElementReversed_eq, hl, eachElementReversed_eq,
    reverseElements_involutive s _ V (by rw [Nat.div_mul_cancel hd]), Nat.div_mul_cancel hd,
    List.take_length]

theorem take_reverse_half (X : ByteVector) (h : 8 ≤ X.length) :
    ((X.take 8).reverse).take 4 = ((X.drop 4).take 4).reverse := by
  have h8 : X.take (4 + 4) = X.take 4 ++ (X.drop 4).take 4 := List.take_add X 4 4
  have hB : (((X.drop 4).take 4).reverse).length = 4 := by
    rw [List.length_reverse, List.length_take, List.length_drop]
    omega
  rw [show (8 : Nat) = 4 + 4 from rfl, h8, List.reverse_append, List.take_left' hB]

theorem binary_copy_verbatim {src : ByteVector} {n k : Nat} {e : Endianness}
    (h : src.length = n * k) (hv : k = 1 ∨ e = GetSystemEndianness) :
    binary_copy src n k e = src := by
  unfold binary_copy
  rw [if_pos hv, ← h, List.take_length]

theorem binary_copy_reversed {src : ByteVector} {n k : Nat} {e : Endianness}
    (h : src.length = n * k) (hk : 0 < k) (hv : ¬ (k = 1 ∨ e = GetSystemEndianness)) :
    binary_copy src n k e = eachElementReversed k src := by
  unfold binary_copy
  rw [if_neg hv, eachElementReversed_eq, h, Nat.mul_div_cancel _ hk]

/-- C24: for every buffer of `8 k` bytes, `change_endianness` with element size 4 succeeds, and
applied to its own result it gives back the buffer; `change_endianness` with element size 8
succeeds too, and its result is different whenever for some rational of the buffer the four
bytes of the numerator differ from the four bytes of the denominator. -/
theorem C24_rational_split (V : ByteVector) (k : Nat) (h : V.length = 8 * k) :
    ∃ W4 W8 : ByteVector, change_endianness V 4 = Except.ok W4
      ∧ change_endianness W4 4 = Except.ok V
      ∧ change_endianness V 8 = Except.ok W8
      ∧ ((∃ i, i < k ∧ (V.drop (8 * i)).take 4 ≠ (V.drop (8 * i + 4)).take 4) → W4 ≠ W8) := by
  have d4 : 4 ∣ V.length := ⟨2 * k, by omega⟩
  have d8 : 8 ∣ V.length := ⟨k, by omega⟩
  have l4 := eachElementReversed_length d4
  refine ⟨eachElementReversed 4 V, eachElementReversed 8 V, change_endianness_ok (by decide) d4,
    ?_, change_endianness_ok (by decide) d8, ?_⟩
  · rw [change_endianness_ok (by decide) (by rw [l4]; exact d4), eachElementReversed_involutive d4]
  · rintro ⟨i, hi, hne⟩ heq
    apply hne
    have e4 := reverseElements_chunk 4 (V.length / 4) V (2 * i)
      (by rw [Nat.div_mul_cancel d4]) (by omega)
    have e8 := reverseElements_chunk 8 (V.length / 8) V i
      (by rw [Nat.div_mul_cancel d8]) (by omega)
    rw [← eachElementReversed_eq] at e4 e8
    have h24 : 2 * i * 4 = 8 * i := by ring
    have h8 : i * 8 = 8 * i := by ring
    rw [h24] at e4
    rw [h8] at e8
    have e8' := congrArg (List.take 4) e8
    rw [List.take_take, take_reverse_half _ (by rw [List.length_drop]; omega),
      List.drop_drop] at e8'
    have hmin : min 4 8 = 4 := by decide
    rw [hmin, ← heq, e4] at e8'
    have := List.reverse_injective e8'
    rw [this]

/-- Witness of C24: the rational 1/50 in big-endian bytes; element size 4 gives
`01 00 00 00 32 00 00 00`, element size 8 gives `32 00 00 00 01 00 00 00`. -/
theorem C24_rational_split_witness :
    change_endianness [0, 0, 0, 1, 0, 0, 0, 50] 4 = Except.ok [1, 0, 0, 0, 50, 0, 0, 0]
      ∧ change_endianness [0, 0, 0, 1, 0, 0, 0, 50] 8 = Except.ok [50, 0, 0, 0, 1, 0, 0, 0]
      ∧ ∃ W4 W8 : ByteVector,
          change_endianness [0, 0, 0, 1, 0, 0, 0, 50] 4 = Except.ok W4
          ∧ change_endianness W4 4 = Except.ok [0, 0, 0, 1, 0, 0, 0, 50]
          ∧ change_endianness [0, 0, 0, 1, 0, 0, 0, 50] 8 = Except.ok W8
          ∧ ((∃ i, i < 1 ∧ (([0, 0, 0, 1, 0, 0, 0, 50] : ByteVector).drop (8 * i)).take 4
                ≠ (([0, 0, 0, 1, 0, 0, 0, 50] : ByteVector).drop (8 * i + 4)).take 4) →
              W4 ≠ W8) :=
  ⟨rfl, rfl, C24_rational_split [0, 0, 0, 1, 0, 0, 0, 50] 1 rfl⟩

/-- C25: for every element size `k` in 1, 2, 4, 8, every count `n`, every endianness `e` and
every source of `n k` bytes, `binary_copy` applied to what `binary_copy` wrote gives back the
source; one call writes the source unchanged when `k = 1` or `e` is the endianness of the host,
and otherwise the source with the `k` bytes of each element reversed. -/
theorem C25_binary_copy_round_trip (src : ByteVector) (n k : Nat) (e : Endianness)
    (hk : k = 1 ∨ k = 2 ∨ k = 4 ∨ k = 8) (h : src.length = n * k) :
    binary_copy (binary_copy src n k e) n k e = src
      ∧ (k = 1 ∨ e = GetSystemEndianness → binary_copy src n k e = src)
      ∧ (¬ (k = 1 ∨ e = GetSystemEndianness) →
          binary_copy src n k e = eachElementReversed k src) := by
  have hpos : 0 < k := by omega
  refine ⟨?_, binary_copy_verbatim h, binary_copy_reversed h hpos⟩
  by_cases hv : k = 1 ∨ e = GetSystemEndianness
  · rw [binary_copy_verbatim h hv, binary_copy_verbatim h hv]
  · have hd : k ∣ src.length := ⟨n, by rw [h, Nat.mul_comm]⟩
    rw [binary_copy_reversed h hpos hv,
      binary_copy_reversed (by rw [eachElementReversed_length hd, h]) hpos hv,
      eachElementReversed_involutive hd]

/-- Witness of C25: two elements of two bytes copied in big-endian order on the little-endian
host are written as `02 01 04 03`, and copying these back gives `01 02 03 04`. -/
theorem C25_binary_copy_round_trip_witness :
    binary_copy [1, 2, 3, 4] 2 2 Endianness.Big = [2, 1, 4, 3]
      ∧ binary_copy (binary_copy [1, 2, 3, 4] 2 2 Endianness.Big) 2 2 Endianness.Big
          = [1, 2, 3, 4]
      ∧ ((2 : Nat) = 1 ∨ Endianness.Big = GetSystemEndianness →
          binary_copy [1, 2, 3, 4] 2 2 Endianness.Big = [1, 2, 3, 4])
      ∧ (¬ ((2 : Nat) = 1 ∨ Endianness.Big = GetSystemEndianness) →
          binary_copy [1, 2, 3, 4] 2 2 Endianness.Big = eachElementReversed 2 [1, 2, 3, 4]) :=
  ⟨rfl, C25_binary_copy_round_trip [1, 2, 3, 4] 2 2 Endianness.Big (by decide) rfl⟩

theorem find_last_of_none {c : Char} : ∀ {l : List Char}, find_last_of l c = none → c ∉ l
  | [], _ => by simp
  | x :: xs, h => by
    unfold find_last_of at h
    cases hr : find_last_of xs c with
    | some i => rw [hr] at h; cases h
    | none =>
      rw [hr] at h
      simp only at h
      by_cases hx : x = c
      · rw [if_pos hx] at h; cases h
      · intro hm
        rcases List.mem_cons.1 hm with h1 | h1
        · exact hx h1.symm
        · exact find_last_of_none hr h1

theorem find_last_of_some {c : Char} :
    ∀ {l : List Char} {pos : Nat}, find_last_of l c = some pos →
      l.get? pos = some c ∧ ∀ j, pos < j → l.get? j ≠ some c
  | [], _, h => by cases h
  | x :: xs, pos, h => by
    unfold find_last_of at h
    cases hr : find_last_of xs c with
    | some i =>
      rw [hr] at h
      simp only [Option.some.injEq] at h
      obtain ⟨a, b⟩ := find_last_of_some hr
      subst h
      refine ⟨by simpa using a, fun j hj => ?_⟩
      rcases j with _ | j
      · omega
      · simpa using b j (by omega)
    | none =>
      rw [hr] at h
      simp only at h
      by_cases hx : x = c
      · rw [if_pos hx] at h
        simp only [Option.some.injEq] at h
        subst h
        refine ⟨by simp [hx], fun j hj => ?_⟩
        rcases j with _ | j
        · omega
        · intro hj2
          have hj3 : xs.get? j = some c := by simpa using hj2
          have hm : c ∈ xs := by
            obtain ⟨hl, he⟩ := List.get?_eq_some.1 hj3
            rw [← he]
            exact List.get_mem xs j hl
          exact find_last_of_none hr hm
      · rw [if_neg hx] at h; cases h

theorem ofException_not_exited (e : Option Error) (code : Nat) :
    Ending.ofException e ≠ Ending.exited code := by
  cases e <;> intro h <;> cases h

/-- The only value that `ReadFile` passes to `exit` is 0. -/
theorem ReadFile_exited {T : TiffTag}
    {ReadTiff : ByteVector → GraphicsVector → Option (GraphicsVector × Option Error)}
    {fs : FileSystem} {fn : String} {G G1 : GraphicsVector} {fuel code : Nat}
    (h : ReadFile T ReadTiff fs fn G fuel = some (G1, Ending.exited code)) : code = 0 := by
  unfold ReadFile at h
  cases ho : fs.openRead fn with
  | none =>
    rw [ho] at h
    simp only [Option.some.injEq, Prod.mk.injEq, Ending.exited.injEq] at h
    exact h.2.symm
  | some f =>
    rw [ho] at h
    simp only at h
    cases hg : GetBytes f 0 4 with
    | error err =>
      rw [hg] at h
      simp only [Option.some.injEq, Prod.mk.injEq] at h
      cases h.2
    | ok vec =>
      rw [hg] at h
      simp only at h
      split at h
      · rw [Option.map_eq_some'] at h
        obtain ⟨r, _, hr⟩ := h
        simp only [Prod.mk.injEq] at hr
        exact absurd hr.2 (ofException_not_exited _ _)
      · split at h
        · rw [Option.map_eq_some'] at h
          obtain ⟨r, _, hr⟩ := h
          simp only [Prod.mk.injEq] at hr
          exact absurd hr.2 (ofException_not_exited _ _)
        · simp only [Option.some.injEq, Prod.mk.injEq, Ending.exited.injEq] at h
          exact h.2.symm

/-- Every run of `wmain` that ends gives the exit code 0, and the name of the output file it
wrote, if any, is the one `wmain_outfile_name` gives. -/
theorem wmain_run {T : TiffTag}
    {ReadTiff : ByteVector → GraphicsVector → Option (GraphicsVector × Option Error)}
    {fs : FileSystem} {argv : List String} {fuel : Nat} {o : Run}
    (h : wmain T ReadTiff fs argv fuel = some o) :
    o.exitCode = 0 ∧ ∀ n b, o.outfile = some (n, b) → n = wmain_outfile_name fs argv := by
  unfold wmain at h
  split at h
  · simp only at h
    split at h
    · cases h
    · next G1 code hr =>
      simp only [Option.some.injEq] at h
      subst h
      exact ⟨ReadFile_exited hr, fun n b hn => by cases hn⟩
    · simp only [Option.some.injEq] at h
      subst h
      exact ⟨rfl, fun n b hn => by cases hn⟩
    · simp only [Option.some.injEq] at h
      subst h
      refine ⟨rfl, fun n b hn => ?_⟩
      simp only [Option.map_eq_some', Prod.mk.injEq] at hn
      obtain ⟨_, _, hn, _⟩ := hn
      exact hn.symm
  · simp only [Option.some.injEq] at h
    subst h
    exact ⟨rfl, fun n b hn => by cases hn⟩

/-- C26: the output path of the driver.  With more than two arguments (an output path is
given) the variable that holds the path keeps the empty string, so the path is the empty
string, or "JPEG-COMPRESSED-TIFF-FILE.tif" if a file with the empty name exists.  Without an
output path, if `pos` is the index of the last '.' of the input path, the path is the first
`pos` characters of the input path followed by ".tif", replaced by
"JPEG-COMPRESSED-TIFF-FILE.tif" exactly when a file of that name exists; if the input path
has no '.', it is "JPEG-COMPRESSED-TIFF-FILE.tif".  Every output file that a run writes has
this path as its name. -/
theorem C26_output_path (T : TiffTag)
    (ReadTiff : ByteVector → GraphicsVector → Option (GraphicsVector × Option Error))
    (fs : FileSystem) (argv : List String) (fuel : Nat) :
    (argv.length > 2 →
        wmain_outfile_name fs argv
          = if file_exists fs "" then "JPEG-COMPRESSED-TIFF-FILE.tif" else "")
      ∧ (¬ argv.length > 2 → ∀ pos, find_last_of (argv.getD 1 "").toList '.' = some pos →
          ((argv.getD 1 "").toList.get? pos = some '.'
            ∧ ∀ j, pos < j → (argv.getD 1 "").toList.get? j ≠ some '.')
          ∧ wmain_outfile_name fs argv
              = if file_exists fs (String.mk ((argv.getD 1 "").toList.take pos) ++ ".tif")
                then "JPEG-COMPRESSED-TIFF-FILE.tif"
                else String.mk ((argv.getD 1 "").toList.take pos) ++ ".tif")
      ∧ (¬ argv.length > 2 → find_last_of (argv.getD 1 "").toList '.' = none →
          '.' ∉ (argv.getD 1 "").toList
            ∧ wmain_outfile_name fs argv = "JPEG-COMPRESSED-TIFF-FILE.tif")
      ∧ (∀ o n b, wmain T ReadTiff fs argv fuel = some o → o.outfile = some (n, b) →
          n = wmain_outfile_name fs argv) := by
  refine ⟨fun h => ?_, fun h pos hp => ⟨find_last_of_some hp, ?_⟩,
    fun h hp => ⟨find_last_of_none hp, ?_⟩, fun o n b ho hn => (wmain_run ho).2 n b hn⟩
  · unfold wmain_outfile_name
    simp only [if_pos h]
  · unfold wmain_outfile_name
    simp only [if_neg h, hp]
  · unfold wmain_outfile_name
    simp only [if_neg h, hp]
    have he : "JPEG-COMPRESSED-TIFF-FILE" ++ ".tif" = "JPEG-COMPRESSED-TIFF-FILE.tif" := by
      decide
    rw [he]
    split <;> rfl

/-- Witness of C26: for the arguments `rewrap in.jpg` the last '.' of the input path is at
index 2. -/
theorem C26_output_path_witness :
    ((("rewrap" :: "in.jpg" :: ([] : List String)).getD 1 "").toList.get? 2 = some '.'
        ∧ ∀ j, 2 < j → (("rewrap" :: "in.jpg" :: ([] : List String)).getD 1 "").toList.get? j
            ≠ some '.')
      ∧ wmain_outfile_name grayFiles ["rewrap", "in.jpg"]
          = if file_exists grayFiles
                (String.mk (((["rewrap", "in.jpg"] : List String).getD 1 "").toList.take 2)
                  ++ ".tif")
            then "JPEG-COMPRESSED-TIFF-FILE.tif"
            else String.mk (((["rewrap", "in.jpg"] : List String).getD 1 "").toList.take 2)
                  ++ ".tif" :=
  (C26_output_path stdTags readNoTiff grayFiles ["rewrap", "in.jpg"] 0).2.1 (by decide) 2
    (by decide)

/-- C26 (output path given): for the arguments `rewrap in.jpg out.tif` the path of the driver
is the empty string, not `out.tif`; without the third argument it is `in.tif`. -/
theorem C26_second_argument_unused :
    (["rewrap", "in.jpg", "out.tif"] : List String).getD 2 "" = "out.tif"
      ∧ wmain_outfile_name grayFiles ["rewrap", "in.jpg", "out.tif"] = ""
      ∧ wmain_outfile_name grayFiles ["rewrap", "in.jpg"] = "in.tif" := by
  decide

/-- C27, amended: the exit code of every run of the driver that ends is 0.  In particular the
run ends with the exit code 0, without an output file, when fewer than one argument is given,
when the input file cannot be opened (`exit(0)`), when the input file has fewer than four
bytes (the read error is caught) and when its first four bytes are none of the four signatures
(`exit(0)`). -/
theorem C27_exit_code (T : TiffTag)
    (ReadTiff : ByteVector → GraphicsVector → Option (GraphicsVector × Option Error))
    (fs : FileSystem) (argv : List String) (fuel : Nat) :
    (∀ o, wmain T ReadTiff fs argv fuel = some o → o.exitCode = 0)
      ∧ (¬ argv.length > 1 →
          wmain T ReadTiff fs argv fuel
            = some { exitCode := 0, exception := none, outfile := none })
      ∧ (argv.length > 1 → fs.openRead (argv.getD 1 "") = none →
          wmain T ReadTiff fs argv fuel
            = some { exitCode := 0, exception := none, outfile := none })
      ∧ (∀ f, argv.length > 1 → fs.openRead (argv.getD 1 "") = some f → f.length < 4 →
          wmain T ReadTiff fs argv fuel
            = some { exitCode := 0, exception := some Error.ReadError, outfile := none })
      ∧ (∀ f, argv.length > 1 → fs.openRead (argv.getD 1 "") = some f → 4 ≤ f.length →
          f.take 4 ≠ [0x49, 0x49, 0x2a, 0] ∧ f.take 4 ≠ [0x4d, 0x4d, 0, 0x2a]
            ∧ f.take 4 ≠ [0xff, 0xd8, 0xff, 0xe0] ∧ f.take 4 ≠ [0xff, 0xd8, 0xff, 0xe1] →
          wmain T ReadTiff fs argv fuel
            = some { exitCode := 0, exception := none, outfile := none }) := by
  refine ⟨fun o ho => (wmain_run ho).1, fun h => ?_, fun h ho => ?_, fun f h ho hl => ?_,
    fun f h ho hl hs => ?_⟩
  · unfold wmain
    rw [if_neg h]
  · unfold wmain ReadFile
    rw [if_pos h]
    simp only [ho]
  · unfold wmain ReadFile
    rw [if_pos h]
    simp only [ho, GetBytes_short (show 0 < 4 by decide) (show f.length < 0 + 4 by omega)]
  · unfold wmain ReadFile
    rw [if_pos h]
    simp only [ho, GetBytes_ok (show 0 + 4 ≤ f.length by omega), List.drop_zero]
    rw [if_neg (fun hc => hc.elim hs.1 hs.2.1), if_neg (fun hc => hc.elim hs.2.2.1 hs.2.2.2)]

/-- Witness of C27: the run on an input file that does not exist. -/
theorem C27_exit_code_witness :
    wmain stdTags readNoTiff grayFiles ["rewrap", "missing.jpg"] 0
      = some { exitCode := 0, exception := none, outfile := none } :=
  (C27_exit_code stdTags readNoTiff grayFiles ["rewrap", "missing.jpg"] 0).2.2.1 (by decide)
    (by decide)

/-- C27 (exit code after a fatal error): the run on an input file that cannot be opened, the
run on a text file, whose first four bytes are not recognised, and the run on a JPEG file
that ends inside its first segment, where the read error is caught, all give the exit
code 0. -/
theorem C27_exit_code_zero_on_failure :
    wmain stdTags readNoTiff grayFiles ["rewrap", "missing.jpg"] 20
        = some { exitCode := 0, exception := none, outfile := none }
      ∧ wmain stdTags readNoTiff textFiles ["rewrap", "notes.txt"] 20
        = some { exitCode := 0, exception := none, outfile := none }
      ∧ wmain stdTags readNoTiff cutFiles ["rewrap", "cut.jpg"] 20
        = some { exitCode := 0, exception := some Error.ReadError, outfile := none } := by
  decide

/-- What a successful `InitializeFromMemory` has read. -/
theorem InitializeFromMemory_inv {T : TiffTag} {memory : ByteVector} {pos : Nat}
    {e : Endianness} {E : TiffDirEntry}
    (h : TiffDirEntry.InitializeFromMemory T memory pos e = Except.ok E) :
    E.m_endianness = e ∧ MakeUShort memory pos e = Except.ok E.m_tagID
      ∧ MakeUShort memory (pos + 2) e = Except.ok E.m_dataType
      ∧ MakeULong memory (pos + 4) e = Except.ok E.m_dataCount
      ∧ byteAt memory (pos + 8) = Except.ok E.m_dataBytes.b0
      ∧ byteAt memory (pos + 9) = Except.ok E.m_dataBytes.b1
      ∧ byteAt memory (pos + 10) = Except.ok E.m_dataBytes.b2
      ∧ byteAt memory (pos + 11) = Except.ok E.m_dataBytes.b3
      ∧ ∃ len, TiffDatatypeLength E.m_dataType = Except.ok len
          ∧ (toInt32 (len * E.m_dataCount) > 4 → E.m_storageLogic = StorageLogic.OffsetData) := by
  unfold TiffDirEntry.InitializeFromMemory at h
  simp only [bind_ok] at h
  obtain ⟨tag, h1, dt, h2, dc, h3, b0, h4, b1, h5, b2, h6, b3, h7, len, h8, logic, h9, h⟩ := h
  simp only [pure, Except.pure, Except.ok.injEq] at h
  subst h
  refine ⟨rfl, h1, h2, h3, h4, h5, h6, h7, len, h8, fun hs => ?_⟩
  rw [if_pos hs] at h9
  simp only [pure, Except.pure, Except.ok.injEq] at h9
  exact h9.symm

theorem toInt32_small {n : Nat} (h : n < 2147483648) : toInt32 n = (n : Int) := by
  unfold toInt32
  have hm : n % 4294967296 = n := Nat.mod_eq_of_lt (by omega)
  rw [hm, if_pos h]

/-- The three outcomes of the capture of external bytes in `ReadDirectory`. -/
theorem ReadDirectory_entry_eq {T : TiffTag} {memory : ByteVector} {offset i : Nat}
    {ee : Endianness} {e : TiffDirEntry} {datasize : Nat}
    (hinit : TiffDirEntry.InitializeFromMemory T memory
      ((offset + 2 + 12 * i) % 4294967296) ee = Except.ok e)
    (hsize : e.GetDataSize = Except.ok datasize) :
    (datasize ≤ 4 → ReadDirectory_entry T memory offset ee i = Except.ok (e, []))
      ∧ (4 < datasize → datasize < 2147483648 → e.value32 + datasize < 4294967296 →
          (e.value32 + datasize ≤ memory.length →
            ReadDirectory_entry T memory offset ee i
              = Except.ok (e, (memory.drop e.value32).take datasize))
          ∧ (memory.length < e.value32 + datasize →
              ReadDirectory_entry T memory offset ee i = Except.ok (e, []))) := by
  obtain ⟨_, _, _, _, _, _, _, _, len, hlen, hlogic⟩ := InitializeFromMemory_inv hinit
  have hds : datasize = (e.m_dataCount * len) % 4294967296 := by
    unfold TiffDirEntry.GetDataSize at hsize
    rw [hlen] at hsize
    simp only [bind, Except.bind, pure, Except.pure, Except.ok.injEq] at hsize
    exact hsize.symm
  refine ⟨fun h4 => ?_, fun h4 h31 h32 => ?_⟩
  · unfold ReadDirectory_entry
    rw [hinit]
    simp only [bind, Except.bind, hsize]
    rw [if_neg (by omega)]
    rfl
  · have hoff : e.GetOffsetField = Except.ok e.value32 := by
      have hl : e.m_storageLogic = StorageLogic.OffsetData := by
        apply hlogic
        rw [← toInt32_mod, Nat.mul_comm, ← hds, toInt32_small h31]
        exact_mod_cast h4
      unfold TiffDirEntry.GetOffsetField
      rw [hl]
      rfl
    have hmod : (e.value32 + datasize) % 4294967296 = e.value32 + datasize :=
      Nat.mod_eq_of_lt h32
    constructor
    · intro hle
      unfold ReadDirectory_entry
      rw [hinit]
      simp only [bind, Except.bind, hsize, hoff, hmod]
      rw [if_pos h4]
      rcases Nat.lt_or_eq_of_le hle with hlt | heq
      · rw [if_pos hlt, if_pos (Nat.le_add_right _ _), Nat.add_sub_cancel_left]
        rfl
      · rw [if_neg (by omega), if_pos heq, if_pos (by omega)]
        simp only [pure, Except.pure]
        rw [List.take_of_length_le]
        rw [List.length_drop]
        omega
    · intro hgt
      unfold ReadDirectory_entry
      rw [hinit]
      simp only [bind, Except.bind, hsize, hoff, hmod]
      rw [if_pos h4, if_neg (by omega), if_neg (by omega)]
      rfl

theorem ReadDirectory_loop_get {T : TiffTag} {memory : ByteVector} {offset : Nat}
    {ee : Endianness} :
    ∀ (n i : Nat) (l : List (TiffDirEntry × ByteVector)),
      ReadDirectory_loop T memory offset ee i n = Except.ok l →
      l.length = n ∧ ∀ k x, l.get? k = some x →
        ReadDirectory_entry T memory offset ee (i + k) = Except.ok x := by
  intro n
  induction n with
  | zero =>
    intro i l h
    unfold ReadDirectory_loop at h
    simp only [pure, Except.pure, Except.ok.injEq] at h
    subst h
    exact ⟨rfl, fun k x hk => by cases hk⟩
  | succ n ih =>
    intro i l h
    unfold ReadDirectory_loop at h
    simp only [bind_ok] at h
    obtain ⟨x0, h0, rest, hrest, h⟩ := h
    simp only [pure, Except.pure, Except.ok.injEq] at h
    subst h
    obtain ⟨hl, hget⟩ := ih (i + 1) rest hrest
    refine ⟨by rw [List.length_cons, hl], fun k x hk => ?_⟩
    rcases k with _ | k
    · simp only [List.get?_cons_zero, Option.some.injEq] at hk
      subst hk
      exact h0
    · rw [List.get?_cons_succ] at hk
      have := hget k x hk
      rw [show i + (k + 1) = i + 1 + k by omega]
      exact this

/-- The entries of the list `ReadDirectory` returns are the results of the body of its loop. -/
theorem ReadDirectory_get {T : TiffTag} {memory : ByteVector} {offset : Nat} {ee : Endianness}
    {dir : List (TiffDirEntry × ByteVector)} (h : ReadDirectory T memory offset ee = Except.ok dir)
    {i : Nat} {x : TiffDirEntry × ByteVector} (hx : dir.get? i = some x) :
    ReadDirectory_entry T memory offset ee i = Except.ok x := by
  unfold ReadDirectory at h
  simp only [bind_ok] at h
  obtain ⟨n, _, h⟩ := h
  have := (ReadDirectory_loop_get n 0 dir h).2 i x hx
  rwa [Nat.zero_add] at this

theorem byteAt_of_get {v : ByteVector} {i b : Nat} (h : v.get? i = some b) :
    byteAt v i = Except.ok b := by
  unfold byteAt
  rw [h]

theorem byteAt_drop (v : ByteVector) (n k : Nat) : byteAt (v.drop n) k = byteAt v (n + k) := by
  unfold byteAt
  rw [List.get?_eq_getElem?, List.get?_eq_getElem?, List.getElem?_drop]

theorem MakeUShort_drop (v : ByteVector) (n k : Nat) (e : Endianness) :
    MakeUShort (v.drop n) k e = MakeUShort v (n + k) e := by
  unfold MakeUShort
  rw [byteAt_drop, byteAt_drop]
  rfl

theorem take_four_of_six {l s : ByteVector} (h : l.take 6 = s) : l.take 4 = s.take 4 := by
  rw [← h, List.take_take]
  rfl

theorem get_of_take_four {f : ByteVector} {p a b c d : Nat}
    (h : (f.drop p).take 4 = [a, b, c, d]) : f.get? p = some a := by
  have h0 := congrArg (fun l => l.get? 0) h
  simp only [List.get?_eq_getElem?, List.getElem?_take_of_lt (show 0 < 4 by decide),
    List.getElem?_drop] at h0
  rw [List.get?_eq_getElem?]
  simpa using h0

/-- Function `valid_exif_chunk` on a payload that begins with `FF E1` and whose length field
agrees with its size. -/
theorem valid_exif_chunk_eq {D : ByteVector} {hi lo : Nat}
    (h0 : D.get? 0 = some 0xff) (h1 : D.get? 1 = some 0xe1) (h2 : D.get? 2 = some hi)
    (h3 : D.get? 3 = some lo) (hlen : 2 + (lo + 256 * hi) % 65536 = D.length) :
    valid_exif_chunk D
      = Except.ok (decide (19 ≤ D.length ∧ (D.drop 4).take 6 = ExifSignature
          ∧ ((D.drop 10).take 4 = [0x49, 0x49, 0x2a, 0x00]
              ∨ (D.drop 10).take 4 = [0x4d, 0x4d, 0x00, 0x2a]))) := by
  unfold valid_exif_chunk
  simp only []
  by_cases hs : D.length < 19
  · rw [if_pos (by omega)]
    simp only [pure, Except.pure, Except.ok.injEq]
    symm
    rw [decide_eq_false_iff_not]
    omega
  · have hm : MakeUShort D 2 Endianness.Big = Except.ok ((lo + 256 * hi) % 65536) := by
      unfold MakeUShort
      rw [byteAt_of_get h2, byteAt_of_get h3]
      rfl
    rw [if_neg (by omega), byteAt_of_get h0, byteAt_of_get h1]
    simp only [bind, Except.bind, hm, ne_eq, not_true_eq_false, or_self, if_false]
    have ha : ASSERT (decide (2 + (lo + 256 * hi) % 65536 = D.length)) = Except.ok () := by
      rw [ASSERT_ok]
      exact decide_eq_true hlen
    rw [ha]
    simp only [pure, Except.pure]
    by_cases hsig : (D.drop 4).take 6 = ExifSignature
    · rw [if_neg (not_not.2 hsig), if_neg (not_not.2 (take_four_of_six hsig))]
      by_cases hii : (D.drop 10).take 4 = [0x49, 0x49, 0x2a, 0x00]
      · rw [if_pos hii]
        simp only [Except.ok.injEq]
        symm
        rw [decide_eq_true_iff]
        exact ⟨by omega, hsig, Or.inl hii⟩
      · rw [if_neg hii]
        simp only [Except.ok.injEq]
        congr 1
        apply propext
        constructor
        · intro hmm
          exact ⟨by omega, hsig, Or.inr hmm⟩
        · intro hc
          rcases hc.2.2 with hc | hc
          · exact absurd hc hii
          · exact hc
    · rw [if_pos hsig]
      simp only [Except.ok.injEq]
      symm
      rw [decide_eq_false_iff_not]
      exact fun hc => hsig hc.2.1

theorem byteAt_ok {v : ByteVector} {i : Nat} (h : i < v.length) :
    ∃ b, byteAt v i = Except.ok b := by
  unfold byteAt
  rw [List.get?_eq_get h]
  exact ⟨_, rfl⟩

theorem MakeULong_ok {v : ByteVector} {i : Nat} (e : Endianness) (h : i + 3 < v.length) :
    ∃ d, MakeULong v i e = Except.ok d := by
  obtain ⟨b0, h0⟩ := byteAt_ok (show i < v.length by omega)
  obtain ⟨b1, h1⟩ := byteAt_ok (show i + 1 < v.length by omega)
  obtain ⟨b2, h2⟩ := byteAt_ok (show i + 2 < v.length by omega)
  obtain ⟨b3, h3⟩ := byteAt_ok (show i + 3 < v.length by omega)
  unfold MakeULong
  rw [h0, h1, h2, h3]
  cases e
  · exact ⟨_, rfl⟩
  · exact ⟨_, rfl⟩

/-- The body of the loop of `ReadApp1Metadata` on a payload that `valid_exif_chunk` refuses. -/
theorem ReadApp1Metadata_step_skip {T : TiffTag} {metadata : exif_info} {D : ByteVector}
    (h : valid_exif_chunk D = Except.ok false) :
    ReadApp1Metadata_step T metadata D = Except.ok metadata := by
  unfold ReadApp1Metadata_step
  rw [h]
  rfl

/-- The body of the loop of `ReadApp1Metadata` on a payload that `valid_exif_chunk` accepts,
with the directory offset `d` read in the byte order `ee` of the byte-order mark. -/
theorem ReadApp1Metadata_step_valid {T : TiffTag} {metadata : exif_info} {D : ByteVector}
    {ee : Endianness} {d : Nat}
    (h : valid_exif_chunk D = Except.ok true)
    (hbom : ((D.drop 10).take 4 = [0x49, 0x49, 0x2a, 0x00] ∧ ee = Endianness.Little)
      ∨ ((D.drop 10).take 4 = [0x4d, 0x4d, 0x00, 0x2a] ∧ ee = Endianness.Big))
    (hd : MakeULong D 14 ee = Except.ok d) :
    ReadApp1Metadata_step T metadata D
      = if (d + 18) % 4294967296 ≥ D.length then Except.error Error.InvalidDirectoryOffset
        else (ReadDirectory T (D.drop 10) d ee) >>= fun main_dir =>
          (find_offset main_dir T.ExifIFD) >>= fun exifdir_offset =>
          ((if exifdir_offset ≠ 0 then ReadDirectory T (D.drop 10) exifdir_offset ee
            else pure metadata.exif_dir : Except Error (List (TiffDirEntry × ByteVector)))) >>=
            fun exif_dir =>
          (find_offset main_dir T.GPSIFD) >>= fun gpsdir_offset =>
          ((if gpsdir_offset ≠ 0 then ReadDirectory T (D.drop 10) gpsdir_offset ee
            else pure metadata.gps_dir : Except Error (List (TiffDirEntry × ByteVector)))) >>=
            fun gps_dir =>
          pure { endianness := ee, main_dir := main_dir, exif_dir := exif_dir,
                 gps_dir := gps_dir } := by
  unfold ReadApp1Metadata_step
  rw [h]
  rcases hbom with ⟨hb, he⟩ | ⟨hb, he⟩
  · subst he
    rw [byteAt_of_get (get_of_take_four hb)]
    simp only [bind, Except.bind, if_true, pure, Except.pure, hd]
  · subst he
    rw [byteAt_of_get (get_of_take_four hb)]
    simp only [bind, Except.bind, if_true, pure, Except.pure]
    rw [if_neg (by decide)]
    simp only [hd]

/-- C29, amended: let `e` be the entry that `ReadDirectory` builds from the twelve bytes of
entry `i` and `datasize` its data size (data type length times count, modulo 2^32).  When
`datasize` is at most 4 the captured external bytes are empty.  When it exceeds 4 (and is
below 2^31, with `value_field + datasize` below 2^32) the captured bytes are the `datasize`
bytes of the payload from `value_field` on, in the byte order of the payload, if they all lie
inside the payload, and they are empty if `value_field + datasize` exceeds the payload
length: nothing is clamped.  Every element of the list `ReadDirectory` returns is the result
of this capture for its index. -/
theorem C29_external_bytes (T : TiffTag) (memory : ByteVector) (offset i : Nat)
    (ee : Endianness) (e : TiffDirEntry) (datasize : Nat)
    (hinit : TiffDirEntry.InitializeFromMemory T memory
      ((offset + 2 + 12 * i) % 4294967296) ee = Except.ok e)
    (hsize : e.GetDataSize = Except.ok datasize) :
    (datasize ≤ 4 → ReadDirectory_entry T memory offset ee i = Except.ok (e, []))
      ∧ (4 < datasize → datasize < 2147483648 → e.value32 + datasize < 4294967296 →
          (e.value32 + datasize ≤ memory.length →
            ReadDirectory_entry T memory offset ee i
              = Except.ok (e, (memory.drop e.value32).take datasize))
          ∧ (memory.length < e.value32 + datasize →
              ReadDirectory_entry T memory offset ee i = Except.ok (e, [])))
      ∧ (∀ dir x, ReadDirectory T memory offset ee = Except.ok dir → dir.get? i = some x →
          ReadDirectory_entry T memory offset ee i = Except.ok x) :=
  ⟨(ReadDirectory_entry_eq hinit hsize).1, (ReadDirectory_entry_eq hinit hsize).2,
    fun _ _ hdir hx => ReadDirectory_get hdir hx⟩

/-- Witness of C29: the entry of `makeDirectory` has eight bytes of data at 14, inside the
23 bytes of the directory. -/
theorem C29_external_bytes_witness :
    ReadDirectory_entry stdTags makeDirectory 0 Endianness.Little 0
      = Except.ok (makeEntry, (makeDirectory.drop makeEntry.value32).take 8) :=
  ((C29_external_bytes stdTags makeDirectory 0 0 Endianness.Little makeEntry 8 rfl rfl).2.1
    (by decide) (by decide) (by decide)).1 (by decide)

/-- C29 (data that run past the end of the payload): the value field of the entry of
`cutDirectory` is 14, inside the 17 bytes of the payload, and the eight bytes of data would
end at 22.  The captured bytes are empty, not the three bytes `61 62 63` from 14 to the end
of the payload. -/
theorem C29_no_clamping :
    ReadDirectory stdTags cutDirectory 0 Endianness.Little = Except.ok [(makeEntry, [])]
      ∧ makeEntry.GetDataSize = Except.ok 8 ∧ makeEntry.value32 = 14
      ∧ cutDirectory.length = 17
      ∧ (cutDirectory.drop 14).take 8 = [97, 98, 99] :=
  ⟨rfl, rfl, rfl, rfl, rfl⟩

/-- C30, amended: let `D` be an APP1 payload that begins with `FF E1` and whose length field
agrees with its size.  If `D` has fewer than 19 bytes, or its bytes 4..9 are not
`Exif 00 00`, or its bytes 10..13 are neither `49 49 2A 00` nor `4D 4D 00 2A`, the payload
is ignored without error.  Otherwise let `ee` be little endian for `II` and big endian for
`MM`, and `d` the 32-bit value at bytes 14..17 decoded in `ee`.  If `d + 18` (modulo 2^32) is
not below the size of `D`, the reader fails with "Invalid directory offset".  If it is
below, the reader records `ee` and reads the main directory with `ReadDirectory` at offset
`d` of the bytes of `D` from index 10 on, that is at payload index `10 + d`: a failure of
that read is the failure of the reader, every result of the reader holds `ee` and the
directory so read, and when the directory has neither an Exif nor a GPS pointer the reader
succeeds with it. -/
theorem C30_exif_header (T : TiffTag) (metadata : exif_info) (D : ByteVector) (hi lo : Nat)
    (hmark : D.get? 0 = some 0xff ∧ D.get? 1 = some 0xe1 ∧ D.get? 2 = some hi
      ∧ D.get? 3 = some lo ∧ 2 + (lo + 256 * hi) % 65536 = D.length) :
    (D.length < 19 ∨ (D.drop 4).take 6 ≠ ExifSignature
        ∨ ((D.drop 10).take 4 ≠ [0x49, 0x49, 0x2a, 0x00]
            ∧ (D.drop 10).take 4 ≠ [0x4d, 0x4d, 0x00, 0x2a]) →
        ReadApp1Metadata_step T metadata D = Except.ok metadata)
      ∧ (∀ ee, 19 ≤ D.length → (D.drop 4).take 6 = ExifSignature →
          ((D.drop 10).take 4 = [0x49, 0x49, 0x2a, 0x00] ∧ ee = Endianness.Little)
            ∨ ((D.drop 10).take 4 = [0x4d, 0x4d, 0x00, 0x2a] ∧ ee = Endianness.Big) →
          ∃ d, MakeULong D 14 ee = Except.ok d
            ∧ MakeUShort (D.drop 10) d ee = MakeUShort D (10 + d) ee
            ∧ ((d + 18) % 4294967296 ≥ D.length →
                ReadApp1Metadata_step T metadata D
                  = Except.error Error.InvalidDirectoryOffset)
            ∧ ((d + 18) % 4294967296 < D.length →
                (∀ err, ReadDirectory T (D.drop 10) d ee = Except.error err →
                    ReadApp1Metadata_step T metadata D = Except.error err)
                ∧ (∀ m, ReadApp1Metadata_step T metadata D = Except.ok m →
                    m.endianness = ee
                      ∧ ReadDirectory T (D.drop 10) d ee = Except.ok m.main_dir)
                ∧ (∀ main, ReadDirectory T (D.drop 10) d ee = Except.ok main →
                    find_offset main T.ExifIFD = Except.ok 0 →
                    find_offset main T.GPSIFD = Except.ok 0 →
                    ReadApp1Metadata_step T metadata D
                      = Except.ok { endianness := ee, main_dir := main,
                                    exif_dir := metadata.exif_dir,
                                    gps_dir := metadata.gps_dir }))) := by
  obtain ⟨h0, h1, h2, h3, hlen⟩ := hmark
  have hv := valid_exif_chunk_eq h0 h1 h2 h3 hlen
  refine ⟨fun h => ?_, fun ee h19 hsig hbom => ?_⟩
  · apply ReadApp1Metadata_step_skip
    rw [hv]
    congr 1
    rw [decide_eq_false_iff_not]
    rintro ⟨c1, c2, c3⟩
    rcases h with h | h | h
    · omega
    · exact h c2
    · exact c3.elim h.1 h.2
  · have hvalid : valid_exif_chunk D = Except.ok true := by
      rw [hv]
      congr 1
      rw [decide_eq_true_iff]
      exact ⟨h19, hsig, hbom.elim (fun h => Or.inl h.1) (fun h => Or.inr h.1)⟩
    obtain ⟨d, hd⟩ := MakeULong_ok ee (show 14 + 3 < D.length by omega)
    have hstep := @ReadApp1Metadata_step_valid T metadata D ee d hvalid hbom hd
    refine ⟨d, hd, MakeUShort_drop D 10 d ee, fun hge => ?_, fun hlt => ⟨fun err he => ?_,
      fun m hm => ?_, fun main hmain he hg => ?_⟩⟩
    · rw [hstep, if_pos hge]
    · rw [hstep, if_neg (by omega), he]
      rfl
    · rw [hstep, if_neg (by omega)] at hm
      simp only [bind_ok] at hm
      obtain ⟨main, hmain, _, _, _, _, _, _, _, _, hm⟩ := hm
      simp only [pure, Except.pure, Except.ok.injEq] at hm
      subst hm
      exact ⟨rfl, hmain⟩
    · rw [hstep, if_neg (by omega), hmain]
      simp only [bind, Except.bind, he, hg, ne_eq, not_true_eq_false, if_false, pure,
        Except.pure]

/-- Witness of C30: the APP1 payload of `exifMainInput`, of 90 bytes, has the little-endian
byte-order mark and the directory offset 8. -/
theorem C30_exif_header_witness :
    ∃ d, MakeULong exifMainPayload 14 Endianness.Little = Except.ok d
      ∧ MakeUShort (exifMainPayload.drop 10) d Endianness.Little
          = MakeUShort exifMainPayload (10 + d) Endianness.Little
      ∧ ((d + 18) % 4294967296 ≥ exifMainPayload.length →
          ReadApp1Metadata_step stdTags {} exifMainPayload
            = Except.error Error.InvalidDirectoryOffset)
      ∧ ((d + 18) % 4294967296 < exifMainPayload.length →
          (∀ err, ReadDirectory stdTags (exifMainPayload.drop 10) d Endianness.Little
                = Except.error err →
              ReadApp1Metadata_step stdTags {} exifMainPayload = Except.error err)
          ∧ (∀ m, ReadApp1Metadata_step stdTags {} exifMainPayload = Except.ok m →
              m.endianness = Endianness.Little
                ∧ ReadDirectory stdTags (exifMainPayload.drop 10) d Endianness.Little
                    = Except.ok m.main_dir)
          ∧ (∀ main, ReadDirectory stdTags (exifMainPayload.drop 10) d Endianness.Little
                = Except.ok main →
              find_offset main stdTags.ExifIFD = Except.ok 0 →
              find_offset main stdTags.GPSIFD = Except.ok 0 →
              ReadApp1Metadata_step stdTags {} exifMainPayload
                = Except.ok { endianness := Endianness.Little, main_dir := main,
                              exif_dir := ({} : exif_info).exif_dir,
                              gps_dir := ({} : exif_info).gps_dir })) :=
  (C30_exif_header stdTags {} exifMainPayload 0 88 ⟨rfl, rfl, rfl, rfl, rfl⟩).2
    Endianness.Little (by decide) (by decide) (Or.inl ⟨by decide, rfl⟩)

/-- C30 (directory offset near the end of the payload): `shortExifPayload` has 19 bytes, the
Exif signature at 4..9, the byte-order mark `49 49 2A 00` at 10..13 and the directory offset
8 at 14..17.  Since 8 + 18 is not below 19, the reader fails with "Invalid directory offset":
no endianness is recorded and no directory is read. -/
theorem C30_invalid_directory_offset :
    shortExifPayload.length = 19
      ∧ (shortExifPayload.drop 4).take 6 = ExifSignature
      ∧ (shortExifPayload.drop 10).take 4 = [0x49, 0x49, 0x2a, 0x00]
      ∧ MakeULong shortExifPayload 14 Endianness.Little = Except.ok 8
      ∧ ReadApp1Metadata_step stdTags {} shortExifPayload
          = Except.error Error.InvalidDirectoryOffset
      ∧ ReadApp1Metadata stdTags
            [parsedSegment Segmenttype.JpegApp1Segment 2 shortExifPayload]
          = Except.error Error.InvalidDirectoryOffset :=
  ⟨rfl, rfl, rfl, rfl, rfl, rfl⟩

theorem MakeUShort_inv {v : ByteVector} {i : Nat} {e : Endianness} {u : Nat}
    (h : MakeUShort v i e = Except.ok u) :
    ∃ d0 d1, byteAt v i = Except.ok d0 ∧ byteAt v (i + 1) = Except.ok d1
      ∧ u = (if e = Endianness.Little then (d0 + 256 * d1) % 65536
             else (d1 + 256 * d0) % 65536) := by
  unfold MakeUShort at h
  simp only [bind_ok] at h
  obtain ⟨d0, h0, d1, h1, h⟩ := h
  refine ⟨d0, d1, h0, h1, ?_⟩
  cases e <;> simp only [pure, Except.pure, Except.ok.injEq] at h
  · rw [if_neg (by decide)]
    exact h.symm
  · rw [if_pos rfl]
    exact h.symm

theorem MakeULong_inv {v : ByteVector} {i : Nat} {e : Endianness} {u : Nat}
    (h : MakeULong v i e = Except.ok u) :
    ∃ d0 d1 d2 d3, byteAt v i = Except.ok d0 ∧ byteAt v (i + 1) = Except.ok d1
      ∧ byteAt v (i + 2) = Except.ok d2 ∧ byteAt v (i + 3) = Except.ok d3
      ∧ u = (if e = Endianness.Little then
               (d0 + 256 * d1 + 256 * 256 * d2 + 256 * 256 * 256 * d3) % 4294967296
             else (d3 + 256 * d2 + 256 * 256 * d1 + 256 * 256 * 256 * d0) % 4294967296) := by
  unfold MakeULong at h
  simp only [bind_ok] at h
  obtain ⟨d0, h0, d1, h1, d2, h2, d3, h3, h⟩ := h
  refine ⟨d0, d1, d2, d3, h0, h1, h2, h3, ?_⟩
  cases e <;> simp only [pure, Except.pure, Except.ok.injEq] at h
  · rw [if_neg (by decide)]
    exact h.symm
  · rw [if_pos rfl]
    exact h.symm

theorem MakeULong_lt {v : ByteVector} {i : Nat} {e : Endianness} {u : Nat}
    (h : MakeULong v i e = Except.ok u) : u < 4294967296 := by
  obtain ⟨d0, d1, d2, d3, _, _, _, _, hu⟩ := MakeULong_inv h
  split at hu <;> omega

theorem get_of_byteAt {v : ByteVector} {i b : Nat} (h : byteAt v i = Except.ok b) :
    v.get? i = some b := by
  unfold byteAt at h
  cases hg : v.get? i with
  | none => rw [hg] at h; cases h
  | some c =>
    rw [hg] at h
    simp only [Except.ok.injEq] at h
    rw [h]

theorem take_drop_of_get {l bs : ByteVector} {pos : Nat}
    (h : ∀ k, k < bs.length → l.get? (pos + k) = bs.get? k) :
    (l.drop pos).take bs.length = bs := by
  apply List.ext_get?
  intro k
  by_cases hk : k < bs.length
  · rw [List.get?_eq_getElem?, List.getElem?_take_of_lt hk, List.getElem?_drop,
      ← List.get?_eq_getElem?]
    exact h k hk
  · rw [List.get?_eq_getElem?, List.get?_eq_getElem?,
      List.getElem?_eq_none (by rw [List.length_take]; omega),
      List.getElem?_eq_none (by omega)]

theorem PutUShort_of_bytes {d0 d1 : Nat} (h0 : d0 < 256) (h1 : d1 < 256) (e : Endianness) :
    PutUShort (if e = Endianness.Little then (d0 + 256 * d1) % 65536
               else (d1 + 256 * d0) % 65536) e = [d0, d1] := by
  cases e
  · rw [if_neg (by decide)]
    have a1 : (d1 + 256 * d0) % 65536 % 256 = d1 := by omega
    have a2 : (d1 + 256 * d0) % 65536 / 256 % 256 = d0 := by omega
    simp only [PutUShort, GetSystemEndianness, a1, a2]
    rfl
  · rw [if_pos rfl]
    have a1 : (d0 + 256 * d1) % 65536 % 256 = d0 := by omega
    have a2 : (d0 + 256 * d1) % 65536 / 256 % 256 = d1 := by omega
    simp only [PutUShort, GetSystemEndianness, a1, a2]
    rfl

theorem PutUlong_of_bytes {d0 d1 d2 d3 : Nat} (h0 : d0 < 256) (h1 : d1 < 256) (h2 : d2 < 256)
    (h3 : d3 < 256) (e : Endianness) :
    PutUlong (if e = Endianness.Little then
                (d0 + 256 * d1 + 256 * 256 * d2 + 256 * 256 * 256 * d3) % 4294967296
              else (d3 + 256 * d2 + 256 * 256 * d1 + 256 * 256 * 256 * d0) % 4294967296) e
      = [d0, d1, d2, d3] := by
  cases e
  · rw [if_neg (by decide)]
    have a1 : (d3 + 256 * d2 + 256 * 256 * d1 + 256 * 256 * 256 * d0) % 4294967296 % 256
        = d3 := by omega
    have a2 : (d3 + 256 * d2 + 256 * 256 * d1 + 256 * 256 * 256 * d0) % 4294967296 / 256 % 256
        = d2 := by omega
    have a3 : (d3 + 256 * d2 + 256 * 256 * d1 + 256 * 256 * 256 * d0) % 4294967296 / 65536
        % 256 = d1 := by omega
    have a4 : (d3 + 256 * d2 + 256 * 256 * d1 + 256 * 256 * 256 * d0) % 4294967296 / 16777216
        % 256 = d0 := by omega
    simp only [PutUlong, GetSystemEndianness, a1, a2, a3, a4]
    rfl
  · rw [if_pos rfl]
    have a1 : (d0 + 256 * d1 + 256 * 256 * d2 + 256 * 256 * 256 * d3) % 4294967296 % 256
        = d0 := by omega
    have a2 : (d0 + 256 * d1 + 256 * 256 * d2 + 256 * 256 * 256 * d3) % 4294967296 / 256 % 256
        = d1 := by omega
    have a3 : (d0 + 256 * d1 + 256 * 256 * d2 + 256 * 256 * 256 * d3) % 4294967296 / 65536
        % 256 = d2 := by omega
    have a4 : (d0 + 256 * d1 + 256 * 256 * d2 + 256 * 256 * 256 * d3) % 4294967296 / 16777216
        % 256 = d3 := by omega
    simp only [PutUlong, GetSystemEndianness, a1, a2, a3, a4]
    rfl

theorem MakeUShort_PutUShort {v : Nat} (hv : v < 65536) (e : Endianness) :
    MakeUShort (PutUShort v e) 0 e = Except.ok v := by
  cases e
  · simp only [PutUShort, GetSystemEndianness, MakeUShort, byteAt, bind, Except.bind, pure,
      Except.pure]
    simp only [reduceCtorEq, if_false, List.get?_cons_zero, List.get?_cons_succ,
      Except.ok.injEq]
    omega
  · simp only [PutUShort, GetSystemEndianness, MakeUShort, byteAt, bind, Except.bind, pure,
      Except.pure]
    simp only [if_true, List.get?_cons_zero, List.get?_cons_succ, Except.ok.injEq]
    omega

theorem MakeULong_PutUlong {v : Nat} (hv : v < 4294967296) (e : Endianness) :
    MakeULong (PutUlong v e) 0 e = Except.ok v := by
  cases e
  · simp only [PutUlong, GetSystemEndianness, MakeULong, byteAt, bind, Except.bind, pure,
      Except.pure]
    simp only [reduceCtorEq, if_false, List.get?_cons_zero, List.get?_cons_succ,
      Except.ok.injEq]
    omega
  · simp only [PutUlong, GetSystemEndianness, MakeULong, byteAt, bind, Except.bind, pure,
      Except.pure]
    simp only [if_true, List.get?_cons_zero, List.get?_cons_succ, Except.ok.injEq]
    omega

theorem TiffDatatypeLength_values {typ len : Nat} (h : TiffDatatypeLength typ = Except.ok len) :
    (1 ≤ typ ∧ typ ≤ 12) ∧ (len = 1 ∨ len = 2 ∨ len = 4 ∨ len = 8) := by
  unfold TiffDatatypeLength at h
  split at h <;> cases h <;> exact ⟨by omega, by decide⟩

/-- The storage logic `InitializeFromMemory` assigns, by the signed product
`sizeof_datatype * m_dataCount` and the width of the datatype. -/
theorem InitializeFromMemory_logic {T : TiffTag} {memory : ByteVector} {pos : Nat}
    {e : Endianness} {E : TiffDirEntry}
    (h : TiffDirEntry.InitializeFromMemory T memory pos e = Except.ok E) :
    ∃ len, TiffDatatypeLength E.m_dataType = Except.ok len
      ∧ (toInt32 (len * E.m_dataCount) > 4 → E.m_storageLogic = StorageLogic.OffsetData)
      ∧ (¬ toInt32 (len * E.m_dataCount) > 4 →
          (len = 4 ∧ (E.m_tagID = T.ExifIFD ∨ E.m_tagID = T.GPSIFD)
              ∧ E.m_storageLogic = StorageLogic.OffsetData)
            ∨ (len = 4 ∧ ¬ (E.m_tagID = T.ExifIFD ∨ E.m_tagID = T.GPSIFD)
                ∧ E.m_storageLogic = StorageLogic.LongData)
            ∨ (len = 2 ∧ E.m_storageLogic = StorageLogic.ShortData)
            ∨ (len = 1 ∧ E.m_storageLogic = StorageLogic.ByteData)) := by
  unfold TiffDirEntry.InitializeFromMemory at h
  simp only [bind_ok] at h
  obtain ⟨tag, h1, dt, h2, dc, h3, b0, h4, b1, h5, b2, h6, b3, h7, len, h8, logic, h9, h⟩ := h
  simp only [pure, Except.pure, Except.ok.injEq] at h
  subst h
  refine ⟨len, h8, fun hs => ?_, fun hs => ?_⟩
  · rw [if_pos hs] at h9
    simp only [pure, Except.pure, Except.ok.injEq] at h9
    exact h9.symm
  · rw [if_neg hs] at h9
    by_cases h4 : len = 4
    · rw [if_pos h4] at h9
      by_cases ht : tag = T.ExifIFD ∨ tag = T.GPSIFD
      · rw [if_pos ht] at h9
        simp only [pure, Except.pure, Except.ok.injEq] at h9
        exact Or.inl ⟨h4, ht, h9.symm⟩
      · rw [if_neg ht] at h9
        simp only [pure, Except.pure, Except.ok.injEq] at h9
        exact Or.inr (Or.inl ⟨h4, ht, h9.symm⟩)
    · rw [if_neg h4] at h9
      by_cases h2 : len = 2
      · rw [if_pos h2] at h9
        simp only [pure, Except.pure, Except.ok.injEq] at h9
        exact Or.inr (Or.inr (Or.inl ⟨h2, h9.symm⟩))
      · rw [if_neg h2] at h9
        by_cases h1 : len = 1
        · rw [if_pos h1] at h9
          simp only [pure, Except.pure, Except.ok.injEq] at h9
          exact Or.inr (Or.inr (Or.inr ⟨h1, h9.symm⟩))
        · rw [if_neg h1] at h9
          cases h9

/-- The body of the loop of `Write_Selected_Entries` for a selected entry whose data size, as a
signed integer, does not exceed 4. -/
theorem Write_step_inline {ee oe : Endianness} {foo : Nat → Nat → Bool} {st : WriteState}
    {E : TiffDirEntry} {V : ByteVector} {len ds : Nat}
    (hlen : TiffDatatypeLength E.m_dataType = Except.ok len)
    (hds : E.GetDataSize = Except.ok ds)
    (hsel : foo E.Tag E.GetDataType = true) (hfit : ¬ toInt32 ds > 4) :
    Write_Selected_Entries_step ee oe foo st (E, V)
      = if len = 1 then
          Except.ok { st with dir_entries := st.dir_entries
            ++ [TiffDirEntry.ofBytes E.Tag E.GetDataType E.GetDataCount E.GetFourBytes oe] }
        else if len = 2 then
          E.GetTwoShorts >>= fun ts =>
            TiffDirEntry.ofShorts E.Tag E.GetDataType E.GetDataCount ts oe >>= fun e =>
              pure { st with dir_entries := st.dir_entries ++ [e] }
        else if len = 4 then
          E.GetLongValue >>= fun longval =>
            TiffDirEntry.ofLong E.Tag E.GetDataType E.GetDataCount longval oe >>= fun e =>
              pure { st with dir_entries := st.dir_entries ++ [e] }
        else Except.error Error.AssertFailure := by
  unfold Write_Selected_Entries_step
  simp only [hds, TiffDirEntry.GetElementSize, hlen, bind, Except.bind, hsel, if_true,
    if_neg hfit]
  by_cases h1 : len = 1
  · rw [if_neg (by omega), if_pos h1, if_pos h1]
    rfl
  · by_cases h2 : len = 2
    · simp only [if_neg h1, if_pos h2]
      by_cases hc : E.GetDataCount = 2
      · rw [if_pos ⟨h2, hc⟩]
      · rw [if_neg (fun hq => hc hq.2)]
    · simp only [if_neg h1, if_neg h2]
      rw [if_neg (fun hq => h2 hq.1)]

theorem GetTwoShorts_ofShorts {tag dt cnt : Nat} {ts : AsShort} {oe : Endianness}
    {e : TiffDirEntry} (h0 : ts.s0 < 65536) (h1 : ts.s1 < 65536)
    (h : TiffDirEntry.ofShorts tag dt cnt ts oe = Except.ok e) :
    e.GetTwoShorts = Except.ok ts ∧ entryShape e = (tag, dt, cnt) := by
  unfold TiffDirEntry.ofShorts at h
  simp only [bind_ok] at h
  obtain ⟨len, _, _, _, h⟩ := h
  simp only [pure, Except.pure, Except.ok.injEq] at h
  subst h
  refine ⟨?_, rfl⟩
  obtain ⟨s0, s1⟩ := ts
  simp only at h0 h1
  cases oe
  · simp only [TiffDirEntry.GetTwoShorts, ASSERT, decide_True, if_true, bind, Except.bind,
      GetSystemEndianness, reduceCtorEq, if_false, pure, Except.pure, Except.ok.injEq,
      AsShort.mk.injEq]
    omega
  · simp only [TiffDirEntry.GetTwoShorts, ASSERT, decide_True, if_true, bind, Except.bind,
      GetSystemEndianness, pure, Except.pure, Except.ok.injEq, AsShort.mk.injEq]
    omega

theorem GetTwoShorts_lt {E : TiffDirEntry} {ts : AsShort} (h : E.GetTwoShorts = Except.ok ts) :
    ts.s0 < 65536 ∧ ts.s1 < 65536 := by
  unfold TiffDirEntry.GetTwoShorts at h
  simp only [bind_ok] at h
  obtain ⟨_, _, h⟩ := h
  cases he : E.m_endianness <;> rw [he] at h
    <;> simp only [pure, Except.pure, Except.ok.injEq] at h <;> subst h
    <;> exact ⟨Nat.mod_lt _ (by decide), Nat.mod_lt _ (by decide)⟩

theorem value32_lt (E : TiffDirEntry) : E.value32 < 4294967296 := by
  unfold TiffDirEntry.value32
  split <;> exact Nat.mod_lt _ (by decide)

theorem GetLongValue_ofLong {tag dt cnt v : Nat} {oe : Endianness} {e : TiffDirEntry}
    (hv : v < 4294967296) (h : TiffDirEntry.ofLong tag dt cnt v oe = Except.ok e) :
    e.GetLongValue = Except.ok v ∧ entryShape e = (tag, dt, cnt) := by
  unfold TiffDirEntry.ofLong at h
  simp only [bind_ok] at h
  obtain ⟨len, _, _, _, h⟩ := h
  simp only [pure, Except.pure, Except.ok.injEq] at h
  subst h
  refine ⟨?_, rfl⟩
  cases oe
  · simp only [TiffDirEntry.GetLongValue, ASSERT, decide_True, if_true, bind, Except.bind,
      TiffDirEntry.value32, longBytes, GetSystemEndianness, reduceCtorEq, if_false, pure,
      Except.pure, Except.ok.injEq]
    omega
  · simp only [TiffDirEntry.GetLongValue, ASSERT, decide_True, if_true, bind, Except.bind,
      TiffDirEntry.value32, longBytes, GetSystemEndianness, pure, Except.pure,
      Except.ok.injEq]
    omega

/-- C34: what the signed readers return.  `MakeSByte` returns `b` for a byte `b < 128` and
`b - 256` otherwise, and `MakeSShort` returns `u` for `u < 2^15` and `u - 2^16` otherwise,
with `u` the value of `MakeUShort`: both are the two's-complement readings.  `MakeSLong`
returns `u` for `u < 2^31` but `u - 2^31` otherwise, with `u` the value of `MakeULong`: its
result is never negative, and it is the two's-complement reading `u - 2^32` only for
`u < 2^31`. -/
theorem C34_signed_readers (v : ByteVector) (i : Nat) (e : Endianness) (b u16 u32 : Nat)
    (hb : byteAt v i = Except.ok b) (h16 : MakeUShort v i e = Except.ok u16)
    (h32 : MakeULong v i e = Except.ok u32) :
    MakeSByte v i = Except.ok (if b < 128 then (b : Int) else (b : Int) - 256)
      ∧ MakeSShort v i e
          = Except.ok (if u16 < 32768 then (u16 : Int) else (u16 : Int) - 65536)
      ∧ MakeSLong v i e
          = Except.ok (if u32 < 2147483648 then (u32 : Int) else (u32 : Int) - 2147483648)
      ∧ (∀ r, MakeSLong v i e = Except.ok r → 0 ≤ r ∧ r < 2147483648)
      ∧ (MakeSLong v i e
          = Except.ok (if u32 < 2147483648 then (u32 : Int) else (u32 : Int) - 4294967296)
          ↔ u32 < 2147483648) := by
  have hlt := MakeULong_lt h32
  have e8 : MakeSByte v i = Except.ok (if b < 128 then (b : Int) else (b : Int) - 256) := by
    unfold MakeSByte
    rw [hb]
    simp only [bind, Except.bind, pure, Except.pure]
    by_cases hc : b > 127
    · rw [if_pos hc, if_neg (by omega)]
      congr 1
      try omega
    · rw [if_neg hc, if_pos (by omega)]
  have e16 : MakeSShort v i e
      = Except.ok (if u16 < 32768 then (u16 : Int) else (u16 : Int) - 65536) := by
    unfold MakeSShort
    rw [h16]
    simp only [bind, Except.bind, pure, Except.pure]
    by_cases hc : u16 > 32767
    · rw [if_pos hc, if_neg (by omega)]
      congr 1
      try omega
    · rw [if_neg hc, if_pos (by omega)]
  have e32 : MakeSLong v i e
      = Except.ok (if u32 < 2147483648 then (u32 : Int) else (u32 : Int) - 2147483648) := by
    unfold MakeSLong
    rw [h32]
    simp only [bind, Except.bind, pure, Except.pure]
    by_cases hc : u32 > 2147483647
    · rw [if_pos hc, if_neg (by omega)]
      congr 1
      try omega
    · rw [if_neg hc, if_pos (by omega)]
  refine ⟨e8, e16, e32, fun r hr => ?_, ?_⟩
  · rw [e32] at hr
    simp only [Except.ok.injEq] at hr
    subst hr
    split <;> omega
  · rw [e32]
    simp only [Except.ok.injEq]
    constructor
    · intro h
      by_contra hc
      rw [if_neg hc, if_neg hc] at h
      omega
    · intro h
      rw [if_pos h, if_pos h]

/-- Witness of C34: the bytes `FE FF FF 7F`, read from index 0 in little-endian order. -/
theorem C34_signed_readers_witness :
    MakeSByte [0xfe, 0xff, 0xff, 0x7f] 0
        = Except.ok (if 254 < 128 then ((254 : Nat) : Int) else ((254 : Nat) : Int) - 256)
      ∧ MakeSShort [0xfe, 0xff, 0xff, 0x7f] 0 Endianness.Little
          = Except.ok (if 65534 < 32768 then ((65534 : Nat) : Int)
              else ((65534 : Nat) : Int) - 65536)
      ∧ MakeSLong [0xfe, 0xff, 0xff, 0x7f] 0 Endianness.Little
          = Except.ok (if 2147483646 < 2147483648 then ((2147483646 : Nat) : Int)
              else ((2147483646 : Nat) : Int) - 2147483648) :=
  ⟨(C34_signed_readers [0xfe, 0xff, 0xff, 0x7f] 0 Endianness.Little 254 65534 2147483646
      rfl rfl rfl).1,
   (C34_signed_readers [0xfe, 0xff, 0xff, 0x7f] 0 Endianness.Little 254 65534 2147483646
      rfl rfl rfl).2.1,
   (C34_signed_readers [0xfe, 0xff, 0xff, 0x7f] 0 Endianness.Little 254 65534 2147483646
      rfl rfl rfl).2.2.1⟩

/-- C34 (`MakeSLong` on a value of 2^31 or more): the four bytes `FF FF FF FF` hold
`u = 4294967295`, whose two's-complement reading is -1; `MakeSLong` returns 2147483647 in
both byte orders.  The bytes `00 00 00 80` in little-endian order hold `u = 2^31`, whose
reading is -2147483648; `MakeSLong` returns 0. -/
theorem C34_slong_not_negative :
    MakeULong [0xff, 0xff, 0xff, 0xff] 0 Endianness.Little = Except.ok 4294967295
      ∧ MakeSLong [0xff, 0xff, 0xff, 0xff] 0 Endianness.Little = Except.ok 2147483647
      ∧ MakeSLong [0xff, 0xff, 0xff, 0xff] 0 Endianness.Big = Except.ok 2147483647
      ∧ MakeULong [0, 0, 0, 0x80] 0 Endianness.Little = Except.ok 2147483648
      ∧ MakeSLong [0, 0, 0, 0x80] 0 Endianness.Little = Except.ok 0 :=
  ⟨rfl, rfl, rfl, rfl, rfl⟩

/-- C40: for every start-of-frame segment and component whose sampling byte is `sf`,
`GetHorizontalSamplingFactor` succeeds exactly when the high nibble `sf / 16` lies in 1..4
and then returns it.  `GetVerticalSamplingFactor` computes `sf & 7`: it succeeds exactly when
the low three bits `sf % 8` lie in 1..4 and then returns them, which is the low nibble
`sf % 16` exactly when that nibble is below 8. -/
theorem C40_sampling_factors (s : FileSegment) (c : Nat) (info : Component_info)
    (hc : s.m_component_info.get? c = some info) :
    (∀ r, s.GetHorizontalSamplingFactor c = Except.ok r →
        r = info.sampling_factors / 16 % 16 ∧ 1 ≤ r ∧ r ≤ 4)
      ∧ (1 ≤ info.sampling_factors / 16 ∧ info.sampling_factors / 16 ≤ 4 →
          s.GetHorizontalSamplingFactor c = Except.ok (info.sampling_factors / 16))
      ∧ (∀ r, s.GetVerticalSamplingFactor c = Except.ok r →
          r = info.sampling_factors % 8 ∧ 1 ≤ r ∧ r ≤ 4
            ∧ (r = info.sampling_factors % 16 ↔ info.sampling_factors % 16 < 8))
      ∧ (1 ≤ info.sampling_factors % 8 ∧ info.sampling_factors % 8 ≤ 4 →
          s.GetVerticalSamplingFactor c = Except.ok (info.sampling_factors % 8)) := by
  have hlen : c < s.m_component_info.length := (List.get?_eq_some.1 hc).1
  have hH : s.GetHorizontalSamplingFactor c
      = if 1 ≤ info.sampling_factors / 16 ∧ info.sampling_factors / 16 ≤ 4
        then Except.ok (info.sampling_factors / 16) else Except.error Error.AssertFailure := by
    unfold FileSegment.GetHorizontalSamplingFactor
    simp only [ASSERT, hlen, decide_True, if_true, bind, Except.bind, hc, ge_iff_le]
    by_cases hr : 1 ≤ info.sampling_factors / 16 ∧ info.sampling_factors / 16 ≤ 4
    · simp only [hr, and_self, decide_True, if_true, pure, Except.pure]
    · simp only [hr, decide_False, if_false]
      rfl
  have hV : s.GetVerticalSamplingFactor c
      = if 1 ≤ info.sampling_factors % 8 ∧ info.sampling_factors % 8 ≤ 4
        then Except.ok (info.sampling_factors % 8) else Except.error Error.AssertFailure := by
    unfold FileSegment.GetVerticalSamplingFactor
    simp only [ASSERT, hlen, decide_True, if_true, bind, Except.bind, hc, ge_iff_le]
    by_cases hr : 1 ≤ info.sampling_factors % 8 ∧ info.sampling_factors % 8 ≤ 4
    · simp only [hr, and_self, decide_True, if_true, pure, Except.pure]
    · simp only [hr, decide_False, if_false]
      rfl
  refine ⟨fun r hr => ?_, fun h => by rw [hH, if_pos h], fun r hr => ?_,
    fun h => by rw [hV, if_pos h]⟩
  · rw [hH] at hr
    split at hr
    · next h =>
      simp only [Except.ok.injEq] at hr
      subst hr
      exact ⟨by omega, h.1, h.2⟩
    · cases hr
  · rw [hV] at hr
    split at hr
    · next h =>
      simp only [Except.ok.injEq] at hr
      subst hr
      exact ⟨rfl, h.1, h.2, by omega⟩
    · cases hr

/-- Witness of C40: the sampling byte `21` gives the horizontal factor 2. -/
theorem C40_sampling_factors_witness :
    (frameWithSampling 0x21).GetHorizontalSamplingFactor 0 = Except.ok (0x21 / 16) :=
  (C40_sampling_factors (frameWithSampling 0x21) 0
    { id := 1, sampling_factors := 0x21, quantitation_table_number := 0 } rfl).2.1
    (by decide)

/-- C40 (low nibble above 7): for the sampling byte `19` the low nibble is 9, and
`GetVerticalSamplingFactor` succeeds with 1; for `1C` the low nibble is 12 and it succeeds
with 4. -/
theorem C40_vertical_low_three_bits :
    0x19 % 16 = 9
      ∧ (frameWithSampling 0x19).GetVerticalSamplingFactor 0 = Except.ok 1
      ∧ 0x1c % 16 = 12
      ∧ (frameWithSampling 0x1c).GetVerticalSamplingFactor 0 = Except.ok 4 :=
  ⟨rfl, rfl, rfl, rfl⟩

/-- C39: for every 12-byte directory entry (bytes below 256) that `InitializeFromMemory`
accepts at `pos` in endianness `e`, `BuildMemoryRepresentation` in the same endianness gives
the twelve bytes at `pos` back; `PutUShort` followed by `MakeUShort` returns the 16-bit value
written, and `PutUlong` followed by `MakeULong` the 32-bit value written. -/
theorem C39_entry_round_trip (T : TiffTag) (memory : ByteVector) (pos : Nat) (e : Endianness)
    (E : TiffDirEntry) (hbytes : ∀ b ∈ memory, b < 256)
    (hinit : TiffDirEntry.InitializeFromMemory T memory pos e = Except.ok E) :
    E.BuildMemoryRepresentation e = (memory.drop pos).take 12
      ∧ (∀ v, v < 65536 → MakeUShort (PutUShort v e) 0 e = Except.ok v)
      ∧ (∀ v, v < 4294967296 → MakeULong (PutUlong v e) 0 e = Except.ok v) := by
  refine ⟨?_, fun v hv => MakeUShort_PutUShort hv e, fun v hv => MakeULong_PutUlong hv e⟩
  obtain ⟨_, i1, i2, i3, i4, i5, i6, i7, _⟩ := InitializeFromMemory_inv hinit
  obtain ⟨t0, t1, ht0, ht1, htag⟩ := MakeUShort_inv i1
  obtain ⟨y0, y1, hy0, hy1, hty⟩ := MakeUShort_inv i2
  obtain ⟨c0, c1, c2, c3, hc0, hc1, hc2, hc3, hcnt⟩ := MakeULong_inv i3
  have lt : ∀ {i b : Nat}, byteAt memory i = Except.ok b → b < 256 := by
    intro i b h
    have hg := get_of_byteAt h
    obtain ⟨hl, he⟩ := List.get?_eq_some.1 hg
    rw [← he]
    exact hbytes _ (List.get_mem memory i hl)
  have e1 : PutUShort E.m_tagID e = [t0, t1] := by
    rw [htag]
    exact PutUShort_of_bytes (lt ht0) (lt ht1) e
  have e2 : PutUShort E.m_dataType e = [y0, y1] := by
    rw [hty]
    exact PutUShort_of_bytes (lt hy0) (lt hy1) e
  have e3 : PutUlong E.m_dataCount e = [c0, c1, c2, c3] := by
    rw [hcnt]
    exact PutUlong_of_bytes (lt hc0) (lt hc1) (lt hc2) (lt hc3) e
  unfold TiffDirEntry.BuildMemoryRepresentation
  rw [e1, e2, e3]
  symm
  refine @take_drop_of_get _ [t0, t1, y0, y1, c0, c1, c2, c3, E.m_dataBytes.b0,
    E.m_dataBytes.b1, E.m_dataBytes.b2, E.m_dataBytes.b3] _ (fun k hk => ?_)
  have hk12 : k < 12 := hk
  interval_cases k
  · exact get_of_byteAt ht0
  · exact get_of_byteAt ht1
  · exact get_of_byteAt hy0
  · exact get_of_byteAt hy1
  · exact get_of_byteAt hc0
  · exact get_of_byteAt hc1
  · exact get_of_byteAt hc2
  · exact get_of_byteAt hc3
  · exact get_of_byteAt i4
  · exact get_of_byteAt i5
  · exact get_of_byteAt i6
  · exact get_of_byteAt i7

/-- Witness of C39: the entry of `makeDirectory`, at index 2, in little-endian order. -/
theorem C39_entry_round_trip_witness :
    makeEntry.BuildMemoryRepresentation Endianness.Little = (makeDirectory.drop 2).take 12 :=
  (C39_entry_round_trip stdTags makeDirectory 2 Endianness.Little makeEntry (by decide)
    rfl).1

theorem of_mem_layout {segs : List FileSegment} {s : FileSegment} (h : s ∈ layout segs) :
    s ∈ segs ∨ s.segmenttype = Segmenttype.Padding := by
  induction segs with
  | nil => cases h
  | cons x rest ih =>
    unfold layout at h
    rcases List.mem_append.1 h with h1 | h1
    · unfold block at h1
      split at h1
      · rw [List.mem_singleton] at h1
        exact Or.inl (by rw [h1]; exact List.mem_cons_self _ _)
      · rcases List.mem_cons.1 h1 with h2 | h2
        · exact Or.inl (by rw [h2]; exact List.mem_cons_self _ _)
        · rw [List.mem_singleton] at h2
          exact Or.inr (by rw [h2]; rfl)
    · rcases ih h1 with h2 | h2
      · exact Or.inl (List.mem_cons_of_mem _ h2)
      · exact Or.inr h2

theorem kind_of_filter {p : FileSegment → Bool} {A B : List FileSegment}
    (h : A.map kindData = (B.filter p).map kindData) :
    ∀ s ∈ A, ∃ t, p t = true ∧ s.segmenttype = t.segmenttype := by
  intro s hs
  have hm : kindData s ∈ (B.filter p).map kindData := by
    rw [← h]
    exact List.mem_map_of_mem _ hs
  obtain ⟨t, ht, hk⟩ := List.mem_map.1 hm
  refine ⟨t, (List.mem_filter.1 ht).2, ?_⟩
  have := congrArg Prod.fst hk
  exact this.symm

/-- The segments `writeSubDirectory` appends: byte vectors and one directory built by
`directoryAt`. -/
theorem writeSubDirectory_dirs {dir : List (TiffDirEntry × ByteVector)}
    {L : GraphicsVector} {off : Nat} {ee oe : Endianness} {foo : Nat → Nat → Bool}
    {r : GraphicsVector × Nat × Nat} (hb : backEnd L = Except.ok off)
    (h : writeSubDirectory dir L off ee oe foo = Except.ok r) :
    ∃ segs, r.1 = L ++ layout segs ∧ Placed off segs r.2.1
      ∧ (∀ s ∈ segs, s.segmenttype = Segmenttype.TiffByteVector
          ∨ ∃ o entries, s = directoryAt oe o entries) := by
  unfold writeSubDirectory at h
  split at h
  · simp only [bind_ok, CreateSegment_TiffDirectory, Except.ok.injEq, exists_eq_left'] at h
    obtain ⟨w, hw, o, ho, r1, hr, h⟩ := h
    simp only [pure, Except.pure, Except.ok.injEq] at h
    subst h
    obtain ⟨segs, off1, a1, a2, a3, a4⟩ := Write_Selected_Entries_ok hb hw
    rw [a3] at ho
    simp only [Except.ok.injEq] at ho
    subst ho
    change AddSegmentPadded w.2 (directoryAt oe off1 w.1) = Except.ok r1 at hr
    obtain ⟨d1, d2, d3, d4, d5⟩ := directoryAt_facts oe off1 w.1
    rw [AddSegmentPadded_eq, if_pos d3] at hr
    simp only [Except.ok.injEq] at hr
    subst hr
    refine ⟨segs ++ [directoryAt oe off1 w.1], ?_, ?_, ?_⟩
    · simp [a1, layout_append, layout, List.append_assoc]
    · refine Placed_append.2 ⟨off1, a2, d2, d3, ?_, rfl⟩
      rw [d1]; decide
    · intro s hs
      rcases List.mem_append.1 hs with hs | hs
      · exact Or.inl (a4 s hs)
      · simp only [List.mem_singleton] at hs
        subst hs
        exact Or.inr ⟨_, _, rfl⟩
  · simp only [pure, Except.pure, Except.ok.injEq] at h
    subst h
    exact ⟨[], by simp [layout], rfl, by simp⟩

/-- The structure of the list at the end of `planLayout`, with the directories among the
segments after the JPEG tables named. -/
theorem planLayout_structure_dirs {T : TiffTag} {G : GraphicsVector} {L : LayoutState}
    (h : planLayout T G = Except.ok L) :
    ∃ (a c : Nat) (img tabs mid : List FileSegment),
      L.TiffFile = layout (layoutSegments 0 a c img tabs mid)
      ∧ a % 2 = 0 ∧ c % 2 = 0
      ∧ Placed 10 img a
      ∧ Placed (a + 2 + 2) tabs c
      ∧ Placed (c + 2) mid L.offset
      ∧ (∀ s ∈ img, s.segmenttype.isJpeg = true)
      ∧ (∀ s ∈ tabs, s.segmenttype.isJpeg = true)
      ∧ (∀ s ∈ mid, s.segmenttype = Segmenttype.TiffByteVector
          ∨ ∃ o entries, s = directoryAt Endianness.Little o entries) := by
  unfold planLayout at h
  cases G with
  | nil => cases h
  | cons g0 G1 =>
    simp only [bind_ok] at h
    obtain ⟨seg0, hseg0, h⟩ := h
    obtain ⟨_, rfl⟩ := GetSegmenttype_ok.1 hseg0
    split at h
    · cases h
    · rename_i hsoi0
      simp only [bind_ok, MakeTiffHeader_eq, MakeJpegStartOfImage_eq, MakeJpegEndOfImage_eq,
        Except.ok.injEq, exists_eq_left'] at h
      obtain ⟨_, hcb, r0, hr0, r1, hr1, st, hst, r2, hr2, r3, hr3, r4, hr4, r5, hr5, app2, _,
        icc, _, r6, hr6, app1, _, exif, _, back, hback, _, hassert, r7, hr7, r8, hr8, r9, hr9,
        h⟩ := h
      simp only [pure, Except.pure, Except.ok.injEq] at h
      subst h
      rw [AddSegmentPadded_eq, if_pos (by rfl)] at hr0
      simp only [Except.ok.injEq] at hr0
      subst hr0
      have hb0 : block (headerWith 0) = [headerWith 0] ∧ blockEnd (headerWith 0) = 8 :=
        block_even (by rfl)
      simp only [hb0.1, hb0.2, List.nil_append] at hr1 hst
      rw [AddSegmentPadded_eq, if_pos (by rfl)] at hr1
      simp only [Except.ok.injEq] at hr1
      subst hr1
      have hb1 : block (soiAt 8) = [soiAt 8] ∧ blockEnd (soiAt 8) = 10 := block_even (by rfl)
      simp only [hb1.1, hb1.2] at hst
      obtain ⟨img, i1, i2, i3, i4⟩ := embeddedImage_loop_ok T _ _ _ hst
      simp only at i1 i2 i4
      have ha : st.offset % 2 = 0 := Placed_even (by decide) i2
      rw [AddSegmentPadded_eq, if_pos (by rfl)] at hr2
      simp only [Except.ok.injEq] at hr2
      subst hr2
      have hb2 : block (eoiAt st.offset) = [eoiAt st.offset]
          ∧ blockEnd (eoiAt st.offset) = st.offset + 2 :=
        block_even (by show (st.offset + 2) % 2 = 0; omega)
      simp only [hb2.1, hb2.2] at hr3 hr4
      rw [AddSegmentPadded_eq, if_pos (by rfl)] at hr3
      simp only [Except.ok.injEq] at hr3
      subst hr3
      have hb3 : block (soiAt (st.offset + 2)) = [soiAt (st.offset + 2)]
          ∧ blockEnd (soiAt (st.offset + 2)) = st.offset + 2 + 2 :=
        block_even (by show (st.offset + 2 + 2) % 2 = 0; omega)
      simp only [hb3.1, hb3.2] at hr4
      obtain ⟨tabs, t1, t2, t3⟩ := jpegTables_loop_ok T _ _ _ hr4
      simp only at t1 t2
      have hc : r4.2 % 2 = 0 := Placed_even (by omega) t2
      rw [AddSegmentPadded_eq, if_pos (by rfl)] at hr5
      simp only [Except.ok.injEq] at hr5
      subst hr5
      have hb5 : block (eoiAt r4.2) = [eoiAt r4.2] ∧ blockEnd (eoiAt r4.2) = r4.2 + 2 :=
        block_even (by show (r4.2 + 2) % 2 = 0; omega)
      simp only [hb5.1, hb5.2] at hr6
      obtain ⟨iccs, c1, c2, c3⟩ := writeIccProfile_ok hr6
      have hassert1 := ASSERT_ok.1 hassert
      simp only [decide_eq_true_eq] at hassert1
      rw [← hassert1] at hback
      obtain ⟨exifs, x1, x2, x3⟩ := writeSubDirectory_dirs hback hr7
      have hback7 : backEnd r7.1 = Except.ok r7.2.1 := by
        rw [x1]; exact backEnd_layout hback x2
      obtain ⟨gpss, g1, g2, g3⟩ := writeSubDirectory_dirs hback7 hr8
      have hback8 : backEnd r8.1 = Except.ok r8.2.1 := by
        rw [g1]; exact backEnd_layout hback7 g2
      obtain ⟨mains, m1, m2, m3⟩ := writeMainEntries_ok hback8 hr9
      have hmid : Placed (r4.2 + 2) (iccs ++ exifs ++ gpss ++ mains) r9.2.2 :=
        Placed_append.2 ⟨_, Placed_append.2 ⟨_, Placed_append.2 ⟨_, c2, x2⟩, g2⟩, m2⟩
      refine ⟨st.offset, r4.2, img, tabs, iccs ++ exifs ++ gpss ++ mains, ?_, ha, hc, i2, t2,
        hmid, ?_, ?_, ?_⟩
      · rw [layout_layoutSegments ha hc, m1, g1, x1, c1, t1, i1]
        simp [layout_append, List.append_assoc]
      · intro s hs
        obtain ⟨t, ht, hk⟩ := kind_of_filter i3 s hs
        rw [hk]
        exact isImageKind_isJpeg ht
      · intro s hs
        obtain ⟨t, ht, hk⟩ := kind_of_filter t3 s hs
        rw [hk]
        exact isTableKind_isJpeg ht
      · intro s hs
        simp only [List.mem_append] at hs
        rcases hs with ((hs | hs) | hs) | hs
        · exact Or.inl (c3 s hs)
        · exact x3 s hs
        · exact g3 s hs
        · exact Or.inl (m3 s hs)

/-- Every directory segment of a planned list is one the planner built with `directoryAt`
(a sub-directory) or is the main directory. -/
theorem plan_directories {T : TiffTag} {G : GraphicsVector} {P : Plan}
    (h : ConvertJpegToTiff_plan T G = Except.ok P) :
    ∀ s ∈ P.TiffFile, s.segmenttype = Segmenttype.TiffDirectory →
      (∃ o entries, s = directoryAt Endianness.Little o entries)
        ∨ (∃ entries, s = mainDirectory P.offset entries) := by
  obtain ⟨L, hL, hD⟩ := plan_parts h
  obtain ⟨a, c, img, tabs, mid, l1, ha, hc, l2, l3, l4, ki, kt, km⟩ :=
    planLayout_structure_dirs hL
  obtain ⟨bps, entries, d1, _, _, _, _, _, _, _, d9, d10⟩ :=
    planDirectory_structure l1 ha hc l2 l3 l4 hD
  intro s hs hk
  rw [d1] at hs
  rcases of_mem_layout hs with hs | hs
  · unfold planSegments layoutSegments at hs
    simp only [List.mem_append, List.mem_cons, List.mem_singleton, List.not_mem_nil,
      or_false] at hs
    have notJpeg : ∀ {t : FileSegment}, t.segmenttype.isJpeg = true → s = t → False := by
      intro t ht hst
      rw [hst] at hk
      rw [hk] at ht
      cases ht
    rcases hs with (((((((hs | hs) | hs) | (hs | hs)) | hs) | hs) | (hs | hs)) | hs)
    · rw [hs] at hk; cases hk
    · rw [hs] at hk; cases hk
    · exact (notJpeg (ki s hs) rfl).elim
    · rw [hs] at hk; cases hk
    · rw [hs] at hk; cases hk
    · exact (notJpeg (kt s hs) rfl).elim
    · rw [hs] at hk; cases hk
    · rcases km s hs with h1 | h1
      · rw [h1] at hk; cases hk
      · exact Or.inl h1
    · by_cases hn : P.F.numComponents > 2
      · obtain ⟨usv, hu, hu1, _⟩ := d9 hn
        rw [hu, List.mem_singleton] at hs
        rw [hs, hu1] at hk
        cases hk
      · rw [d10 hn] at hs
        cases hs
    · exact Or.inr ⟨entries, hs⟩
  · rw [hs] at hk
    cases hk

theorem MakeULong_drop (v : ByteVector) (n k : Nat) (e : Endianness) :
    MakeULong (v.drop n) k e = MakeULong v (n + k) e := by
  unfold MakeULong
  rw [byteAt_drop, byteAt_drop, byteAt_drop, byteAt_drop]
  rfl

theorem byteAt_take {v : ByteVector} {m j : Nat} (h : j < m) :
    byteAt (v.take m) j = byteAt v j := by
  unfold byteAt
  rw [List.get?_eq_getElem?, List.get?_eq_getElem?, List.getElem?_take_of_lt h]

theorem MakeUShort_take {v : ByteVector} {m k : Nat} (h : k + 2 ≤ m) (e : Endianness) :
    MakeUShort (v.take m) k e = MakeUShort v k e := by
  unfold MakeUShort
  rw [byteAt_take (show k < m by omega), byteAt_take (show k + 1 < m by omega)]

theorem MakeULong_take {v : ByteVector} {m k : Nat} (h : k + 4 ≤ m) (e : Endianness) :
    MakeULong (v.take m) k e = MakeULong v k e := by
  unfold MakeULong
  rw [byteAt_take (show k < m by omega), byteAt_take (show k + 1 < m by omega),
    byteAt_take (show k + 2 < m by omega), byteAt_take (show k + 3 < m by omega)]

theorem MakeUShort_PutUShort_append (v : Nat) (e : Endianness) (rest : ByteVector) :
    MakeUShort (PutUShort v e ++ rest) 0 e = Except.ok (v % 65536) := by
  cases e
  · simp only [PutUShort, GetSystemEndianness, MakeUShort, byteAt, bind, Except.bind, pure,
      Except.pure]
    simp only [reduceCtorEq, if_false, List.cons_append, List.get?_cons_zero,
      List.get?_cons_succ, Except.ok.injEq]
    omega
  · simp only [PutUShort, GetSystemEndianness, MakeUShort, byteAt, bind, Except.bind, pure,
      Except.pure]
    simp only [if_true, List.cons_append, List.get?_cons_zero, List.get?_cons_succ,
      Except.ok.injEq]
    omega

theorem MakeULong_PutUlong_append (v : Nat) (e : Endianness) (rest : ByteVector) :
    MakeULong (PutUlong v e ++ rest) 0 e = Except.ok (v % 4294967296) := by
  cases e
  · simp only [PutUlong, GetSystemEndianness, MakeULong, byteAt, bind, Except.bind, pure,
      Except.pure]
    simp only [reduceCtorEq, if_false, List.cons_append, List.get?_cons_zero,
      List.get?_cons_succ, Except.ok.injEq]
    omega
  · simp only [PutUlong, GetSystemEndianness, MakeULong, byteAt, bind, Except.bind, pure,
      Except.pure]
    simp only [if_true, List.cons_append, List.get?_cons_zero, List.get?_cons_succ,
      Except.ok.injEq]
    omega

/-- The twelve bytes of entry `i` in the concatenation of the memory representations. -/
theorem flatten_entries_drop (e : Endianness) :
    ∀ (es : List TiffDirEntry) (i : Nat) (E : TiffDirEntry), es.get? i = some E →
      (((es.map (fun E => E.BuildMemoryRepresentation e)).flatten).drop (12 * i)).take 12
        = E.BuildMemoryRepresentation e
  | [], _, _, h => by cases h
  | x :: rest, 0, E, h => by
    simp only [List.get?_cons_zero, Option.some.injEq] at h
    subst h
    simp only [List.map_cons, List.flatten_cons, Nat.mul_zero, List.drop_zero]
    rw [List.take_append_of_le_length (by rw [length_BuildMemoryRepresentation]),
      List.take_of_length_le (by rw [length_BuildMemoryRepresentation])]
  | x :: rest, i + 1, E, h => by
    rw [List.get?_cons_succ] at h
    have ih := flatten_entries_drop e rest i E h
    simp only [List.map_cons, List.flatten_cons]
    have hl : 12 * (i + 1) = (x.BuildMemoryRepresentation e).length + 12 * i := by
      rw [length_BuildMemoryRepresentation]
      omega
    rw [hl, List.drop_append]
    exact ih

theorem RebuildBinaryData_TiffDirectory_data (s : FileSegment) :
    (FileSegment.RebuildBinaryData_TiffDirectory s).m_data
      = PutUShort s.m_entries.length s.FileEndianness
        ++ (s.m_entries.map (fun E => E.BuildMemoryRepresentation s.FileEndianness)).flatten
        ++ PutUlong s.m_nextDirectoryOffset s.FileEndianness := rfl

theorem RebuildBinaryData_TiffDirectory_idem (s : FileSegment) :
    FileSegment.RebuildBinaryData_TiffDirectory (FileSegment.RebuildBinaryData_TiffDirectory s)
      = FileSegment.RebuildBinaryData_TiffDirectory s := rfl

theorem directoryAt_next (oe : Endianness) (off : Nat) (entries : List TiffDirEntry) :
    (directoryAt oe off entries).m_nextDirectoryOffset = 0
      ∧ FileSegment.RebuildBinaryData_TiffDirectory (directoryAt oe off entries)
          = directoryAt oe off entries := by
  constructor
  · simp [directoryAt, FileSegment.RebuildBinaryData_TiffDirectory, foldl_AddEntry]
  · rfl

theorem mainDirectory_next (off : Nat) (entries : List TiffDirEntry) :
    (mainDirectory off entries).m_nextDirectoryOffset = 0
      ∧ FileSegment.RebuildBinaryData_TiffDirectory (mainDirectory off entries)
          = mainDirectory off entries := by
  constructor
  · simp [mainDirectory, FileSegment.RebuildBinaryData_TiffDirectory, FileSegment.SortEntries,
      foldl_AddEntry]
  · rfl

/-- C33: `RebuildBinaryData` on a TiffDirectory `s` with `n` entries and endianness `e` gives
the segment `r` whose recorded size and whose payload length are `6 + 12 * n`.  The payload
begins with the entry count written by `PutUShort` (read back in `e` it is `n` modulo 2^16);
for entry `i` the twelve bytes at `2 + 12 * i` are the tag and the datatype written by
`PutUShort`, the count written by `PutUlong` (read back in `e`: the three values modulo 2^16,
2^16, 2^32) and the four value bytes of the entry unchanged; the last four bytes are the
next-directory offset written by `PutUlong`.  A second call gives the same segment.  In every
planned list each directory segment has the next-directory offset 0, is its own rebuilt
form and ends with four zero bytes. -/
theorem C33_directory_bytes (s r : FileSegment) (e : Endianness) (n : Nat)
    (hr : r = FileSegment.RebuildBinaryData_TiffDirectory s) (he : e = s.FileEndianness)
    (hn : n = s.m_entries.length) :
    r.m_size = 6 + 12 * n ∧ r.m_data.length = 6 + 12 * n
      ∧ r.m_data.take 2 = PutUShort n e
      ∧ MakeUShort r.m_data 0 e = Except.ok (n % 65536)
      ∧ (∀ i E, s.m_entries.get? i = some E →
          (r.m_data.drop (2 + 12 * i)).take 12
              = PutUShort E.m_tagID e ++ PutUShort E.m_dataType e ++ PutUlong E.m_dataCount e
                ++ [E.m_dataBytes.b0, E.m_dataBytes.b1, E.m_dataBytes.b2, E.m_dataBytes.b3]
            ∧ MakeUShort r.m_data (2 + 12 * i) e = Except.ok (E.m_tagID % 65536)
            ∧ MakeUShort r.m_data (2 + 12 * i + 2) e = Except.ok (E.m_dataType % 65536)
            ∧ MakeULong r.m_data (2 + 12 * i + 4) e = Except.ok (E.m_dataCount % 4294967296)
            ∧ (r.m_data.drop (2 + 12 * i + 8)).take 4
                = [E.m_dataBytes.b0, E.m_dataBytes.b1, E.m_dataBytes.b2, E.m_dataBytes.b3])
      ∧ r.m_data.drop (2 + 12 * n) = PutUlong s.m_nextDirectoryOffset e
      ∧ MakeULong r.m_data (2 + 12 * n) e
          = Except.ok (s.m_nextDirectoryOffset % 4294967296)
      ∧ FileSegment.RebuildBinaryData_TiffDirectory r = r
      ∧ (∀ (T : TiffTag) (G : GraphicsVector) (P : Plan),
          ConvertJpegToTiff_plan T G = Except.ok P →
          ∀ d ∈ P.TiffFile, d.segmenttype = Segmenttype.TiffDirectory →
            d.m_nextDirectoryOffset = 0
              ∧ FileSegment.RebuildBinaryData_TiffDirectory d = d
              ∧ d.m_data.drop (2 + 12 * d.m_entries.length) = [0, 0, 0, 0]) := by
  have hdata := RebuildBinaryData_TiffDirectory_data s
  rw [← hr, ← he, ← hn] at hdata
  have hsize := RebuildBinaryData_TiffDirectory_size s
  rw [← hr, ← hn] at hsize
  have hflat : ((s.m_entries.map (fun E => E.BuildMemoryRepresentation e)).flatten).length
      = 12 * n := by
    rw [length_flatten_entries, hn]
  have hdrop2 : r.m_data.drop 2
      = (s.m_entries.map (fun E => E.BuildMemoryRepresentation e)).flatten
        ++ PutUlong s.m_nextDirectoryOffset e := by
    rw [hdata, List.append_assoc, List.drop_append_of_le_length (by rw [length_PutUShort]),
      List.drop_of_length_le (by rw [length_PutUShort]), List.nil_append]
  have htail : r.m_data.drop (2 + 12 * n) = PutUlong s.m_nextDirectoryOffset e := by
    rw [← List.drop_drop, hdrop2, List.drop_append_of_le_length (by rw [hflat]),
      List.drop_of_length_le (by rw [hflat]), List.nil_append]
  have key : ∀ d : FileSegment, d.m_nextDirectoryOffset = 0
      → FileSegment.RebuildBinaryData_TiffDirectory d = d
      → d.m_data.drop (2 + 12 * d.m_entries.length) = [0, 0, 0, 0] := by
    intro d h0 hd
    have h1 := RebuildBinaryData_TiffDirectory_data d
    rw [hd, h0] at h1
    rw [h1, List.append_assoc, ← List.drop_drop, List.drop_left' (length_PutUShort _ _),
      List.drop_left' (length_flatten_entries _ _)]
    unfold PutUlong
    split <;> rfl
  refine ⟨hsize.2, by rw [← hsize.1, hsize.2], ?_, ?_, fun i E hi => ?_, htail, ?_, ?_,
    fun T G P hP d hd hk => ?_⟩
  · rw [hdata, List.append_assoc,
      List.take_append_of_le_length (by rw [length_PutUShort]),
      List.take_of_length_le (by rw [length_PutUShort])]
  · rw [hdata, List.append_assoc]
    exact MakeUShort_PutUShort_append _ _ _
  · have hi12 : (r.m_data.drop (2 + 12 * i)).take 12 = E.BuildMemoryRepresentation e := by
      have hlt : i < s.m_entries.length := (List.get?_eq_some.1 hi).1
      rw [← List.drop_drop, hdrop2, List.drop_append_of_le_length (by rw [hflat]; omega),
        List.take_append_of_le_length (by rw [List.length_drop, hflat]; omega)]
      exact flatten_entries_drop e _ i E hi
    have hb : E.BuildMemoryRepresentation e
        = PutUShort E.m_tagID e ++ (PutUShort E.m_dataType e ++ (PutUlong E.m_dataCount e
          ++ [E.m_dataBytes.b0, E.m_dataBytes.b1, E.m_dataBytes.b2, E.m_dataBytes.b3])) := by
      unfold TiffDirEntry.BuildMemoryRepresentation
      simp only [List.append_assoc]
    have d2 : (E.BuildMemoryRepresentation e).drop 2
        = PutUShort E.m_dataType e ++ (PutUlong E.m_dataCount e
          ++ [E.m_dataBytes.b0, E.m_dataBytes.b1, E.m_dataBytes.b2, E.m_dataBytes.b3]) := by
      rw [hb, List.drop_append_of_le_length (by rw [length_PutUShort]),
        List.drop_of_length_le (by rw [length_PutUShort]), List.nil_append]
    have d4 : (E.BuildMemoryRepresentation e).drop 4
        = PutUlong E.m_dataCount e
          ++ [E.m_dataBytes.b0, E.m_dataBytes.b1, E.m_dataBytes.b2, E.m_dataBytes.b3] := by
      rw [show 4 = 2 + 2 from rfl, ← List.drop_drop, d2,
        List.drop_append_of_le_length (by rw [length_PutUShort]),
        List.drop_of_length_le (by rw [length_PutUShort]), List.nil_append]
    have d8 : (E.BuildMemoryRepresentation e).drop 8
        = [E.m_dataBytes.b0, E.m_dataBytes.b1, E.m_dataBytes.b2, E.m_dataBytes.b3] := by
      rw [show 8 = 4 + 4 from rfl, ← List.drop_drop, d4,
        List.drop_append_of_le_length (by rw [length_PutUlong]),
        List.drop_of_length_le (by rw [length_PutUlong]), List.nil_append]
    refine ⟨?_, ?_, ?_, ?_, ?_⟩
    · rw [hi12]
      rfl
    · rw [show 2 + 12 * i = 2 + 12 * i + 0 from rfl, ← MakeUShort_drop,
        ← MakeUShort_take (show 0 + 2 ≤ 12 by decide), hi12, hb]
      exact MakeUShort_PutUShort_append _ _ _
    · rw [← MakeUShort_drop, ← MakeUShort_take (show 2 + 2 ≤ 12 by decide), hi12,
        show (2 : Nat) = 2 + 0 from rfl, ← MakeUShort_drop, d2]
      exact MakeUShort_PutUShort_append _ _ _
    · rw [← MakeULong_drop, ← MakeULong_take (show 4 + 4 ≤ 12 by decide), hi12,
        show (4 : Nat) = 4 + 0 from rfl, ← MakeULong_drop, d4]
      exact MakeULong_PutUlong_append _ _ _
    · rw [← List.drop_drop, List.take_drop]
      show List.drop 8 (List.take 12 _) = _
      rw [hi12, d8]
  · rw [show 2 + 12 * n = 2 + 12 * n + 0 from rfl, ← MakeULong_drop, htail]
    have := MakeULong_PutUlong_append s.m_nextDirectoryOffset e []
    rwa [List.append_nil] at this
  · rw [hr]
    exact RebuildBinaryData_TiffDirectory_idem s
  · rcases plan_directories hP d hd hk with ⟨o, entries, hq⟩ | ⟨entries, hq⟩
    · have h1 := directoryAt_next Endianness.Little o entries
      rw [← hq] at h1
      exact ⟨h1.1, h1.2, key d h1.1 h1.2⟩
    · have h1 := mainDirectory_next P.offset entries
      rw [← hq] at h1
      exact ⟨h1.1, h1.2, key d h1.1 h1.2⟩

/-- Witness of C33: the rebuilt directory with the single entry `makeEntry` has 18 bytes. -/
theorem C33_directory_bytes_witness :
    (FileSegment.RebuildBinaryData_TiffDirectory oneEntryDirectory).m_size = 6 + 12 * 1
      ∧ (FileSegment.RebuildBinaryData_TiffDirectory oneEntryDirectory).m_data.length
          = 6 + 12 * 1
      ∧ (FileSegment.RebuildBinaryData_TiffDirectory oneEntryDirectory).m_data.take 2
          = PutUShort 1 Endianness.Little :=
  ⟨(C33_directory_bytes oneEntryDirectory _ Endianness.Little 1 rfl rfl rfl).1,
   (C33_directory_bytes oneEntryDirectory _ Endianness.Little 1 rfl rfl rfl).2.1,
   (C33_directory_bytes oneEntryDirectory _ Endianness.Little 1 rfl rfl rfl).2.2.1⟩

/-- C31, amended: for every 12-byte entry that `InitializeFromMemory` accepts, the datatype
lies in 1..12 and, with `len` its width and `size` the product `len * count` read as a signed
32-bit integer, the storage logic is OffsetData when `size > 4`; otherwise it is ByteData for
width 1, ShortData for width 2, and for width 4 LongData unless the tag is ExifIFD or GPSIFD,
in which case it is OffsetData (width 8 with `size ≤ 4` is not accepted).  For a count below
2^28 this means: ByteData exactly when the width is 1 and the count is at most 4, ShortData
exactly when the width is 2 and the count is at most 2 (0 included), LongData exactly when
the width is 4, the count is at most 1 (0 included) and the tag is neither ExifIFD nor
GPSIFD, and OffsetData in every other case. -/
theorem C31_storage_logic (T : TiffTag) (memory : ByteVector) (pos : Nat) (e : Endianness)
    (E : TiffDirEntry)
    (hinit : TiffDirEntry.InitializeFromMemory T memory pos e = Except.ok E) :
    ∃ len, TiffDatatypeLength E.m_dataType = Except.ok len
      ∧ (1 ≤ E.m_dataType ∧ E.m_dataType ≤ 12)
      ∧ (toInt32 (len * E.m_dataCount) > 4 → E.m_storageLogic = StorageLogic.OffsetData)
      ∧ (¬ toInt32 (len * E.m_dataCount) > 4 →
          (len = 1 ∧ E.m_storageLogic = StorageLogic.ByteData)
            ∨ (len = 2 ∧ E.m_storageLogic = StorageLogic.ShortData)
            ∨ (len = 4 ∧ ¬ (E.m_tagID = T.ExifIFD ∨ E.m_tagID = T.GPSIFD)
                ∧ E.m_storageLogic = StorageLogic.LongData)
            ∨ (len = 4 ∧ (E.m_tagID = T.ExifIFD ∨ E.m_tagID = T.GPSIFD)
                ∧ E.m_storageLogic = StorageLogic.OffsetData))
      ∧ (E.m_dataCount < 268435456 →
          (E.m_storageLogic = StorageLogic.ByteData ↔ len = 1 ∧ E.m_dataCount ≤ 4)
            ∧ (E.m_storageLogic = StorageLogic.ShortData ↔ len = 2 ∧ E.m_dataCount ≤ 2)
            ∧ (E.m_storageLogic = StorageLogic.LongData ↔
                len = 4 ∧ E.m_dataCount ≤ 1 ∧ ¬ (E.m_tagID = T.ExifIFD ∨ E.m_tagID = T.GPSIFD))
            ∧ (E.m_storageLogic = StorageLogic.OffsetData ↔
                ¬ (len = 1 ∧ E.m_dataCount ≤ 4) ∧ ¬ (len = 2 ∧ E.m_dataCount ≤ 2)
                  ∧ ¬ (len = 4 ∧ E.m_dataCount ≤ 1
                        ∧ ¬ (E.m_tagID = T.ExifIFD ∨ E.m_tagID = T.GPSIFD)))) := by
  obtain ⟨len, hlen, hbig, hsmall⟩ := InitializeFromMemory_logic hinit
  obtain ⟨hrange, hvals⟩ := TiffDatatypeLength_values hlen
  refine ⟨len, hlen, hrange, hbig, fun hs => ?_, fun hc => ?_⟩
  · rcases hsmall hs with h | h | h | h
    · exact Or.inr (Or.inr (Or.inr h))
    · exact Or.inr (Or.inr (Or.inl h))
    · exact Or.inr (Or.inl h)
    · exact Or.inl h
  · have hprod : toInt32 (len * E.m_dataCount) = ((len * E.m_dataCount : Nat) : Int) := by
      apply toInt32_small
      rcases hvals with h | h | h | h <;> subst h <;> omega
    have hiff : toInt32 (len * E.m_dataCount) > 4 ↔ len * E.m_dataCount > 4 := by
      rw [hprod]
      exact Int.ofNat_lt
    by_cases hs : toInt32 (len * E.m_dataCount) > 4
    · have hl := hbig hs
      have hp := hiff.1 hs
      rw [hl]
      refine ⟨⟨fun h => (by cases h), fun h => ?_⟩, ⟨fun h => (by cases h), fun h => ?_⟩,
        ⟨fun h => (by cases h), fun h => ?_⟩, ⟨fun _ => ⟨fun h => ?_, fun h => ?_, fun h => ?_⟩,
          fun _ => rfl⟩⟩
      all_goals (obtain ⟨h1, h2⟩ := h; subst h1; omega)
    · have hp : ¬ len * E.m_dataCount > 4 := fun hq => hs (hiff.2 hq)
      rcases hsmall hs with ⟨h4, ht, hl⟩ | ⟨h4, ht, hl⟩ | ⟨h2, hl⟩ | ⟨h1, hl⟩
      · subst h4
        rw [hl]
        refine ⟨⟨fun h => (by cases h), fun h => by omega⟩,
          ⟨fun h => (by cases h), fun h => by omega⟩,
          ⟨fun h => (by cases h), fun h => absurd ht h.2.2⟩,
          ⟨fun _ => ⟨fun h => by omega, fun h => by omega, fun h => h.2.2 ht⟩, fun _ => rfl⟩⟩
      · subst h4
        rw [hl]
        refine ⟨⟨fun h => (by cases h), fun h => by omega⟩,
          ⟨fun h => (by cases h), fun h => by omega⟩,
          ⟨fun _ => ⟨rfl, by omega, ht⟩, fun _ => rfl⟩,
          ⟨fun h => (by cases h), fun h => absurd ⟨rfl, by omega, ht⟩ h.2.2⟩⟩
      · subst h2
        rw [hl]
        refine ⟨⟨fun h => (by cases h), fun h => by omega⟩,
          ⟨fun _ => ⟨rfl, by omega⟩, fun _ => rfl⟩,
          ⟨fun h => (by cases h), fun h => by omega⟩,
          ⟨fun h => (by cases h), fun h => absurd ⟨rfl, by omega⟩ h.2.1⟩⟩
      · subst h1
        rw [hl]
        refine ⟨⟨fun _ => ⟨rfl, by omega⟩, fun _ => rfl⟩,
          ⟨fun h => (by cases h), fun h => by omega⟩,
          ⟨fun h => (by cases h), fun h => by omega⟩,
          ⟨fun h => (by cases h), fun h => absurd ⟨rfl, by omega⟩ h.1⟩⟩

/-- Witness of C31: the entry of `makeDirectory` (Ascii, count 8). -/
theorem C31_storage_logic_witness :
    ∃ len, TiffDatatypeLength makeEntry.m_dataType = Except.ok len
      ∧ (1 ≤ makeEntry.m_dataType ∧ makeEntry.m_dataType ≤ 12)
      ∧ (toInt32 (len * makeEntry.m_dataCount) > 4
          → makeEntry.m_storageLogic = StorageLogic.OffsetData) :=
  (C31_storage_logic stdTags makeDirectory 2 Endianness.Little makeEntry rfl).imp
    (fun _ h => ⟨h.1, h.2.1, h.2.2.1⟩)

/-- C31 (count 0, and a count of 2^31 or more): an entry of datatype Short (3) with the count
0 is accepted with the storage logic ShortData, and one of datatype Long (4) with the count 0
with LongData, although the counts are not in {1, 2} and not 1.  An entry of datatype Byte
(1) with the count 2^31 + 1 is accepted with ByteData, the signed product being negative. -/
theorem C31_count_zero :
    (TiffDirEntry.InitializeFromMemory stdTags (orientationBytes 3 0 0 0 0) 0
        Endianness.Little).map (fun E => (E.m_dataType, E.m_dataCount, E.m_storageLogic))
        = Except.ok (3, 0, StorageLogic.ShortData)
      ∧ (TiffDirEntry.InitializeFromMemory stdTags (orientationBytes 4 0 0 0 0) 0
          Endianness.Little).map (fun E => (E.m_dataType, E.m_dataCount, E.m_storageLogic))
          = Except.ok (4, 0, StorageLogic.LongData)
      ∧ (TiffDirEntry.InitializeFromMemory stdTags (orientationBytes 1 1 0 0 0x80) 0
          Endianness.Little).map (fun E => (E.m_dataType, E.m_dataCount, E.m_storageLogic))
          = Except.ok (1, 2147483649, StorageLogic.ByteData) :=
  ⟨rfl, rfl, rfl⟩

/-- C38, amended: let `E` be a selected entry of width `len` whose data size, as a signed
integer, does not exceed 4.  For width 1 the rewritten entry has the tag, datatype and count
of `E` and its four value bytes unchanged.  For width 2, storage logic ShortData and a count
of 1 or 2 it has the tag, datatype and count of `E` and `GetTwoShorts` gives the same two
shorts for both.  For width 4, storage logic LongData and the count 1 it has the tag,
datatype and count of `E` and `GetLongValue` gives the same value for both.  This holds for
both source endiannesses and both output endiannesses.  In the other cases of width 2 or 4
(a count of 0, or a 4-byte entry whose storage logic is not LongData, as for the tags
ExifIFD and GPSIFD) an assertion fails and no entry is written. -/
theorem C38_inline_rewrite (ee oe : Endianness) (foo : Nat → Nat → Bool) (st : WriteState)
    (E : TiffDirEntry) (V : ByteVector) (len ds : Nat)
    (hlen : TiffDatatypeLength E.m_dataType = Except.ok len)
    (hds : E.GetDataSize = Except.ok ds)
    (hsel : foo E.Tag E.GetDataType = true) (hfit : ¬ toInt32 ds > 4) :
    (len = 1 →
        Write_Selected_Entries_step ee oe foo st (E, V)
          = Except.ok { st with dir_entries := st.dir_entries
              ++ [TiffDirEntry.ofBytes E.Tag E.GetDataType E.GetDataCount E.GetFourBytes oe] }
        ∧ entryShape (TiffDirEntry.ofBytes E.Tag E.GetDataType E.GetDataCount E.GetFourBytes
            oe) = entryShape E
        ∧ (TiffDirEntry.ofBytes E.Tag E.GetDataType E.GetDataCount E.GetFourBytes
            oe).GetFourBytes = E.GetFourBytes)
      ∧ (len = 2 → E.m_storageLogic = StorageLogic.ShortData →
          E.m_dataCount = 1 ∨ E.m_dataCount = 2 →
          ∃ e1 ts, Write_Selected_Entries_step ee oe foo st (E, V)
              = Except.ok { st with dir_entries := st.dir_entries ++ [e1] }
            ∧ entryShape e1 = entryShape E
            ∧ E.GetTwoShorts = Except.ok ts ∧ e1.GetTwoShorts = Except.ok ts)
      ∧ (len = 4 → E.m_storageLogic = StorageLogic.LongData → E.m_dataCount = 1 →
          ∃ e1 v, Write_Selected_Entries_step ee oe foo st (E, V)
              = Except.ok { st with dir_entries := st.dir_entries ++ [e1] }
            ∧ entryShape e1 = entryShape E
            ∧ E.GetLongValue = Except.ok v ∧ e1.GetLongValue = Except.ok v)
      ∧ (len = 2 → ¬ (E.m_dataCount = 1 ∨ E.m_dataCount = 2) →
          Write_Selected_Entries_step ee oe foo st (E, V)
            = Except.error Error.AssertFailure)
      ∧ (len = 4 → ¬ (E.m_storageLogic = StorageLogic.LongData ∧ E.m_dataCount = 1) →
          Write_Selected_Entries_step ee oe foo st (E, V)
            = Except.error Error.AssertFailure) := by
  have hstep := @Write_step_inline ee oe foo st E V len ds hlen hds hsel hfit
  refine ⟨fun h1 => ⟨?_, rfl, rfl⟩, fun h2 hl hc => ?_, fun h4 hl hc => ?_, fun h2 hc => ?_,
    fun h4 hc => ?_⟩
  · rw [hstep, if_pos h1]
  · rw [hstep, if_neg (by omega), if_pos h2]
    have hts : ∃ ts, E.GetTwoShorts = Except.ok ts := by
      unfold TiffDirEntry.GetTwoShorts
      rw [hl]
      cases E.m_endianness <;> exact ⟨_, rfl⟩
    obtain ⟨ts, hts⟩ := hts
    have hof : ∃ e1, TiffDirEntry.ofShorts E.Tag E.GetDataType E.GetDataCount ts oe
        = Except.ok e1 := by
      unfold TiffDirEntry.ofShorts
      have : TiffDatatypeLength E.GetDataType = Except.ok len := hlen
      rw [this]
      have hd : decide (len = 2 ∧ (E.GetDataCount = 1 ∨ E.GetDataCount = 2)) = true :=
        decide_eq_true ⟨h2, hc⟩
      simp only [bind, Except.bind, ASSERT, hd, if_true]
      exact ⟨_, rfl⟩
    obtain ⟨e1, he1⟩ := hof
    obtain ⟨b0, b1⟩ := GetTwoShorts_lt hts
    obtain ⟨g1, g2⟩ := GetTwoShorts_ofShorts b0 b1 he1
    refine ⟨e1, ts, ?_, g2, hts, g1⟩
    rw [hts]
    simp only [bind, Except.bind, he1]
    rfl
  · rw [hstep, if_neg (by omega), if_neg (by omega), if_pos h4]
    have hv : E.GetLongValue = Except.ok E.value32 := by
      unfold TiffDirEntry.GetLongValue
      rw [hl]
      rfl
    have hof : ∃ e1, TiffDirEntry.ofLong E.Tag E.GetDataType E.GetDataCount E.value32 oe
        = Except.ok e1 := by
      unfold TiffDirEntry.ofLong
      have : TiffDatatypeLength E.GetDataType = Except.ok len := hlen
      rw [this]
      have hd : decide (len = 4 ∧ E.GetDataCount = 1) = true := decide_eq_true ⟨h4, hc⟩
      simp only [bind, Except.bind, ASSERT, hd, if_true]
      exact ⟨_, rfl⟩
    obtain ⟨e1, he1⟩ := hof
    obtain ⟨g1, g2⟩ := GetLongValue_ofLong (value32_lt E) he1
    refine ⟨e1, E.value32, ?_, g2, hv, g1⟩
    rw [hv]
    simp only [bind, Except.bind, he1]
    rfl
  · rw [hstep, if_neg (by omega), if_pos h2]
    cases hts : E.GetTwoShorts with
    | error err =>
      have : err = Error.AssertFailure := by
        unfold TiffDirEntry.GetTwoShorts at hts
        by_cases hq : E.m_storageLogic = StorageLogic.ShortData
        · rw [hq] at hts
          cases he : E.m_endianness <;> rw [he] at hts <;> cases hts
        · simp only [ASSERT, hq, decide_False, bind, Except.bind] at hts
          cases hts
          rfl
      rw [this]
      rfl
    | ok ts =>
      have hof : TiffDirEntry.ofShorts E.Tag E.GetDataType E.GetDataCount ts oe
          = Except.error Error.AssertFailure := by
        unfold TiffDirEntry.ofShorts
        have : TiffDatatypeLength E.GetDataType = Except.ok len := hlen
        rw [this]
        have hd : decide (len = 2 ∧ (E.GetDataCount = 1 ∨ E.GetDataCount = 2)) = false :=
          decide_eq_false (fun hq => hc hq.2)
        simp only [bind, Except.bind, ASSERT, hd]
        rfl
      simp only [bind, Except.bind, hof]
  · rw [hstep, if_neg (by omega), if_neg (by omega), if_pos h4]
    cases hv : E.GetLongValue with
    | error err =>
      have : err = Error.AssertFailure := by
        unfold TiffDirEntry.GetLongValue at hv
        by_cases hq : E.m_storageLogic = StorageLogic.LongData
        · rw [hq] at hv
          cases hv
        · simp only [ASSERT, hq, decide_False, bind, Except.bind] at hv
          cases hv
          rfl
      rw [this]
      rfl
    | ok v =>
      have hl : E.m_storageLogic = StorageLogic.LongData := by
        by_contra hq
        unfold TiffDirEntry.GetLongValue at hv
        simp only [ASSERT, hq, decide_False, bind, Except.bind] at hv
        cases hv
      have hof : TiffDirEntry.ofLong E.Tag E.GetDataType E.GetDataCount v oe
          = Except.error Error.AssertFailure := by
        unfold TiffDirEntry.ofLong
        have : TiffDatatypeLength E.GetDataType = Except.ok len := hlen
        rw [this]
        have hd : decide (len = 4 ∧ E.GetDataCount = 1) = false :=
          decide_eq_false (fun hq => hc ⟨hl, hq.2⟩)
        simp only [bind, Except.bind, ASSERT, hd]
        rfl
      simp only [bind, Except.bind, hof]

/-- Witness of C38: the Orientation entry with the count 1, rewritten from a little-endian
source into a big-endian output. -/
theorem C38_inline_rewrite_witness :
    ∃ e1 ts, Write_Selected_Entries_step Endianness.Little Endianness.Big
          (relevant_main_directory_tags stdTags) emptyWriteState (orientationEntry 1, [])
          = Except.ok { emptyWriteState with
              dir_entries := emptyWriteState.dir_entries ++ [e1] }
        ∧ entryShape e1 = entryShape (orientationEntry 1)
        ∧ (orientationEntry 1).GetTwoShorts = Except.ok ts
        ∧ e1.GetTwoShorts = Except.ok ts :=
  (C38_inline_rewrite Endianness.Little Endianness.Big (relevant_main_directory_tags stdTags)
    emptyWriteState (orientationEntry 1) [] 2 2 rfl rfl rfl (by decide)).2.1 rfl rfl
    (Or.inl rfl)

/-- C38 (count 0): the twelve bytes `12 01 03 00 00 00 00 00 01 00 00 00` are accepted by
`InitializeFromMemory` as the Orientation entry with the count 0, which the selector of the
main directory accepts and whose data size 0 fits in the value field; the constructor of the
rewritten entry asserts a count of 1 or 2, so `Write_Selected_Entries` fails and no entry is
written. -/
theorem C38_count_zero :
    TiffDirEntry.InitializeFromMemory stdTags (orientationBytes 3 0 0 0 0) 0
        Endianness.Little = Except.ok (orientationEntry 0)
      ∧ relevant_main_directory_tags stdTags (orientationEntry 0).Tag
          (orientationEntry 0).GetDataType = true
      ∧ (orientationEntry 0).GetDataSize = Except.ok 0
      ∧ Write_Selected_Entries_step Endianness.Little Endianness.Little
          (relevant_main_directory_tags stdTags) emptyWriteState (orientationEntry 0, [])
          = Except.error Error.AssertFailure
      ∧ Write_Selected_Entries [(orientationEntry 0, [])] [headerWith 0] Endianness.Little
          Endianness.Little (relevant_main_directory_tags stdTags)
          = Except.error Error.AssertFailure :=
  ⟨rfl, rfl, rfl, rfl, rfl⟩

/-! ### The marker loop: advance of the position and tiling of the file -/

theorem markerAction_noSegment {xx : Nat} (h : markerAction xx = MarkerAction.NoSegment) :
    0xd0 ≤ xx ∧ xx ≤ 0xd7 := by
  by_contra hx
  revert h
  unfold markerAction
  iterate 5 (refine ite_ne_of (fun hq => by cases hq) ?_)
  rw [if_neg (fun hq => hx ⟨hq.1, hq.2⟩)]
  iterate 13 (refine ite_ne_of (fun hq => by cases hq) ?_)
  intro hq
  cases hq

theorem ReadJpegStartOfImage_inv {T : TiffTag} {f : ByteVector} {G G1 : GraphicsVector}
    {offset : Nat} {comment : String}
    (h : ReadJpegStartOfImage T f G offset comment = Except.ok G1) :
    ∃ S, G1 = G ++ [S] ∧ S.segmenttype = Segmenttype.JpegStartOfImage ∧ S.m_offset = offset
      ∧ S.m_size = 2 ∧ S.m_data = [0xff, 0xd8] := by
  unfold ReadJpegStartOfImage at h
  simp only [bind_ok, ASSERT_ok, decide_eq_true_eq] at h
  obtain ⟨S, hS, S1, hS1, b0, hb0, _, e0, b1, hb1, _, e1, r, hr, h⟩ := h
  simp only [pure, Except.pure, Except.ok.injEq] at h
  obtain ⟨c1, c2, c3, c4⟩ := CreateSegment_fields hS
  obtain ⟨d1, d2, d3, d4, d5, d6, d7, d8⟩ := ReadData_inv hS1
  rw [c3] at d4 d7
  have key : ∀ S2 : FileSegment, S2.m_data = S1.m_data → S2.segmenttype = S1.segmenttype →
      S2.m_offset = S1.m_offset → S2.m_size = S1.m_size →
      S2.GetDataByte 0 = Except.ok b0 → S2.GetDataByte 1 = Except.ok b1 →
      AddSegmentNopad G S2 = Except.ok r →
      ∃ S, G1 = G ++ [S] ∧ S.segmenttype = Segmenttype.JpegStartOfImage ∧ S.m_offset = offset
        ∧ S.m_size = 2 ∧ S.m_data = [0xff, 0xd8] := by
    intro S2 k1 k2 k3 k4 g0 g1 ha
    rw [AddSegmentNopad_eq, if_pos (by rw [k4, k1, d7, d4])] at ha
    simp only [Except.ok.injEq] at ha
    refine ⟨S2, by rw [← h, ← ha], by rw [k2, d5, c1], by rw [k3, d6, c2], by rw [k4, d7], ?_⟩
    have hl : S2.m_data.length = 2 := by rw [k1, d4]
    rw [list_two hl]
    simp only [FileSegment.GetDataByte, bind_ok] at g0 g1
    obtain ⟨_, _, g0⟩ := g0
    obtain ⟨_, _, g1⟩ := g1
    rw [byteAt_getD g0, byteAt_getD g1, e0, e1]
  by_cases hc : comment ≠ ""
  · rw [if_pos hc] at hb0 hb1 hr
    exact key (S1.SetLabel comment) rfl rfl rfl rfl hb0 hb1 hr
  · rw [if_neg hc] at hb0 hb1 hr
    exact key S1 rfl rfl rfl rfl hb0 hb1 hr

theorem tilesFrom_single {f : ByteVector} {p : Nat} {S : FileSegment} (h1 : S.m_offset = p)
    (h2 : S.m_data = (f.drop p).take S.m_size) (h3 : S.m_data.length = S.m_size) :
    tilesFrom f p [S] = some (p + S.m_size) := by
  unfold tilesFrom
  rw [if_pos ⟨h1, h2, h3⟩]
  rfl

theorem tilesFrom_append {f : ByteVector} :
    ∀ (A B : GraphicsVector) (p q : Nat), tilesFrom f p A = some q →
      tilesFrom f p (A ++ B) = tilesFrom f q B := by
  intro A
  induction A with
  | nil =>
    intro B p q h
    simp only [tilesFrom, Option.some.injEq] at h
    rw [List.nil_append, h]
  | cons S L ih =>
    intro B p q h
    rw [List.cons_append, tilesFrom]
    rw [tilesFrom] at h
    by_cases hc : S.m_offset = p ∧ S.m_data = (f.drop p).take S.m_size
        ∧ S.m_data.length = S.m_size
    · rw [if_pos hc] at h ⊢
      exact ih B _ q h
    · rw [if_neg hc] at h
      cases h

theorem tilesFrom_le {f : ByteVector} :
    ∀ (G : GraphicsVector) (p q : Nat), tilesFrom f p G = some q → p ≤ q := by
  intro G
  induction G with
  | nil =>
    intro p q h
    simp only [tilesFrom, Option.some.injEq] at h
    omega
  | cons S L ih =>
    intro p q h
    unfold tilesFrom at h
    by_cases hc : S.m_offset = p ∧ S.m_data = (f.drop p).take S.m_size
        ∧ S.m_data.length = S.m_size
    · rw [if_pos hc] at h
      have := ih _ _ h
      omega
    · rw [if_neg hc] at h
      cases h

theorem tilesFrom_head {f : ByteVector} {S : FileSegment} {L : GraphicsVector} {p q : Nat}
    (h : tilesFrom f p (S :: L) = some q) :
    S.m_offset = p ∧ S.m_data = (f.drop p).take S.m_size ∧ S.m_data.length = S.m_size
      ∧ tilesFrom f (p + S.m_size) L = some q := by
  unfold tilesFrom at h
  by_cases hc : S.m_offset = p ∧ S.m_data = (f.drop p).take S.m_size
      ∧ S.m_data.length = S.m_size
  · rw [if_pos hc] at h
    exact ⟨hc.1, hc.2.1, hc.2.2, h⟩
  · rw [if_neg hc] at h
    cases h

theorem tilesFrom_fileBytes {f : ByteVector} :
    ∀ (G : GraphicsVector) (p q : Nat), tilesFrom f p G = some q →
      fileBytes G = (f.drop p).take (q - p) := by
  intro G
  induction G with
  | nil =>
    intro p q h
    simp only [tilesFrom, Option.some.injEq] at h
    subst h
    simp [fileBytes]
  | cons S L ih =>
    intro p q h
    obtain ⟨h1, h2, h3, h4⟩ := tilesFrom_head h
    have hle := tilesFrom_le _ _ _ h4
    have ih1 := ih _ _ h4
    unfold fileBytes at ih1 ⊢
    rw [List.map_cons, List.flatten_cons, ih1, h2]
    have hq : q - p = S.m_size + (q - (p + S.m_size)) := by omega
    rw [hq, List.take_add, List.drop_drop]

theorem tilesFrom_next {f : ByteVector} :
    ∀ (G : GraphicsVector) (p q : Nat), tilesFrom f p G = some q →
      ∀ (i : Nat) (S S1 : FileSegment), G.get? i = some S → G.get? (i + 1) = some S1 →
        S.m_offset + S.m_size = S1.m_offset := by
  intro G
  induction G with
  | nil => intro p q _ i S S1 hS; cases hS
  | cons S0 L ih =>
    intro p q h i S S1 hS hS1
    obtain ⟨h1, _, _, h4⟩ := tilesFrom_head h
    cases i with
    | zero =>
      simp only [List.get?_cons_zero, Option.some.injEq] at hS
      subst hS
      rw [List.get?_cons_succ] at hS1
      cases L with
      | nil => cases hS1
      | cons S2 L2 =>
        simp only [List.get?_cons_zero, Option.some.injEq] at hS1
        subst hS1
        rw [(tilesFrom_head h4).1, h1]
    | succ j =>
      rw [List.get?_cons_succ] at hS hS1
      exact ih _ _ h4 j S S1 hS hS1

theorem tilesFrom_data {f : ByteVector} :
    ∀ (G : GraphicsVector) (p q : Nat), tilesFrom f p G = some q →
      ∀ S ∈ G, S.m_data = (f.drop S.m_offset).take S.m_size := by
  intro G
  induction G with
  | nil => intro p q _ S hS; cases hS
  | cons S0 L ih =>
    intro p q h S hS
    obtain ⟨h1, h2, _, h4⟩ := tilesFrom_head h
    rcases List.mem_cons.1 hS with rfl | hS
    · rw [h1]; exact h2
    · exact ih _ _ h4 S hS

/-- An iteration of the marker loop that goes on: at the marker `FF D8` the next position is
that behind the SOI of the section; at a restart marker nothing is read and the position is
two bytes on; at every other marker the segments appended lie one behind the other from the
position of the marker to the next position. -/
theorem markerStep_continue {T : TiffTag} {f : ByteVector} {offset endoffset : Nat}
    {comment : String} {G G1 : GraphicsVector} {pos pos1 : Nat}
    (h : markerStep T f offset endoffset comment G pos = (G1, Except.ok (some pos1))) :
    offset < pos ∧ pos ≤ endoffset ∧ pos + 2 ≤ f.length ∧ f.get? pos = some 0xff
      ∧ ((f.getD (pos + 1) 0 = 0xd8 ∧ pos1 = offset + 2)
        ∨ (0xd0 ≤ f.getD (pos + 1) 0 ∧ f.getD (pos + 1) 0 ≤ 0xd7 ∧ G1 = G ∧ pos1 = pos + 2)
        ∨ (∃ L, G1 = G ++ L ∧ tilesFrom f pos L = some pos1 ∧ pos < pos1)) := by
  unfold markerStep at h
  cases hg : GetBytes f pos 2 with
  | error err => rw [hg] at h; cases h
  | ok vec =>
    rw [hg] at h
    simp only at h
    obtain ⟨g1, g2, g3⟩ := GetBytes_inv hg
    have hv := list_two g2
    rw [g1] at hv
    obtain ⟨q0, q1⟩ := get_of_take_two hv
    rw [← g1] at q0 q1
    have hlen : pos + 2 ≤ f.length := by
      have := (List.get?_eq_some.1 q1).1
      omega
    have hd1 : f.getD (pos + 1) 0 = vec.getD 1 0 := by
      rw [List.getD_eq_getElem?_getD, ← List.get?_eq_getElem?, q1]
      rfl
    by_cases h1 : pos > endoffset
    · rw [if_pos h1] at h; cases h
    · rw [if_neg h1] at h
      by_cases h2 : ¬ pos > offset
      · rw [if_pos h2] at h; cases h
      · rw [if_neg h2] at h
        by_cases h3 : vec.getD 0 0 = 0xff
        · rw [if_pos h3] at h
          refine ⟨by omega, by omega, hlen, by rw [q0, h3], ?_⟩
          cases ha : markerAction (vec.getD 1 0) with
          | EndOfImage =>
            rw [ha] at h
            simp only at h
            cases hr : ReadJpegEndOfImage T f G pos comment with
            | error err => rw [hr] at h; cases h
            | ok G2 => rw [hr] at h; cases h
          | NestedStartOfImage =>
            rw [ha] at h
            simp only at h
            have hd8 := markerAction_nested ha
            cases hr : ReadJpegStartOfImage T f G offset "NESTED SEGMENT" with
            | error err => rw [hr] at h; cases h
            | ok G2 =>
              rw [hr] at h
              simp only at h
              obtain ⟨S, e1, e2, e3, e4, e5⟩ := ReadJpegStartOfImage_inv hr
              rcases afterMarker_cases T f (vec.getD 0 0) (vec.getD 1 0) G2 (positionAfter G2)
                with ⟨err, he⟩ | he | ⟨_, hda, _⟩
              · rw [he] at h; cases h
              · rw [he] at h
                simp only [Prod.mk.injEq, Except.ok.injEq, Option.some.injEq] at h
                refine Or.inl ⟨by rw [hd1]; exact hd8, ?_⟩
                rw [← h.2, e1, positionAfter_append, e3, e4]
              · rw [hd8] at hda; cases hda
          | NoSegment =>
            rw [ha] at h
            simp only at h
            have hr := markerAction_noSegment ha
            rcases afterMarker_cases T f (vec.getD 0 0) (vec.getD 1 0) G (pos + 2)
              with ⟨err, he⟩ | he | ⟨_, hda, _⟩
            · rw [he] at h; cases h
            · rw [he] at h
              simp only [Prod.mk.injEq, Except.ok.injEq, Option.some.injEq] at h
              exact Or.inr (Or.inl ⟨by rw [hd1]; exact hr.1, by rw [hd1]; exact hr.2,
                h.1.symm, h.2.symm⟩)
            · rw [hda] at hr; omega
          | Unspecified seg =>
            rw [ha] at h
            simp only at h
            cases hr : ReadJpegUnspecifiedSegment T f G seg pos with
            | error err => rw [hr] at h; cases h
            | ok G2 =>
              rw [hr] at h
              simp only at h
              obtain ⟨S, e1, e2, e3, e4, e5, e6, e7, _⟩ := ReadJpegUnspecifiedSegment_inv hr
              have hpa : positionAfter G2 = pos + S.m_size := by
                rw [e1, positionAfter_append, e3]
              have hS : tilesFrom f pos [S] = some (pos + S.m_size) :=
                tilesFrom_single e3 e5 e6
              rcases afterMarker_cases T f (vec.getD 0 0) (vec.getD 1 0) G2 (positionAfter G2)
                with ⟨err, he⟩ | he | ⟨_, _, r, hi, he⟩
              · rw [he] at h; cases h
              · rw [he] at h
                simp only [Prod.mk.injEq, Except.ok.injEq, Option.some.injEq] at h
                refine Or.inr (Or.inr ⟨[S], by rw [← h.1, e1], ?_, ?_⟩)
                · rw [← h.2, hpa]; exact hS
                · rw [← h.2, hpa]; omega
              · rw [he] at h
                simp only [Prod.mk.injEq, Except.ok.injEq, Option.some.injEq] at h
                obtain ⟨D, i1, i2, i3, i4, i5, i6, i7⟩ := ReadJpegImagedata_inv hi
                rw [hpa] at i3 i5 i7
                refine Or.inr (Or.inr ⟨[S, D], ?_, ?_, ?_⟩)
                · rw [← h.1, i1, e1, List.append_assoc]
                  rfl
                · rw [show [S, D] = [S] ++ [D] from rfl, tilesFrom_append _ _ _ _ hS,
                    tilesFrom_single i3 i5 i6, ← h.2, i7]
                · rw [← h.2, i7]; omega
        · rw [if_neg h3] at h
          cases h

theorem markerPositions_succ {T : TiffTag} {f : ByteVector} {offset endoffset : Nat}
    {comment : String} {G G1 : GraphicsVector} {pos pos1 : Nat} (n : Nat)
    (h : markerStep T f offset endoffset comment G pos = (G1, Except.ok (some pos1))) :
    markerPositions T f offset endoffset comment (n + 1) G pos
      = pos :: markerPositions T f offset endoffset comment n G1 pos1 := by
  rw [markerPositions, h]

theorem markerPositions_head (T : TiffTag) (f : ByteVector) (offset endoffset : Nat)
    (comment : String) (n : Nat) (G : GraphicsVector) (pos : Nat) :
    pos ∈ markerPositions T f offset endoffset comment (n + 1) G pos := by
  rw [markerPositions]
  exact List.mem_cons_self _ _

/-- The marker loop ends within `fuel + 1` iterations when the file is not longer than
`pos + fuel` and no iteration begins at a marker `FF D8`. -/
theorem markerLoop_terminates {T : TiffTag} {f : ByteVector} {offset endoffset : Nat}
    {comment : String} :
    ∀ (fuel : Nat) (G : GraphicsVector) (pos : Nat), f.length ≤ pos + fuel →
      (∀ p ∈ markerPositions T f offset endoffset comment (fuel + 1) G pos,
        f.getD (p + 1) 0 ≠ 0xd8) →
      markerLoop T f offset endoffset comment (fuel + 1) G pos ≠ none := by
  intro fuel
  induction fuel with
  | zero =>
    intro G pos hl _
    unfold markerLoop markerStep
    rw [GetBytes_short (by decide) (by omega)]
    exact fun hq => by cases hq
  | succ n ih =>
    intro G pos hl hv
    rw [markerLoop]
    cases hs : markerStep T f offset endoffset comment G pos with
    | mk G2 res =>
      cases res with
      | error err => exact fun hq => by cases hq
      | ok o =>
        cases o with
        | none => exact fun hq => by cases hq
        | some pos1 =>
          simp only
          have hpos := hv pos (markerPositions_head _ _ _ _ _ _ _ _)
          rw [markerPositions_succ _ hs] at hv
          obtain ⟨_, _, _, _, hc⟩ := markerStep_continue hs
          have hlt : pos < pos1 := by
            rcases hc with ⟨hd8, _⟩ | ⟨_, _, _, hp⟩ | ⟨L, _, _, hp⟩
            · exact absurd hd8 hpos
            · omega
            · exact hp
          exact ih G2 pos1 (by omega) (fun p hp => hv p (List.mem_cons_of_mem _ hp))

/-- A return of the marker loop in which no iteration began at a restart marker or at a marker
`FF D8`: the segments appended lie one behind the other from `pos` on, and the loop was left
at the position behind them, either through the EOI segment that ends them or at a byte other
than `FF`. -/
theorem markerLoop_tiles {T : TiffTag} {f : ByteVector} {offset endoffset : Nat}
    {comment : String} :
    ∀ (fuel : Nat) (G G1 : GraphicsVector) (pos : Nat),
      markerLoop T f offset endoffset comment fuel G pos = some (G1, none) →
      (∀ p ∈ markerPositions T f offset endoffset comment fuel G pos,
        ¬ (0xd0 ≤ f.getD (p + 1) 0 ∧ f.getD (p + 1) 0 ≤ 0xd8)) →
      ∃ L q, G1 = G ++ L ∧ tilesFrom f pos L = some q
        ∧ ((∃ L0 E, L = L0 ++ [E] ∧ E.segmenttype = Segmenttype.JpegEndOfImage
              ∧ E.m_data = [0xff, 0xd9] ∧ q = E.m_offset + 2)
          ∨ (∃ b0, f.get? q = some b0 ∧ b0 ≠ 0xff)) := by
  intro fuel
  induction fuel with
  | zero => intro G G1 pos h; cases h
  | succ n ih =>
    intro G G1 pos h hv
    rw [markerLoop] at h
    cases hs : markerStep T f offset endoffset comment G pos with
    | mk G2 res =>
      rw [hs] at h
      cases res with
      | error err => cases h
      | ok o =>
        cases o with
        | none =>
          simp only [Option.some.injEq, Prod.mk.injEq, and_true] at h
          subst h
          rcases markerStep_return hs with ⟨S, e1, e2, e3, e4, e5, e6, e7⟩
            | ⟨e1, _, b0, b1, e3, _, e5⟩
          · have hS : tilesFrom f pos [S] = some (pos + S.m_size) :=
              tilesFrom_single e3 (by rw [e5, e4, take_two_of_get e6 e7]) (by rw [e5, e4]; rfl)
            exact ⟨[S], pos + S.m_size, e1, hS,
              Or.inl ⟨[], S, rfl, e2, e5, by rw [e3, e4]⟩⟩
          · exact ⟨[], pos, by rw [e1, List.append_nil], rfl, Or.inr ⟨b0, e3, e5⟩⟩
        | some pos1 =>
          simp only at h
          have hpos := hv pos (markerPositions_head _ _ _ _ _ _ _ _)
          rw [markerPositions_succ _ hs] at hv
          obtain ⟨L1, q, k1, k2, k3⟩ := ih G2 G1 pos1 h
            (fun p hp => hv p (List.mem_cons_of_mem _ hp))
          obtain ⟨_, _, _, _, hc⟩ := markerStep_continue hs
          rcases hc with ⟨hd8, _⟩ | ⟨hd0, hd7, _, _⟩ | ⟨L, c1, c2, _⟩
          · exact absurd ⟨by omega, by omega⟩ hpos
          · exact absurd ⟨hd0, by omega⟩ hpos
          · refine ⟨L ++ L1, q, by rw [k1, c1, List.append_assoc], ?_, ?_⟩
            · rw [tilesFrom_append _ _ _ _ c2]
              exact k2
            · rcases k3 with ⟨L0, E, m1, m2, m3, m4⟩ | hb
              · exact Or.inl ⟨L ++ L0, E, by rw [m1, List.append_assoc], m2, m3, m4⟩
              · exact Or.inr hb

/-- A section whose SOI is followed at once by a second `FF D8` is never parsed to an end:
the marker loop begins every iteration at the position behind the SOI. -/
theorem markerLoop_double_start (T : TiffTag) (f : ByteVector) (offset endoffset : Nat)
    (comment : String)
    (s0 : f.get? offset = some 0xff) (s1 : f.get? (offset + 1) = some 0xd8)
    (h0 : f.get? (offset + 2) = some 0xff) (h1 : f.get? (offset + 2 + 1) = some 0xd8)
    (hend : offset + 2 ≤ endoffset) :
    ∀ (fuel : Nat) (G : GraphicsVector),
      markerLoop T f offset endoffset comment fuel G (offset + 2) = none := by
  intro fuel
  induction fuel with
  | zero => intro G; rfl
  | succ n ih =>
    intro G
    unfold markerLoop
    rw [markerStep_nested T f offset endoffset comment G s0 s1 h0 h1 (by omega) hend]
    exact ih _

/-! ### C36, C37: the end of the marker loop and the tiling of the file -/

/-- C36: an iteration of the marker loop of `ReadJpegFileOrEmbeddedSection` that goes on ends
at a position behind the one it began at, except at a marker `FF D8`, where the next position
is `offset + 2`, the position behind the SOI of the section.  When no iteration of the call begins at a
marker `FF D8`, the call on the file `f` ends, with a return or an exception, within
`f.length + 1` iterations. -/
theorem C36_marker_loop_advance (T : TiffTag) (f : ByteVector) (G : GraphicsVector)
    (offset datasize : Nat) (comment : String)
    (hvis : ∀ p ∈ sectionPositions T f G offset datasize comment (f.length + 1),
      f.getD (p + 1) 0 ≠ 0xd8) :
    (∃ r, ReadJpegFileOrEmbeddedSection T f G offset datasize comment (f.length + 1) = some r)
      ∧ ∀ (G0 G1 : GraphicsVector) (pos pos1 : Nat),
          markerStep T f offset (offset + datasize) comment G0 pos
            = (G1, Except.ok (some pos1)) →
          pos < pos1
            ∨ (f.get? pos = some 0xff ∧ f.getD (pos + 1) 0 = 0xd8 ∧ pos1 = offset + 2) := by
  refine ⟨?_, fun G0 G1 pos pos1 hs => ?_⟩
  · apply Option.ne_none_iff_exists'.1
    unfold sectionPositions at hvis
    unfold ReadJpegFileOrEmbeddedSection
    cases hg : GetBytes f offset 2 with
    | error err => exact fun hq => by cases hq
    | ok vec =>
      rw [hg] at hvis
      simp only at hvis ⊢
      by_cases hc : vec.getD 0 0 = 0xff ∧ vec.getD 1 0 = 0xd8
      · rw [if_pos hc] at hvis ⊢
        cases hr : ReadJpegStartOfImage T f G offset comment with
        | error err => exact fun hq => by cases hq
        | ok G2 =>
          rw [hr] at hvis
          exact markerLoop_terminates f.length G2 (offset + 2) (by omega) hvis
      · rw [if_neg hc]
        exact fun hq => by cases hq
  · obtain ⟨h1, _, _, h4, hc⟩ := markerStep_continue hs
    rcases hc with ⟨hd8, hp⟩ | ⟨_, _, _, hp⟩ | ⟨_, _, _, hp⟩
    · exact Or.inr ⟨h4, hd8, hp⟩
    · exact Or.inl (by omega)
    · exact Or.inl hp

/-- Witness of C36: the parse of `commentFile`, whose marker loop begins its iterations at
the positions 2 and 7. -/
theorem C36_marker_loop_advance_witness :
    (∃ r, ReadJpegFileOrEmbeddedSection stdTags commentFile [] 0 9 "JPEG file"
        (commentFile.length + 1) = some r)
      ∧ ∀ (G0 G1 : GraphicsVector) (pos pos1 : Nat),
          markerStep stdTags commentFile 0 (0 + 9) "JPEG file" G0 pos
            = (G1, Except.ok (some pos1)) →
          pos < pos1
            ∨ (commentFile.get? pos = some 0xff ∧ commentFile.getD (pos + 1) 0 = 0xd8
                ∧ pos1 = 0 + 2) :=
  C36_marker_loop_advance stdTags commentFile [] 0 9 "JPEG file" (by decide)

/-- C36 (a parse without end): the six bytes `FF D8 FF D8 FF D9` begin with `FF D8`, and the
first iteration of the marker loop, at position 2, meets `FF D8` again.  It reads the SOI at
offset 0 once more and goes on at position 2, where it began: for every number of iterations
the call has neither returned nor thrown. -/
theorem C36_double_start_never_ends :
    (markerStep stdTags doubleStartFile 0 6 "JPEG file" [] 2).2 = Except.ok (some 2)
      ∧ ∀ fuel : Nat,
          ReadJpegFileOrEmbeddedSection stdTags doubleStartFile [] 0 6 "JPEG file" fuel
            = none := by
  refine ⟨rfl, fun fuel => ?_⟩
  rw [ReadJpegFileOrEmbeddedSection_soi stdTags doubleStartFile [] 0 6 "JPEG file" fuel
    rfl rfl]
  exact markerLoop_double_start stdTags doubleStartFile 0 (0 + 6) "JPEG file"
    (show _ = some 0xff from rfl) (show _ = some 0xd8 from rfl) (show _ = some 0xff from rfl)
    (show _ = some 0xd8 from rfl) (by decide) fuel _

/-- C37: when `ReadJpegFileOrEmbeddedSection`, called with an empty list, returns and none of
the iterations of its marker loop began at a restart marker `FF D0` to `FF D7` or at a marker
`FF D8`, the segments read tile the file: the first has the start offset, the offset plus the
size of each is the offset of the next, each holds the bytes of the file at its offset, and
their payloads together are the bytes of the file from the start offset to a position `q`.
Either the last segment is the EOI segment `FF D9` and `q` is the position behind its two
bytes, or the loop was left at `q` because the byte there is not `FF`. -/
theorem C37_segments_tile (T : TiffTag) (f : ByteVector) (G1 : GraphicsVector)
    (offset datasize : Nat) (comment : String) (fuel : Nat)
    (hret : ReadJpegFileOrEmbeddedSection T f [] offset datasize comment fuel
      = some (G1, none))
    (hvis : ∀ p ∈ sectionPositions T f [] offset datasize comment fuel,
      ¬ (0xd0 ≤ f.getD (p + 1) 0 ∧ f.getD (p + 1) 0 ≤ 0xd8)) :
    ∃ q, tilesFrom f offset G1 = some q
      ∧ (G1.head?.map (fun S => S.m_offset) = some offset)
      ∧ (∀ (i : Nat) (S S1 : FileSegment), G1.get? i = some S → G1.get? (i + 1) = some S1 →
          S.m_offset + S.m_size = S1.m_offset)
      ∧ (∀ S ∈ G1, S.m_data = (f.drop S.m_offset).take S.m_size)
      ∧ fileBytes G1 = (f.drop offset).take (q - offset)
      ∧ ((∃ G0 E, G1 = G0 ++ [E] ∧ E.segmenttype = Segmenttype.JpegEndOfImage
            ∧ E.m_data = [0xff, 0xd9] ∧ q = E.m_offset + 2)
        ∨ (∃ b0, f.get? q = some b0 ∧ b0 ≠ 0xff)) := by
  unfold sectionPositions at hvis
  unfold ReadJpegFileOrEmbeddedSection at hret
  cases hg : GetBytes f offset 2 with
  | error err => rw [hg] at hret; cases hret
  | ok vec =>
    rw [hg] at hvis hret
    simp only at hvis hret
    by_cases hc : vec.getD 0 0 = 0xff ∧ vec.getD 1 0 = 0xd8
    · rw [if_pos hc] at hvis hret
      cases hr : ReadJpegStartOfImage T f [] offset comment with
      | error err => rw [hr] at hret; cases hret
      | ok G2 =>
        rw [hr] at hvis hret
        simp only at hvis hret
        obtain ⟨S, e1, e2, e3, e4, e5⟩ := ReadJpegStartOfImage_inv hr
        rw [List.nil_append] at e1
        obtain ⟨g1, g2, _⟩ := GetBytes_inv hg
        have hv := list_two g2
        rw [hc.1, hc.2] at hv
        have hS : tilesFrom f offset [S] = some (offset + 2) := by
          rw [← e4]
          exact tilesFrom_single e3 (by rw [e5, e4, ← g1, hv]) (by rw [e5, e4]; rfl)
        obtain ⟨L, q, k1, k2, k3⟩ := markerLoop_tiles fuel G2 G1 (offset + 2) hret hvis
        have ht : tilesFrom f offset G1 = some q := by
          rw [k1, e1, tilesFrom_append _ _ _ _ hS]
          exact k2
        refine ⟨q, ht, by rw [k1, e1]; simp [e3], tilesFrom_next _ _ _ ht,
          tilesFrom_data _ _ _ ht, tilesFrom_fileBytes _ _ _ ht, ?_⟩
        rcases k3 with ⟨L0, E, m1, m2, m3, m4⟩ | hb
        · exact Or.inl ⟨G2 ++ L0, E, by rw [k1, m1, List.append_assoc], m2, m3, m4⟩
        · exact Or.inr hb
    · rw [if_neg hc] at hret
      cases hret

/-- Witness of C37: the three segments read from `commentFile` tile its nine bytes. -/
theorem C37_segments_tile_witness :
    ∃ q, tilesFrom commentFile 0 commentFileSegments = some q
      ∧ (commentFileSegments.head?.map (fun S => S.m_offset) = some 0)
      ∧ (∀ (i : Nat) (S S1 : FileSegment), commentFileSegments.get? i = some S →
          commentFileSegments.get? (i + 1) = some S1 → S.m_offset + S.m_size = S1.m_offset)
      ∧ (∀ S ∈ commentFileSegments, S.m_data = (commentFile.drop S.m_offset).take S.m_size)
      ∧ fileBytes commentFileSegments = (commentFile.drop 0).take (q - 0)
      ∧ ((∃ G0 E, commentFileSegments = G0 ++ [E]
            ∧ E.segmenttype = Segmenttype.JpegEndOfImage
            ∧ E.m_data = [0xff, 0xd9] ∧ q = E.m_offset + 2)
        ∨ (∃ b0, commentFile.get? q = some b0 ∧ b0 ≠ 0xff)) :=
  C37_segments_tile stdTags commentFile commentFileSegments 0 9 "JPEG file" 10 rfl
    (by decide)

/-- C37 (a gap at a restart marker): in the six bytes `FF D8 FF D0 FF D9` the marker loop
meets the restart marker `FF D0` at position 2.  No segment is read for it, the next
iteration begins at position 4, and the call returns after the EOI there with two segments:
the SOI at offset 0 with size 2 and the EOI at offset 4, so that offset plus size of the
first is not the offset of the second, and the payloads together are four of the six
bytes. -/
theorem C37_restart_marker_gap :
    (ReadJpegFileOrEmbeddedSection stdTags restartFile [] 0 6 "JPEG file" 7).map
        (fun r => (r.1.map (fun s => (s.segmenttype, s.m_offset, s.m_size, s.m_data)), r.2))
      = some ([(Segmenttype.JpegStartOfImage, 0, 2, [0xff, 0xd8]),
               (Segmenttype.JpegEndOfImage, 4, 2, [0xff, 0xd9])], none)
      ∧ (ReadJpegFileOrEmbeddedSection stdTags restartFile [] 0 6 "JPEG file" 7).map
          (fun r => fileBytes r.1) = some [0xff, 0xd8, 0xff, 0xd9]
      ∧ (ReadJpegFileOrEmbeddedSection stdTags restartFile [] 0 6 "JPEG file" 7).map
          (fun r => tilesFrom restartFile 0 r.1) = some none
      ∧ restartFile.take 6 = [0xff, 0xd8, 0xff, 0xd0, 0xff, 0xd9] :=
  ⟨rfl, rfl, rfl, rfl⟩

/-! ### The reads of `ReadDirectory` -/

theorem byteAt_cases (v : ByteVector) (i : Nat) :
    (∃ b, byteAt v i = Except.ok b ∧ i < v.length)
      ∨ (byteAt v i = Except.error Error.OutOfBounds ∧ v.length ≤ i) := by
  unfold byteAt
  cases hg : v.get? i with
  | none => exact Or.inr ⟨rfl, List.get?_eq_none.1 hg⟩
  | some b => exact Or.inl ⟨b, rfl, (List.get?_eq_some.1 hg).1⟩

theorem MakeUShort_cases (v : ByteVector) (i : Nat) (e : Endianness) :
    (∃ n, MakeUShort v i e = Except.ok n ∧ i + 1 < v.length)
      ∨ MakeUShort v i e = Except.error Error.OutOfBounds := by
  unfold MakeUShort
  rcases byteAt_cases v i with ⟨b0, h0, _⟩ | ⟨h0, _⟩
  · rcases byteAt_cases v (i + 1) with ⟨b1, h1, hl⟩ | ⟨h1, _⟩
    · rw [h0, h1]
      cases e
      · exact Or.inl ⟨_, rfl, hl⟩
      · exact Or.inl ⟨_, rfl, hl⟩
    · rw [h0, h1]
      exact Or.inr rfl
  · rw [h0]
    exact Or.inr rfl

theorem MakeULong_cases (v : ByteVector) (i : Nat) (e : Endianness) :
    (∃ n, MakeULong v i e = Except.ok n ∧ i + 3 < v.length)
      ∨ MakeULong v i e = Except.error Error.OutOfBounds := by
  unfold MakeULong
  rcases byteAt_cases v i with ⟨b0, h0, _⟩ | ⟨h0, _⟩
  · rcases byteAt_cases v (i + 1) with ⟨b1, h1, _⟩ | ⟨h1, _⟩
    · rcases byteAt_cases v (i + 2) with ⟨b2, h2, _⟩ | ⟨h2, _⟩
      · rcases byteAt_cases v (i + 3) with ⟨b3, h3, hl⟩ | ⟨h3, _⟩
        · rw [h0, h1, h2, h3]
          cases e
          · exact Or.inl ⟨_, rfl, hl⟩
          · exact Or.inl ⟨_, rfl, hl⟩
        · rw [h0, h1, h2, h3]
          exact Or.inr rfl
      · rw [h0, h1, h2]
        exact Or.inr rfl
    · rw [h0, h1]
      exact Or.inr rfl
  · rw [h0]
    exact Or.inr rfl

/-- The twelve bytes of an entry are read before anything else is decided: when they are
not all inside the vector, a read is outside it. -/
theorem InitializeFromMemory_short (T : TiffTag) {memory : ByteVector} {pos : Nat}
    (e : Endianness) (h : memory.length < pos + 12) :
    TiffDirEntry.InitializeFromMemory T memory pos e = Except.error Error.OutOfBounds := by
  unfold TiffDirEntry.InitializeFromMemory
  rcases MakeUShort_cases memory pos e with ⟨n1, h1, _⟩ | h1
  · rcases MakeUShort_cases memory (pos + 2) e with ⟨n2, h2, _⟩ | h2
    · rcases MakeULong_cases memory (pos + 4) e with ⟨n3, h3, _⟩ | h3
      · rcases byteAt_cases memory (pos + 8) with ⟨b0, h4, _⟩ | ⟨h4, _⟩
        · rcases byteAt_cases memory (pos + 9) with ⟨b1, h5, _⟩ | ⟨h5, _⟩
          · rcases byteAt_cases memory (pos + 10) with ⟨b2, h6, _⟩ | ⟨h6, _⟩
            · rcases byteAt_cases memory (pos + 11) with ⟨b3, h7, hl⟩ | ⟨h7, _⟩
              · omega
              · rw [h1, h2, h3, h4, h5, h6, h7]
                rfl
            · rw [h1, h2, h3, h4, h5, h6]
              rfl
          · rw [h1, h2, h3, h4, h5]
            rfl
        · rw [h1, h2, h3, h4]
          rfl
      · rw [h1, h2, h3]
        rfl
    · rw [h1, h2]
      rfl
  · rw [h1]
    rfl

theorem GetDataSize_lt {E : TiffDirEntry} {ds : Nat} (h : E.GetDataSize = Except.ok ds) :
    ds < 4294967296 := by
  unfold TiffDirEntry.GetDataSize at h
  simp only [bind_ok] at h
  obtain ⟨len, _, h⟩ := h
  simp only [pure, Except.pure, Except.ok.injEq] at h
  rw [← h]
  exact Nat.mod_lt _ (by decide)

/-- The bytes that `ReadDirectory` captures for an entry: none, or the bytes of the data
size of the entry at its value field, all of them inside the vector. -/
theorem ReadDirectory_entry_inv {T : TiffTag} {memory : ByteVector} {offset i : Nat}
    {ee : Endianness} {x : TiffDirEntry × ByteVector}
    (h : ReadDirectory_entry T memory offset ee i = Except.ok x) :
    TiffDirEntry.InitializeFromMemory T memory ((offset + 2 + 12 * i) % 4294967296) ee
        = Except.ok x.1
      ∧ ∃ ds, x.1.GetDataSize = Except.ok ds
        ∧ (x.2 = [] ∨ (4 < ds ∧ x.1.value32 + ds ≤ memory.length
            ∧ x.2 = (memory.drop x.1.value32).take ds ∧ x.2.length = ds)) := by
  unfold ReadDirectory_entry at h
  simp only [bind_ok] at h
  obtain ⟨e, hinit, ds, hds, h⟩ := h
  have hdl := GetDataSize_lt hds
  have hvl := value32_lt e
  by_cases h4 : ds > 4
  · rw [if_pos h4] at h
    simp only [bind_ok] at h
    obtain ⟨offs, hoffs, h⟩ := h
    have ho : offs = e.value32 := by
      unfold TiffDirEntry.GetOffsetField at hoffs
      simp only [bind_ok, ASSERT_ok] at hoffs
      obtain ⟨_, _, hoffs⟩ := hoffs
      simp only [pure, Except.pure, Except.ok.injEq] at hoffs
      exact hoffs.symm
    subst ho
    by_cases hwrap : e.value32 + ds < 4294967296
    · rw [Nat.mod_eq_of_lt hwrap] at h
      by_cases c1 : e.value32 + ds < memory.length
      · rw [if_pos c1, if_pos (Nat.le_add_right _ _), Nat.add_sub_cancel_left] at h
        simp only [pure, Except.pure, Except.ok.injEq] at h
        subst h
        refine ⟨hinit, ds, hds, Or.inr ⟨h4,
          (show e.value32 + ds ≤ memory.length by omega), rfl, ?_⟩⟩
        simp only [List.length_take, List.length_drop]
        omega
      · rw [if_neg c1] at h
        by_cases c2 : e.value32 + ds = memory.length
        · rw [if_pos c2, if_pos (by omega)] at h
          simp only [pure, Except.pure, Except.ok.injEq] at h
          subst h
          refine ⟨hinit, ds, hds, Or.inr ⟨h4,
            (show e.value32 + ds ≤ memory.length by omega), ?_, ?_⟩⟩
          · simp only
            rw [List.take_of_length_le]
            rw [List.length_drop]
            omega
          · simp only [List.length_drop]
            omega
        · rw [if_neg c2] at h
          simp only [pure, Except.pure, Except.ok.injEq] at h
          subst h
          exact ⟨hinit, ds, hds, Or.inl rfl⟩
    · have hm : (e.value32 + ds) % 4294967296 = e.value32 + ds - 4294967296 := by
        rw [Nat.mod_eq_sub_mod (by omega), Nat.mod_eq_of_lt (by omega)]
      rw [hm] at h
      by_cases c1 : e.value32 + ds - 4294967296 < memory.length
      · rw [if_pos c1, if_neg (by omega)] at h
        cases h
      · rw [if_neg c1] at h
        by_cases c2 : e.value32 + ds - 4294967296 = memory.length
        · rw [if_pos c2] at h
          by_cases c3 : e.value32 ≤ memory.length
          · omega
          · rw [if_neg c3] at h
            cases h
        · rw [if_neg c2] at h
          simp only [pure, Except.pure, Except.ok.injEq] at h
          subst h
          exact ⟨hinit, ds, hds, Or.inl rfl⟩
  · rw [if_neg h4] at h
    simp only [pure, Except.pure, Except.ok.injEq] at h
    subst h
    exact ⟨hinit, ds, hds, Or.inl rfl⟩

theorem ReadDirectory_mem {T : TiffTag} {memory : ByteVector} {offset : Nat} {ee : Endianness}
    {dir : List (TiffDirEntry × ByteVector)}
    (h : ReadDirectory T memory offset ee = Except.ok dir) {x : TiffDirEntry × ByteVector}
    (hx : x ∈ dir) :
    ∃ ds, x.1.GetDataSize = Except.ok ds
      ∧ (x.2 = [] ∨ (4 < ds ∧ x.1.value32 + ds ≤ memory.length
          ∧ x.2 = (memory.drop x.1.value32).take ds ∧ x.2.length = ds)) := by
  obtain ⟨i, hi⟩ := List.get?_of_mem hx
  exact (ReadDirectory_entry_inv (ReadDirectory_get h hi)).2

theorem valid_exif_chunk_inv {D : ByteVector} (h : valid_exif_chunk D = Except.ok true) :
    19 ≤ D.length ∧ D.length ≤ 65537
      ∧ ((D.drop 10).take 4 = [0x49, 0x49, 0x2a, 0x00]
          ∨ (D.drop 10).take 4 = [0x4d, 0x4d, 0x00, 0x2a]) := by
  unfold valid_exif_chunk at h
  simp only [] at h
  by_cases hs : D.length < 4 + 6 + 4 + 4 + 1
  · rw [if_pos hs] at h
    cases h
  · rw [if_neg hs] at h
    simp only [bind_ok] at h
    obtain ⟨v0, _, v1, _, h⟩ := h
    by_cases hm : v0 ≠ 0xff ∨ v1 ≠ 0xe1
    · rw [if_pos hm] at h
      cases h
    · rw [if_neg hm] at h
      simp only [bind_ok, ASSERT_ok, decide_eq_true_eq] at h
      obtain ⟨len, hlen, _, hl, h⟩ := h
      have hlt := MakeUShort_lt hlen
      refine ⟨by omega, by omega, ?_⟩
      by_cases c1 : (D.drop 4).take 6 ≠ ExifSignature
      · rw [if_pos c1] at h; cases h
      · rw [if_neg c1] at h
        by_cases c2 : (D.drop 4).take 4 ≠ ExifSignature.take 4
        · rw [if_pos c2] at h; cases h
        · rw [if_neg c2] at h
          by_cases c3 : (D.drop 10).take 4 = [0x49, 0x49, 0x2a, 0x00]
          · exact Or.inl c3
          · rw [if_neg c3] at h
            simp only [pure, Except.pure, Except.ok.injEq, decide_eq_true_eq] at h
            exact Or.inr h

/-! ### C35: the reads of the Exif reader and the bounds of the payload -/

/-- C35: let `D` be an APP1 payload that passes `valid_exif_chunk`, `ee` the byte order of
its byte-order mark and `d` its directory offset, with `d + 18` below the size of `D` and no
wrap of `d + 18` in 32 bits.  The two bytes of the entry count of the main directory lie
inside the payload.  The twelve bytes of a declared entry are not guarded by the check: the
read of an entry whose bytes are not all inside the payload is a read outside it.  When
`ReadDirectory` succeeds, the external bytes captured for an entry are either none or the
bytes of a range that lies inside the payload.  A failure of `ReadDirectory` is the failure
of the reader. -/
theorem C35_directory_reads (T : TiffTag) (metadata : exif_info) (D : ByteVector)
    (ee : Endianness) (d : Nat)
    (hvalid : valid_exif_chunk D = Except.ok true)
    (hbom : ((D.drop 10).take 4 = [0x49, 0x49, 0x2a, 0x00] ∧ ee = Endianness.Little)
      ∨ ((D.drop 10).take 4 = [0x4d, 0x4d, 0x00, 0x2a] ∧ ee = Endianness.Big))
    (hd : MakeULong D 14 ee = Except.ok d)
    (hcheck : (d + 18) % 4294967296 < D.length)
    (hsmall : d + 18 < 4294967296) :
    (∃ n, MakeUShort (D.drop 10) d ee = Except.ok n ∧ 10 + d + 1 < D.length)
      ∧ (∀ i, i < 65536 → D.length < 10 + (d + 2 + 12 * i) + 12 →
          ReadDirectory_entry T (D.drop 10) d ee i = Except.error Error.OutOfBounds)
      ∧ (∀ dir, ReadDirectory T (D.drop 10) d ee = Except.ok dir → ∀ x ∈ dir,
          ∃ ds, x.1.GetDataSize = Except.ok ds
            ∧ (x.2 = [] ∨ (4 < ds ∧ 10 + x.1.value32 + ds ≤ D.length
                ∧ x.2 = (D.drop (10 + x.1.value32)).take ds)))
      ∧ (∀ err, ReadDirectory T (D.drop 10) d ee = Except.error err →
          ReadApp1Metadata_step T metadata D = Except.error err) := by
  obtain ⟨_, hmax, _⟩ := valid_exif_chunk_inv hvalid
  rw [Nat.mod_eq_of_lt hsmall] at hcheck
  have hlen : (D.drop 10).length = D.length - 10 := List.length_drop _ _
  refine ⟨?_, fun i hi hout => ?_, fun dir hdir x hx => ?_, fun err he => ?_⟩
  · obtain ⟨b0, h0⟩ := byteAt_ok (show d < (D.drop 10).length by omega)
    obtain ⟨b1, h1⟩ := byteAt_ok (show d + 1 < (D.drop 10).length by omega)
    unfold MakeUShort
    rw [h0, h1]
    cases ee
    · exact ⟨_, rfl, by omega⟩
    · exact ⟨_, rfl, by omega⟩
  · unfold ReadDirectory_entry
    rw [Nat.mod_eq_of_lt (show d + 2 + 12 * i < 4294967296 by omega),
      InitializeFromMemory_short T ee (show (D.drop 10).length < d + 2 + 12 * i + 12 by omega)]
    rfl
  · obtain ⟨ds, hds, hc⟩ := ReadDirectory_mem hdir hx
    refine ⟨ds, hds, ?_⟩
    rcases hc with hc | ⟨c1, c2, c3, _⟩
    · exact Or.inl hc
    · refine Or.inr ⟨c1, by omega, ?_⟩
      rw [c3, List.drop_drop]
  · rw [ReadApp1Metadata_step_valid hvalid hbom hd, if_neg (by omega), he]
    rfl

/-- Witness of C35: the APP1 payload of `exifMainInput`, of 90 bytes, with the directory
offset 8. -/
theorem C35_directory_reads_witness :
    (∃ n, MakeUShort (exifMainPayload.drop 10) 8 Endianness.Little = Except.ok n
        ∧ 10 + 8 + 1 < exifMainPayload.length)
      ∧ (∀ i, i < 65536 → exifMainPayload.length < 10 + (8 + 2 + 12 * i) + 12 →
          ReadDirectory_entry stdTags (exifMainPayload.drop 10) 8 Endianness.Little i
            = Except.error Error.OutOfBounds)
      ∧ (∀ dir, ReadDirectory stdTags (exifMainPayload.drop 10) 8 Endianness.Little
            = Except.ok dir → ∀ x ∈ dir,
          ∃ ds, x.1.GetDataSize = Except.ok ds
            ∧ (x.2 = [] ∨ (4 < ds ∧ 10 + x.1.value32 + ds ≤ exifMainPayload.length
                ∧ x.2 = (exifMainPayload.drop (10 + x.1.value32)).take ds)))
      ∧ (∀ err, ReadDirectory stdTags (exifMainPayload.drop 10) 8 Endianness.Little
            = Except.error err →
          ReadApp1Metadata_step stdTags {} exifMainPayload = Except.error err) :=
  C35_directory_reads stdTags {} exifMainPayload Endianness.Little 8 rfl
    (Or.inl ⟨by decide, rfl⟩) rfl (by decide) (by decide)

/-- C35 (reads outside the payload): `cutEntryPayload` has 27 bytes, passes
`valid_exif_chunk` and has the directory offset 8, and 8 + 18 is below 27.  Its directory
declares one entry, whose twelve bytes would be the payload indices 20 to 31: the read of
the entry is a read outside the payload.  `wrapRangePayload` passes both checks too; the
data of its entry, 16 bytes with the value field `FFFFFFF8`, end at 8 in 32-bit arithmetic,
which is below the payload size, so that the range copied begins outside the payload.
`wrapOffsetPayload` has the directory offset `FFFFFFF6`, for which `d + 18` is 8 in 32-bit
arithmetic: the check is passed and the entry count is read outside the payload. -/
theorem C35_reads_outside_payload :
    (valid_exif_chunk cutEntryPayload = Except.ok true
        ∧ MakeULong cutEntryPayload 14 Endianness.Little = Except.ok 8
        ∧ (8 + 18) % 4294967296 < cutEntryPayload.length
        ∧ cutEntryPayload.length = 27
        ∧ MakeUShort (cutEntryPayload.drop 10) 8 Endianness.Little = Except.ok 1
        ∧ ReadDirectory stdTags (cutEntryPayload.drop 10) 8 Endianness.Little
            = Except.error Error.OutOfBounds
        ∧ ReadApp1Metadata_step stdTags {} cutEntryPayload
            = Except.error Error.OutOfBounds)
      ∧ (valid_exif_chunk wrapRangePayload = Except.ok true
        ∧ MakeULong wrapRangePayload 14 Endianness.Little = Except.ok 8
        ∧ (8 + 18) % 4294967296 < wrapRangePayload.length
        ∧ (TiffDirEntry.InitializeFromMemory stdTags (wrapRangePayload.drop 10) 10
              Endianness.Little).map (fun E => (E.value32, E.GetDataSize))
            = Except.ok (4294967288, Except.ok 16)
        ∧ (4294967288 + 16) % 4294967296 = 8
        ∧ ReadDirectory stdTags (wrapRangePayload.drop 10) 8 Endianness.Little
            = Except.error Error.OutOfBounds
        ∧ ReadApp1Metadata_step stdTags {} wrapRangePayload
            = Except.error Error.OutOfBounds)
      ∧ (valid_exif_chunk wrapOffsetPayload = Except.ok true
        ∧ MakeULong wrapOffsetPayload 14 Endianness.Little = Except.ok 4294967286
        ∧ (4294967286 + 18) % 4294967296 < wrapOffsetPayload.length
        ∧ ReadApp1Metadata_step stdTags {} wrapOffsetPayload
            = Except.error Error.OutOfBounds) :=
  ⟨⟨rfl, rfl, by decide, rfl, rfl, rfl, rfl⟩, ⟨rfl, rfl, by decide, rfl, rfl, rfl, rfl⟩,
    ⟨rfl, rfl, by decide, rfl⟩⟩

/-! ### The offsets of the entries the planner creates -/

theorem change_endianness_length {V V1 : ByteVector} {s : Nat}
    (h : change_endianness V s = Except.ok V1) : V1.length = V.length := by
  unfold change_endianness at h
  by_cases h1 : s = 1
  · rw [if_pos h1] at h
    simp only [pure, Except.pure, Except.ok.injEq] at h
    rw [h]
  · rw [if_neg h1] at h
    by_cases h0 : V.length = 0
    · rw [if_pos h0] at h
      simp only [pure, Except.pure, Except.ok.injEq] at h
      rw [← h, h0]
      rfl
    · rw [if_neg h0] at h
      by_cases hz : s = 0
      · rw [if_pos hz] at h; cases h
      · rw [if_neg hz] at h
        by_cases hm : V.length % s ≠ 0
        · rw [if_pos hm] at h; cases h
        · rw [if_neg hm] at h
          simp only [pure, Except.pure, Except.ok.injEq] at h
          have hd : s ∣ V.length := Nat.dvd_of_mod_eq_zero (not_not.1 hm)
          rw [← h, reverseElements_length s _ V (by rw [Nat.div_mul_cancel hd]),
            Nat.div_mul_cancel hd]

theorem convertData_length {ee oe : Endianness} {E : TiffDirEntry} {V V1 : ByteVector}
    (h : convertData ee oe E V = Except.ok V1) : V1.length = V.length := by
  unfold convertData at h
  simp only [bind_ok] at h
  obtain ⟨es, _, h⟩ := h
  by_cases hc : oe ≠ ee
  · rw [if_pos hc] at h
    exact change_endianness_length h
  · rw [if_neg hc] at h
    simp only [pure, Except.pure, Except.ok.injEq] at h
    rw [h]

theorem ofOffset_GetOffsetField {tag dt cnt off : Nat} {e : TiffDirEntry}
    (h : TiffDirEntry.ofOffset tag dt cnt off Endianness.Little = Except.ok e) :
    e.GetOffsetField = Except.ok (off % 4294967296) := by
  obtain ⟨_, _, _, h4, h5, h6⟩ := ofOffset_fields h
  unfold TiffDirEntry.GetOffsetField
  rw [h6, value32_longBytes h4 h5]
  rfl

/-- The bytes captured for the entries of the three directories of an Exif information that
the reader of the APP1 segments returns: none, or as many as the data size of the entry. -/
theorem ReadApp1Metadata_step_captured {T : TiffTag} {m m1 : exif_info} {D : ByteVector}
    (h : ReadApp1Metadata_step T m D = Except.ok m1)
    (hm : ∀ x, (x ∈ m.main_dir ∨ x ∈ m.exif_dir ∨ x ∈ m.gps_dir) →
      ∃ ds, x.1.GetDataSize = Except.ok ds ∧ (x.2 = [] ∨ x.2.length = ds)) :
    ∀ x, (x ∈ m1.main_dir ∨ x ∈ m1.exif_dir ∨ x ∈ m1.gps_dir) →
      ∃ ds, x.1.GetDataSize = Except.ok ds ∧ (x.2 = [] ∨ x.2.length = ds) := by
  have key : ∀ {mem : ByteVector} {off : Nat} {ee : Endianness}
      {dir : List (TiffDirEntry × ByteVector)},
      ReadDirectory T mem off ee = Except.ok dir → ∀ x ∈ dir,
      ∃ ds, x.1.GetDataSize = Except.ok ds ∧ (x.2 = [] ∨ x.2.length = ds) := by
    intro mem off ee dir hdir x hx
    obtain ⟨ds, h1, h2⟩ := ReadDirectory_mem hdir hx
    refine ⟨ds, h1, ?_⟩
    rcases h2 with h2 | ⟨_, _, _, h2⟩
    · exact Or.inl h2
    · exact Or.inr h2
  unfold ReadApp1Metadata_step at h
  simp only [bind_ok] at h
  obtain ⟨valid, _, h⟩ := h
  cases valid with
  | false =>
    simp only [Bool.false_eq_true, if_false, pure, Except.pure, Except.ok.injEq] at h
    subst h
    exact hm
  | true =>
    simp only [if_true, bind_ok] at h
    obtain ⟨d10, _, ee, _, d, _, h⟩ := h
    by_cases hc : (d + 18) % 4294967296 ≥ D.length
    · rw [if_pos hc] at h; cases h
    · rw [if_neg hc] at h
      simp only [bind_ok] at h
      obtain ⟨main, hmain, eo, _, exif, hexif, go, _, gps, hgps, h⟩ := h
      simp only [pure, Except.pure, Except.ok.injEq] at h
      subst h
      intro x hx
      rcases hx with hx | hx | hx
      · exact key hmain x hx
      · by_cases he : eo ≠ 0
        · rw [if_pos he] at hexif
          exact key hexif x hx
        · rw [if_neg he] at hexif
          simp only [pure, Except.pure, Except.ok.injEq] at hexif
          rw [← hexif] at hx
          exact hm x (Or.inr (Or.inl hx))
      · by_cases hg : go ≠ 0
        · rw [if_pos hg] at hgps
          exact key hgps x hx
        · rw [if_neg hg] at hgps
          simp only [pure, Except.pure, Except.ok.injEq] at hgps
          rw [← hgps] at hx
          exact hm x (Or.inr (Or.inr hx))

theorem ReadApp1Metadata_loop_captured {T : TiffTag} :
    ∀ (segs : List FileSegment) (m m1 : exif_info),
      ReadApp1Metadata_loop T segs m = Except.ok m1 →
      (∀ x, (x ∈ m.main_dir ∨ x ∈ m.exif_dir ∨ x ∈ m.gps_dir) →
        ∃ ds, x.1.GetDataSize = Except.ok ds ∧ (x.2 = [] ∨ x.2.length = ds)) →
      ∀ x, (x ∈ m1.main_dir ∨ x ∈ m1.exif_dir ∨ x ∈ m1.gps_dir) →
        ∃ ds, x.1.GetDataSize = Except.ok ds ∧ (x.2 = [] ∨ x.2.length = ds) := by
  intro segs
  induction segs with
  | nil =>
    intro m m1 h hm
    simp only [ReadApp1Metadata_loop, pure, Except.pure, Except.ok.injEq] at h
    subst h
    exact hm
  | cons s rest ih =>
    intro m m1 h hm
    rw [ReadApp1Metadata_loop] at h
    simp only [bind_ok] at h
    obtain ⟨m2, h2, h⟩ := h
    exact ih m2 m1 h (ReadApp1Metadata_step_captured h2 hm)

theorem readExifInfo_captured {T : TiffTag} {G : GraphicsVector} {info : exif_info}
    (h : readExifInfo T G = Except.ok info) :
    ∀ x, (x ∈ info.main_dir ∨ x ∈ info.exif_dir ∨ x ∈ info.gps_dir) →
      ∃ ds, x.1.GetDataSize = Except.ok ds ∧ (x.2 = [] ∨ x.2.length = ds) := by
  unfold readExifInfo at h
  simp only [bind_ok] at h
  obtain ⟨app1, _, h⟩ := h
  have h0 : ∀ x : TiffDirEntry × ByteVector,
      (x ∈ ({} : exif_info).main_dir ∨ x ∈ ({} : exif_info).exif_dir
        ∨ x ∈ ({} : exif_info).gps_dir) →
      ∃ ds, x.1.GetDataSize = Except.ok ds ∧ (x.2 = [] ∨ x.2.length = ds) := by
    intro x hx
    rcases hx with hx | hx | hx <;> cases hx
  by_cases hc : app1.length > 0
  · rw [if_pos hc] at h
    exact ReadApp1Metadata_loop_captured app1 {} info h h0
  · rw [if_neg hc] at h
    simp only [pure, Except.pure, Except.ok.injEq] at h
    subst h
    exact h0

/-- A selected entry with more than four bytes of data in a call of `Write_Selected_Entries`
on a directory the Exif reader has returned: a ByteVector segment of as many bytes as the
data size is written for it, and the entry built for it holds the offset of that segment. -/
theorem selected_entry_written {dir : List (TiffDirEntry × ByteVector)} {L : GraphicsVector}
    {ee : Endianness} {foo : Nat → Nat → Bool} {w : List TiffDirEntry × GraphicsVector}
    (hw : Write_Selected_Entries dir L ee Endianness.Little foo = Except.ok w)
    (hcap : ∀ x ∈ dir, ∃ ds, x.1.GetDataSize = Except.ok ds ∧ (x.2 = [] ∨ x.2.length = ds))
    {x : TiffDirEntry × ByteVector} (hx : x ∈ dir)
    (hsel : foo x.1.Tag x.1.GetDataType = true) {ds : Nat}
    (hds : x.1.GetDataSize = Except.ok ds) (hbig : toInt32 ds > 4) :
    ∃ payload off e, byteVectorAt Endianness.Little off payload ∈ w.2
      ∧ payload.length = ds
      ∧ convertData ee Endianness.Little x.1 x.2 = Except.ok payload
      ∧ e ∈ w.1 ∧ entryShape e = entryShape x.1
      ∧ e.GetOffsetField = Except.ok (off % 4294967296) := by
  obtain ⟨V1, off, e, c1, c2, c3, c4, c5⟩ :=
    (Write_Selected_Entries_inv hw).2 x hx hsel ds hds hbig
  obtain ⟨f1, f2, f3, _⟩ := ofOffset_fields c5
  refine ⟨V1, off, e, c3, ?_, c1, c4, ?_, ofOffset_GetOffsetField c5⟩
  · have hl := convertData_length c1
    obtain ⟨ds1, g1, g2⟩ := hcap x hx
    rw [hds] at g1
    simp only [Except.ok.injEq] at g1
    subst g1
    rcases g2 with g2 | g2
    · rw [g2] at hl
      exact absurd (List.length_eq_zero.1 hl) c2
    · rw [hl, g2]
  · unfold entryShape
    rw [f1, f2, f3]

theorem Placed_lower {segs : List FileSegment} :
    ∀ {a b : Nat}, Placed a segs b → ∀ s ∈ segs, a ≤ s.m_offset := by
  induction segs with
  | nil => intro a b _ s hs; cases hs
  | cons t rest ih =>
    intro a b h s hs
    obtain ⟨h1, _, _, h4⟩ := h
    rcases List.mem_cons.1 hs with rfl | hs
    · omega
    · have := ih h4 s hs
      unfold blockEnd at this
      omega

/-- The section TIFF DIRECTORY adds the pointer to a sub-directory exactly when the offset
recorded for it is not zero. -/
theorem metadataEntries_pointers {T : TiffTag} {O : Offsets} {rest : List TiffDirEntry}
    (h : metadataEntries T O Endianness.Little = Except.ok rest) :
    ∃ e13, rest = e13
        ++ (if O.exifdir_offset > 0 then [offsetEntry T.ExifIFD Datatype.Ulong 1 O.exifdir_offset]
            else [])
        ++ (if O.gpsdir_offset > 0 then [offsetEntry T.GPSIFD Datatype.Ulong 1 O.gpsdir_offset]
            else []) := by
  unfold metadataEntries at h
  simp only [bind_ok] at h
  obtain ⟨e13, _, e14, h14, e15, h15, h⟩ := h
  simp only [pure, Except.pure, Except.ok.injEq] at h
  refine ⟨e13, ?_⟩
  rw [← h]
  congr 2
  · by_cases hq : O.exifdir_offset > 0
    · rw [if_pos hq, ofOffset_long] at h14
      simp only [Except.map, Except.ok.injEq] at h14
      rw [if_pos hq, h14]
    · rw [if_neg hq] at h14
      simp only [pure, Except.pure, Except.ok.injEq] at h14
      rw [if_neg hq, h14]
  · by_cases hq : O.gpsdir_offset > 0
    · rw [if_pos hq, ofOffset_long] at h15
      simp only [Except.map, Except.ok.injEq] at h15
      rw [if_pos hq, h15]
    · rw [if_neg hq] at h15
      simp only [pure, Except.pure, Except.ok.injEq] at h15
      rw [if_neg hq, h15]

theorem layout_directory_pos {T : TiffTag} {G : GraphicsVector} {L : LayoutState}
    (hL : planLayout T G = Except.ok L) {s : FileSegment} (hs : s ∈ L.TiffFile)
    (hk : s.segmenttype = Segmenttype.TiffDirectory) : 0 < s.m_offset := by
  obtain ⟨a, c, img, tabs, mid, l1, _, _, _, _, l4, ki, kt, _⟩ := planLayout_structure_dirs hL
  rw [l1] at hs
  rcases of_mem_layout hs with hs | hs
  · unfold layoutSegments at hs
    simp only [List.mem_append, List.mem_cons, List.mem_singleton, List.not_mem_nil,
      or_false] at hs
    have notJpeg : ∀ {t : FileSegment}, t.segmenttype.isJpeg = true → s = t → False := by
      intro t ht hst
      rw [hst] at hk
      rw [hk] at ht
      cases ht
    rcases hs with (((((hs | hs) | hs) | (hs | hs)) | hs) | hs) | hs
    · rw [hs] at hk; cases hk
    · rw [hs] at hk; cases hk
    · exact (notJpeg (ki s hs) rfl).elim
    · rw [hs] at hk; cases hk
    · rw [hs] at hk; cases hk
    · exact (notJpeg (kt s hs) rfl).elim
    · rw [hs] at hk; cases hk
    · have := Placed_lower l4 s hs
      omega
  · rw [hs] at hk
    cases hk

theorem mem_of_getLast {α : Type} {l : List α} {a : α} (h : l.getLast? = some a) : a ∈ l := by
  induction l with
  | nil => cases h
  | cons b rest ih =>
    cases rest with
    | nil =>
      simp only [List.getLast?_singleton, Option.some.injEq] at h
      rw [h]
      exact List.mem_singleton.2 rfl
    | cons c rest2 =>
      rw [List.getLast?_cons_cons] at h
      exact List.mem_cons_of_mem _ (ih h)

/-! ### C32: the offsets held by the entries the planner creates -/

/-- C32: for every accepted input with the Exif information `info`, each entry of the Exif
sub-directory, of the GPS sub-directory or of the Exif main directory that its selector
accepts and whose data size exceeds 4 is rewritten into an entry with the same tag, datatype
and count whose value field decodes, as a 32-bit offset, to the offset of a ByteVector segment
of the planned list, and the payload of that segment has as many bytes as the data size; the
rewritten entry is an entry of the directory segment of the planned list at the offset
recorded for its directory (the main directory for the entries of the Exif main directory).
The entries that the section TIFF DIRECTORY appends for the metadata end with the ExifIFD
pointer and the GPSIFD pointer, each of datatype ULong and count 1 and each present exactly
when the sub-directory read from the input has at least one entry; the pointer then holds
the offset, which is not zero, of a TiffDirectory segment of the planned list. -/
theorem C32_offset_entries (T : TiffTag) (G : GraphicsVector) (P : Plan) (info : exif_info)
    (h : ConvertJpegToTiff_plan T G = Except.ok P)
    (hinfo : readExifInfo T G = Except.ok info) :
    (∀ (x : TiffDirEntry × ByteVector) (ds dirOff : Nat),
        ((x ∈ info.exif_dir ∧ relevant_exif_tags T x.1.Tag x.1.GetDataType = true
            ∧ dirOff = P.O.exifdir_offset)
          ∨ (x ∈ info.gps_dir ∧ relevant_gps_tags T x.1.Tag x.1.GetDataType = true
            ∧ dirOff = P.O.gpsdir_offset)
          ∨ (x ∈ info.main_dir
            ∧ relevant_main_directory_tags T x.1.Tag x.1.GetDataType = true
            ∧ dirOff = P.offset)) →
        x.1.GetDataSize = Except.ok ds → toInt32 ds > 4 →
        ∃ (payload : ByteVector) (off : Nat) (e : TiffDirEntry) (dirseg : FileSegment),
          byteVectorAt Endianness.Little off payload ∈ P.TiffFile
          ∧ (byteVectorAt Endianness.Little off payload).m_offset = off
          ∧ (byteVectorAt Endianness.Little off payload).m_size = ds
          ∧ payload.length = ds
          ∧ entryShape e = entryShape x.1
          ∧ e.GetOffsetField = Except.ok (off % 4294967296)
          ∧ dirseg ∈ P.TiffFile
          ∧ dirseg.segmenttype = Segmenttype.TiffDirectory
          ∧ dirseg.m_offset = dirOff
          ∧ e ∈ dirseg.m_entries)
      ∧ (∃ (entries front e13 : List TiffDirEntry),
          P.TiffFile.getLast? = some (mainDirectory P.offset entries)
          ∧ (mainDirectory P.offset entries).m_entries.Perm entries
          ∧ metadataEntries T P.O Endianness.Little
              = Except.ok (e13
                ++ (if info.exif_dir.length > 0 then
                      [offsetEntry T.ExifIFD Datatype.Ulong 1 P.O.exifdir_offset] else [])
                ++ (if info.gps_dir.length > 0 then
                      [offsetEntry T.GPSIFD Datatype.Ulong 1 P.O.gpsdir_offset] else []))
          ∧ entries = front ++ (e13
                ++ (if info.exif_dir.length > 0 then
                      [offsetEntry T.ExifIFD Datatype.Ulong 1 P.O.exifdir_offset] else [])
                ++ (if info.gps_dir.length > 0 then
                      [offsetEntry T.GPSIFD Datatype.Ulong 1 P.O.gpsdir_offset] else [])))
      ∧ (info.exif_dir.length > 0 →
          0 < P.O.exifdir_offset
          ∧ (offsetEntry T.ExifIFD Datatype.Ulong 1 P.O.exifdir_offset).GetOffsetField
              = Except.ok (P.O.exifdir_offset % 4294967296)
          ∧ ∃ dirseg, dirseg ∈ P.TiffFile
              ∧ dirseg.segmenttype = Segmenttype.TiffDirectory
              ∧ dirseg.m_offset = P.O.exifdir_offset)
      ∧ (info.gps_dir.length > 0 →
          0 < P.O.gpsdir_offset
          ∧ (offsetEntry T.GPSIFD Datatype.Ulong 1 P.O.gpsdir_offset).GetOffsetField
              = Except.ok (P.O.gpsdir_offset % 4294967296)
          ∧ ∃ dirseg, dirseg ∈ P.TiffFile
              ∧ dirseg.segmenttype = Segmenttype.TiffDirectory
              ∧ dirseg.m_offset = P.O.gpsdir_offset) := by
  obtain ⟨L, hL, hD⟩ := plan_parts h
  obtain ⟨F0, app2, icc, app1, info1, r6, r7, r8, r9, m1, m2, m3, m4, m5, m6, m7, m8, m9, m10,
    m11, m12, m13⟩ := planLayout_metadata hL
  have hi : info1 = info := by
    have := (readExifInfo_eq m5 m6).symm.trans hinfo
    exact Except.ok.inj this
  subst hi
  obtain ⟨_, _, entries, _, _, x3, x4, x5⟩ := plan_extends hL hD
  have hcap := readExifInfo_captured hinfo
  obtain ⟨s8, hs8⟩ := writeSubDirectory_prefix m8
  obtain ⟨s9, hs9⟩ := writeMainEntries_prefix m9
  have hin9 : ∀ s, s ∈ r9.2.1 → s ∈ L.TiffFile := by
    intro s hs
    rw [m10]
    exact hs
  have hin8 : ∀ s, s ∈ r8.1 → s ∈ L.TiffFile := by
    intro s hs
    rw [m10, hs9]
    exact List.mem_append_left _ hs
  have hin7 : ∀ s, s ∈ r7.1 → s ∈ L.TiffFile := by
    intro s hs
    rw [m10, hs9, hs8]
    exact List.mem_append_left _ (List.mem_append_left _ hs)
  have hplan : ∀ s, s ∈ L.TiffFile → s.segmenttype ≠ Segmenttype.TiffHeader →
      s ∈ P.TiffFile := fun s hs hk => layout_mem_plan hL hD hs hk
  have hoe : P.O.exifdir_offset = r7.2.2 := by rw [x5]; exact m12
  have hog : P.O.gpsdir_offset = r8.2.2 := by rw [x5]; exact m13
  have hexif : info1.exif_dir.length > 0 → ∃ w, Write_Selected_Entries info1.exif_dir r6.1
      info1.endianness Endianness.Little (relevant_exif_tags T) = Except.ok w
      ∧ (∀ s ∈ w.2, s ∈ L.TiffFile)
      ∧ directoryAt Endianness.Little P.O.exifdir_offset w.1 ∈ L.TiffFile := by
    intro hne
    obtain ⟨w, off1, hw, hr, ho⟩ := (writeSubDirectory_inv m7).1 hne
    rw [hoe, ho]
    refine ⟨w, hw, fun s hs => hin7 s ?_, hin7 _ ?_⟩
    · rw [hr]; exact List.mem_append_left _ hs
    · rw [hr]; exact List.mem_append_right _ (mem_block _)
  have hgps : info1.gps_dir.length > 0 → ∃ w, Write_Selected_Entries info1.gps_dir r7.1
      info1.endianness Endianness.Little (relevant_gps_tags T) = Except.ok w
      ∧ (∀ s ∈ w.2, s ∈ L.TiffFile)
      ∧ directoryAt Endianness.Little P.O.gpsdir_offset w.1 ∈ L.TiffFile := by
    intro hne
    obtain ⟨w, off1, hw, hr, ho⟩ := (writeSubDirectory_inv m8).1 hne
    rw [hog, ho]
    refine ⟨w, hw, fun s hs => hin8 s ?_, hin8 _ ?_⟩
    · rw [hr]; exact List.mem_append_left _ hs
    · rw [hr]; exact List.mem_append_right _ (mem_block _)
  have hdirk : ∀ o es, (directoryAt Endianness.Little o es).segmenttype
      ≠ Segmenttype.TiffHeader := by
    intro o es
    rw [(directoryAt_facts _ _ _).1]
    decide
  have hbvk : ∀ o V, (byteVectorAt Endianness.Little o V).segmenttype
      ≠ Segmenttype.TiffHeader := by
    intro o V
    rw [(byteVectorAt_facts _ _ _).1]
    decide
  have hposE : info1.exif_dir.length > 0 → 0 < P.O.exifdir_offset := by
    intro hne
    obtain ⟨w, _, _, hd⟩ := hexif hne
    have := layout_directory_pos hL hd (directoryAt_facts _ _ _).1
    rw [(directoryAt_facts _ _ _).2.1] at this
    exact this
  have hposG : info1.gps_dir.length > 0 → 0 < P.O.gpsdir_offset := by
    intro hne
    obtain ⟨w, _, _, hd⟩ := hgps hne
    have := layout_directory_pos hL hd (directoryAt_facts _ _ _).1
    rw [(directoryAt_facts _ _ _).2.1] at this
    exact this
  have hzeroE : ¬ info1.exif_dir.length > 0 → P.O.exifdir_offset = 0 := by
    intro hne
    rw [hoe, (writeSubDirectory_inv m7).2 hne]
  have hzeroG : ¬ info1.gps_dir.length > 0 → P.O.gpsdir_offset = 0 := by
    intro hne
    rw [hog, (writeSubDirectory_inv m8).2 hne]
  refine ⟨fun x ds dirOff hx hds hbig => ?_, ?_, fun hne => ?_, fun hne => ?_⟩
  · rcases hx with ⟨hx, hsel, hoff⟩ | ⟨hx, hsel, hoff⟩ | ⟨hx, hsel, hoff⟩
    · obtain ⟨w, hw, hsub, hd⟩ := hexif (List.length_pos_of_mem hx)
      obtain ⟨payload, off, e, c1, c2, _, c4, c5, c6⟩ := selected_entry_written hw
        (fun y hy => hcap y (Or.inr (Or.inl hy))) hx hsel hds hbig
      obtain ⟨b1, b2, b3, b4, b5⟩ := byteVectorAt_facts Endianness.Little off payload
      obtain ⟨d1, d2, d3, d4, d5⟩ := directoryAt_facts Endianness.Little P.O.exifdir_offset w.1
      exact ⟨payload, off, e, _, hplan _ (hsub _ c1) (hbvk _ _), b2, by rw [b4, c2], c2, c5, c6,
        hplan _ hd (hdirk _ _), d1, by rw [d2, hoff], by rw [d5]; exact c4⟩
    · obtain ⟨w, hw, hsub, hd⟩ := hgps (List.length_pos_of_mem hx)
      obtain ⟨payload, off, e, c1, c2, _, c4, c5, c6⟩ := selected_entry_written hw
        (fun y hy => hcap y (Or.inr (Or.inr hy))) hx hsel hds hbig
      obtain ⟨b1, b2, b3, b4, b5⟩ := byteVectorAt_facts Endianness.Little off payload
      obtain ⟨d1, d2, d3, d4, d5⟩ := directoryAt_facts Endianness.Little P.O.gpsdir_offset w.1
      exact ⟨payload, off, e, _, hplan _ (hsub _ c1) (hbvk _ _), b2, by rw [b4, c2], c2, c5, c6,
        hplan _ hd (hdirk _ _), d1, by rw [d2, hoff], by rw [d5]; exact c4⟩
    · obtain ⟨w, hw, hr1, hr2⟩ := (writeMainEntries_inv m9).1 (List.length_pos_of_mem hx)
      obtain ⟨payload, off, e, c1, c2, _, c4, c5, c6⟩ := selected_entry_written hw
        (fun y hy => hcap y (Or.inl hy)) hx hsel hds hbig
      obtain ⟨b1, b2, b3, b4, b5⟩ := byteVectorAt_facts Endianness.Little off payload
      obtain ⟨d1, d2, _⟩ := mainDirectory_facts P.offset entries
      refine ⟨payload, off, e, mainDirectory P.offset entries, hplan _ (hin9 _ ?_) (hbvk _ _),
        b2, by rw [b4, c2], c2, c5, c6, mem_of_getLast x3, d1, by rw [d2, hoff], ?_⟩
      · rw [hr2]; exact c1
      · refine mem_mainDirectory_fromExif P.offset x4 e ?_
        rw [m11, hr1]
        exact c4
  · obtain ⟨e3, e12, rest, _, _, q3, q4⟩ := mainDirectoryEntries_ok x4
    obtain ⟨e13, hrest⟩ := metadataEntries_pointers q3
    have hE : (if P.O.exifdir_offset > 0 then
          [offsetEntry T.ExifIFD Datatype.Ulong 1 P.O.exifdir_offset] else [])
        = (if info1.exif_dir.length > 0 then
          [offsetEntry T.ExifIFD Datatype.Ulong 1 P.O.exifdir_offset] else []) := by
      by_cases hne : info1.exif_dir.length > 0
      · rw [if_pos hne, if_pos (hposE hne)]
      · rw [if_neg hne, if_neg (by rw [hzeroE hne]; decide)]
    have hG : (if P.O.gpsdir_offset > 0 then
          [offsetEntry T.GPSIFD Datatype.Ulong 1 P.O.gpsdir_offset] else [])
        = (if info1.gps_dir.length > 0 then
          [offsetEntry T.GPSIFD Datatype.Ulong 1 P.O.gpsdir_offset] else []) := by
      by_cases hne : info1.gps_dir.length > 0
      · rw [if_pos hne, if_pos (hposG hne)]
      · rw [if_neg hne, if_neg (by rw [hzeroG hne]; decide)]
    rw [hE, hG] at hrest
    obtain ⟨front, hfront⟩ : ∃ front, entries = front ++ rest := ⟨_, q4⟩
    refine ⟨entries, front, e13, x3, mainDirectory_perm P.offset entries, ?_, ?_⟩
    · rw [q3, hrest]
    · rw [← hrest]
      exact hfront
  · obtain ⟨w, _, _, hd⟩ := hexif hne
    obtain ⟨d1, d2, _⟩ := directoryAt_facts Endianness.Little P.O.exifdir_offset w.1
    exact ⟨hposE hne, ofOffset_GetOffsetField (ofOffset_long _ _),
      _, hplan _ hd (hdirk _ _), d1, d2⟩
  · obtain ⟨w, _, _, hd⟩ := hgps hne
    obtain ⟨d1, d2, _⟩ := directoryAt_facts Endianness.Little P.O.gpsdir_offset w.1
    exact ⟨hposG hne, ofOffset_GetOffsetField (ofOffset_long _ _),
      _, hplan _ hd (hdirk _ _), d1, d2⟩

/-- Witness of C32 on the input with a little-endian Exif block whose Exif sub-directory holds
ExposureTime with eight bytes of data: the rewritten entry holds the offset of a ByteVector
segment of eight bytes, it is an entry of the directory segment at the offset recorded for
the Exif sub-directory, and the ExifIFD pointer holds that offset. -/
theorem C32_offset_entries_witness :
    (∃ (payload : ByteVector) (off : Nat) (e : TiffDirEntry) (dirseg : FileSegment),
        byteVectorAt Endianness.Little off payload ∈ (planOf stdTags exifIccInput).TiffFile
        ∧ (byteVectorAt Endianness.Little off payload).m_offset = off
        ∧ (byteVectorAt Endianness.Little off payload).m_size = 8
        ∧ payload.length = 8
        ∧ entryShape e
            = entryShape ((exifInfoOf stdTags exifIccInput).exif_dir.getD 0 default).1
        ∧ e.GetOffsetField = Except.ok (off % 4294967296)
        ∧ dirseg ∈ (planOf stdTags exifIccInput).TiffFile
        ∧ dirseg.segmenttype = Segmenttype.TiffDirectory
        ∧ dirseg.m_offset = (planOf stdTags exifIccInput).O.exifdir_offset
        ∧ e ∈ dirseg.m_entries)
      ∧ (0 < (planOf stdTags exifIccInput).O.exifdir_offset
        ∧ (offsetEntry stdTags.ExifIFD Datatype.Ulong 1
              (planOf stdTags exifIccInput).O.exifdir_offset).GetOffsetField
            = Except.ok ((planOf stdTags exifIccInput).O.exifdir_offset % 4294967296)
        ∧ ∃ dirseg, dirseg ∈ (planOf stdTags exifIccInput).TiffFile
            ∧ dirseg.segmenttype = Segmenttype.TiffDirectory
            ∧ dirseg.m_offset = (planOf stdTags exifIccInput).O.exifdir_offset) :=
  ⟨(C32_offset_entries stdTags exifIccInput (planOf stdTags exifIccInput)
      (exifInfoOf stdTags exifIccInput) rfl rfl).1
      ((exifInfoOf stdTags exifIccInput).exif_dir.getD 0 default) 8
      (planOf stdTags exifIccInput).O.exifdir_offset
      (Or.inl ⟨by decide, rfl, rfl⟩) rfl (by decide),
    (C32_offset_entries stdTags exifIccInput (planOf stdTags exifIccInput)
      (exifInfoOf stdTags exifIccInput) rfl rfl).2.2.1 (by decide)⟩

/-! ### The position at which the marker loop is left -/

theorem markerAction_not_eoi {xx : Nat} {seg : Segmenttype}
    (h : markerAction xx = MarkerAction.Unspecified seg) :
    seg ≠ Segmenttype.JpegEndOfImage := by
  have key : ∀ s : Segmenttype, markerAction xx = MarkerAction.Unspecified s
      → s ≠ Segmenttype.JpegEndOfImage := by
    unfold markerAction
    iterate 19
      (apply ite_of_both
         (fun m => ∀ s, m = MarkerAction.Unspecified s → s ≠ Segmenttype.JpegEndOfImage)
       exact fun s hs => by cases hs <;> decide)
    exact fun s hs => by cases hs; decide
  exact key seg h

theorem markerStep_ok_pos {T : TiffTag} {f : ByteVector} {offset endoffset : Nat}
    {comment : String} {G G1 : GraphicsVector} {pos : Nat} {o : Option Nat}
    (h : markerStep T f offset endoffset comment G pos = (G1, Except.ok o)) :
    offset < pos ∧ pos ≤ endoffset := by
  unfold markerStep at h
  cases hg : GetBytes f pos 2 with
  | error err => rw [hg] at h; cases h
  | ok vec =>
    rw [hg] at h
    simp only at h
    by_cases h1 : pos > endoffset
    · rw [if_pos h1] at h; cases h
    · rw [if_neg h1] at h
      by_cases h2 : ¬ pos > offset
      · rw [if_pos h2] at h; cases h
      · omega

/-- An iteration of the marker loop that goes on appends no EOI segment. -/
theorem markerStep_continue_kinds {T : TiffTag} {f : ByteVector} {offset endoffset : Nat}
    {comment : String} {G G1 : GraphicsVector} {pos pos1 : Nat}
    (h : markerStep T f offset endoffset comment G pos = (G1, Except.ok (some pos1))) :
    ∃ L, G1 = G ++ L ∧ ∀ s ∈ L, s.segmenttype ≠ Segmenttype.JpegEndOfImage := by
  unfold markerStep at h
  cases hg : GetBytes f pos 2 with
  | error err => rw [hg] at h; cases h
  | ok vec =>
    rw [hg] at h
    simp only at h
    by_cases h1 : pos > endoffset
    · rw [if_pos h1] at h; cases h
    · rw [if_neg h1] at h
      by_cases h2 : ¬ pos > offset
      · rw [if_pos h2] at h; cases h
      · rw [if_neg h2] at h
        by_cases h3 : vec.getD 0 0 = 0xff
        · rw [if_pos h3] at h
          have single : ∀ {S : FileSegment}, S.segmenttype ≠ Segmenttype.JpegEndOfImage →
              ∀ s ∈ [S], s.segmenttype ≠ Segmenttype.JpegEndOfImage := by
            intro S hS s hs
            rw [List.mem_singleton.1 hs]
            exact hS
          cases ha : markerAction (vec.getD 1 0) with
          | EndOfImage =>
            rw [ha] at h
            simp only at h
            cases hr : ReadJpegEndOfImage T f G pos comment with
            | error err => rw [hr] at h; cases h
            | ok G2 => rw [hr] at h; cases h
          | NestedStartOfImage =>
            rw [ha] at h
            simp only at h
            have hd8 := markerAction_nested ha
            cases hr : ReadJpegStartOfImage T f G offset "NESTED SEGMENT" with
            | error err => rw [hr] at h; cases h
            | ok G2 =>
              rw [hr] at h
              simp only at h
              obtain ⟨S, e1, e2, _⟩ := ReadJpegStartOfImage_inv hr
              rcases afterMarker_cases T f (vec.getD 0 0) (vec.getD 1 0) G2 (positionAfter G2)
                with ⟨err, he⟩ | he | ⟨_, hda, _⟩
              · rw [he] at h; cases h
              · rw [he] at h
                simp only [Prod.mk.injEq, Except.ok.injEq, Option.some.injEq] at h
                exact ⟨[S], by rw [← h.1, e1], single (by rw [e2]; decide)⟩
              · rw [hd8] at hda; cases hda
          | NoSegment =>
            rw [ha] at h
            simp only at h
            have hr := markerAction_noSegment ha
            rcases afterMarker_cases T f (vec.getD 0 0) (vec.getD 1 0) G (pos + 2)
              with ⟨err, he⟩ | he | ⟨_, hda, _⟩
            · rw [he] at h; cases h
            · rw [he] at h
              simp only [Prod.mk.injEq, Except.ok.injEq, Option.some.injEq] at h
              exact ⟨[], by rw [← h.1, List.append_nil], fun s hs => by cases hs⟩
            · rw [hda] at hr; omega
          | Unspecified seg =>
            rw [ha] at h
            simp only at h
            have hseg := markerAction_not_eoi ha
            cases hr : ReadJpegUnspecifiedSegment T f G seg pos with
            | error err => rw [hr] at h; cases h
            | ok G2 =>
              rw [hr] at h
              simp only at h
              obtain ⟨S, e1, e2, _⟩ := ReadJpegUnspecifiedSegment_inv hr
              rcases afterMarker_cases T f (vec.getD 0 0) (vec.getD 1 0) G2 (positionAfter G2)
                with ⟨err, he⟩ | he | ⟨_, _, r, hi, he⟩
              · rw [he] at h; cases h
              · rw [he] at h
                simp only [Prod.mk.injEq, Except.ok.injEq, Option.some.injEq] at h
                exact ⟨[S], by rw [← h.1, e1], single (by rw [e2]; exact hseg)⟩
              · rw [he] at h
                simp only [Prod.mk.injEq, Except.ok.injEq, Option.some.injEq] at h
                obtain ⟨D, i1, i2, _⟩ := ReadJpegImagedata_inv hi
                refine ⟨[S, D], ?_, ?_⟩
                · rw [← h.1, i1, e1, List.append_assoc]
                  rfl
                · intro s hs
                  simp only [List.mem_cons, List.mem_singleton, List.not_mem_nil,
                    or_false] at hs
                  rcases hs with hs | hs
                  · rw [hs, e2]; exact hseg
                  · rw [hs, i2]; decide
        · rw [if_neg h3] at h
          cases h

theorem getLast_cons_of_some {α : Type} {l : List α} {a p : α} (h : l.getLast? = some p) :
    (a :: l).getLast? = some p := by
  cases l with
  | nil => cases h
  | cons b rest => rw [List.getLast?_cons_cons]; exact h

theorem markerPositions_last {T : TiffTag} {f : ByteVector} {offset endoffset : Nat}
    {comment : String} {G G1 : GraphicsVector} {pos : Nat} (n : Nat)
    (h : markerStep T f offset endoffset comment G pos = (G1, Except.ok none)) :
    markerPositions T f offset endoffset comment (n + 1) G pos = [pos] := by
  rw [markerPositions, h]

/-- A return of the marker loop: the loop is left in the iteration that begins at the last of
the positions it visits.  Either that iteration reads the EOI segment there, which is the
last segment appended and the only EOI segment appended, or the byte there is not `FF`, and
then no EOI segment has been appended. -/
theorem markerLoop_return_at {T : TiffTag} {f : ByteVector} {offset endoffset : Nat}
    {comment : String} :
    ∀ (n : Nat) (G G1 : GraphicsVector) (pos : Nat),
      markerLoop T f offset endoffset comment n G pos = some (G1, none) →
      ∃ p L, (markerPositions T f offset endoffset comment n G pos).getLast? = some p
        ∧ offset < p ∧ G1 = G ++ L
        ∧ ((∃ L0 S, L = L0 ++ [S] ∧ S.segmenttype = Segmenttype.JpegEndOfImage
              ∧ S.m_data = [0xff, 0xd9] ∧ S.m_offset = p
              ∧ f.get? p = some 0xff ∧ f.get? (p + 1) = some 0xd9
              ∧ ∀ s ∈ L0, s.segmenttype ≠ Segmenttype.JpegEndOfImage)
          ∨ (∃ b0 b1, f.get? p = some b0 ∧ f.get? (p + 1) = some b1 ∧ b0 ≠ 0xff
              ∧ ∀ s ∈ L, s.segmenttype ≠ Segmenttype.JpegEndOfImage)) := by
  intro n
  induction n with
  | zero => intro G G1 pos h; cases h
  | succ n ih =>
    intro G G1 pos h
    rw [markerLoop] at h
    cases hs : markerStep T f offset endoffset comment G pos with
    | mk G2 res =>
      rw [hs] at h
      cases res with
      | error err => cases h
      | ok o =>
        have hpos := (markerStep_ok_pos hs).1
        cases o with
        | none =>
          simp only [Option.some.injEq, Prod.mk.injEq, and_true] at h
          subst h
          rw [markerPositions_last n hs]
          rcases markerStep_return hs with ⟨S, e1, e2, e3, e4, e5, e6, e7⟩
            | ⟨e1, _, b0, b1, e3, e4, e5⟩
          · exact ⟨pos, [S], rfl, hpos, e1,
              Or.inl ⟨[], S, rfl, e2, e5, e3, e6, e7, fun s hs => by cases hs⟩⟩
          · exact ⟨pos, [], rfl, hpos, by rw [e1, List.append_nil],
              Or.inr ⟨b0, b1, e3, e4, e5, fun s hs => by cases hs⟩⟩
        | some pos1 =>
          simp only at h
          rw [markerPositions_succ n hs]
          obtain ⟨p, L1, k1, k2, k3, k4⟩ := ih G2 G1 pos1 h
          obtain ⟨L, c1, c2⟩ := markerStep_continue_kinds hs
          refine ⟨p, L ++ L1, getLast_cons_of_some k1, k2, by rw [k3, c1, List.append_assoc],
            ?_⟩
          rcases k4 with ⟨L0, S, m1, m2, m3, m4, m5, m6, m7⟩ | ⟨b0, b1, m1, m2, m3, m4⟩
          · refine Or.inl ⟨L ++ L0, S, by rw [m1, List.append_assoc], m2, m3, m4, m5, m6, ?_⟩
            intro s hs
            rcases List.mem_append.1 hs with hs | hs
            · exact c2 s hs
            · exact m7 s hs
          · refine Or.inr ⟨b0, b1, m1, m2, m3, ?_⟩
            intro s hs
            rcases List.mem_append.1 hs with hs | hs
            · exact c2 s hs
            · exact m4 s hs

/-- The positions visited by a call on a section that begins with `FF D8` are those of its
marker loop, begun behind the SOI. -/
theorem sectionPositions_soi (T : TiffTag) (f : ByteVector) (G : GraphicsVector)
    (offset datasize : Nat) (comment : String) (fuel : Nat)
    (s0 : f.get? offset = some 0xff) (s1 : f.get? (offset + 1) = some 0xd8) :
    sectionPositions T f G offset datasize comment fuel
      = markerPositions T f offset (offset + datasize) comment fuel
          (G ++ [(parsedSegment Segmenttype.JpegStartOfImage offset [0xff, 0xd8]).SetLabel
            comment]) (offset + 2) := by
  unfold sectionPositions
  rw [GetBytes_two s0 s1]
  simp only [ReadJpegStartOfImage_ok T f G offset comment s0 s1]
  rw [if_pos ⟨rfl, rfl⟩]

/-! ### C22: how a section is refused and how its parse returns -/

/-- C22, amended: an input that does not hold `FF D8` at the start offset makes
`ReadJpegFileOrEmbeddedSection` fail, for every amount of fuel, with the segment list
unchanged (a read error when fewer than two bytes are there, "JPEG data was expected"
otherwise).  An input that holds `FF D8` there makes it return normally only in the
iteration of the marker loop that begins at the last marker position `p` the loop visits,
which lies behind the start offset: the list returned is the list given, the SOI segment and
the segments `L` appended by the loop, and either the file holds `FF D9` at `p` and the EOI
segment read there is the last segment of `L` and its only EOI segment, or the first of the
two bytes read at `p` is not `FF` and `L` holds no EOI segment. -/
theorem C22_section_failure (T : TiffTag) (f : ByteVector) (G G1 : GraphicsVector)
    (offset datasize : Nat) (comment : String) (fuel : Nat) :
    (¬ (f.get? offset = some 0xff ∧ f.get? (offset + 1) = some 0xd8) →
        ∃ err, ReadJpegFileOrEmbeddedSection T f G offset datasize comment fuel
          = some (G, some err))
      ∧ (f.get? offset = some 0xff ∧ f.get? (offset + 1) = some 0xd8 →
          ReadJpegFileOrEmbeddedSection T f G offset datasize comment fuel = some (G1, none) →
          ∃ p L, (sectionPositions T f G offset datasize comment fuel).getLast? = some p
            ∧ offset < p
            ∧ G1 = G ++ [(parsedSegment Segmenttype.JpegStartOfImage offset
                  [0xff, 0xd8]).SetLabel comment] ++ L
            ∧ ((∃ L0 S, L = L0 ++ [S] ∧ S.segmenttype = Segmenttype.JpegEndOfImage
                  ∧ S.m_data = [0xff, 0xd9] ∧ S.m_offset = p
                  ∧ f.get? p = some 0xff ∧ f.get? (p + 1) = some 0xd9
                  ∧ ∀ s ∈ L0, s.segmenttype ≠ Segmenttype.JpegEndOfImage)
              ∨ (∃ b0 b1, f.get? p = some b0 ∧ f.get? (p + 1) = some b1 ∧ b0 ≠ 0xff
                  ∧ ∀ s ∈ L, s.segmenttype ≠ Segmenttype.JpegEndOfImage))) := by
  refine ⟨fun h => ?_, fun hs h => ?_⟩
  · rcases ReadJpegFileOrEmbeddedSection_not_soi T f G offset datasize comment fuel h with h1 | h1
    · exact ⟨_, h1⟩
    · exact ⟨_, h1⟩
  · rw [ReadJpegFileOrEmbeddedSection_soi T f G offset datasize comment fuel hs.1 hs.2] at h
    rw [sectionPositions_soi T f G offset datasize comment fuel hs.1 hs.2]
    exact markerLoop_return_at fuel _ G1 (offset + 2) h

/-- Witness of C22: the bytes `42 4D` are refused with no segment appended; the parse of
`FF D8 FF D9` returns in the iteration at position 2 with the EOI segment read there, and the
parse of `FF D8 00 00` returns in the iteration at position 2, where the byte is `00`. -/
theorem C22_section_failure_witness :
    (∃ err, ReadJpegFileOrEmbeddedSection stdTags [0x42, 0x4d] [] 0 2 "JPEG file" 1
        = some ([], some err))
      ∧ (∃ p L, (sectionPositions stdTags [0xff, 0xd8, 0xff, 0xd9] [] 0 4 "" 2).getLast?
            = some p
          ∧ 0 < p
          ∧ [(parsedSegment Segmenttype.JpegStartOfImage 0 [0xff, 0xd8]).SetLabel "",
              (parsedSegment Segmenttype.JpegEndOfImage 2 [0xff, 0xd9]).SetLabel ""]
              = [] ++ [(parsedSegment Segmenttype.JpegStartOfImage 0
                  [0xff, 0xd8]).SetLabel ""] ++ L
          ∧ ((∃ L0 S, L = L0 ++ [S] ∧ S.segmenttype = Segmenttype.JpegEndOfImage
                ∧ S.m_data = [0xff, 0xd9] ∧ S.m_offset = p
                ∧ ([0xff, 0xd8, 0xff, 0xd9] : ByteVector).get? p = some 0xff
                ∧ ([0xff, 0xd8, 0xff, 0xd9] : ByteVector).get? (p + 1) = some 0xd9
                ∧ ∀ s ∈ L0, s.segmenttype ≠ Segmenttype.JpegEndOfImage)
            ∨ (∃ b0 b1, ([0xff, 0xd8, 0xff, 0xd9] : ByteVector).get? p = some b0
                ∧ ([0xff, 0xd8, 0xff, 0xd9] : ByteVector).get? (p + 1) = some b1
                ∧ b0 ≠ 0xff
                ∧ ∀ s ∈ L, s.segmenttype ≠ Segmenttype.JpegEndOfImage)))
      ∧ (∃ p L, (sectionPositions stdTags [0xff, 0xd8, 0, 0] [] 0 4 "" 1).getLast? = some p
          ∧ 0 < p
          ∧ [(parsedSegment Segmenttype.JpegStartOfImage 0 [0xff, 0xd8]).SetLabel ""]
              = [] ++ [(parsedSegment Segmenttype.JpegStartOfImage 0
                  [0xff, 0xd8]).SetLabel ""] ++ L
          ∧ ((∃ L0 S, L = L0 ++ [S] ∧ S.segmenttype = Segmenttype.JpegEndOfImage
                ∧ S.m_data = [0xff, 0xd9] ∧ S.m_offset = p
                ∧ ([0xff, 0xd8, 0, 0] : ByteVector).get? p = some 0xff
                ∧ ([0xff, 0xd8, 0, 0] : ByteVector).get? (p + 1) = some 0xd9
                ∧ ∀ s ∈ L0, s.segmenttype ≠ Segmenttype.JpegEndOfImage)
            ∨ (∃ b0 b1, ([0xff, 0xd8, 0, 0] : ByteVector).get? p = some b0
                ∧ ([0xff, 0xd8, 0, 0] : ByteVector).get? (p + 1) = some b1
                ∧ b0 ≠ 0xff
                ∧ ∀ s ∈ L, s.segmenttype ≠ Segmenttype.JpegEndOfImage))) :=
  ⟨(C22_section_failure stdTags [0x42, 0x4d] [] [] 0 2 "JPEG file" 1).1 (by decide),
   (C22_section_failure stdTags [0xff, 0xd8, 0xff, 0xd9] []
      [(parsedSegment Segmenttype.JpegStartOfImage 0 [0xff, 0xd8]).SetLabel "",
       (parsedSegment Segmenttype.JpegEndOfImage 2 [0xff, 0xd9]).SetLabel ""]
      0 4 "" 2).2 ⟨rfl, rfl⟩ rfl,
   (C22_section_failure stdTags [0xff, 0xd8, 0, 0] []
      [(parsedSegment Segmenttype.JpegStartOfImage 0 [0xff, 0xd8]).SetLabel ""]
      0 4 "" 1).2 ⟨rfl, rfl⟩ rfl⟩

end Rewrap
